import Mathlib

/-!
# Instrument simulator driver (`with_crc/src/instrument_driver.cpp`)

A shallow embedding of the frame receiver, the CRC engine, the instrument state
model, the command dispatcher and the telemetry packet builders, followed by
theorems about them.

Conventions of the embedding:

* machine integers are `Nat`; every store into a `uint8_t`, `uint16_t` or
  `uint32_t` object is reduced modulo `2^8`, `2^16` or `2^32` where the C
  expression can leave the range;
* the global arrays `cmd_packets`, `cmd_location_info` and `tlm_packet` are
  functions from the index to the stored value; `cmd_location_info` has
  `K_MAX_CMDS * 2 = 20` entries in the source, and a pass that indexes it at 20
  or above has no defined behaviour in C, so that the embedding describes the
  program on the inputs for which `getDataInTable` holds (every index used is
  below 20); statements about arbitrary input carry that hypothesis;
* `Serial2.write(tlm_packet, pack_size)` appends the `pack_size` transmitted
  bytes to the field `sent`;
* `Serial2.flush()` and `delay()` have no effect on the modelled state;
* `CRC_LOOKUP` is the table as `buildCRC` leaves it.
-/

set_option maxRecDepth 100000

namespace InstrumentDriver

/-! ## Constants (`instrument_driver.h`) -/

def K_MAX_PACKET_SIZE : Nat := 512
def K_MIN_PACKET_SIZE : Nat := 10
def K_MAX_CMD_SIZE : Nat := 246
def K_MIN_CMD_SIZE : Nat := 12
def K_MAX_CMDS : Nat := 10
def K_TIME_SIZE : Nat := 33
def K_MAX_TLM_SIZE : Nat := 8196
def K_INS_DATA_LEN_OFFSET : Nat := 6
def K_INS_TIME_LENGTH_OFFSET : Nat := 14
def K_INS_TIME_OFFSET : Nat := 18
def K_INS_HEADER_OFFSET : Nat := 10
def SYNC : Nat := 0xFEFA30C8
def CRC_SEED : Nat := 0xFFFF
def CRC_SEED_TABLE : Nat := 0x0000
def CRC_POLY : Nat := 0x1021

/-! ## Enums -/

inductive REC_STATE where
  | E_REC_IDLE
  | E_REC_LENGTH
  | E_REC_TIME_START
  | E_REC_TIME
  | E_REC_CMD_START
  | E_REC_CMD
  deriving DecidableEq, Repr

inductive UPDATE_STATE where
  | UPDATE_TIME
  | UPDATE_SEQUENCE
  | RESET_SEQUENCE
  | TOGGLE_HEART
  | TOGGLE_POWER
  deriving DecidableEq, Repr

inductive ALARM_STATE where
  | ITF_LENGTH
  | ITF_CHECKSUM
  | CCSDS_FORMAT
  | CCSDS_APID
  | CCSDS_LENGTH
  deriving DecidableEq, Repr

/-- The numeric values of the enumerators of `ALARM_STATE`. -/
def ALARM_STATE.toNat : ALARM_STATE → Nat
  | .ITF_LENGTH => 0
  | .ITF_CHECKSUM => 1
  | .CCSDS_FORMAT => 2
  | .CCSDS_APID => 3
  | .CCSDS_LENGTH => 4

/-! ## CRC engine -/

/-- One pass of the inner loop of `buildCRC`: shift the 16-bit entry left by
one, subtracting the polynomial when the uppermost bit was on. -/
def buildCRCBit (v : Nat) : Nat :=
  if v &&& 0x8000 ≠ 0 then ((v <<< 1) ^^^ CRC_POLY) % 65536
  else (v <<< 1) % 65536

/-- The value `buildCRC` leaves in `CRC_LOOKUP[i]`: the seed, the byte
appended into the top part, then eight passes of the inner loop. -/
def buildCRCEntry (i : Nat) : Nat :=
  buildCRCBit^[8] (CRC_SEED_TABLE ^^^ ((i <<< 8) &&& 0xFFFF))

/-- The table written by `buildCRC`, entries `0 .. 255`. -/
def buildCRC : List Nat :=
  (List.range 256).map buildCRCEntry

/-- The global `CRC_LOOKUP` after `buildCRC` has run. -/
def CRC_LOOKUP : List Nat := buildCRC

/-- The function `crc(checksum, data)`: one table-driven update. -/
def crc (checksum data : Nat) : Nat :=
  let lookup := ((checksum >>> 8) ^^^ data) &&& 0xFF
  ((checksum <<< 8) ^^^ CRC_LOOKUP.getD lookup 0) % 65536

/-- Folding `crc` over a byte span, as the checksum loops do. -/
def crcFold (seed : Nat) (bytes : List Nat) : Nat :=
  bytes.foldl crc seed

/-! ## Global variables -/

/-- The global variables of `instrument_driver.cpp`, with `sent` recording, in
order, the byte blocks handed to `Serial2.write`. -/
structure State where
  i_heartbeat : Nat
  i_sequence_count : Nat
  i_power : Nat
  i_time : Nat
  i_status_send : Nat
  flag_time_recieved : Nat
  flag_packet_error : Nat
  flag_sync_found : Nat
  flag_end_reached : Nat
  state : REC_STATE
  next_state : REC_STATE
  g_read_count : Nat
  g_idle_count : Nat
  g_command_num : Nat
  g_cmd_read_count : Nat
  g_cmd_read_total : Nat
  status_send_counter : Nat
  new_byte : Nat
  g_four_bytes : Nat
  g_two_bytes : Nat
  g_data_len : Nat
  crc_total : Nat
  g_time_next : Nat
  g_cmd_length : Nat
  cmd_packets : Nat → Nat
  cmd_location_info : Nat → Nat
  tlm_packet : Nat → Nat
  sent : List (List Nat)

/-- The initialisers of the global variables (arrays are zero-initialised). -/
def startup : State where
  i_heartbeat := 0x80
  i_sequence_count := 0
  i_power := 0x00
  i_time := 0
  i_status_send := 1
  flag_time_recieved := 0
  flag_packet_error := 0
  flag_sync_found := 0
  flag_end_reached := 0
  state := .E_REC_IDLE
  next_state := .E_REC_IDLE
  g_read_count := 0
  g_idle_count := 0
  g_command_num := 0
  g_cmd_read_count := 0
  g_cmd_read_total := 0
  status_send_counter := 0
  new_byte := 0x00
  g_four_bytes := 0x00000000
  g_two_bytes := 0x0000
  g_data_len := 0
  crc_total := CRC_SEED
  g_time_next := 0
  g_cmd_length := 0
  cmd_packets := fun _ => 0
  cmd_location_info := fun _ => 0
  tlm_packet := fun _ => 0
  sent := []

/-- Store into a `uint8_t` array element. -/
def setByte (a : Nat → Nat) (i v : Nat) : Nat → Nat :=
  fun j => if j = i then v % 256 else a j

/-- Store into a `uint16_t` array element. -/
def setWord (a : Nat → Nat) (i v : Nat) : Nat → Nat :=
  fun j => if j = i then v % 65536 else a j

/-! ## `reset` -/

/-- The function `reset()`. The `memset` over `cmd_location_info` is given a
count of 20 bytes, which covers the first 10 of its 16-bit entries. -/
def reset (s : State) : State :=
  { s with
    state := .E_REC_IDLE
    next_state := .E_REC_IDLE
    flag_sync_found := 0
    g_read_count := 0
    g_command_num := 0
    g_cmd_read_count := 0
    g_cmd_read_total := 0
    g_data_len := 0
    flag_end_reached := 0
    crc_total := CRC_SEED
    cmd_packets := fun i => if i < K_MAX_CMD_SIZE * 10 then 0 else s.cmd_packets i
    cmd_location_info := fun i => if i < 20 / 2 then 0 else s.cmd_location_info i }

/-! ## Instrument state model and telemetry builders -/

/-- The case `UPDATE_SEQUENCE` of `instrumentUpdate`. -/
def updateSequence (s : State) : State :=
  { s with i_sequence_count := ((s.i_sequence_count + 1) % 65536) &&& 0x3FFF }

/-- The case `TOGGLE_HEART` of `instrumentUpdate`. -/
def toggleHeart (s : State) : State :=
  { s with i_heartbeat := (s.i_heartbeat ^^^ 0x80) % 256 }

/-- The function `sendData(pack_size)`: write the first `pack_size` bytes of
`tlm_packet`, then toggle the heartbeat. -/
def sendData (s : State) (pack_size : Nat) : State :=
  toggleHeart { s with sent := s.sent ++ [(List.range pack_size).map s.tlm_packet] }

/-- The checksum loop shared by the builders:
`for (i = 4; i < pack_size-2; i++) temp_check = crc(temp_check, tlm_packet[i])`
starting from `CRC_SEED`. -/
def checksumLoop (t : Nat → Nat) (pack_size : Nat) : Nat :=
  crcFold CRC_SEED ((List.range' 4 (pack_size - 2 - 4)).map t)

/-- The function `status()`. -/
def status (s : State) : State :=
  let s := updateSequence s
  let pack_size := 140
  let t : Nat → Nat := fun _ => 0
  let t := setByte t 0 0xFE
  let t := setByte t 1 0xFA
  let t := setByte t 2 0x30
  let t := setByte t 3 0xC8
  let e_data_len := pack_size - K_INS_DATA_LEN_OFFSET
  let t := setByte t 4 (s.i_heartbeat ||| s.i_power ||| ((e_data_len >>> 8) &&& 0xFF))
  let t := setByte t 5 (e_data_len &&& 0xFF)
  let s_apid := 0x305
  let t := setByte t 6 (0x08 ||| ((s_apid >>> 8) &&& 0x07))
  let t := setByte t 7 (s_apid &&& 0xFF)
  let t := setByte t 8 (0xC0 ||| ((s.i_sequence_count >>> 8) &&& 0xFF))
  let t := setByte t 9 (s.i_sequence_count &&& 0xFF)
  let e_data_len := 123
  let t := setByte t 10 ((e_data_len >>> 8) &&& 0xFF)
  let t := setByte t 11 (e_data_len &&& 0xFF)
  let t := setByte t 12 ((s.i_time >>> 24) &&& 0xFF)
  let t := setByte t 13 ((s.i_time >>> 16) &&& 0xFF)
  let t := setByte t 14 ((s.i_time >>> 8) &&& 0xFF)
  let t := setByte t 15 (s.i_time &&& 0xFF)
  let temp_check := checksumLoop t pack_size
  let t := setByte t 138 ((temp_check >>> 8) &&& 0xFF)
  let t := setByte t 139 temp_check
  sendData { s with tlm_packet := t } pack_size

/-- The function `instrumentUpdate(update_arg)`. -/
def instrumentUpdate (update_arg : UPDATE_STATE) (s : State) : State :=
  match update_arg with
  | .UPDATE_TIME =>
    let s : State :=
      if s.flag_time_recieved = 1 then
        { s with i_time := s.g_time_next, flag_time_recieved := 0 }
      else
        { s with i_time := (s.i_time + 1) % 4294967296 }
    let s := { s with status_send_counter := (s.status_send_counter + 1) % 65536 }
    if s.status_send_counter = s.i_status_send ∧ s.i_status_send ≠ 0 then
      { (status s) with status_send_counter := 0 }
    else s
  | .UPDATE_SEQUENCE => updateSequence s
  | .RESET_SEQUENCE => { s with i_sequence_count := 0 }
  | .TOGGLE_HEART => toggleHeart s
  | .TOGGLE_POWER => { s with i_power := (s.i_power ^^^ 0x40) % 256 }

/-- The argument loop of `echo`:
`for (i = 1; i <= arg_count; i++) tlm_packet[17 + i] = cmd_packets[head + 1 + i]`. -/
def echoArgs (cmd : Nat → Nat) (cmd_location_head : Nat) (t : Nat → Nat) (arg_count : Nat) :
    Nat → Nat :=
  (List.range arg_count).foldl
    (fun t k => setByte t (17 + (k + 1)) (cmd (cmd_location_head + 1 + (k + 1)))) t

/-- The function `echo(arg_count, cmd_location_head, command_result)`. -/
def echo (s : State) (arg_count cmd_location_head command_result : Nat) : State :=
  let s := updateSequence s
  let arg_count := if arg_count > 10 then 10 else arg_count
  let pack_size := arg_count + 20
  let pack_size := if pack_size % 2 = 1 then pack_size + 1 else pack_size
  let t : Nat → Nat := fun _ => 0
  let t := setByte t 0 0xFE
  let t := setByte t 1 0xFA
  let t := setByte t 2 0x30
  let t := setByte t 3 0xC8
  let e_data_len := pack_size - K_INS_DATA_LEN_OFFSET
  let t := setByte t 4 (s.i_heartbeat ||| s.i_power ||| ((e_data_len >>> 8) &&& 0xFF))
  let t := setByte t 5 (e_data_len &&& 0xFF)
  let e_apid := 0x301
  let t := setByte t 6 (0x08 ||| ((e_apid >>> 8) &&& 0x07))
  let t := setByte t 7 (e_apid &&& 0xFF)
  let t := setByte t 8 (0xC0 ||| ((s.i_sequence_count >>> 8) &&& 0xFF))
  let t := setByte t 9 (s.i_sequence_count &&& 0xFF)
  let e_data_len := pack_size - 12
  let t := setByte t 10 ((e_data_len >>> 8) &&& 0xFF)
  let t := setByte t 11 (e_data_len &&& 0xFF)
  let t := setByte t 12 ((s.i_time >>> 24) &&& 0xFF)
  let t := setByte t 13 ((s.i_time >>> 16) &&& 0xFF)
  let t := setByte t 14 ((s.i_time >>> 8) &&& 0xFF)
  let t := setByte t 15 (s.i_time &&& 0xFF)
  let t := setByte t 16
    (((s.cmd_packets (cmd_location_head + 1) &&& 0x01) <<< 7) ||| (command_result &&& 0x7F))
  let t := setByte t 17 (s.cmd_packets cmd_location_head)
  let t := echoArgs s.cmd_packets cmd_location_head t arg_count
  let temp_check := checksumLoop t pack_size
  let t := setByte t (18 + arg_count) ((temp_check >>> 8) &&& 0xFF)
  let t := setByte t (19 + arg_count) temp_check
  sendData { s with tlm_packet := t } pack_size

/-- The value byte written by the `switch` of `alarm`. -/
def alarmValue : ALARM_STATE → Nat
  | .ITF_LENGTH => 0x01
  | .ITF_CHECKSUM => 0x02
  | .CCSDS_FORMAT => 0x03
  | .CCSDS_APID => 0x04
  | .CCSDS_LENGTH => 0x05

/-- The function `alarm(alarm_type)`. -/
def alarm (alarm_type : ALARM_STATE) (s : State) : State :=
  let s := updateSequence s
  let pack_size := 22
  let t : Nat → Nat := fun _ => 0
  let t := setByte t 0 0xFE
  let t := setByte t 1 0xFA
  let t := setByte t 2 0x30
  let t := setByte t 3 0xC8
  let a_data_len := pack_size - K_INS_DATA_LEN_OFFSET
  let t := setByte t 4 (s.i_heartbeat ||| s.i_power ||| ((a_data_len >>> 8) &&& 0xFF))
  let t := setByte t 5 (a_data_len &&& 0xFF)
  let a_apid := 0x302
  let t := setByte t 6 (0x08 ||| ((a_apid >>> 8) &&& 0x07))
  let t := setByte t 7 (a_apid &&& 0xFF)
  let t := setByte t 8 (0xC0 ||| ((s.i_sequence_count >>> 8) &&& 0xFF))
  let t := setByte t 9 (s.i_sequence_count &&& 0xFF)
  let a_data_len := 7
  let t := setByte t 10 ((a_data_len >>> 8) &&& 0xFF)
  let t := setByte t 11 (a_data_len &&& 0xFF)
  let t := setByte t 12 ((s.i_time >>> 24) &&& 0xFF)
  let t := setByte t 13 ((s.i_time >>> 16) &&& 0xFF)
  let t := setByte t 14 ((s.i_time >>> 8) &&& 0xFF)
  let t := setByte t 15 (s.i_time &&& 0xFF)
  let t := setByte t 16 0x01
  let t := setByte t 17 0x01
  let t := setByte t 18 (alarmValue alarm_type)
  let t := setByte t 19 0x00
  let temp_check := checksumLoop t pack_size
  let t := setByte t 20 ((temp_check >>> 8) &&& 0xFF)
  let t := setByte t 21 temp_check
  sendData { s with tlm_packet := t } pack_size

/-! ## Command dispatcher -/

/-- The loop of `processCommands`, from index `i`:
`for (; i < g_command_num-1; i += 2) echo(cmd_location_info[i+1], cmd_location_info[i], 0)`.
The comparison is made in `int`, so it reads `i + 1 < g_command_num`. The first
argument bounds the number of iterations. The loop reads the table at `i` and
`i + 1`; these are inside its 20 entries for every `i` it reaches when
`g_command_num` is at most 21 (`processCommandsInTable`). -/
def processCommandsLoop : Nat → Nat → State → State
  | 0, _, s => s
  | n + 1, i, s =>
    if i + 1 < s.g_command_num then
      let command_result := 0x00
      processCommandsLoop n (i + 2)
        (echo s (s.cmd_location_info (i + 1)) (s.cmd_location_info i) command_result)
    else s

/-- The function `processCommands()`. -/
def processCommands (s : State) : State :=
  processCommandsLoop s.g_command_num 0 s

/-! ## Frame receiver -/

/-- The head of the loop body of `getData`: store the value read into the
`uint8_t` object `new_byte`, shift it into the 4-byte and 2-byte windows, and,
once synchronised, count the read, fold the byte into the running CRC and apply
the overflow protection. -/
def readByte (s : State) (b : Nat) : State :=
  let s := { s with new_byte := b % 256 }
  let s := { s with g_four_bytes := ((s.g_four_bytes <<< 8) % 4294967296) &&& 0xFFFFFF00 }
  let s := { s with g_four_bytes := s.g_four_bytes ||| s.new_byte }
  let s := { s with g_two_bytes := s.g_four_bytes &&& 0xFFFF }
  if s.flag_sync_found = 1 then
    let s := { s with g_read_count := (s.g_read_count + 1) % 65536 }
    let s := { s with crc_total := crc s.crc_total s.new_byte }
    if s.g_read_count > K_MAX_PACKET_SIZE then
      reset (alarm .ITF_LENGTH { s with flag_time_recieved := 0 })
    else s
  else s

/-- The end-of-frame flag:
`if ((g_read_count == g_data_len) && (g_read_count >= K_INS_DATA_LEN_OFFSET))`. -/
def flagEnd (s : State) : State :=
  if s.g_read_count = s.g_data_len ∧ s.g_read_count ≥ K_INS_DATA_LEN_OFFSET then
    { s with flag_end_reached := 1 }
  else s

/-- The case `E_REC_IDLE` of the switch. -/
def caseIdle (s : State) : State :=
  if s.g_four_bytes = SYNC then
    let s := { s with flag_sync_found := 1, next_state := .E_REC_LENGTH }
    let s := { s with g_read_count := 4 }
    instrumentUpdate .UPDATE_TIME s
  else s

/-- The case `E_REC_LENGTH` of the switch. `g_two_bytes & ~0xE000` keeps the
low 13 bits. -/
def caseLength (s : State) : State :=
  if s.g_read_count = K_INS_DATA_LEN_OFFSET then
    let s := { s with g_data_len := s.g_two_bytes &&& 0x1FFF }
    let s := { s with g_data_len := (s.g_data_len + K_INS_DATA_LEN_OFFSET) % 65536 }
    let s := if 0 ≠ (s.g_two_bytes &&& 0xE000) then reset (alarm .CCSDS_FORMAT s) else s
    if s.g_data_len < K_MAX_PACKET_SIZE ∧ s.g_data_len > K_MIN_PACKET_SIZE then
      { s with next_state := .E_REC_TIME_START }
    else
      reset (alarm .ITF_LENGTH { s with flag_time_recieved := 0 })
  else s

/-- The case `E_REC_TIME_START` of the switch. -/
def caseTimeStart (s : State) : State :=
  if s.g_read_count = K_INS_HEADER_OFFSET then
    if s.g_two_bytes = 0x1900 then
      { s with next_state := .E_REC_TIME }
    else
      let s := { s with flag_time_recieved := 0 }
      if s.g_two_bytes = 0x1B00 then
        { s with
          next_state := .E_REC_CMD
          g_command_num := (s.g_command_num + 1) % 256
          g_cmd_length := 0
          g_cmd_read_count := 0
          g_idle_count := 0 }
      else
        let s : State :=
          if (s.g_two_bytes &&& 0x7FF) = 0x100 ∨ (s.g_two_bytes &&& 0x7FF) = 0x300 then
            alarm .CCSDS_FORMAT s
          else
            alarm .CCSDS_APID s
        { s with next_state := .E_REC_CMD_START }
  else s

/-- The case `E_REC_TIME` of the switch. -/
def caseTime (s : State) : State :=
  let s : State :=
    if s.g_read_count = K_INS_TIME_LENGTH_OFFSET ∧ s.g_two_bytes ≠ K_TIME_SIZE then
      { (alarm .CCSDS_LENGTH s) with next_state := .E_REC_CMD_START }
    else s
  let s : State :=
    if s.g_read_count = K_INS_TIME_OFFSET then
      { s with flag_time_recieved := 1, g_time_next := s.g_four_bytes }
    else s
  let s : State :=
    if s.g_read_count < K_INS_TIME_OFFSET + 30 ∧ s.g_read_count > K_INS_TIME_OFFSET + 2
        ∧ s.g_two_bytes ≠ 0x00 then
      { s with flag_packet_error := 1 }
    else s
  if s.g_read_count = K_INS_TIME_OFFSET + 30 then
    let s : State :=
      if s.flag_packet_error = 1 then
        { (alarm .CCSDS_FORMAT s) with flag_time_recieved := 0, flag_packet_error := 0 }
      else s
    { s with next_state := .E_REC_CMD_START }
  else s

/-- The case `E_REC_CMD_START` of the switch. `g_read_count <= g_data_len-2`
is evaluated in `int`, so it reads `g_read_count + 2 <= g_data_len`. The header
branch stores into `cmd_location_info[g_command_num]`, which is inside the 20
entries of the table when `g_command_num` is below 20 (`caseCmdStartInTable`). -/
def caseCmdStart (s : State) : State :=
  let s := { s with g_idle_count := (s.g_idle_count + 1) % 256 }
  let s : State :=
    if s.g_two_bytes = 0x1B00 then
      let s := { s with next_state := .E_REC_CMD }
      let s := { s with cmd_location_info := setWord s.cmd_location_info s.g_command_num s.g_cmd_read_total }
      { s with
        g_command_num := (s.g_command_num + 1) % 256
        g_cmd_length := 0
        g_cmd_read_count := 0
        g_idle_count := 0 }
    else s
  if s.g_idle_count > 2 then
    let s : State :=
      if s.g_read_count + 2 ≤ s.g_data_len then
        if (s.g_two_bytes &&& 0x7FF) = 0x300 then
          alarm .CCSDS_FORMAT s
        else
          alarm .CCSDS_APID s
      else s
    { s with g_idle_count := 0 }
  else s

/-- The case `E_REC_CMD` of the switch. A subtraction of `k` on a `uint16_t`
(`uint8_t`) object wraps, and is written as the addition of `65536 - k`
(`256 - k`) modulo `65536` (`256`): `x - 3` is `x + 65533`, `x -= 6` is
`x + 65530`, `x--` is `x + 65535` (`x + 255`). The index `g_command_num-1` and
the index `g_cmd_read_total - K_INS_HEADER_OFFSET - 1` are written with
truncated subtraction (they are negative in C only for `g_command_num = 0`,
respectively `g_cmd_read_total < 11`). The stores into `cmd_location_info` use
the indices `g_command_num` and `g_command_num-1`; they are inside the 20
entries of the table under `caseCmdInTable`. -/
def caseCmd (s : State) : State :=
  let s := { s with g_cmd_read_total := (s.g_cmd_read_total + 1) % 65536 }
  let s := { s with g_cmd_read_count := (s.g_cmd_read_count + 1) % 65536 }
  let s : State :=
    if s.g_cmd_read_count = K_INS_DATA_LEN_OFFSET then
      let s := { s with g_cmd_length := (s.g_two_bytes + K_INS_HEADER_OFFSET + 1) % 65536 }
      let s := { s with cmd_location_info := setWord s.cmd_location_info s.g_command_num (s.g_two_bytes + 65533) }
      if s.g_cmd_length < K_MIN_CMD_SIZE ∨ s.g_cmd_length > K_MAX_CMD_SIZE + 10 then
        let s := alarm .CCSDS_LENGTH s
        let s := { s with next_state := .E_REC_CMD_START }
        let s := { s with cmd_location_info := setWord s.cmd_location_info s.g_command_num 0x00 }
        let s := { s with cmd_location_info := setWord s.cmd_location_info (s.g_command_num - 1) 0x00 }
        let s := { s with g_cmd_read_total := (s.g_cmd_read_total + 65530) % 65536 }
        let s := { s with g_cmd_read_count := (s.g_cmd_read_count + 65530) % 65536 }
        { s with g_command_num := (s.g_command_num + 255) % 256 }
      else s
    else s
  let s : State :=
    if s.g_cmd_read_count > K_INS_HEADER_OFFSET then
      if s.g_cmd_read_total > K_MAX_CMD_SIZE * K_MAX_CMDS then
        reset (alarm .ITF_LENGTH { s with flag_time_recieved := 0 })
      else
        if s.new_byte = 0x00 ∧ s.g_cmd_read_count = s.g_cmd_length + 1 then
          let n := s.cmd_location_info s.g_command_num
          let s := { s with cmd_location_info := setWord s.cmd_location_info s.g_command_num (n + 65535) }
          { s with g_cmd_read_total := (s.g_cmd_read_total + 65535) % 65536 }
        else
          { s with cmd_packets := setByte s.cmd_packets (s.g_cmd_read_total - K_INS_HEADER_OFFSET - 1) s.new_byte }
    else s
  if s.g_cmd_read_count = s.g_cmd_length + K_INS_DATA_LEN_OFFSET + 1 then
    { s with next_state := .E_REC_CMD_START, g_command_num := (s.g_command_num + 1) % 256 }
  else s

/-- The `switch (state)` of `getData`. -/
def switchState (s : State) : State :=
  match s.state with
  | .E_REC_IDLE => caseIdle s
  | .E_REC_LENGTH => caseLength s
  | .E_REC_TIME_START => caseTimeStart s
  | .E_REC_TIME => caseTime s
  | .E_REC_CMD_START => caseCmdStart s
  | .E_REC_CMD => caseCmd s

/-- The end-of-frame check at the bottom of the loop body. -/
def endOfFrame (s : State) : State :=
  if s.flag_end_reached = 1 then
    let s := { s with flag_end_reached := 0 }
    let s : State :=
      if s.crc_total = 0x0000 then
        processCommands s
      else
        alarm .ITF_CHECKSUM { s with flag_time_recieved := 0 }
    reset s
  else s

/-- One pass of the `while` loop of `getData` on the byte `b` read from the
serial port. -/
def getDataStep (s : State) (b : Nat) : State :=
  let s := readByte s b
  let s := flagEnd s
  let s := switchState s
  let s := endOfFrame s
  { s with state := s.next_state }

/-- The function `getData()` with the bytes `input` available on the serial
port: `reset()`, then one pass of the loop per byte. -/
def getData (s : State) (input : List Nat) : State :=
  input.foldl getDataStep (reset s)

/-! ## The bounds of `cmd_location_info`

The table is declared `uint16_t cmd_location_info[K_MAX_CMDS * 2]`. The
predicates below follow the statements of `getData` and `processCommands` that
index it, and tell whether every index used in a pass is inside the table. -/

/-- The case `E_REC_CMD_START`, for the state at the switch: the header branch
executes `cmd_location_info[g_command_num] = g_cmd_read_total`. -/
def caseCmdStartInTable (s : State) : Bool :=
  if s.g_two_bytes = 0x1B00 then decide (s.g_command_num < K_MAX_CMDS * 2) else true

/-- The case `E_REC_CMD`, for the state at the switch. At command byte count 6
it executes `cmd_location_info[g_command_num] = g_two_bytes - 3` and, when the
length is rejected, also clears the entries `g_command_num` and
`g_command_num-1`; past byte count 10, below the overflow limit, the padding
branch executes `cmd_location_info[g_command_num]--`. The two cannot happen in
the same pass (the count is 6, or 0 after a rejected length). -/
def caseCmdInTable (s : State) : Bool :=
  let s := { s with g_cmd_read_total := (s.g_cmd_read_total + 1) % 65536 }
  let s := { s with g_cmd_read_count := (s.g_cmd_read_count + 1) % 65536 }
  if s.g_cmd_read_count = K_INS_DATA_LEN_OFFSET then
    let s := { s with g_cmd_length := (s.g_two_bytes + K_INS_HEADER_OFFSET + 1) % 65536 }
    if s.g_cmd_length < K_MIN_CMD_SIZE ∨ s.g_cmd_length > K_MAX_CMD_SIZE + 10 then
      decide (1 ≤ s.g_command_num ∧ s.g_command_num < K_MAX_CMDS * 2)
    else
      decide (s.g_command_num < K_MAX_CMDS * 2)
  else if s.g_cmd_read_count > K_INS_HEADER_OFFSET
      ∧ ¬ s.g_cmd_read_total > K_MAX_CMD_SIZE * K_MAX_CMDS
      ∧ s.new_byte = 0x00 ∧ s.g_cmd_read_count = s.g_cmd_length + 1 then
    decide (s.g_command_num < K_MAX_CMDS * 2)
  else true

/-- The loop of `processCommands` reads `cmd_location_info[i]` and
`cmd_location_info[i+1]` for `i = 0, 2, 4, ...` while `i + 1 < g_command_num`,
that is for `i = 2 * j` with `j < g_command_num / 2`. -/
def processCommandsInTable (s : State) : Bool :=
  (List.range (s.g_command_num / 2)).all (fun j => decide (2 * j + 1 < K_MAX_CMDS * 2))

/-- One pass of the loop of `getData` on the byte `b` indexes
`cmd_location_info` inside its 20 entries only: in the case of the switch that
is taken, and in `processCommands` when the end-of-frame check calls it. -/
def stepInTable (s : State) (b : Nat) : Bool :=
  let s := flagEnd (readByte s b)
  (match s.state with
    | .E_REC_CMD_START => caseCmdStartInTable s
    | .E_REC_CMD => caseCmdInTable s
    | _ => true) &&
  (if (switchState s).flag_end_reached = 1 ∧ (switchState s).crc_total = 0x0000 then
    processCommandsInTable (switchState s)
  else true)

/-- Every pass of the loop over `input`, from the state `s`, indexes
`cmd_location_info` inside its 20 entries only. -/
def runInTable (s : State) : List Nat → Bool
  | [] => true
  | b :: bs => stepInTable s b && runInTable (getDataStep s b) bs

/-- The call `getData()` with the bytes `input` available indexes
`cmd_location_info` inside its 20 entries only (the `memset` of `reset()`
covers 20 bytes of its 40). -/
def getDataInTable (s : State) (input : List Nat) : Bool :=
  runInTable (reset s) input

/-! ## Reading the transmitted packets -/

/-- Bytes 6-7 of a transmitted packet, big-endian. -/
def packetId (p : List Nat) : Nat :=
  p.getD 6 0 * 256 + p.getD 7 0

/-- The packet carries the status APID `0x305`. -/
def isStatus (p : List Nat) : Bool := packetId p % 2048 = 0x305

/-- The packet carries the echo APID `0x301`. -/
def isEcho (p : List Nat) : Bool := packetId p % 2048 = 0x301

/-- The packet carries the alarm APID `0x302`. -/
def isAlarm (p : List Nat) : Bool := packetId p % 2048 = 0x302

/-- The status packets among the transmitted ones. -/
def statusPackets (s : State) : List (List Nat) := s.sent.filter isStatus

/-- The echo packets among the transmitted ones. -/
def echoPackets (s : State) : List (List Nat) := s.sent.filter isEcho

/-- The alarm packets among the transmitted ones. -/
def alarmPackets (s : State) : List (List Nat) := s.sent.filter isAlarm

/-- The value bytes (byte 18) of the transmitted alarm packets, in order. -/
def alarmValues (s : State) : List Nat := (alarmPackets s).map (fun p => p.getD 18 0)

/-- The packet handed to the transport last. -/
def lastPacket (s : State) : List Nat := s.sent.getLastD []

/-! ## Derived notions used in the statements -/

/-- The number of bytes `echo` transmits for `arg_count`: the clamped argument
count plus 20, made even (the value of `pack_size` at the call of `sendData`). -/
def echoSize (arg_count : Nat) : Nat :=
  let arg_count := if arg_count > 10 then 10 else arg_count
  let pack_size := arg_count + 20
  if pack_size % 2 = 1 then pack_size + 1 else pack_size

/-- The 16 header bytes the three builders write, for the transmitted size,
the APID and the value stored in bytes 10-11. -/
def packetHeader (s : State) (pack_size apid len : Nat) : List Nat :=
  [0xFE % 256, 0xFA % 256, 0x30 % 256, 0xC8 % 256,
   (s.i_heartbeat ||| s.i_power ||| (((pack_size - K_INS_DATA_LEN_OFFSET) >>> 8) &&& 0xFF)) % 256,
   ((pack_size - K_INS_DATA_LEN_OFFSET) &&& 0xFF) % 256,
   (0x08 ||| ((apid >>> 8) &&& 0x07)) % 256,
   (apid &&& 0xFF) % 256,
   (0xC0 ||| ((s.i_sequence_count >>> 8) &&& 0xFF)) % 256,
   (s.i_sequence_count &&& 0xFF) % 256,
   ((len >>> 8) &&& 0xFF) % 256,
   (len &&& 0xFF) % 256,
   ((s.i_time >>> 24) &&& 0xFF) % 256,
   ((s.i_time >>> 16) &&& 0xFF) % 256,
   ((s.i_time >>> 8) &&& 0xFF) % 256,
   (s.i_time &&& 0xFF) % 256]

/-- Big-endian value of bytes `i` and `i + 1` of a packet. -/
def be16 (p : List Nat) (i : Nat) : Nat :=
  p.getD i 0 * 256 + p.getD (i + 1) 0

/-- Big-endian value of bytes `i .. i + 3` of a packet. -/
def be32 (p : List Nat) (i : Nat) : Nat :=
  p.getD i 0 * 16777216 + p.getD (i + 1) 0 * 65536 + p.getD (i + 2) 0 * 256 + p.getD (i + 3) 0

/-- The frame of the concrete scenario: `FE FA 30 C8 00 1A 1B 00 00 02 AB CD`,
zero bytes up to the declared length, and the CRC trailer `AD 10`. -/
def scenarioFrame : List Nat :=
  [0xFE, 0xFA, 0x30, 0xC8, 0x00, 0x1A, 0x1B, 0x00, 0x00, 0x02, 0xAB, 0xCD,
   0, 0, 0, 0, 0, 0, 0, 0, 0, 0, 0, 0, 0, 0, 0, 0, 0, 0, 0xAD, 0x10]

/-- A frame that stops right after a length field with its top 3 bits set. -/
def badFormatFrame : List Nat := [0xFE, 0xFA, 0x30, 0xC8, 0xE0, 0x1A]

/-- A frame with one command sub-packet in the layout the receiver parses
(header `1B 00` in bytes 9-10, length field `00 04` six bytes later, opcode
`AB`, macro byte `01`, one argument `CD`), closed by its CRC trailer `D9 83`. -/
def oddEchoFrame : List Nat :=
  [0xFE, 0xFA, 0x30, 0xC8, 0x00, 0x1C, 0x00, 0x00, 0x1B, 0x00, 0, 0, 0, 0, 0x00, 0x04,
   0, 0, 0, 0, 0xAB, 0x01, 0xCD, 1, 2, 3, 4, 5, 6, 7, 8, 9, 0xD9, 0x83]

/-- The state after the head of the loop body, for a byte read while the
receiver is synchronised and below the overflow limit: the byte is shifted
into the windows, counted and folded into the running CRC. -/
def nextByte (s : State) (b : Nat) : State :=
  { s with
    new_byte := b
    g_four_bytes := (s.g_four_bytes % 16777216) * 256 + b
    g_two_bytes := (s.g_four_bytes % 256) * 256 + b
    g_read_count := s.g_read_count + 1
    crc_total := crc s.crc_total b }

/-- The last statement of the loop body: `state = next_state`. -/
def advance (s : State) : State :=
  { s with state := s.next_state }

/-- Running the loop body over a list of bytes. -/
def run (s : State) (input : List Nat) : State :=
  input.foldl getDataStep s

/-- The head of the loop body applied to several bytes in turn. -/
def nextBytes (s : State) (bs : List Nat) : State :=
  bs.foldl nextByte s

/-- The receiver is synchronised, has not flagged the end of the frame, and
the frame of total length `g_data_len` (at most 511) has at least `n` more
bytes to come before its last one. -/
structure Locked (s : State) (n : Nat) : Prop where
  sync : s.flag_sync_found = 1
  noend : s.flag_end_reached = 0
  lt : s.g_read_count + n < s.g_data_len
  le : s.g_data_len ≤ 511

/-- One call of a telemetry builder. -/
inductive Build where
  | status
  | echo (arg_count head result : Nat)
  | alarm (alarm_type : ALARM_STATE)

/-- The effect of one builder call. -/
def Build.apply : Build → State → State
  | .status, s => InstrumentDriver.status s
  | .echo a h r, s => InstrumentDriver.echo s a h r
  | .alarm k, s => InstrumentDriver.alarm k s

/-- Consecutive builder calls. -/
def applyBuilds (s : State) (bs : List Build) : State :=
  bs.foldl (fun s b => b.apply s) s

/-- The heartbeat toggle of `sendData` on the `uint8_t` flag. -/
def toggleBit (hb : Nat) : Nat := (hb ^^^ 0x80) % 256

/-- Consecutive calls of `instrumentUpdate(UPDATE_TIME)`. -/
def advanceTime (s : State) (k : Nat) : State :=
  (instrumentUpdate .UPDATE_TIME)^[k] s


/-- A frame with a timestamp sub-packet and no command, whose last trailer
byte has one bit flipped (`0C` for `0D`). -/
def corruptTimeFrame : List Nat :=
  [0xFE, 0xFA, 0x30, 0xC8, 0x00, 0x2C, 0x00, 0x00, 0x19, 0x00, 0x00, 0x00, 0x00, 0x21, 0x11, 0x22,
   0x33, 0x44, 0x00, 0x00, 0x00, 0x00, 0x00, 0x00, 0x00, 0x00, 0x00, 0x00, 0x00, 0x00, 0x00, 0x00,
   0x00, 0x00, 0x00, 0x00, 0x00, 0x00, 0x00, 0x00, 0x00, 0x00, 0x00, 0x00, 0x00, 0x00, 0x00, 0x00,
   0x29, 0x0C]

/-- A frame with a timestamp sub-packet, one spare byte and one command
sub-packet, with a correct CRC trailer. -/
def gapFrame : List Nat :=
  [0xFE, 0xFA, 0x30, 0xC8, 0x00, 0x42, 0x00, 0x00, 0x19, 0x00, 0x00, 0x00, 0x00, 0x21, 0x55, 0x66,
   0x77, 0x88, 0x00, 0x00, 0x00, 0x00, 0x00, 0x00, 0x00, 0x00, 0x00, 0x00, 0x00, 0x00, 0x00, 0x00,
   0x00, 0x00, 0x00, 0x00, 0x00, 0x00, 0x00, 0x00, 0x00, 0x00, 0x00, 0x00, 0x00, 0x00, 0x00, 0x00,
   0x00, 0x1B, 0x00, 0x00, 0x00, 0x00, 0x00, 0x00, 0x01, 0x00, 0x00, 0x00, 0x00, 0xA1, 0x01, 0x02,
   0x03, 0x04, 0x05, 0x06, 0x07, 0x08, 0x16, 0x13]

/-- A command sub-packet with length field 1, in the layout the receiver
parses: header `1B 00`, four bytes, the length field, four bytes, nine stored
bytes. -/
def shortCommand : List Nat :=
  [0x1B, 0x00, 0x00, 0x00, 0x00, 0x00, 0x00, 0x01, 0x00, 0x00, 0x00, 0x00, 0xA1, 0x01, 0x02, 0x03, 0x04, 0x05, 0x06, 0x07, 0x08]

/-- A frame with six copies of `shortCommand`, with a correct CRC trailer. -/
def sixCommands : List Nat :=
  [0xFE, 0xFA, 0x30, 0xC8, 0x00, 0x82, 0x00, 0x00] ++ (List.replicate 6 shortCommand).flatten ++
    [0x2F, 0x54]

/-- A frame with eleven copies of `shortCommand`, with a correct CRC trailer. -/
def elevenCommands : List Nat :=
  [0xFE, 0xFA, 0x30, 0xC8, 0x00, 0xEB, 0x00, 0x00] ++ (List.replicate 11 shortCommand).flatten ++
    [0x34, 0x11]

/-- A 29-byte frame that ends inside a timestamp sub-packet, with a nonzero
reserved byte (`07` at byte 25) and a correct CRC trailer. -/
def shortTimeFrame : List Nat :=
  [0xFE, 0xFA, 0x30, 0xC8, 0x00, 0x17, 0x00, 0x00, 0x19, 0x00, 0x00, 0x00, 0x00, 0x21, 0x01, 0x02,
   0x03, 0x04, 0x00, 0x00, 0x00, 0x00, 0x00, 0x00, 0x07, 0x00, 0x00, 0xE1, 0x3D]


/-! ### Frames with one command and a byte at the padding position -/

/-- A frame with a right trailer and one command with length field 3 (no
argument) and a zero byte at command byte count 15. -/
def padZero3 : List Nat :=
  [0xFE, 0xFA, 0x30, 0xC8, 0x00, 0x1B, 0x00, 0x00, 0x1B, 0x00, 0x00, 0x00, 0x00, 0x00, 0x00, 0x03,
   0x00, 0x00, 0x00, 0x00, 0xA1, 0x01, 0x11, 0x22, 0x00, 0x33, 0x44, 0x55, 0x66, 0x77, 0x88, 0x67,
   0x0D]

/-- A frame with a right trailer and one command with length field 3 (no
argument) and the byte `0x07` at command byte count 15. -/
def padData3 : List Nat :=
  [0xFE, 0xFA, 0x30, 0xC8, 0x00, 0x1B, 0x00, 0x00, 0x1B, 0x00, 0x00, 0x00, 0x00, 0x00, 0x00, 0x03,
   0x00, 0x00, 0x00, 0x00, 0xA1, 0x01, 0x11, 0x22, 0x07, 0x33, 0x44, 0x55, 0x66, 0x77, 0x88, 0x7E,
   0x49]

/-- A frame with a right trailer and one command with length field 4 (one
argument) and a zero byte at command byte count 16. -/
def padZero4 : List Nat :=
  [0xFE, 0xFA, 0x30, 0xC8, 0x00, 0x1C, 0x00, 0x00, 0x1B, 0x00, 0x00, 0x00, 0x00, 0x00, 0x00, 0x04,
   0x00, 0x00, 0x00, 0x00, 0xA1, 0x01, 0x11, 0x22, 0x33, 0x00, 0x44, 0x55, 0x66, 0x77, 0x88, 0x99,
   0x14, 0xEB]

/-- A frame with a right trailer and one command with length field 4 (one
argument) and the byte `0x07` at command byte count 16. -/
def padData4 : List Nat :=
  [0xFE, 0xFA, 0x30, 0xC8, 0x00, 0x1C, 0x00, 0x00, 0x1B, 0x00, 0x00, 0x00, 0x00, 0x00, 0x00, 0x04,
   0x00, 0x00, 0x00, 0x00, 0xA1, 0x01, 0x11, 0x22, 0x33, 0x07, 0x44, 0x55, 0x66, 0x77, 0x88, 0x99,
   0x0D, 0xAF]

/-- A frame with a right trailer and one command with length field 5 (two
arguments) and a zero byte at command byte count 17. -/
def padZero5 : List Nat :=
  [0xFE, 0xFA, 0x30, 0xC8, 0x00, 0x1D, 0x00, 0x00, 0x1B, 0x00, 0x00, 0x00, 0x00, 0x00, 0x00, 0x05,
   0x00, 0x00, 0x00, 0x00, 0xA1, 0x01, 0x11, 0x22, 0x33, 0x44, 0x00, 0x55, 0x66, 0x77, 0x88, 0x99,
   0xAA, 0x9C, 0x27]

/-- A frame with a right trailer and one command with length field 5 (two
arguments) and the byte `0x07` at command byte count 17. -/
def padData5 : List Nat :=
  [0xFE, 0xFA, 0x30, 0xC8, 0x00, 0x1D, 0x00, 0x00, 0x1B, 0x00, 0x00, 0x00, 0x00, 0x00, 0x00, 0x05,
   0x00, 0x00, 0x00, 0x00, 0xA1, 0x01, 0x11, 0x22, 0x33, 0x44, 0x07, 0x55, 0x66, 0x77, 0x88, 0x99,
   0xAA, 0x85, 0x63]

/-! ### Frames with a timestamp and one nonzero reserved byte -/

/-- A frame with a right trailer holding a timestamp (time `11 22 33 44`) whose
byte 19, the first after the time, is `01` and whose bytes 20 to 48 are zero. -/
def reservedByte19 : List Nat :=
  [0xFE, 0xFA, 0x30, 0xC8, 0x00, 0x2C, 0x00, 0x00, 0x19, 0x00, 0x00, 0x00, 0x00, 0x21, 0x11, 0x22,
   0x33, 0x44, 0x01, 0x00, 0x00, 0x00, 0x00, 0x00, 0x00, 0x00, 0x00, 0x00, 0x00, 0x00, 0x00, 0x00,
   0x00, 0x00, 0x00, 0x00, 0x00, 0x00, 0x00, 0x00, 0x00, 0x00, 0x00, 0x00, 0x00, 0x00, 0x00, 0x00,
   0x20, 0x12]

/-- The same with byte 48, the last of the timestamp, `01` and bytes 19 to 47
zero. -/
def reservedByte48 : List Nat :=
  [0xFE, 0xFA, 0x30, 0xC8, 0x00, 0x2C, 0x00, 0x00, 0x19, 0x00, 0x00, 0x00, 0x00, 0x21, 0x11, 0x22,
   0x33, 0x44, 0x00, 0x00, 0x00, 0x00, 0x00, 0x00, 0x00, 0x00, 0x00, 0x00, 0x00, 0x00, 0x00, 0x00,
   0x00, 0x00, 0x00, 0x00, 0x00, 0x00, 0x00, 0x00, 0x00, 0x00, 0x00, 0x00, 0x00, 0x00, 0x00, 0x01,
   0x39, 0x2C]

/-- The same with byte 20 `01` and the other bytes from 19 to 48 zero. -/
def reservedByte20 : List Nat :=
  [0xFE, 0xFA, 0x30, 0xC8, 0x00, 0x2C, 0x00, 0x00, 0x19, 0x00, 0x00, 0x00, 0x00, 0x21, 0x11, 0x22,
   0x33, 0x44, 0x00, 0x01, 0x00, 0x00, 0x00, 0x00, 0x00, 0x00, 0x00, 0x00, 0x00, 0x00, 0x00, 0x00,
   0x00, 0x00, 0x00, 0x00, 0x00, 0x00, 0x00, 0x00, 0x00, 0x00, 0x00, 0x00, 0x00, 0x00, 0x00, 0x00,
   0xD9, 0xEB]
/-! ## The receiver between two passes of the loop -/

/-- The packets are alarm packets, none of kind `ITF_CHECKSUM`. -/
def AlarmsOnly (ps : List (List Nat)) : Prop :=
  ∀ p ∈ ps, packetId p = 0x0B02 ∧
    (p.getD 18 0 = 1 ∨ p.getD 18 0 = 3 ∨ p.getD 18 0 = 4 ∨ p.getD 18 0 = 5)

/-- The command read count is a 16-bit value and, while at most 10, is at most
the command read total. -/
def CntOK (s : State) : Prop :=
  s.g_cmd_read_count < 65536 ∧ (s.g_cmd_read_count ≤ 10 → s.g_cmd_read_count ≤ s.g_cmd_read_total)

/-- What a case of the switch does to the frame-level variables when it does
not reset: it leaves `state`, the sync flag, the end flag, the read count, the
frame length, the running CRC, the mission time and the command read total
alone, leaves the command read count alone or clears it, moves `next_state`
only to a state of the frame body, and hands only alarm packets to the
transport. -/
structure Kept (t t' : State) : Prop where
  state : t'.state = t.state
  sync : t'.flag_sync_found = t.flag_sync_found
  fend : t'.flag_end_reached = t.flag_end_reached
  rc : t'.g_read_count = t.g_read_count
  dl : t'.g_data_len = t.g_data_len
  crc : t'.crc_total = t.crc_total
  time : t'.i_time = t.i_time
  next : t'.next_state = t.next_state ∨ t'.next_state = .E_REC_TIME ∨
    t'.next_state = .E_REC_CMD ∨ t'.next_state = .E_REC_CMD_START
  tot : t'.g_cmd_read_total = t.g_cmd_read_total
  cnt : t'.g_cmd_read_count = t.g_cmd_read_count ∨ t'.g_cmd_read_count = 0
  out : ∃ ps, t'.sent = t.sent ++ ps ∧ AlarmsOnly ps

/-- The same for the case `E_REC_CMD`, which counts the byte: the command read
total grows by at most one, and the command read count stays in order. -/
structure Frame (t t' : State) : Prop where
  state : t'.state = t.state
  sync : t'.flag_sync_found = t.flag_sync_found
  fend : t'.flag_end_reached = t.flag_end_reached
  rc : t'.g_read_count = t.g_read_count
  dl : t'.g_data_len = t.g_data_len
  crc : t'.crc_total = t.crc_total
  time : t'.i_time = t.i_time
  next : t'.next_state = t.next_state ∨ t'.next_state = .E_REC_TIME ∨
    t'.next_state = .E_REC_CMD ∨ t'.next_state = .E_REC_CMD_START
  tot : t'.g_cmd_read_total ≤ t.g_cmd_read_total + 1
  cnt : CntOK t'
  out : ∃ ps, t'.sent = t.sent ++ ps ∧ AlarmsOnly ps

/-- The receiver is idle: what `reset()` leaves. -/
structure Quiet (s : State) : Prop where
  state : s.state = .E_REC_IDLE
  sync : s.flag_sync_found = 0
  rc : s.g_read_count = 0
  dl : s.g_data_len = 0
  crc : s.crc_total = CRC_SEED
  tot : s.g_cmd_read_total = 0
  cnt : s.g_cmd_read_count = 0

/-- The receiver has seen the sync marker and is reading the length field. -/
structure Len (s : State) : Prop where
  state : s.state = .E_REC_LENGTH
  sync : s.flag_sync_found = 1
  rc : s.g_read_count = 4 ∨ s.g_read_count = 5
  dl : s.g_data_len = 0
  tot : s.g_cmd_read_total = 0
  cnt : s.g_cmd_read_count = 0

/-- The receiver is inside the body of a frame whose length it accepted. -/
structure Body (s : State) : Prop where
  state : s.state = .E_REC_TIME_START ∨ s.state = .E_REC_TIME ∨ s.state = .E_REC_CMD_START ∨
    s.state = .E_REC_CMD
  sync : s.flag_sync_found = 1
  rc : 6 ≤ s.g_read_count
  lt : s.g_read_count < s.g_data_len
  dl : 11 ≤ s.g_data_len ∧ s.g_data_len ≤ 511
  tot : s.g_cmd_read_total ≤ s.g_read_count
  cnt : CntOK s

/-- The invariant of the loop of `getData`, between two passes. -/
structure Inv (s : State) : Prop where
  next : s.next_state = s.state
  fend : s.flag_end_reached = 0
  shape : Quiet s ∨ Len s ∨ Body s

/-! ### The cases of the switch, statement by statement -/

/-- First statement of the case `E_REC_TIME`: the declared length. -/
def timeLength (s : State) : State :=
  if s.g_read_count = K_INS_TIME_LENGTH_OFFSET ∧ s.g_two_bytes ≠ K_TIME_SIZE then
    { (alarm .CCSDS_LENGTH s) with next_state := .E_REC_CMD_START }
  else s

/-- Second statement of the case `E_REC_TIME`: the time value. -/
def timeCapture (s : State) : State :=
  if s.g_read_count = K_INS_TIME_OFFSET then
    { s with flag_time_recieved := 1, g_time_next := s.g_four_bytes }
  else s

/-- Third statement of the case `E_REC_TIME`: the reserved bytes. -/
def timeReserved (s : State) : State :=
  if s.g_read_count < K_INS_TIME_OFFSET + 30 ∧ s.g_read_count > K_INS_TIME_OFFSET + 2
      ∧ s.g_two_bytes ≠ 0x00 then
    { s with flag_packet_error := 1 }
  else s

/-- Last statement of the case `E_REC_TIME`: the end of the timestamp. -/
def timeEnd (s : State) : State :=
  if s.g_read_count = K_INS_TIME_OFFSET + 30 then
    let s : State :=
      if s.flag_packet_error = 1 then
        { (alarm .CCSDS_FORMAT s) with flag_time_recieved := 0, flag_packet_error := 0 }
      else s
    { s with next_state := .E_REC_CMD_START }
  else s

/-- First half of the case `E_REC_CMD_START`: the idle count and the header
test. -/
def cmdStartHeader (s : State) : State :=
  let s := { s with g_idle_count := (s.g_idle_count + 1) % 256 }
  if s.g_two_bytes = 0x1B00 then
    let s := { s with next_state := .E_REC_CMD }
    let s := { s with cmd_location_info := setWord s.cmd_location_info s.g_command_num s.g_cmd_read_total }
    { s with
      g_command_num := (s.g_command_num + 1) % 256
      g_cmd_length := 0
      g_cmd_read_count := 0
      g_idle_count := 0 }
  else s

/-- Second half of the case `E_REC_CMD_START`: the alarm after three bytes
without a header. -/
def cmdStartIdle (s : State) : State :=
  if s.g_idle_count > 2 then
    let s : State :=
      if s.g_read_count + 2 ≤ s.g_data_len then
        if (s.g_two_bytes &&& 0x7FF) = 0x300 then
          alarm .CCSDS_FORMAT s
        else
          alarm .CCSDS_APID s
      else s
    { s with g_idle_count := 0 }
  else s

/-- First statements of the case `E_REC_CMD`: the two counters. -/
def cmdCount (s : State) : State :=
  let s := { s with g_cmd_read_total := (s.g_cmd_read_total + 1) % 65536 }
  { s with g_cmd_read_count := (s.g_cmd_read_count + 1) % 65536 }

/-- The length test of the case `E_REC_CMD`. -/
def cmdLength (s : State) : State :=
  if s.g_cmd_read_count = K_INS_DATA_LEN_OFFSET then
    let s := { s with g_cmd_length := (s.g_two_bytes + K_INS_HEADER_OFFSET + 1) % 65536 }
    let s := { s with cmd_location_info := setWord s.cmd_location_info s.g_command_num (s.g_two_bytes + 65533) }
    if s.g_cmd_length < K_MIN_CMD_SIZE ∨ s.g_cmd_length > K_MAX_CMD_SIZE + 10 then
      let s := alarm .CCSDS_LENGTH s
      let s := { s with next_state := .E_REC_CMD_START }
      let s := { s with cmd_location_info := setWord s.cmd_location_info s.g_command_num 0x00 }
      let s := { s with cmd_location_info := setWord s.cmd_location_info (s.g_command_num - 1) 0x00 }
      let s := { s with g_cmd_read_total := (s.g_cmd_read_total + 65530) % 65536 }
      let s := { s with g_cmd_read_count := (s.g_cmd_read_count + 65530) % 65536 }
      { s with g_command_num := (s.g_command_num + 255) % 256 }
    else s
  else s

/-- The storing of the byte in the case `E_REC_CMD`. -/
def cmdStore (s : State) : State :=
  if s.g_cmd_read_count > K_INS_HEADER_OFFSET then
    if s.g_cmd_read_total > K_MAX_CMD_SIZE * K_MAX_CMDS then
      reset (alarm .ITF_LENGTH { s with flag_time_recieved := 0 })
    else
      if s.new_byte = 0x00 ∧ s.g_cmd_read_count = s.g_cmd_length + 1 then
        let n := s.cmd_location_info s.g_command_num
        let s := { s with cmd_location_info := setWord s.cmd_location_info s.g_command_num (n + 65535) }
        { s with g_cmd_read_total := (s.g_cmd_read_total + 65535) % 65536 }
      else
        { s with cmd_packets := setByte s.cmd_packets (s.g_cmd_read_total - K_INS_HEADER_OFFSET - 1) s.new_byte }
  else s

/-- The end of the command in the case `E_REC_CMD`. -/
def cmdDone (s : State) : State :=
  if s.g_cmd_read_count = s.g_cmd_length + K_INS_DATA_LEN_OFFSET + 1 then
    { s with next_state := .E_REC_CMD_START, g_command_num := (s.g_command_num + 1) % 256 }
  else s

/-- The telemetry sent at the end of a frame whose last pass left `x`. -/
def frameEnd (x : State) : State :=
  if x.crc_total = 0x0000 then processCommands { x with flag_end_reached := 0 }
  else alarm .ITF_CHECKSUM { x with flag_end_reached := 0, flag_time_recieved := 0 }


/-- The head of the loop body while no sync marker has been seen: the byte is
shifted into the two windows and nothing is counted. -/
def shiftIn (s : State) (b : Nat) : State :=
  { s with
    new_byte := b % 256
    g_four_bytes := (((s.g_four_bytes <<< 8) % 4294967296) &&& 0xFFFFFF00) ||| (b % 256)
    g_two_bytes := ((((s.g_four_bytes <<< 8) % 4294967296) &&& 0xFFFFFF00) ||| (b % 256)) &&& 0xFFFF }

/-- The state in which `caseIdle` leaves the receiver when the window holds the
sync marker, before the time update. -/
def synced (s : State) : State :=
  { s with flag_sync_found := 1, next_state := .E_REC_LENGTH, g_read_count := 4 }

/-- The echo request for the command recorded in slots `2 * j` and
`2 * j + 1` of the location table `loc`. -/
def dispatch (loc : Nat → Nat) (t : State) (j : Nat) : State :=
  echo t (loc (2 * j + 1)) (loc (2 * j)) 0x00

/-- The packets are echo packets. -/
def EchoesOnly (ps : List (List Nat)) : Prop :=
  ∀ p ∈ ps, packetId p = 0x0B01

/-- The sync marker, byte by byte. -/
def syncBytes : List Nat := [0xFE, 0xFA, 0x30, 0xC8]

/-- A frame: the sync marker, the two bytes of the length field, and the bytes
that follow. -/
def frameOf (hi lo : Nat) (body : List Nat) : List Nat :=
  syncBytes ++ [hi, lo] ++ body

/-- The receiver after `getData`, called in the start-up state, has consumed
the sync marker. -/
def locked4 : State := getData startup syncBytes

/-- The receiver after it has accepted the length field `hi, lo` that follows
the sync marker. -/
def accepted (hi lo : Nat) : State :=
  { locked4 with
    state := .E_REC_TIME_START
    next_state := .E_REC_TIME_START
    new_byte := lo
    g_four_bytes := (((locked4.g_four_bytes % 16777216) * 256 + hi) % 16777216) * 256 + lo
    g_two_bytes := hi * 256 + lo
    g_read_count := 6
    crc_total := crc (crc CRC_SEED hi) lo
    g_data_len := hi * 256 + lo + 6 }

/-- The receiver after the head of the loop body, the end-of-frame flag and the
switch of a pass on the byte `b`: what the end-of-frame check sees. -/
def afterSwitch (s : State) (b : Nat) : State :=
  switchState (flagEnd (readByte s b))

/-! ### The bit-at-a-time description of the CRC -/

/-- One step of the bit-at-a-time CRC-CCITT: shift left one bit truncating to
16 bits, then XOR `0x1021` if the bit shifted out was 1. -/
def specStep (v : Nat) : Nat :=
  if v.testBit 15 then ((v * 2) % 65536) ^^^ 0x1021 else (v * 2) % 65536

/-- The table entry of the bit-at-a-time description: 8 steps from `i << 8`. -/
def specTableEntry (i : Nat) : Nat := specStep^[8] (i * 256)

/-- The update of the bit-at-a-time description: XOR the byte into the top
byte of the checksum, then 8 steps on the whole 16-bit value. -/
def specCrc (c b : Nat) : Nat := specStep^[8] (c ^^^ (b * 256))

/-- One step of the long division of a polynomial over GF(2), held as the bits
of `v`, by `x^16 + x^12 + x^5 + 1`: clear the coefficient of `x^(k+16)`. -/
def gf2Reduce (v k : Nat) : Nat :=
  if v.testBit (k + 16) then v ^^^ (0x11021 <<< k) else v

/-- The remainder modulo `x^16 + x^12 + x^5 + 1` of a polynomial over GF(2) of
degree below 24. -/
def gf2Rem24 (v : Nat) : Nat :=
  [7, 6, 5, 4, 3, 2, 1, 0].foldl gf2Reduce v

/-- The byte `a` with bit `k` flipped. -/
def flipBit (a k : Nat) : Nat := a ^^^ 2 ^ k

/-- The packet-error flag after the passes over the bytes `bs` of a timestamp,
the first of them at byte count `r + 1`, when the byte before them is `prev`
and the flag is `e`: it is set by every two-byte window that is not zero at a
byte count above 20. -/
def reservedFlag (r prev e : Nat) : List Nat → Nat
  | [] => e
  | b :: bs => reservedFlag (r + 1) b (if 20 < r + 1 ∧ prev * 256 + b ≠ 0 then 1 else e) bs

/-- Bytes 7 to 18 of a frame that begins with a timestamp of declared length
33: two bytes, the header `19 00`, two bytes, the length `00 21` and the four
bytes of the time. -/
def timestampHead (b7 b8 x11 x12 t1 t2 t3 t4 : Nat) : List Nat :=
  [b7, b8, 0x19, 0x00, x11, x12, 0x00, 0x21, t1, t2, t3, t4]

/-- The receiver `x` put in the state `TIME` with the pending time `t`
captured. -/
def timeCaptured (x : State) (t : Nat) : State :=
  { x with
    state := .E_REC_TIME
    next_state := .E_REC_TIME
    flag_time_recieved := 1
    g_time_next := t }

/-- The receiver `z` with the packet-error flag `e`. -/
def withError (z : State) (e : Nat) : State :=
  { z with flag_packet_error := e }

/-- What the cases `E_REC_CMD_START` and `E_REC_CMD` leave alone when they do
not reset: the time-received flag and the pending time; and `next_state` stays
among these two states. -/
structure Late (t t' : State) : Prop where
  ft : t'.flag_time_recieved = t.flag_time_recieved
  tn : t'.g_time_next = t.g_time_next
  next : t'.next_state = t.next_state ∨ t'.next_state = .E_REC_CMD ∨
    t'.next_state = .E_REC_CMD_START


/-- The bytes after the length field of a frame that begins with a timestamp
of declared length 33: the timestamp (bytes 7 to 18, the bytes `res` 19 to 47
and byte 48), the bytes `rest` and the last byte of the frame. -/
def stampedBody (b7 b8 x11 x12 t1 t2 t3 t4 : Nat) (res : List Nat) (b48 : Nat)
    (rest : List Nat) (last : Nat) : List Nat :=
  timestampHead b7 b8 x11 x12 t1 t2 t3 t4 ++ res ++ [b48] ++ rest ++ [last]
/-! ### Reading command sub-packets -/

/-- The receiver waits for a command header: it is in the state `CMD_START`
with `g_command_num = m` and the idle count at 0. -/
structure Ready (s : State) (m : Nat) : Prop where
  state : s.state = .E_REC_CMD_START
  num : s.g_command_num = m
  idle : s.g_idle_count = 0

/-- The receiver is inside a command: state `CMD` with `g_command_num = m`,
the idle count at 0, `c` bytes read since the header and the command length
variable at `len`. -/
structure InCmd (s : State) (m c len : Nat) : Prop where
  state : s.state = .E_REC_CMD
  num : s.g_command_num = m
  idle : s.g_idle_count = 0
  count : s.g_cmd_read_count = c
  len : s.g_cmd_length = len

/-- Nothing was sent, the time variables were left alone and the location
table was left alone from slot `n` on, between `s` and `u`. -/
structure Silent (n : Nat) (s u : State) : Prop where
  sent : u.sent = s.sent
  ft : u.flag_time_recieved = s.flag_time_recieved
  tn : u.g_time_next = s.g_time_next
  loc : ∀ i, n ≤ i → u.cmd_location_info i = s.cmd_location_info i

/-- A command sub-packet as the receiver reads it: the header `1B 00`, four
bytes, the two bytes of the declared length and the bytes that follow. -/
structure Command where
  a1 : Nat
  a2 : Nat
  a3 : Nat
  a4 : Nat
  lhi : Nat
  llo : Nat
  payload : List Nat

/-- The bytes of a command after its header. -/
def Command.rest (c : Command) : List Nat :=
  [c.a1, c.a2, c.a3, c.a4, c.lhi, c.llo] ++ c.payload

/-- The bytes of a command. -/
def Command.bytes (c : Command) : List Nat :=
  0x1B :: 0x00 :: c.rest

/-- The declared length of a command. -/
def Command.declared (c : Command) : Nat :=
  c.lhi * 256 + c.llo

/-- The command is made of bytes, declares a length `L` with `1 ≤ L ≤ 245`
(so that `g_cmd_length = L + 11` passes the test of the case `E_REC_CMD`), and
has the `L + 12` bytes after the length field that the receiver reads before
it looks for the next header. -/
def Command.wellFormed (c : Command) : Prop :=
  c.a1 < 256 ∧ c.a2 < 256 ∧ c.a3 < 256 ∧ c.a4 < 256 ∧ c.lhi < 256 ∧ c.llo < 256 ∧
  (∀ b ∈ c.payload, b < 256) ∧ 1 ≤ c.declared ∧ c.declared ≤ 245 ∧
  c.payload.length = c.declared + 12

/-- The bytes of several commands, one after the other. -/
def commandStream : List Command → List Nat
  | [] => []
  | c :: cs => c.bytes ++ commandStream cs

/-- What a frame carries before its commands: a timestamp whose bytes 20 to 47
are zero (bytes 7 and 8, the header `19 00`, two bytes, the declared length
`00 21`, the four bytes of the time, byte 19, 28 zero bytes and byte 48), or
only the bytes 7 and 8. -/
inductive Lead where
  | stamp (b7 b8 x11 x12 t1 t2 t3 t4 b19 b48 : Nat)
  | plain (b7 b8 : Nat)

/-- The bytes of the lead. -/
def Lead.bytes : Lead → List Nat
  | .stamp b7 b8 x11 x12 t1 t2 t3 t4 b19 b48 =>
    timestampHead b7 b8 x11 x12 t1 t2 t3 t4 ++ (b19 :: List.replicate 28 0) ++ [b48]
  | .plain b7 b8 => [b7, b8]

/-- The time carried by the lead, big-endian, if it is a timestamp. -/
def Lead.time : Lead → Option Nat
  | .stamp _ _ _ _ t1 t2 t3 t4 _ _ => some (t1 * 16777216 + t2 * 65536 + t3 * 256 + t4)
  | .plain _ _ => none

/-- The lead is made of bytes. -/
def Lead.wellFormed : Lead → Prop
  | .stamp b7 b8 x11 x12 t1 t2 t3 t4 b19 b48 =>
    b7 < 256 ∧ b8 < 256 ∧ x11 < 256 ∧ x12 < 256 ∧ t1 < 256 ∧ t2 < 256 ∧ t3 < 256 ∧ t4 < 256 ∧
    b19 < 256 ∧ b48 < 256
  | .plain b7 b8 => b7 < 256 ∧ b8 < 256

/-- The bytes of a frame after its length field: the lead, the commands and
the two trailer bytes. -/
def frameBody (ld : Lead) (cs : List Command) (c1 c2 : Nat) : List Nat :=
  ld.bytes ++ commandStream cs ++ [c1, c2]

instance (c : Command) : Decidable c.wellFormed := by
  unfold Command.wellFormed
  infer_instance

instance (ld : Lead) : Decidable ld.wellFormed := by
  cases ld <;> unfold Lead.wellFormed <;> infer_instance

/-- A frame of 50 bytes with a correct CRC trailer that carries only a
timestamp with the time `0x11223344`. -/
def stampOnlyFrame : List Nat :=
  [0xFE, 0xFA, 0x30, 0xC8, 0x00, 0x2C, 0x00, 0x00, 0x19, 0x00, 0x00, 0x00, 0x00, 0x21, 0x11, 0x22,
   0x33, 0x44, 0x00, 0x00, 0x00, 0x00, 0x00, 0x00, 0x00, 0x00, 0x00, 0x00, 0x00, 0x00, 0x00, 0x00,
   0x00, 0x00, 0x00, 0x00, 0x00, 0x00, 0x00, 0x00, 0x00, 0x00, 0x00, 0x00, 0x00, 0x00, 0x00, 0x00,
   0x29, 0x0D]

/-- The packet `p` is the echo of the command recorded at offset `h` with the
argument count `a` in the command buffer `cmd`: it has the size `echo` sends
for `a`, byte 16 carries the macro bit (bit 0 of `cmd[h+1]`) above the command
result 0, byte 17 the opcode `cmd[h]`, and bytes 18 and up the argument bytes
`cmd[h+2]`, ..., one for each of the `min a 10` arguments. -/
def EchoOf (cmd : Nat → Nat) (h a : Nat) (p : List Nat) : Prop :=
  p.length = echoSize a ∧
  p.getD 16 0 = (((cmd (h + 1) &&& 0x01) <<< 7) ||| (0x00 &&& 0x7F)) % 256 ∧
  p.getD 17 0 = cmd h % 256 ∧
  ∀ i, 1 ≤ i → i ≤ min a 10 → p.getD (17 + i) 0 = cmd (h + 1 + i) % 256

/-- The two bytes that follow take no part in a test of the state logic that
can raise an alarm: the receiver is in `CMD_START` (the idle alarm leaves the
last two bytes of the frame out), or inside a command away from its length
field (the command byte count is not 4 or 5, so that neither of the two bytes
is read at count 6), or inside a timestamp away from its length field and from
the last of the reserved bytes that are tested (the read count is not 12, 13
or 46, so that neither byte is read at count 14 and the first is not read at
count 47 with the second at count 48). -/
def trailerUntested (s : State) : Prop :=
  s.state = .E_REC_CMD_START ∨
  (s.state = .E_REC_CMD ∧ s.g_cmd_read_count ≠ 4 ∧ s.g_cmd_read_count ≠ 5) ∨
  (s.state = .E_REC_TIME ∧ s.g_read_count ≠ 12 ∧ s.g_read_count ≠ 13 ∧ s.g_read_count ≠ 46)

instance (s : State) : Decidable (trailerUntested s) := by
  unfold trailerUntested
  infer_instance
/-! ## CRC lemmas -/

theorem crc_lt (c d : Nat) : crc c d < 65536 := by
  unfold crc
  exact Nat.mod_lt _ (by norm_num)

theorem crcFold_lt (seed : Nat) (h : seed < 65536) (bytes : List Nat) :
    crcFold seed bytes < 65536 := by
  induction bytes using List.reverseRecOn with
  | nil => simpa [crcFold] using h
  | append_singleton xs x _ =>
    simp only [crcFold, List.foldl_append, List.foldl_cons, List.foldl_nil]
    exact crc_lt _ _

theorem crcFold_append (seed : Nat) (xs ys : List Nat) :
    crcFold seed (xs ++ ys) = crcFold (crcFold seed xs) ys := by
  simp [crcFold, List.foldl_append]

theorem CRC_LOOKUP_zero : CRC_LOOKUP.getD 0 0 = 0 := by decide

/-- Feeding the high byte of a 16-bit checksum into it leaves the low byte in
the top half. -/
theorem crc_high_byte (c : Nat) :
    crc c (c >>> 8) = (c % 256) * 256 := by
  unfold crc
  simp only [Nat.xor_self, Nat.zero_and, CRC_LOOKUP_zero, Nat.xor_zero,
    Nat.shiftLeft_eq]
  omega

/-- Feeding the low byte next clears the checksum. -/
theorem crc_low_byte (c : Nat) :
    crc ((c % 256) * 256) (c &&& 0xFF) = 0 := by
  unfold crc
  have h1 : (c % 256 * 256) >>> 8 = c % 256 := by
    rw [Nat.shiftRight_eq_div_pow]; omega
  have h2 : c &&& 0xFF = c % 256 := Nat.and_pow_two_sub_one_eq_mod c 8
  simp only [h1, h2, Nat.xor_self, Nat.zero_and, CRC_LOOKUP_zero, Nat.xor_zero,
    Nat.shiftLeft_eq]
  omega

/-- The two trailer bytes of a 16-bit checksum drive it to zero. -/
theorem crc_trailer (c : Nat) :
    crc (crc c (c >>> 8)) (c &&& 0xFF) = 0 := by
  rw [crc_high_byte c, crc_low_byte]

/-- Appending the two trailer bytes of the checksum of a span drives the
residue to zero. -/
theorem crc_round_trip_aux (s : List Nat) :
    crcFold CRC_SEED (s ++ [crcFold CRC_SEED s >>> 8, crcFold CRC_SEED s &&& 0xFF]) = 0 := by
  rw [crcFold_append]
  simp only [crcFold, List.foldl_cons, List.foldl_nil]
  exact crc_trailer _

/-! ## Bit-level lemmas -/

theorem and_255 (x : Nat) : x &&& 255 = x % 256 :=
  Nat.and_pow_two_sub_one_eq_mod x 8

theorem and_16383 (x : Nat) : x &&& 16383 = x % 16384 :=
  Nat.and_pow_two_sub_one_eq_mod x 14

theorem and_65535 (x : Nat) : x &&& 65535 = x % 65536 :=
  Nat.and_pow_two_sub_one_eq_mod x 16

theorem or_192 (y : Nat) (h : y < 64) : 192 ||| y = 192 + y := by
  have := Nat.mul_add_lt_is_or (i := 6) (b := y) (by simpa using h) 3
  simpa using this.symm

theorem or_49152 (y : Nat) (h : y < 16384) : 49152 ||| y = 49152 + y := by
  have := Nat.mul_add_lt_is_or (i := 14) (b := y) (by simpa using h) 3
  simpa using this.symm

/-! ## Lemmas on the telemetry builders -/

theorem getD_map_range (f : Nat → Nat) (n i d : Nat) (h : i < n) :
    ((List.range n).map f).getD i d = f i := by
  rw [List.getD_eq_getElem?_getD, List.getElem?_map, List.getElem?_range h]
  rfl

theorem lastPacket_sendData (s : State) (n : Nat) :
    lastPacket (sendData s n) = (List.range n).map s.tlm_packet := by
  simp [lastPacket, sendData, toggleHeart]

theorem echo_count_le (a : Nat) : (if a > 10 then 10 else a) ≤ 10 := by
  split <;> omega

theorem status_sent (s : State) : (status s).sent = s.sent ++ [lastPacket (status s)] := by
  simp [status, sendData, toggleHeart, lastPacket, updateSequence]

theorem alarm_sent (k : ALARM_STATE) (s : State) :
    (alarm k s).sent = s.sent ++ [lastPacket (alarm k s)] := by
  simp [alarm, sendData, toggleHeart, lastPacket, updateSequence]

theorem echo_sent (s : State) (a h r : Nat) :
    (echo s a h r).sent = s.sent ++ [lastPacket (echo s a h r)] := by
  simp [echo, sendData, toggleHeart, lastPacket, updateSequence]

theorem status_length (s : State) : (lastPacket (status s)).length = 140 := by
  simp [status, lastPacket_sendData]

theorem alarm_length (k : ALARM_STATE) (s : State) : (lastPacket (alarm k s)).length = 22 := by
  simp [alarm, lastPacket_sendData]

theorem echo_length (s : State) (a h r : Nat) :
    (lastPacket (echo s a h r)).length = echoSize a := by
  simp [echo, lastPacket_sendData, echoSize]

theorem echoSize_bounds (a : Nat) : 20 ≤ echoSize a ∧ echoSize a ≤ 30 ∧ echoSize a % 2 = 0 := by
  unfold echoSize
  have := echo_count_le a
  generalize (if a > 10 then 10 else a) = n at this
  simp only
  split <;> omega

theorem echoSize_eq (a : Nat) : echoSize a = (20 + min a 10 + 1) / 2 * 2 := by
  unfold echoSize
  have h : (if a > 10 then 10 else a) = min a 10 := by
    split <;> omega
  rw [h]
  simp only
  split <;> omega

theorem status_header (s : State) :
    (lastPacket (status s)).take 16 = packetHeader (updateSequence s) 140 0x305 123 := by
  simp only [status, lastPacket_sendData]
  rfl

theorem alarm_header (k : ALARM_STATE) (s : State) :
    (lastPacket (alarm k s)).take 16 = packetHeader (updateSequence s) 22 0x302 7 := by
  simp only [alarm, lastPacket_sendData]
  rfl

theorem echo_header (s : State) (a h r : Nat) :
    (lastPacket (echo s a h r)).take 16 =
      packetHeader (updateSequence s) (echoSize a) 0x301 (echoSize a - 12) := by
  simp only [echo, lastPacket_sendData, echoSize]
  generalize hn : (if a > 10 then 10 else a) = n
  have hle : n ≤ 10 := hn ▸ echo_count_le a
  interval_cases n <;> rfl

theorem getD_of_take (p : List Nat) (n i : Nat) (h : i < n) :
    p.getD i 0 = (p.take n).getD i 0 := by
  simp [List.getD_eq_getElem?_getD, List.getElem?_take, h]

/-- Bytes 6-7 of a packet with the common header. -/
theorem header_id (s : State) (size apid len : Nat) (p : List Nat)
    (hp : p.take 16 = packetHeader s size apid len) :
    p.getD 6 0 = (0x08 ||| ((apid >>> 8) &&& 0x07)) % 256 ∧ p.getD 7 0 = (apid &&& 0xFF) % 256 := by
  rw [getD_of_take p 16 6 (by omega), getD_of_take p 16 7 (by omega), hp]
  exact ⟨rfl, rfl⟩

theorem header_sync (s : State) (size apid len : Nat) (p : List Nat)
    (hp : p.take 16 = packetHeader s size apid len) :
    p.take 4 = [0xFE, 0xFA, 0x30, 0xC8] := by
  have h : p.take 4 = (p.take 16).take 4 := by simp [List.take_take]
  rw [h, hp]
  rfl

theorem small_shift (n : Nat) (h : n < 256) : (n >>> 8) &&& 0xFF = 0 := by
  rw [Nat.shiftRight_eq_div_pow, Nat.div_eq_of_lt (by simpa using h)]
  rfl

/-- Bytes 4-5 of a packet with the common header, for a size below 262. -/
theorem header_length (s : State) (size apid len : Nat) (p : List Nat)
    (hp : p.take 16 = packetHeader s size apid len) (hsize : 6 ≤ size ∧ size < 262)
    (hhb : s.i_heartbeat = 0 ∨ s.i_heartbeat = 0x80) (hpw : s.i_power = 0 ∨ s.i_power = 0x40) :
    p.getD 4 0 &&& 0x80 = s.i_heartbeat ∧ p.getD 4 0 &&& 0x40 = s.i_power ∧
      (p.getD 4 0 % 64) * 256 + p.getD 5 0 = size - 6 := by
  rw [getD_of_take p 16 4 (by omega), getD_of_take p 16 5 (by omega), hp]
  have h4 : (packetHeader s size apid len).getD 4 0 = (s.i_heartbeat ||| s.i_power) % 256 := by
    show (s.i_heartbeat ||| s.i_power ||| (((size - K_INS_DATA_LEN_OFFSET) >>> 8) &&& 0xFF)) % 256
      = _
    rw [small_shift _ (by unfold K_INS_DATA_LEN_OFFSET; omega), Nat.or_zero]
  have h5 : (packetHeader s size apid len).getD 5 0 = size - 6 := by
    show ((size - K_INS_DATA_LEN_OFFSET) &&& 0xFF) % 256 = _
    rw [and_255]
    unfold K_INS_DATA_LEN_OFFSET
    omega
  rw [h4, h5]
  rcases hhb with h | h <;> rcases hpw with h' | h' <;> rw [h, h'] <;>
    exact ⟨by decide, by decide, by simp⟩

/-- Bytes 8-15 of a packet with the common header. -/
theorem header_seq_time (s : State) (size apid len : Nat) (p : List Nat)
    (hp : p.take 16 = packetHeader s size apid len)
    (hseq : s.i_sequence_count < 16384) (htime : s.i_time < 4294967296) :
    be16 p 8 = 0xC000 ||| s.i_sequence_count ∧ be32 p 12 = s.i_time := by
  unfold be16 be32
  rw [getD_of_take p 16 8 (by omega), getD_of_take p 16 (8 + 1) (by omega),
    getD_of_take p 16 12 (by omega), getD_of_take p 16 (12 + 1) (by omega),
    getD_of_take p 16 (12 + 2) (by omega), getD_of_take p 16 (12 + 3) (by omega), hp]
  constructor
  · show (0xC0 ||| ((s.i_sequence_count >>> 8) &&& 0xFF)) % 256 * 256
      + (s.i_sequence_count &&& 0xFF) % 256 = _
    rw [or_49152 _ hseq, and_255, and_255, Nat.shiftRight_eq_div_pow,
      or_192 _ (by omega)]
    omega
  · show ((s.i_time >>> 24) &&& 0xFF) % 256 * 16777216 + ((s.i_time >>> 16) &&& 0xFF) % 256 * 65536
      + ((s.i_time >>> 8) &&& 0xFF) % 256 * 256 + (s.i_time &&& 0xFF) % 256 = _
    simp only [and_255, Nat.shiftRight_eq_div_pow]
    omega

theorem updateSequence_count (s : State) :
    (updateSequence s).i_sequence_count = (s.i_sequence_count + 1) % 16384 := by
  show ((s.i_sequence_count + 1) % 65536) &&& 0x3FFF = _
  rw [and_16383]
  omega

theorem status_zero_region (s : State) (i : Nat) (h16 : 16 ≤ i) (h137 : i ≤ 137) :
    (lastPacket (status s)).getD i 0 = 0 := by
  simp only [status, lastPacket_sendData]
  rw [getD_map_range _ _ _ _ (by omega)]
  simp only [setByte]
  repeat rw [if_neg (by omega)]

theorem range_drop_four (k : Nat) (f : Nat → Nat) :
    ((List.range (4 + k)).map f).drop 4 = (List.range' 4 k).map f := by
  rw [← List.map_drop, List.range_eq_range']
  have h : List.range' 0 (4 + k) = List.range' 0 4 ++ List.range' 4 k := by
    rw [List.range'_append 0 4 k 1, Nat.add_comm]
  rw [h, List.drop_left' (by simp)]

theorem map_setByte_of_lt (t : Nat → Nat) (i v s n : Nat) (h : s + n ≤ i) :
    (List.range' s n).map (setByte t i v) = (List.range' s n).map t := by
  apply List.map_congr_left
  intro j hj
  rw [List.mem_range'_1] at hj
  rw [setByte, if_neg (by omega)]

/-- A trailer written at the last two transmitted bytes makes the residue over
bytes 4 onwards zero, and is the big-endian checksum of the bytes before it. -/
theorem trailer_residue (t : Nat → Nat) (m : Nat) :
    let c := checksumLoop t (m + 6)
    let t' := setByte (setByte t (m + 4) ((c >>> 8) &&& 0xFF)) (m + 5) c
    let p := (List.range (m + 6)).map t'
    crcFold CRC_SEED (p.drop 4) = 0 ∧
    c = crcFold CRC_SEED ((p.drop 4).take m) ∧
    p.getD (m + 4) 0 * 256 + p.getD (m + 5) 0 = c := by
  intro c t' p
  have hc : c < 65536 := crcFold_lt _ (by decide) _
  have hcdef : c = crcFold CRC_SEED ((List.range' 4 m).map t) := by
    show checksumLoop t (m + 6) = _
    unfold checksumLoop
    congr 3
  have hpre : (List.range' 4 m).map t' = (List.range' 4 m).map t := by
    show (List.range' 4 m).map (setByte (setByte t (m + 4) _) (m + 5) c) = _
    rw [map_setByte_of_lt _ _ _ _ _ (by omega), map_setByte_of_lt _ _ _ _ _ (by omega)]
  have h4 : t' (m + 4) = c >>> 8 := by
    show setByte (setByte t (m + 4) ((c >>> 8) &&& 0xFF)) (m + 5) c (m + 4) = _
    rw [setByte, if_neg (by omega), setByte, if_pos rfl, and_255, Nat.shiftRight_eq_div_pow]
    omega
  have h5 : t' (m + 5) = c &&& 0xFF := by
    show setByte (setByte t (m + 4) ((c >>> 8) &&& 0xFF)) (m + 5) c (m + 5) = _
    rw [setByte, if_pos rfl, and_255]
  have hdrop : p.drop 4 = (List.range' 4 m).map t ++ [c >>> 8, c &&& 0xFF] := by
    show ((List.range (m + 6)).map t').drop 4 = _
    rw [show m + 6 = 4 + (m + 1 + 1) by omega, range_drop_four]
    rw [List.range'_concat, List.range'_concat, List.map_append, List.map_append,
      hpre, List.append_assoc]
    simp only [List.map_cons, List.map_nil, List.singleton_append, Nat.one_mul]
    rw [show 4 + m = m + 4 by omega, show 4 + (m + 1) = m + 5 by omega, h4, h5]
  refine ⟨?_, ?_, ?_⟩
  · rw [hdrop, hcdef]
    exact crc_round_trip_aux _
  · rw [hdrop, List.take_left' (by simp), ← hcdef]
  · show ((List.range (m + 6)).map t').getD (m + 4) 0 * 256
      + ((List.range (m + 6)).map t').getD (m + 5) 0 = c
    rw [getD_map_range _ _ _ _ (by omega), getD_map_range _ _ _ _ (by omega), h4, h5,
      and_255, Nat.shiftRight_eq_div_pow]
    omega
/-- The trailer of every status packet is the checksum of the bytes before it. -/
theorem status_trailer (s : State) :
    crcFold CRC_SEED ((lastPacket (status s)).drop 4) = 0 ∧
    be16 (lastPacket (status s)) 138 =
      crcFold CRC_SEED (((lastPacket (status s)).drop 4).take 134) := by
  simp only [status, lastPacket_sendData]
  exact ⟨(trailer_residue _ 134).1, (trailer_residue _ 134).2.2.trans (trailer_residue _ 134).2.1⟩

/-- The trailer of every alarm packet is the checksum of the bytes before it. -/
theorem alarm_trailer (k : ALARM_STATE) (s : State) :
    crcFold CRC_SEED ((lastPacket (alarm k s)).drop 4) = 0 ∧
    be16 (lastPacket (alarm k s)) 20 =
      crcFold CRC_SEED (((lastPacket (alarm k s)).drop 4).take 16) := by
  simp only [alarm, lastPacket_sendData]
  exact ⟨(trailer_residue _ 16).1, (trailer_residue _ 16).2.2.trans (trailer_residue _ 16).2.1⟩

/-- The trailer of an echo packet with an even (clamped) argument count is the
checksum of the bytes before it. -/
theorem echo_trailer_even (s : State) (a h r : Nat) (heven : min a 10 % 2 = 0) :
    crcFold CRC_SEED ((lastPacket (echo s a h r)).drop 4) = 0 ∧
    be16 (lastPacket (echo s a h r)) (echoSize a - 2) =
      crcFold CRC_SEED (((lastPacket (echo s a h r)).drop 4).take (echoSize a - 6)) := by
  simp only [echo, lastPacket_sendData, echoSize]
  have hmin : (if a > 10 then 10 else a) = min a 10 := by split <;> omega
  rw [hmin]
  generalize min a 10 = n at heven
  have hif : (if (n + 20) % 2 = 1 then n + 20 + 1 else n + 20) = (n + 14) + 6 := by
    rw [if_neg (by omega)]
  rw [hif, show n + 14 + 6 - 2 = (n + 14) + 4 by omega, show n + 14 + 6 - 6 = n + 14 by omega,
    show 18 + n = (n + 14) + 4 by omega, show 19 + n = (n + 14) + 5 by omega]
  exact ⟨(trailer_residue _ (n + 14)).1,
    (trailer_residue _ (n + 14)).2.2.trans (trailer_residue _ (n + 14)).2.1⟩
theorem and_high_mask (y : Nat) (h : y < 16777216) : (y * 256) &&& 0xFFFFFF00 = y * 256 := by
  apply Nat.eq_of_testBit_eq
  intro i
  rw [Nat.testBit_and]
  have hm : (0xFFFFFF00 : Nat) = (2 ^ 24 - 1) <<< 8 := by decide
  have hy : y * 256 = y <<< 8 := by rw [Nat.shiftLeft_eq]
  rw [hm, hy, Nat.testBit_shiftLeft, Nat.testBit_shiftLeft, Nat.testBit_two_pow_sub_one]
  by_cases hi : i ≥ 8
  · by_cases h24 : i - 8 < 24
    · simp [hi, h24]
    · have : y.testBit (i - 8) = false := by
        apply Nat.testBit_lt_two_pow
        calc y < 2 ^ 24 := by simpa using h
          _ ≤ 2 ^ (i - 8) := Nat.pow_le_pow_right (by decide) (by omega)
      simp [this]
  · simp [hi]

theorem shift4_eq (x b : Nat) :
    (((x <<< 8) % 4294967296) &&& 0xFFFFFF00) ||| (b % 256) = (x % 16777216) * 256 + b % 256 := by
  have h1 : (x <<< 8) % 4294967296 = (x % 16777216) * 256 := by
    rw [Nat.shiftLeft_eq]; omega
  rw [h1, and_high_mask _ (Nat.mod_lt _ (by decide))]
  have := Nat.mul_add_lt_is_or (i := 8) (b := b % 256) (Nat.mod_lt _ (by decide)) (x % 16777216)
  simp only [Nat.reducePow] at this
  rw [Nat.mul_comm, ← this]
/-! ## Fields the telemetry builders leave unchanged -/

theorem alarm_fields (k : ALARM_STATE) (s : State) :
    (alarm k s).i_power = s.i_power ∧
    (alarm k s).i_time = s.i_time ∧
    (alarm k s).i_status_send = s.i_status_send ∧
    (alarm k s).flag_time_recieved = s.flag_time_recieved ∧
    (alarm k s).flag_packet_error = s.flag_packet_error ∧
    (alarm k s).flag_sync_found = s.flag_sync_found ∧
    (alarm k s).flag_end_reached = s.flag_end_reached ∧
    (alarm k s).state = s.state ∧
    (alarm k s).next_state = s.next_state ∧
    (alarm k s).g_read_count = s.g_read_count ∧
    (alarm k s).g_idle_count = s.g_idle_count ∧
    (alarm k s).g_command_num = s.g_command_num ∧
    (alarm k s).g_cmd_read_count = s.g_cmd_read_count ∧
    (alarm k s).g_cmd_read_total = s.g_cmd_read_total ∧
    (alarm k s).status_send_counter = s.status_send_counter ∧
    (alarm k s).new_byte = s.new_byte ∧
    (alarm k s).g_four_bytes = s.g_four_bytes ∧
    (alarm k s).g_two_bytes = s.g_two_bytes ∧
    (alarm k s).g_data_len = s.g_data_len ∧
    (alarm k s).crc_total = s.crc_total ∧
    (alarm k s).g_time_next = s.g_time_next ∧
    (alarm k s).g_cmd_length = s.g_cmd_length ∧
    (alarm k s).cmd_packets = s.cmd_packets ∧
    (alarm k s).cmd_location_info = s.cmd_location_info :=
  ⟨rfl, rfl, rfl, rfl, rfl, rfl, rfl, rfl, rfl, rfl, rfl, rfl, rfl, rfl, rfl, rfl, rfl, rfl, rfl, rfl, rfl, rfl, rfl, rfl⟩

theorem status_fields (s : State) :
    (status s).i_power = s.i_power ∧
    (status s).i_time = s.i_time ∧
    (status s).i_status_send = s.i_status_send ∧
    (status s).flag_time_recieved = s.flag_time_recieved ∧
    (status s).flag_packet_error = s.flag_packet_error ∧
    (status s).flag_sync_found = s.flag_sync_found ∧
    (status s).flag_end_reached = s.flag_end_reached ∧
    (status s).state = s.state ∧
    (status s).next_state = s.next_state ∧
    (status s).g_read_count = s.g_read_count ∧
    (status s).g_idle_count = s.g_idle_count ∧
    (status s).g_command_num = s.g_command_num ∧
    (status s).g_cmd_read_count = s.g_cmd_read_count ∧
    (status s).g_cmd_read_total = s.g_cmd_read_total ∧
    (status s).status_send_counter = s.status_send_counter ∧
    (status s).new_byte = s.new_byte ∧
    (status s).g_four_bytes = s.g_four_bytes ∧
    (status s).g_two_bytes = s.g_two_bytes ∧
    (status s).g_data_len = s.g_data_len ∧
    (status s).crc_total = s.crc_total ∧
    (status s).g_time_next = s.g_time_next ∧
    (status s).g_cmd_length = s.g_cmd_length ∧
    (status s).cmd_packets = s.cmd_packets ∧
    (status s).cmd_location_info = s.cmd_location_info :=
  ⟨rfl, rfl, rfl, rfl, rfl, rfl, rfl, rfl, rfl, rfl, rfl, rfl, rfl, rfl, rfl, rfl, rfl, rfl, rfl, rfl, rfl, rfl, rfl, rfl⟩

theorem echo_fields (s : State) (a h r : Nat) :
    (echo s a h r).i_power = s.i_power ∧
    (echo s a h r).i_time = s.i_time ∧
    (echo s a h r).i_status_send = s.i_status_send ∧
    (echo s a h r).flag_time_recieved = s.flag_time_recieved ∧
    (echo s a h r).flag_packet_error = s.flag_packet_error ∧
    (echo s a h r).flag_sync_found = s.flag_sync_found ∧
    (echo s a h r).flag_end_reached = s.flag_end_reached ∧
    (echo s a h r).state = s.state ∧
    (echo s a h r).next_state = s.next_state ∧
    (echo s a h r).g_read_count = s.g_read_count ∧
    (echo s a h r).g_idle_count = s.g_idle_count ∧
    (echo s a h r).g_command_num = s.g_command_num ∧
    (echo s a h r).g_cmd_read_count = s.g_cmd_read_count ∧
    (echo s a h r).g_cmd_read_total = s.g_cmd_read_total ∧
    (echo s a h r).status_send_counter = s.status_send_counter ∧
    (echo s a h r).new_byte = s.new_byte ∧
    (echo s a h r).g_four_bytes = s.g_four_bytes ∧
    (echo s a h r).g_two_bytes = s.g_two_bytes ∧
    (echo s a h r).g_data_len = s.g_data_len ∧
    (echo s a h r).crc_total = s.crc_total ∧
    (echo s a h r).g_time_next = s.g_time_next ∧
    (echo s a h r).g_cmd_length = s.g_cmd_length ∧
    (echo s a h r).cmd_packets = s.cmd_packets ∧
    (echo s a h r).cmd_location_info = s.cmd_location_info :=
  ⟨rfl, rfl, rfl, rfl, rfl, rfl, rfl, rfl, rfl, rfl, rfl, rfl, rfl, rfl, rfl, rfl, rfl, rfl, rfl, rfl, rfl, rfl, rfl, rfl⟩

theorem echoArgs_succ (cmd : Nat → Nat) (h : Nat) (t : Nat → Nat) (n : Nat) :
    echoArgs cmd h t (n + 1) =
      setByte (echoArgs cmd h t n) (17 + (n + 1)) (cmd (h + 1 + (n + 1))) := by
  simp [echoArgs, List.range_succ, List.foldl_append]

theorem echoArgs_zero (cmd : Nat → Nat) (h : Nat) (t : Nat → Nat) :
    echoArgs cmd h t 0 = t := by
  simp [echoArgs]

theorem echoArgs_low (cmd : Nat → Nat) (h : Nat) (t : Nat → Nat) (n j : Nat) (hj : j < 18) :
    echoArgs cmd h t n j = t j := by
  induction n with
  | zero => rw [echoArgs_zero]
  | succ n ih =>
    rw [echoArgs_succ, setByte, if_neg (by omega), ih]

theorem echoArgs_at (cmd : Nat → Nat) (h : Nat) (t : Nat → Nat) (n i : Nat)
    (h1 : 1 ≤ i) (hn : i ≤ n) :
    echoArgs cmd h t n (17 + i) = cmd (h + 1 + i) % 256 := by
  induction n with
  | zero => omega
  | succ n ih =>
    rw [echoArgs_succ, setByte]
    by_cases hi : i = n + 1
    · subst hi
      rw [if_pos rfl]
    · rw [if_neg (by omega), ih (by omega)]

/-- Bytes 16 and up of an echo packet, before the trailer is written. -/
theorem echo_payload_raw (s : State) (a h r : Nat) :
    (lastPacket (echo s a h r)).getD 16 0 =
        (((s.cmd_packets (h + 1) &&& 0x01) <<< 7) ||| (r &&& 0x7F)) % 256 ∧
    (lastPacket (echo s a h r)).getD 17 0 = s.cmd_packets h % 256 ∧
    ∀ i, 1 ≤ i → i ≤ min a 10 →
      (lastPacket (echo s a h r)).getD (17 + i) 0 = s.cmd_packets (h + 1 + i) % 256 := by
  simp only [echo, lastPacket_sendData]
  have hmin : (if a > 10 then 10 else a) = min a 10 := by split <;> omega
  rw [hmin]
  generalize min a 10 = n
  have hsz : 20 ≤ (if (n + 20) % 2 = 1 then n + 20 + 1 else n + 20) ∧
      n + 20 ≤ (if (n + 20) % 2 = 1 then n + 20 + 1 else n + 20) := by
    split <;> omega
  generalize (if (n + 20) % 2 = 1 then n + 20 + 1 else n + 20) = sz at hsz
  refine ⟨?_, ?_, ?_⟩
  · rw [getD_map_range _ _ _ _ (by omega), setByte, if_neg (by omega), setByte,
      if_neg (by omega), echoArgs_low _ _ _ _ _ (by omega), setByte, if_neg (by omega),
      setByte, if_pos rfl]
    rfl
  · rw [getD_map_range _ _ _ _ (by omega), setByte, if_neg (by omega), setByte,
      if_neg (by omega), echoArgs_low _ _ _ _ _ (by omega), setByte, if_pos rfl]
    rfl
  · intro i h1 hi
    rw [getD_map_range _ _ _ _ (by omega), setByte, if_neg (by omega), setByte,
      if_neg (by omega), echoArgs_at _ _ _ _ _ h1 hi]
    rfl

/-- Bytes 10-11 of a packet with the common header. -/
theorem header_len_field (s : State) (size apid len : Nat) (p : List Nat)
    (hp : p.take 16 = packetHeader s size apid len) (hlen : len < 256) :
    be16 p 10 = len := by
  unfold be16
  rw [getD_of_take p 16 10 (by omega), getD_of_take p 16 (10 + 1) (by omega), hp]
  show ((len >>> 8) &&& 0xFF) % 256 * 256 + (len &&& 0xFF) % 256 = len
  rw [small_shift len hlen, and_255]
  omega

/-- Bytes 16-19 of an alarm packet. -/
theorem alarm_body_bytes (k : ALARM_STATE) (s : State) :
    (lastPacket (alarm k s)).getD 16 0 = 0x01 ∧ (lastPacket (alarm k s)).getD 17 0 = 0x01 ∧
    (lastPacket (alarm k s)).getD 18 0 = alarmValue k ∧
    (lastPacket (alarm k s)).getD 19 0 = 0x00 := by
  simp only [alarm, lastPacket_sendData]
  cases k <;> exact ⟨rfl, rfl, rfl, rfl⟩

theorem Build.apply_eq (b : Build) (s : State) :
    b.apply s =
      { s with
        i_sequence_count := ((s.i_sequence_count + 1) % 65536) &&& 0x3FFF
        i_heartbeat := toggleBit s.i_heartbeat
        tlm_packet := (b.apply s).tlm_packet
        sent := (b.apply s).sent } := by
  cases b <;> rfl

theorem toggleBit_twice (hb : Nat) (h : hb < 256) : toggleBit (toggleBit hb) = hb := by
  unfold toggleBit
  have h1 : hb ^^^ 0x80 < 2 ^ 8 := Nat.xor_lt_two_pow (by simpa using h) (by decide)
  have e1 : (hb ^^^ 0x80) % 256 = hb ^^^ 0x80 := Nat.mod_eq_of_lt (by simpa using h1)
  rw [e1, Nat.xor_assoc, Nat.xor_self, Nat.xor_zero, Nat.mod_eq_of_lt h]

theorem toggleBit_lt (hb : Nat) : toggleBit hb < 256 := Nat.mod_lt _ (by decide)

theorem toggleBit_iterate_even (k : Nat) (hb : Nat) (h : hb < 256) :
    toggleBit^[2 * k] hb = hb := by
  induction k with
  | zero => rfl
  | succ k ih =>
    rw [show 2 * (k + 1) = 2 * k + 1 + 1 by omega, Function.iterate_succ_apply',
      Function.iterate_succ_apply', ih, toggleBit_twice hb h]

/-- The state after any list of builder calls. -/
theorem applyBuilds_eq (bs : List Build) (s : State) (hseq : s.i_sequence_count < 16384) :
    applyBuilds s bs =
      { s with
        i_sequence_count := (s.i_sequence_count + bs.length) % 16384
        i_heartbeat := toggleBit^[bs.length] s.i_heartbeat
        tlm_packet := (applyBuilds s bs).tlm_packet
        sent := (applyBuilds s bs).sent } := by
  induction bs using List.reverseRecOn with
  | nil =>
    show s = _
    simp [Nat.mod_eq_of_lt hseq, applyBuilds]
  | append_singleton bs b ih =>
    have hstep : applyBuilds s (bs ++ [b]) = b.apply (applyBuilds s bs) := by
      simp [applyBuilds, List.foldl_append]
    rw [hstep, Build.apply_eq]
    generalize (b.apply (applyBuilds s bs)).tlm_packet = t
    generalize (b.apply (applyBuilds s bs)).sent = o
    rw [ih]
    simp only [List.length_append, List.length_singleton, Function.iterate_succ_apply',
      State.mk.injEq, true_and, and_true]
    rw [and_16383]
    omega
theorem status_id (s : State) : packetId (lastPacket (status s)) = 0x0B05 := by
  obtain ⟨h6, h7⟩ := header_id _ _ _ _ _ (status_header s)
  unfold packetId
  rw [h6, h7]
  decide

theorem echo_id (s : State) (a h r : Nat) : packetId (lastPacket (echo s a h r)) = 0x0B01 := by
  obtain ⟨h6, h7⟩ := header_id _ _ _ _ _ (echo_header s a h r)
  unfold packetId
  rw [h6, h7]
  decide

theorem alarm_id (k : ALARM_STATE) (s : State) :
    packetId (lastPacket (alarm k s)) = 0x0B02 := by
  obtain ⟨h6, h7⟩ := header_id _ _ _ _ _ (alarm_header k s)
  unfold packetId
  rw [h6, h7]
  decide

theorem statusPackets_status (s : State) :
    statusPackets (status s) = statusPackets s ++ [lastPacket (status s)] := by
  unfold statusPackets
  rw [status_sent, List.filter_append]
  simp [isStatus, status_id]

/-- A time advance that reaches the configured interval sends one status
packet and clears the counter. -/
theorem updateTime_send (t : State) (hN : t.i_status_send ≠ 0)
    (hc : (t.status_send_counter + 1) % 65536 = t.i_status_send) :
    (statusPackets (instrumentUpdate .UPDATE_TIME t)).length = (statusPackets t).length + 1 ∧
    (instrumentUpdate .UPDATE_TIME t).sent.length = t.sent.length + 1 ∧
    (instrumentUpdate .UPDATE_TIME t).status_send_counter = 0 ∧
    (instrumentUpdate .UPDATE_TIME t).i_status_send = t.i_status_send := by
  unfold instrumentUpdate
  by_cases hf : t.flag_time_recieved = 1
  · simp only [hf, if_true, hc, hN, ne_eq, not_false_eq_true, and_self, status_fields]
    simp [statusPackets, status_sent, List.filter_append, isStatus, status_id]
  · simp only [hf, if_false, hc, hN, ne_eq, not_false_eq_true, and_self, if_true, status_fields]
    simp [statusPackets, status_sent, List.filter_append, isStatus, status_id]

/-- A time advance that does not reach the interval sends nothing. -/
theorem updateTime_quiet (t : State)
    (hc : ¬ ((t.status_send_counter + 1) % 65536 = t.i_status_send ∧ t.i_status_send ≠ 0)) :
    (instrumentUpdate .UPDATE_TIME t).sent = t.sent ∧
    (instrumentUpdate .UPDATE_TIME t).status_send_counter =
      (t.status_send_counter + 1) % 65536 ∧
    (instrumentUpdate .UPDATE_TIME t).i_status_send = t.i_status_send := by
  unfold instrumentUpdate
  by_cases hf : t.flag_time_recieved = 1
  · simp only [hf, if_true, hc, if_false, and_self]
  · simp only [hf, if_false, hc, and_self]
theorem advanceTime_succ (s : State) (k : Nat) :
    advanceTime s (k + 1) = instrumentUpdate .UPDATE_TIME (advanceTime s k) := by
  unfold advanceTime
  rw [Function.iterate_succ_apply']

/-- With a nonzero interval `N`, after `k = q * N + r` advances (`r < N`) the
counter is `r` and `q` status packets have been sent, and nothing else. -/
theorem advanceTime_inv (s : State) (N : Nat) (hN : 0 < N) (hN16 : N < 65536)
    (hi : s.i_status_send = N) (hc : s.status_send_counter = 0) (k : Nat) :
    ∃ q r, k = q * N + r ∧ r < N ∧ (advanceTime s k).status_send_counter = r ∧
      (advanceTime s k).i_status_send = N ∧
      (statusPackets (advanceTime s k)).length = (statusPackets s).length + q ∧
      (advanceTime s k).sent.length = s.sent.length + q := by
  induction k with
  | zero => exact ⟨0, 0, by simp, hN, hc, hi, rfl, rfl⟩
  | succ k ih =>
    obtain ⟨q, r, hk, hr, hcnt, hint, hst, hsent⟩ := ih
    rw [advanceTime_succ]
    by_cases hlast : r + 1 = N
    · have hc' : ((advanceTime s k).status_send_counter + 1) % 65536
          = (advanceTime s k).i_status_send := by
        rw [hcnt, hint]; omega
      obtain ⟨h1, h2, h3, h4⟩ := updateTime_send (advanceTime s k) (by rw [hint]; omega) hc'
      refine ⟨q + 1, 0, ?_, hN, h3, by rw [h4, hint], by rw [h1, hst]; omega,
        by rw [h2, hsent]; omega⟩
      rw [Nat.succ_mul]
      omega
    · have hc' : ¬ (((advanceTime s k).status_send_counter + 1) % 65536
          = (advanceTime s k).i_status_send ∧ (advanceTime s k).i_status_send ≠ 0) := by
        rw [hcnt, hint]; omega
      obtain ⟨h1, h2, h3⟩ := updateTime_quiet (advanceTime s k) hc'
      refine ⟨q, r + 1, by omega, by omega, ?_, by rw [h3, hint], by
        unfold statusPackets; rw [h1]; exact hst, by rw [h1, hsent]⟩
      rw [h2, hcnt]
      omega

/-- With the interval at zero no time advance sends anything. -/
theorem advanceTime_zero (s : State) (hi : s.i_status_send = 0) (k : Nat) :
    (advanceTime s k).sent = s.sent ∧ (advanceTime s k).i_status_send = 0 := by
  induction k with
  | zero => exact ⟨rfl, hi⟩
  | succ k ih =>
    rw [advanceTime_succ]
    obtain ⟨h1, _, h3⟩ := updateTime_quiet (advanceTime s k) (by rw [ih.2]; simp)
    exact ⟨h1.trans ih.1, h3.trans ih.2⟩
/-! ## One pass of the loop body while synchronised -/

theorem readByte_locked (s : State) (b : Nat) (hb : b < 256) (hsync : s.flag_sync_found = 1)
    (hr : s.g_read_count < 512) : readByte s b = nextByte s b := by
  unfold readByte nextByte
  have h2 : ((s.g_four_bytes % 16777216) * 256 + b % 256) &&& 0xFFFF
      = (s.g_four_bytes % 256) * 256 + b := by
    rw [and_65535]; omega
  have h3 : (s.g_read_count + 1) % 65536 = s.g_read_count + 1 := by omega
  simp only [shift4_eq, h2, hsync, h3, K_MAX_PACKET_SIZE, if_true]
  rw [if_neg (by omega), Nat.mod_eq_of_lt hb]

theorem getDataStep_early (s : State) (b : Nat) (hb : b < 256) (hsync : s.flag_sync_found = 1)
    (hne : s.g_read_count + 1 ≠ s.g_data_len) (hr : s.g_read_count < 512)
    (hsw : (switchState (nextByte s b)).flag_end_reached = 0) :
    getDataStep s b = advance (switchState (nextByte s b)) := by
  unfold getDataStep
  simp only [readByte_locked s b hb hsync hr]
  have hf : flagEnd (nextByte s b) = nextByte s b := by
    unfold flagEnd
    rw [if_neg]
    simp only [nextByte]
    omega
  simp only [hf]
  have he : endOfFrame (switchState (nextByte s b)) = switchState (nextByte s b) := by
    unfold endOfFrame
    rw [if_neg (by omega)]
  simp only [he]
  rfl

theorem getDataStep_mid (s : State) (b : Nat) (hb : b < 256) (hL : Locked s 1)
    (hsw : (switchState (nextByte s b)).flag_end_reached = 0) :
    getDataStep s b = advance (switchState (nextByte s b)) :=
  getDataStep_early s b hb hL.sync (by have := hL.lt; omega) (by have := hL.lt; have := hL.le; omega)
    hsw

theorem Locked.mono {s : State} {n m : Nat} (h : Locked s n) (hm : m ≤ n) : Locked s m :=
  ⟨h.sync, h.noend, by have := h.lt; omega, h.le⟩

theorem run_nil (s : State) : run s [] = s := rfl

theorem run_cons (s : State) (b : Nat) (bs : List Nat) :
    run s (b :: bs) = run (getDataStep s b) bs := rfl

theorem run_append (s : State) (xs ys : List Nat) :
    run s (xs ++ ys) = run (run s xs) ys := by
  simp [run, List.foldl_append]

theorem nextBytes_nil (s : State) : nextBytes s [] = s := rfl

theorem nextBytes_cons (s : State) (b : Nat) (bs : List Nat) :
    nextBytes s (b :: bs) = nextBytes (nextByte s b) bs := rfl

theorem nextBytes_append (s : State) (xs ys : List Nat) :
    nextBytes s (xs ++ ys) = nextBytes (nextBytes s xs) ys := by
  simp [nextBytes, List.foldl_append]

/-- The fields `nextBytes` changes. -/
theorem nextBytes_eq (s : State) (bs : List Nat) :
    nextBytes s bs =
      { s with
        new_byte := (nextBytes s bs).new_byte
        g_four_bytes := (nextBytes s bs).g_four_bytes
        g_two_bytes := (nextBytes s bs).g_two_bytes
        g_read_count := s.g_read_count + bs.length
        crc_total := crcFold s.crc_total bs } := by
  induction bs generalizing s with
  | nil => rfl
  | cons b bs ih =>
    rw [nextBytes_cons, ih]
    simp only [nextByte, List.length_cons, crcFold, List.foldl_cons]
    congr 1
    omega

theorem nextBytes_comm (upd : State → State)
    (h : ∀ s b, nextByte (upd s) b = upd (nextByte s b)) (s : State) (bs : List Nat) :
    nextBytes (upd s) bs = upd (nextBytes s bs) := by
  induction bs generalizing s with
  | nil => rfl
  | cons b bs ih => rw [nextBytes_cons, nextBytes_cons, h, ih]

/-! ## Steps in `E_REC_CMD_START` and `E_REC_CMD` -/

theorem step_cmdstart_idle (s : State) (b : Nat) (hb : b < 256) (hL : Locked s 1)
    (hst : s.state = .E_REC_CMD_START) (hns : s.next_state = .E_REC_CMD_START)
    (h2 : (s.g_four_bytes % 256) * 256 + b ≠ 0x1B00) (hidle : s.g_idle_count + 1 ≤ 2) :
    getDataStep s b = { nextByte s b with g_idle_count := s.g_idle_count + 1 } := by
  have hsw : switchState (nextByte s b) =
      { nextByte s b with g_idle_count := s.g_idle_count + 1 } := by
    have h1 : (s.g_idle_count + 1) % 256 = s.g_idle_count + 1 := by omega
    have h3 : ¬ (2 < s.g_idle_count + 1) := by omega
    simp [switchState, nextByte, hst, caseCmdStart, h1, h2, h3]
  rw [getDataStep_mid s b hb hL (by rw [hsw]; exact hL.noend), hsw]
  simp [advance, nextByte, hns, hst]

theorem step_cmdstart_match (s : State) (b : Nat) (hb : b < 256) (hL : Locked s 1)
    (hst : s.state = .E_REC_CMD_START)
    (h2 : (s.g_four_bytes % 256) * 256 + b = 0x1B00) (hnum : s.g_command_num < 255) :
    getDataStep s b =
      { nextByte s b with
        next_state := .E_REC_CMD
        state := .E_REC_CMD
        cmd_location_info := setWord s.cmd_location_info s.g_command_num s.g_cmd_read_total
        g_command_num := s.g_command_num + 1
        g_cmd_length := 0
        g_cmd_read_count := 0
        g_idle_count := 0 } := by
  have hsw : switchState (nextByte s b) =
      { nextByte s b with
        next_state := .E_REC_CMD
        cmd_location_info := setWord s.cmd_location_info s.g_command_num s.g_cmd_read_total
        g_command_num := s.g_command_num + 1
        g_cmd_length := 0
        g_cmd_read_count := 0
        g_idle_count := 0 } := by
    have h1 : (s.g_command_num + 1) % 256 = s.g_command_num + 1 := by omega
    simp [switchState, nextByte, hst, caseCmdStart, h1, h2]
  rw [getDataStep_mid s b hb hL (by rw [hsw]; exact hL.noend), hsw]
  simp [advance, nextByte]

theorem step_cmd_skip (s : State) (b : Nat) (hb : b < 256) (hL : Locked s 1)
    (hst : s.state = .E_REC_CMD) (hns : s.next_state = .E_REC_CMD)
    (hc6 : s.g_cmd_read_count + 1 ≠ 6) (hc10 : s.g_cmd_read_count + 1 ≤ 10)
    (hlen : s.g_cmd_read_count + 1 ≠ s.g_cmd_length + 7) (htot : s.g_cmd_read_total < 512) :
    getDataStep s b =
      { nextByte s b with
        g_cmd_read_total := s.g_cmd_read_total + 1
        g_cmd_read_count := s.g_cmd_read_count + 1 } := by
  have hsw : switchState (nextByte s b) =
      { nextByte s b with
        g_cmd_read_total := s.g_cmd_read_total + 1
        g_cmd_read_count := s.g_cmd_read_count + 1 } := by
    have h1 : (s.g_cmd_read_total + 1) % 65536 = s.g_cmd_read_total + 1 := by omega
    have h2 : (s.g_cmd_read_count + 1) % 65536 = s.g_cmd_read_count + 1 := by omega
    have h3 : ¬ (10 < s.g_cmd_read_count + 1) := by omega
    simp [switchState, nextByte, hst, caseCmd, h1, h2, h3, hc6, hlen, K_INS_DATA_LEN_OFFSET,
      K_INS_HEADER_OFFSET]
  rw [getDataStep_mid s b hb hL (by rw [hsw]; exact hL.noend), hsw]
  simp [advance, nextByte, hns, hst]

theorem step_cmd_length_ok (s : State) (b : Nat) (hb : b < 256) (hL : Locked s 1)
    (hst : s.state = .E_REC_CMD) (hns : s.next_state = .E_REC_CMD)
    (hc : s.g_cmd_read_count = 5) (len : Nat)
    (h2 : (s.g_four_bytes % 256) * 256 + b = len) (hlen : 1 ≤ len ∧ len ≤ 245)
    (htot : s.g_cmd_read_total < 512) :
    getDataStep s b =
      { nextByte s b with
        g_cmd_read_total := s.g_cmd_read_total + 1
        g_cmd_read_count := 6
        g_cmd_length := len + 11
        cmd_location_info := setWord s.cmd_location_info s.g_command_num (len + 65533) } := by
  have hsw : switchState (nextByte s b) =
      { nextByte s b with
        g_cmd_read_total := s.g_cmd_read_total + 1
        g_cmd_read_count := 6
        g_cmd_length := len + 11
        cmd_location_info := setWord s.cmd_location_info s.g_command_num (len + 65533) } := by
    have h1 : (s.g_cmd_read_total + 1) % 65536 = s.g_cmd_read_total + 1 := by omega
    have h3 : ¬ (len + 11 < 12) := by omega
    have h4 : ¬ (256 < len + 11) := by omega
    have h5 : (len + 11) % 65536 = len + 11 := by omega
    simp [switchState, nextByte, hst, caseCmd, h1, h2, h3, h4, h5, hc, K_INS_DATA_LEN_OFFSET,
      K_INS_HEADER_OFFSET, K_MIN_CMD_SIZE, K_MAX_CMD_SIZE]
  rw [getDataStep_mid s b hb hL (by rw [hsw]; exact hL.noend), hsw]
  simp [advance, nextByte, hns, hst]

theorem step_cmd_store (s : State) (b : Nat) (hb : b < 256) (hL : Locked s 1)
    (hst : s.state = .E_REC_CMD) (hns : s.next_state = .E_REC_CMD)
    (hc10 : 10 < s.g_cmd_read_count + 1) (hc : s.g_cmd_read_count < 512)
    (hpad : b ≠ 0 ∨ s.g_cmd_read_count ≠ s.g_cmd_length)
    (hlen : s.g_cmd_read_count + 1 ≠ s.g_cmd_length + 7) (htot : s.g_cmd_read_total < 512) :
    getDataStep s b =
      { nextByte s b with
        g_cmd_read_total := s.g_cmd_read_total + 1
        g_cmd_read_count := s.g_cmd_read_count + 1
        cmd_packets := setByte s.cmd_packets (s.g_cmd_read_total - 10) b } := by
  have hsw : switchState (nextByte s b) =
      { nextByte s b with
        g_cmd_read_total := s.g_cmd_read_total + 1
        g_cmd_read_count := s.g_cmd_read_count + 1
        cmd_packets := setByte s.cmd_packets (s.g_cmd_read_total - 10) b } := by
    have h1 : (s.g_cmd_read_total + 1) % 65536 = s.g_cmd_read_total + 1 := by omega
    have h2 : (s.g_cmd_read_count + 1) % 65536 = s.g_cmd_read_count + 1 := by omega
    have h3 : s.g_cmd_read_count + 1 ≠ 6 := by omega
    have h4 : ¬ (2460 < s.g_cmd_read_total + 1) := by omega
    have h5 : ¬ (b = 0 ∧ s.g_cmd_read_count = s.g_cmd_length) := by
      rintro ⟨h, h'⟩; rcases hpad with hp | hp <;> contradiction
    have h6 : s.g_cmd_read_total - 9 - 1 = s.g_cmd_read_total - 10 := by omega
    simp [switchState, nextByte, hst, caseCmd, h1, h2, h3, h4, h5, h6, hc10, hlen,
      K_INS_DATA_LEN_OFFSET, K_INS_HEADER_OFFSET, K_MAX_CMD_SIZE, K_MAX_CMDS]
  rw [getDataStep_mid s b hb hL (by rw [hsw]; exact hL.noend), hsw]
  simp [advance, nextByte, hns, hst]

theorem step_cmd_drop (s : State) (hL : Locked s 1)
    (hst : s.state = .E_REC_CMD) (hns : s.next_state = .E_REC_CMD)
    (hc10 : 10 < s.g_cmd_read_count + 1) (hc : s.g_cmd_read_count = s.g_cmd_length)
    (hc512 : s.g_cmd_read_count < 512) (htot : s.g_cmd_read_total < 512) :
    getDataStep s 0 =
      { nextByte s 0 with
        g_cmd_read_count := s.g_cmd_read_count + 1
        cmd_location_info := setWord s.cmd_location_info s.g_command_num
          (s.cmd_location_info s.g_command_num + 65535) } := by
  have hsw : switchState (nextByte s 0) =
      { nextByte s 0 with
        g_cmd_read_count := s.g_cmd_read_count + 1
        cmd_location_info := setWord s.cmd_location_info s.g_command_num
          (s.cmd_location_info s.g_command_num + 65535) } := by
    have h1 : (s.g_cmd_read_total + 1) % 65536 = s.g_cmd_read_total + 1 := by omega
    have h2 : (s.g_cmd_read_count + 1) % 65536 = s.g_cmd_read_count + 1 := by omega
    have h3 : s.g_cmd_read_count + 1 ≠ 6 := by omega
    have h4 : ¬ (2460 < s.g_cmd_read_total + 1) := by omega
    have h6 : (s.g_cmd_read_total + 1 + 65535) % 65536 = s.g_cmd_read_total := by omega
    have h8 : 10 < s.g_cmd_length + 1 := by omega
    rw [hc] at h2 h3
    simp [switchState, nextByte, hst, caseCmd, h1, h2, h3, h4, h6, h8, hc,
      K_INS_DATA_LEN_OFFSET, K_INS_HEADER_OFFSET, K_MAX_CMD_SIZE, K_MAX_CMDS]
  rw [getDataStep_mid s 0 (by decide) hL (by rw [hsw]; exact hL.noend), hsw]
  simp [advance, nextByte, hns, hst]

theorem step_cmd_done (s : State) (b : Nat) (hb : b < 256) (hL : Locked s 1)
    (hst : s.state = .E_REC_CMD)
    (hc10 : 10 < s.g_cmd_read_count + 1) (hc : s.g_cmd_read_count < 512)
    (hlen : s.g_cmd_read_count + 1 = s.g_cmd_length + 7) (htot : s.g_cmd_read_total < 512)
    (hnum : s.g_command_num < 255) :
    getDataStep s b =
      { nextByte s b with
        g_cmd_read_total := s.g_cmd_read_total + 1
        g_cmd_read_count := s.g_cmd_read_count + 1
        cmd_packets := setByte s.cmd_packets (s.g_cmd_read_total - 10) b
        next_state := .E_REC_CMD_START
        state := .E_REC_CMD_START
        g_command_num := s.g_command_num + 1 } := by
  have hsw : switchState (nextByte s b) =
      { nextByte s b with
        g_cmd_read_total := s.g_cmd_read_total + 1
        g_cmd_read_count := s.g_cmd_read_count + 1
        cmd_packets := setByte s.cmd_packets (s.g_cmd_read_total - 10) b
        next_state := .E_REC_CMD_START
        g_command_num := s.g_command_num + 1 } := by
    have h1 : (s.g_cmd_read_total + 1) % 65536 = s.g_cmd_read_total + 1 := by omega
    have h2 : (s.g_cmd_length + 7) % 65536 = s.g_cmd_length + 7 := by omega
    have h3 : s.g_cmd_length + 7 ≠ 6 := by omega
    have h4 : ¬ (2460 < s.g_cmd_read_total + 1) := by omega
    have h6 : (s.g_command_num + 1) % 256 = s.g_command_num + 1 := by omega
    have h7 : s.g_cmd_read_total - 9 - 1 = s.g_cmd_read_total - 10 := by omega
    have h8 : 10 < s.g_cmd_length + 7 := by omega
    simp [switchState, nextByte, hst, caseCmd, h1, h2, h3, h4, h6, h7, h8, hlen,
      K_INS_DATA_LEN_OFFSET, K_INS_HEADER_OFFSET, K_MAX_CMD_SIZE, K_MAX_CMDS]
  rw [getDataStep_mid s b hb hL (by rw [hsw]; exact hL.noend), hsw]
  simp [advance, nextByte]

/-! ## What the cases of the switch leave alone -/

theorem caseTime_eq (s : State) :
    caseTime s = timeEnd (timeReserved (timeCapture (timeLength s))) := rfl

theorem caseCmdStart_eq (s : State) : caseCmdStart s = cmdStartIdle (cmdStartHeader s) := rfl

theorem caseCmd_eq (s : State) : caseCmd s = cmdDone (cmdStore (cmdLength (cmdCount s))) := rfl

theorem alarm_out (k : ALARM_STATE) (t : State) (hk : k ≠ .ITF_CHECKSUM) :
    ∃ ps, (alarm k t).sent = t.sent ++ ps ∧ AlarmsOnly ps := by
  refine ⟨[lastPacket (alarm k t)], alarm_sent k t, ?_⟩
  intro p hp
  rw [List.mem_singleton] at hp
  subst hp
  refine ⟨alarm_id k t, ?_⟩
  rw [(alarm_body_bytes k t).2.2.1]
  cases k <;> simp [alarmValue] at hk ⊢

theorem no_out (l : List (List Nat)) : ∃ ps, l = l ++ ps ∧ AlarmsOnly ps :=
  ⟨[], by simp, fun _ h => absurd h (List.not_mem_nil _)⟩

theorem Kept.refl (t : State) : Kept t t :=
  ⟨rfl, rfl, rfl, rfl, rfl, rfl, rfl, Or.inl rfl, rfl, Or.inl rfl, no_out _⟩

theorem Kept.trans {a b c : State} (h1 : Kept a b) (h2 : Kept b c) : Kept a c := by
  refine ⟨h2.state.trans h1.state, h2.sync.trans h1.sync, h2.fend.trans h1.fend,
    h2.rc.trans h1.rc, h2.dl.trans h1.dl, h2.crc.trans h1.crc, h2.time.trans h1.time, ?_,
    h2.tot.trans h1.tot, ?_, ?_⟩
  · rcases h2.next with h | h
    · rw [h]; exact h1.next
    · exact Or.inr h
  · rcases h2.cnt with h | h
    · rw [h]; exact h1.cnt
    · exact Or.inr h
  · obtain ⟨p1, e1, a1⟩ := h1.out
    obtain ⟨p2, e2, a2⟩ := h2.out
    refine ⟨p1 ++ p2, by rw [e2, e1, List.append_assoc], ?_⟩
    intro p hp
    rcases List.mem_append.1 hp with h | h
    · exact a1 p h
    · exact a2 p h

theorem Kept.alarm (k : ALARM_STATE) (t : State) (hk : k ≠ .ITF_CHECKSUM) :
    Kept t (alarm k t) :=
  ⟨rfl, rfl, rfl, rfl, rfl, rfl, rfl, Or.inl rfl, rfl, Or.inl rfl, alarm_out k t hk⟩

theorem caseTimeStart_kept (t : State) : Kept t (caseTimeStart t) := by
  unfold caseTimeStart
  dsimp only
  split_ifs <;>
  first
  | exact Kept.refl t
  | exact ⟨rfl, rfl, rfl, rfl, rfl, rfl, rfl, by simp [alarm_fields], rfl, by simp [alarm_fields], no_out _⟩
  | exact ⟨rfl, rfl, rfl, rfl, rfl, rfl, rfl, by simp [alarm_fields], rfl, by simp [alarm_fields],
      alarm_out _ _ (by decide)⟩

theorem timeLength_kept (t : State) : Kept t (timeLength t) := by
  unfold timeLength
  split_ifs
  · exact ⟨rfl, rfl, rfl, rfl, rfl, rfl, rfl, by simp [alarm_fields], rfl, by simp [alarm_fields], alarm_out _ _ (by decide)⟩
  · exact Kept.refl t

theorem timeCapture_kept (t : State) : Kept t (timeCapture t) := by
  unfold timeCapture
  split_ifs
  · exact ⟨rfl, rfl, rfl, rfl, rfl, rfl, rfl, by simp [alarm_fields], rfl, by simp [alarm_fields], no_out _⟩
  · exact Kept.refl t

theorem timeReserved_kept (t : State) : Kept t (timeReserved t) := by
  unfold timeReserved
  split_ifs
  · exact ⟨rfl, rfl, rfl, rfl, rfl, rfl, rfl, by simp [alarm_fields], rfl, by simp [alarm_fields], no_out _⟩
  · exact Kept.refl t

theorem timeEnd_kept (t : State) : Kept t (timeEnd t) := by
  unfold timeEnd
  dsimp only
  split_ifs
  · exact ⟨rfl, rfl, rfl, rfl, rfl, rfl, rfl, by simp [alarm_fields], rfl, by simp [alarm_fields], alarm_out _ _ (by decide)⟩
  · exact ⟨rfl, rfl, rfl, rfl, rfl, rfl, rfl, by simp [alarm_fields], rfl, by simp [alarm_fields], no_out _⟩
  · exact Kept.refl t

theorem caseTime_kept (t : State) : Kept t (caseTime t) := by
  rw [caseTime_eq]
  exact ((((timeLength_kept t).trans (timeCapture_kept _)).trans (timeReserved_kept _)).trans
    (timeEnd_kept _))

theorem cmdStartHeader_kept (t : State) : Kept t (cmdStartHeader t) := by
  unfold cmdStartHeader
  dsimp only
  split_ifs
  · exact ⟨rfl, rfl, rfl, rfl, rfl, rfl, rfl, by simp [alarm_fields], rfl, by simp [alarm_fields], no_out _⟩
  · exact ⟨rfl, rfl, rfl, rfl, rfl, rfl, rfl, by simp [alarm_fields], rfl, by simp [alarm_fields], no_out _⟩

theorem cmdStartIdle_kept (t : State) : Kept t (cmdStartIdle t) := by
  unfold cmdStartIdle
  dsimp only
  split_ifs
  · exact ⟨rfl, rfl, rfl, rfl, rfl, rfl, rfl, by simp [alarm_fields], rfl, by simp [alarm_fields], alarm_out _ _ (by decide)⟩
  · exact ⟨rfl, rfl, rfl, rfl, rfl, rfl, rfl, by simp [alarm_fields], rfl, by simp [alarm_fields], alarm_out _ _ (by decide)⟩
  · exact ⟨rfl, rfl, rfl, rfl, rfl, rfl, rfl, by simp [alarm_fields], rfl, by simp [alarm_fields], no_out _⟩
  · exact Kept.refl t

theorem caseCmdStart_kept (t : State) : Kept t (caseCmdStart t) := by
  rw [caseCmdStart_eq]
  exact (cmdStartHeader_kept t).trans (cmdStartIdle_kept _)

theorem Kept.frame {t t' : State} (h : Kept t t') (hc : CntOK t) : Frame t t' := by
  refine ⟨h.state, h.sync, h.fend, h.rc, h.dl, h.crc, h.time, h.next, by rw [h.tot]; omega, ?_,
    h.out⟩
  unfold CntOK at hc ⊢
  rw [h.tot]
  rcases h.cnt with e | e
  · rw [e]; exact hc
  · rw [e]; exact ⟨by omega, fun _ => Nat.zero_le _⟩

theorem cmdLength_frame (u : State) (hc : CntOK u) (ht : u.g_cmd_read_total ≤ 512) :
    Frame u (cmdLength u) ∧ (cmdLength u).g_cmd_read_total ≤ u.g_cmd_read_total ∧
      (10 < (cmdLength u).g_cmd_read_count →
        (cmdLength u).g_cmd_read_total = u.g_cmd_read_total) := by
  unfold cmdLength
  dsimp only
  split_ifs with h1 h2
  · have e1 : (u.g_cmd_read_total + 65530) % 65536 = u.g_cmd_read_total - 6 := by
      simp only [K_INS_DATA_LEN_OFFSET] at h1
      unfold CntOK at hc
      omega
    have e2 : (u.g_cmd_read_count + 65530) % 65536 = 0 := by
      simp only [K_INS_DATA_LEN_OFFSET] at h1
      omega
    refine ⟨⟨rfl, rfl, rfl, rfl, rfl, rfl, rfl, by simp, ?_, ?_, alarm_out _ _ (by decide)⟩, ?_, ?_⟩
    · show (u.g_cmd_read_total + 65530) % 65536 ≤ u.g_cmd_read_total + 1
      omega
    · show (u.g_cmd_read_count + 65530) % 65536 < 65536 ∧
        ((u.g_cmd_read_count + 65530) % 65536 ≤ 10 →
          (u.g_cmd_read_count + 65530) % 65536 ≤ (u.g_cmd_read_total + 65530) % 65536)
      rw [e2]; exact ⟨by omega, fun _ => Nat.zero_le _⟩
    · show (u.g_cmd_read_total + 65530) % 65536 ≤ u.g_cmd_read_total
      omega
    · show 10 < (u.g_cmd_read_count + 65530) % 65536 → _
      rw [e2]; intro h; omega
  · exact ⟨⟨rfl, rfl, rfl, rfl, rfl, rfl, rfl, Or.inl rfl, Nat.le_succ _, hc, no_out _⟩,
      Nat.le_refl _, fun _ => rfl⟩
  · exact ⟨⟨rfl, rfl, rfl, rfl, rfl, rfl, rfl, Or.inl rfl, Nat.le_succ _, hc, no_out _⟩,
      Nat.le_refl _, fun _ => rfl⟩

theorem cmdStore_frame (v : State) (hc : CntOK v) (ht : v.g_cmd_read_total ≤ 512)
    (h1 : 10 < v.g_cmd_read_count → 1 ≤ v.g_cmd_read_total) :
    Frame v (cmdStore v) ∧ (cmdStore v).g_cmd_read_total ≤ v.g_cmd_read_total := by
  unfold cmdStore
  dsimp only
  split_ifs with h2 h3 h4
  · simp only [K_MAX_CMD_SIZE, K_MAX_CMDS] at h3
    omega
  · simp only [K_INS_HEADER_OFFSET] at h2
    have e1 : (v.g_cmd_read_total + 65535) % 65536 = v.g_cmd_read_total - 1 := by
      have := h1 h2
      omega
    refine ⟨⟨rfl, rfl, rfl, rfl, rfl, rfl, rfl, Or.inl rfl, ?_, ?_, no_out _⟩, ?_⟩
    · show (v.g_cmd_read_total + 65535) % 65536 ≤ v.g_cmd_read_total + 1
      omega
    · show v.g_cmd_read_count < 65536 ∧ (v.g_cmd_read_count ≤ 10 → _)
      exact ⟨hc.1, fun h => by omega⟩
    · show (v.g_cmd_read_total + 65535) % 65536 ≤ v.g_cmd_read_total
      omega
  · exact ⟨⟨rfl, rfl, rfl, rfl, rfl, rfl, rfl, Or.inl rfl, Nat.le_succ _, hc, no_out _⟩,
      Nat.le_refl _⟩
  · exact ⟨⟨rfl, rfl, rfl, rfl, rfl, rfl, rfl, Or.inl rfl, Nat.le_succ _, hc, no_out _⟩,
      Nat.le_refl _⟩

theorem cmdDone_kept (w : State) : Kept w (cmdDone w) := by
  unfold cmdDone
  split_ifs
  · exact ⟨rfl, rfl, rfl, rfl, rfl, rfl, rfl, by simp, rfl, Or.inl rfl, no_out _⟩
  · exact Kept.refl w

theorem Frame.chain {a b c : State} (h1 : Frame a b) (h2 : Frame b c)
    (ht : c.g_cmd_read_total ≤ a.g_cmd_read_total + 1) : Frame a c := by
  refine ⟨h2.state.trans h1.state, h2.sync.trans h1.sync, h2.fend.trans h1.fend,
    h2.rc.trans h1.rc, h2.dl.trans h1.dl, h2.crc.trans h1.crc, h2.time.trans h1.time, ?_,
    ht, h2.cnt, ?_⟩
  · rcases h2.next with h | h
    · rw [h]; exact h1.next
    · exact Or.inr h
  · obtain ⟨p1, e1, a1⟩ := h1.out
    obtain ⟨p2, e2, a2⟩ := h2.out
    refine ⟨p1 ++ p2, by rw [e2, e1, List.append_assoc], ?_⟩
    intro p hp
    rcases List.mem_append.1 hp with h | h
    · exact a1 p h
    · exact a2 p h

theorem cmdCount_frame (t : State) (ht : t.g_cmd_read_total ≤ 511) (hc : CntOK t) :
    Frame t (cmdCount t) ∧ (cmdCount t).g_cmd_read_total = t.g_cmd_read_total + 1 := by
  unfold cmdCount
  dsimp only
  unfold CntOK at hc
  have e : (t.g_cmd_read_total + 1) % 65536 = t.g_cmd_read_total + 1 := by omega
  refine ⟨⟨rfl, rfl, rfl, rfl, rfl, rfl, rfl, Or.inl rfl, ?_, ?_, no_out _⟩, e⟩
  · show (t.g_cmd_read_total + 1) % 65536 ≤ t.g_cmd_read_total + 1
    omega
  · show (t.g_cmd_read_count + 1) % 65536 < 65536 ∧ ((t.g_cmd_read_count + 1) % 65536 ≤ 10 →
      (t.g_cmd_read_count + 1) % 65536 ≤ (t.g_cmd_read_total + 1) % 65536)
    omega

theorem caseCmd_frame (t : State) (ht : t.g_cmd_read_total ≤ 511) (hc : CntOK t) :
    Frame t (caseCmd t) := by
  rw [caseCmd_eq]
  obtain ⟨f1, e1⟩ := cmdCount_frame t ht hc
  obtain ⟨f2, l2, k2⟩ := cmdLength_frame (cmdCount t) f1.cnt (by omega)
  obtain ⟨f3, l3⟩ := cmdStore_frame (cmdLength (cmdCount t)) f2.cnt (by omega)
    (fun h => by rw [k2 h]; omega)
  have f4 := (cmdDone_kept (cmdStore (cmdLength (cmdCount t)))).frame f3.cnt
  have t4 := (cmdDone_kept (cmdStore (cmdLength (cmdCount t)))).tot
  exact ((f1.chain f2 (by omega)).chain f3 (by omega)).chain f4 (by omega)
/-! ## A pass of the loop inside the body of a frame -/

theorem switch_frame (t : State)
    (hst : t.state = .E_REC_TIME_START ∨ t.state = .E_REC_TIME ∨ t.state = .E_REC_CMD_START ∨
      t.state = .E_REC_CMD)
    (ht : t.g_cmd_read_total ≤ 511) (hc : CntOK t) : Frame t (switchState t) := by
  unfold switchState
  rcases hst with h | h | h | h <;> rw [h] <;> dsimp only
  · exact (caseTimeStart_kept t).frame hc
  · exact (caseTime_kept t).frame hc
  · exact (caseCmdStart_kept t).frame hc
  · exact caseCmd_frame t ht hc

theorem readByte_mod (s : State) (b : Nat) : readByte s b = readByte s (b % 256) := by
  unfold readByte
  simp only [Nat.mod_mod]

theorem getDataStep_mod (s : State) (b : Nat) : getDataStep s b = getDataStep s (b % 256) := by
  unfold getDataStep
  rw [readByte_mod]

theorem Quiet.reset (s : State) : Quiet (reset s) := ⟨rfl, rfl, rfl, rfl, rfl, rfl, rfl⟩

theorem Inv.afterReset (s : State) : Inv (advance (reset s)) :=
  ⟨rfl, rfl, Or.inl ⟨rfl, rfl, rfl, rfl, rfl, rfl, rfl⟩⟩

theorem body_step_mid (s : State) (b : Nat) (hb : b < 256) (hI : Inv s) (hB : Body s)
    (hlt : s.g_read_count + 1 < s.g_data_len) :
    getDataStep s b = advance (switchState (nextByte s b)) ∧
    Frame (nextByte s b) (switchState (nextByte s b)) ∧
    Inv (advance (switchState (nextByte s b))) ∧ Body (advance (switchState (nextByte s b))) := by
  have hL : Locked s 1 := ⟨hB.sync, hI.fend, hlt, hB.dl.2⟩
  have hF : Frame (nextByte s b) (switchState (nextByte s b)) :=
    switch_frame _ hB.state (by show s.g_cmd_read_total ≤ 511; have := hB.tot; have := hB.dl; have := hB.lt; omega)
      hB.cnt
  have hfe : (switchState (nextByte s b)).flag_end_reached = 0 := by
    rw [hF.fend]; exact hI.fend
  have hn : (switchState (nextByte s b)).next_state = .E_REC_TIME_START ∨
      (switchState (nextByte s b)).next_state = .E_REC_TIME ∨
      (switchState (nextByte s b)).next_state = .E_REC_CMD_START ∨
      (switchState (nextByte s b)).next_state = .E_REC_CMD := by
    rcases hF.next with h | h | h | h
    · rw [h]
      show s.next_state = _ ∨ s.next_state = _ ∨ s.next_state = _ ∨ s.next_state = _
      rw [hI.next]
      exact hB.state
    · exact Or.inr (Or.inl h)
    · exact Or.inr (Or.inr (Or.inr h))
    · exact Or.inr (Or.inr (Or.inl h))
  refine ⟨getDataStep_mid s b hb hL hfe, hF, ⟨rfl, hfe, Or.inr (Or.inr ?_)⟩, ?_⟩
  all_goals
    refine ⟨hn, ?_, ?_, ?_, ?_, ?_, hF.cnt⟩
    · show (switchState (nextByte s b)).flag_sync_found = 1
      rw [hF.sync]; exact hB.sync
    · show 6 ≤ (switchState (nextByte s b)).g_read_count
      rw [hF.rc]; show 6 ≤ s.g_read_count + 1; have := hB.rc; omega
    · show (switchState (nextByte s b)).g_read_count < (switchState (nextByte s b)).g_data_len
      rw [hF.rc, hF.dl]; exact hlt
    · show 11 ≤ (switchState (nextByte s b)).g_data_len ∧ (switchState (nextByte s b)).g_data_len ≤ 511
      rw [hF.dl]; exact hB.dl
    · show (switchState (nextByte s b)).g_cmd_read_total ≤ (switchState (nextByte s b)).g_read_count
      rw [hF.rc]
      have := hF.tot
      have := hB.tot
      show _ ≤ s.g_read_count + 1
      have e : (nextByte s b).g_cmd_read_total = s.g_cmd_read_total := rfl
      omega

theorem body_step_end (s : State) (b : Nat) (hb : b < 256) (hB : Body s)
    (heq : s.g_read_count + 1 = s.g_data_len) :
    getDataStep s b =
      advance (reset (frameEnd (switchState { nextByte s b with flag_end_reached := 1 }))) ∧
    Frame { nextByte s b with flag_end_reached := 1 }
      (switchState { nextByte s b with flag_end_reached := 1 }) := by
  have hF : Frame { nextByte s b with flag_end_reached := 1 }
      (switchState { nextByte s b with flag_end_reached := 1 }) :=
    switch_frame _ hB.state (by show s.g_cmd_read_total ≤ 511; have := hB.tot; have := hB.dl; have := hB.lt; omega)
      hB.cnt
  refine ⟨?_, hF⟩
  unfold getDataStep
  have hr : readByte s b = nextByte s b :=
    readByte_locked s b hb hB.sync (by have := hB.dl; have := hB.lt; omega)
  have hf : flagEnd (nextByte s b) = { nextByte s b with flag_end_reached := 1 } := by
    unfold flagEnd
    rw [if_pos]
    refine ⟨heq, ?_⟩
    show s.g_read_count + 1 ≥ K_INS_DATA_LEN_OFFSET
    have := hB.rc
    simp only [K_INS_DATA_LEN_OFFSET]
    omega
  simp only [hr, hf]
  have he : endOfFrame (switchState { nextByte s b with flag_end_reached := 1 }) =
      reset (frameEnd (switchState { nextByte s b with flag_end_reached := 1 })) := by
    unfold endOfFrame frameEnd
    rw [if_pos (by rw [hF.fend])]
  rw [he]
  rfl
/-! ## A pass of the loop before the body of a frame -/

theorem updateTime_recv (s : State) :
    (instrumentUpdate .UPDATE_TIME s).state = s.state ∧
    (instrumentUpdate .UPDATE_TIME s).next_state = s.next_state ∧
    (instrumentUpdate .UPDATE_TIME s).flag_sync_found = s.flag_sync_found ∧
    (instrumentUpdate .UPDATE_TIME s).flag_end_reached = s.flag_end_reached ∧
    (instrumentUpdate .UPDATE_TIME s).g_read_count = s.g_read_count ∧
    (instrumentUpdate .UPDATE_TIME s).g_data_len = s.g_data_len ∧
    (instrumentUpdate .UPDATE_TIME s).crc_total = s.crc_total ∧
    (instrumentUpdate .UPDATE_TIME s).g_cmd_read_total = s.g_cmd_read_total ∧
    (instrumentUpdate .UPDATE_TIME s).g_cmd_read_count = s.g_cmd_read_count := by
  unfold instrumentUpdate
  dsimp only
  split_ifs <;> exact ⟨rfl, rfl, rfl, rfl, rfl, rfl, rfl, rfl, rfl⟩

theorem endOfFrame_noflag (x : State) (h : x.flag_end_reached = 0) : endOfFrame x = x := by
  unfold endOfFrame
  rw [if_neg (by rw [h]; decide)]

theorem readByte_quiet (s : State) (b : Nat) (h : s.flag_sync_found = 0) :
    readByte s b = shiftIn s b := by
  unfold readByte
  dsimp only
  rw [if_neg (by rw [h]; decide)]
  rfl

theorem flagEnd_early (x : State) (h : x.g_read_count ≠ x.g_data_len ∨ x.g_read_count < 6) :
    flagEnd x = x := by
  unfold flagEnd
  rw [if_neg]
  simp only [K_INS_DATA_LEN_OFFSET]
  omega

theorem caseIdle_eq (x : State) :
    caseIdle x = if x.g_four_bytes = SYNC then instrumentUpdate .UPDATE_TIME (synced x) else x :=
  rfl

theorem quiet_step_eq (s : State) (b : Nat) (hI : Inv s) (hQ : Quiet s) :
    getDataStep s b = advance (caseIdle (shiftIn s b)) := by
  unfold getDataStep
  dsimp only
  rw [readByte_quiet s b hQ.sync,
    flagEnd_early _ (Or.inr (by show s.g_read_count < 6; rw [hQ.rc]; decide))]
  have hs : switchState (shiftIn s b) = caseIdle (shiftIn s b) := by
    unfold switchState
    have : (shiftIn s b).state = .E_REC_IDLE := hQ.state
    rw [this]
  rw [hs, endOfFrame_noflag]
  · rfl
  · rw [caseIdle_eq]
    split_ifs
    · rw [(updateTime_recv _).2.2.2.1]; exact hI.fend
    · exact hI.fend

theorem quiet_step (s : State) (b : Nat) (hI : Inv s) (hQ : Quiet s) :
    Inv (getDataStep s b) := by
  rw [quiet_step_eq s b hI hQ, caseIdle_eq]
  split_ifs with h
  · obtain ⟨e1, e2, e3, e4, e5, e6, e7, e8, e9⟩ := updateTime_recv (synced (shiftIn s b))
    refine ⟨rfl, ?_, Or.inr (Or.inl ⟨?_, ?_, ?_, ?_, ?_, ?_⟩)⟩
    · show (instrumentUpdate .UPDATE_TIME _).flag_end_reached = 0
      rw [e4]; exact hI.fend
    · show (instrumentUpdate .UPDATE_TIME _).next_state = _
      rw [e2]; rfl
    · show (instrumentUpdate .UPDATE_TIME _).flag_sync_found = _
      rw [e3]; rfl
    · show (instrumentUpdate .UPDATE_TIME _).g_read_count = 4 ∨ _
      rw [e5]; exact Or.inl rfl
    · show (instrumentUpdate .UPDATE_TIME _).g_data_len = 0
      rw [e6]; exact hQ.dl
    · show (instrumentUpdate .UPDATE_TIME _).g_cmd_read_total = 0
      rw [e8]; exact hQ.tot
    · show (instrumentUpdate .UPDATE_TIME _).g_cmd_read_count = 0
      rw [e9]; exact hQ.cnt
  · exact ⟨rfl, hI.fend, Or.inl ⟨hI.next.trans hQ.state, hQ.sync, hQ.rc, hQ.dl, hQ.crc, hQ.tot, hQ.cnt⟩⟩
/-! ## The loop invariant -/

theorem and_8191 (x : Nat) : x &&& 0x1FFF = x % 8192 :=
  Nat.and_pow_two_sub_one_eq_mod x 13

theorem caseLength_other (t : State) (h : t.g_read_count ≠ 6) : caseLength t = t := by
  unfold caseLength
  rw [if_neg (by simpa [K_INS_DATA_LEN_OFFSET] using h)]

/-- The two outcomes of the length test: a reset, or the frame accepted. -/
theorem caseLength_cases (t : State) (h6 : t.g_read_count = 6) :
    (∃ u, caseLength t = reset u) ∨
    (t.g_two_bytes &&& 0xE000 = 0 ∧ 10 < t.g_two_bytes % 8192 + 6 ∧
      t.g_two_bytes % 8192 + 6 < 512 ∧
      caseLength t =
        { t with g_data_len := t.g_two_bytes % 8192 + 6, next_state := .E_REC_TIME_START }) := by
  unfold caseLength
  rw [if_pos (by simpa [K_INS_DATA_LEN_OFFSET] using h6)]
  dsimp only
  have e : ((t.g_two_bytes &&& 0x1FFF) + K_INS_DATA_LEN_OFFSET) % 65536 = t.g_two_bytes % 8192 + 6 := by
    rw [and_8191]
    simp only [K_INS_DATA_LEN_OFFSET]
    omega
  rw [e]
  by_cases hf : 0 ≠ (t.g_two_bytes &&& 0xE000)
  · rw [if_pos hf]
    left
    rw [if_neg]
    · exact ⟨_, rfl⟩
    · show ¬ ((0 : Nat) < K_MAX_PACKET_SIZE ∧ (0 : Nat) > K_MIN_PACKET_SIZE)
      simp [K_MIN_PACKET_SIZE]
  · rw [if_neg hf]
    dsimp only
    simp only [K_MAX_PACKET_SIZE, K_MIN_PACKET_SIZE]
    split_ifs with hb
    · right
      exact ⟨by omega, hb.2, hb.1, rfl⟩
    · left
      exact ⟨_, rfl⟩

theorem len_step_eq (s : State) (b : Nat) (hb : b < 256) (hI : Inv s) (hL : Len s) :
    getDataStep s b = advance (caseLength (nextByte s b)) := by
  have hr : s.g_read_count < 512 := by rcases hL.rc with h | h <;> omega
  have hne : s.g_read_count + 1 ≠ s.g_data_len := by rw [hL.dl]; omega
  have hs : switchState (nextByte s b) = caseLength (nextByte s b) := by
    unfold switchState
    have : (nextByte s b).state = .E_REC_LENGTH := hL.state
    rw [this]
  have hfe : (caseLength (nextByte s b)).flag_end_reached = 0 := by
    rcases hL.rc with h | h
    · rw [caseLength_other _ (by show s.g_read_count + 1 ≠ 6; omega)]
      exact hI.fend
    · rcases caseLength_cases (nextByte s b) (by show s.g_read_count + 1 = 6; omega)
        with ⟨u, hu⟩ | ⟨_, _, _, hu⟩
      · rw [hu]; rfl
      · rw [hu]; exact hI.fend
  rw [getDataStep_early s b hb hL.sync hne hr (by rw [hs]; exact hfe), hs]

theorem len_step (s : State) (b : Nat) (hb : b < 256) (hI : Inv s) (hL : Len s) :
    Inv (getDataStep s b) := by
  rw [len_step_eq s b hb hI hL]
  rcases hL.rc with h | h
  · rw [caseLength_other _ (by show s.g_read_count + 1 ≠ 6; omega)]
    exact ⟨rfl, hI.fend, Or.inr (Or.inl ⟨hI.next.trans hL.state, hL.sync,
      Or.inr (by show s.g_read_count + 1 = 5; omega), hL.dl, hL.tot, hL.cnt⟩)⟩
  · rcases caseLength_cases (nextByte s b) (by show s.g_read_count + 1 = 6; omega)
      with ⟨u, hu⟩ | ⟨_, h10, h512, hu⟩
    · rw [hu]; exact Inv.afterReset u
    · rw [hu]
      refine ⟨rfl, hI.fend, Or.inr (Or.inr ⟨Or.inl rfl, hL.sync, ?_, ?_, ?_, ?_, ?_⟩)⟩
      · show 6 ≤ s.g_read_count + 1
        omega
      · show s.g_read_count + 1 < (nextByte s b).g_two_bytes % 8192 + 6
        omega
      · show 11 ≤ (nextByte s b).g_two_bytes % 8192 + 6 ∧ (nextByte s b).g_two_bytes % 8192 + 6 ≤ 511
        omega
      · show s.g_cmd_read_total ≤ s.g_read_count + 1
        rw [hL.tot]; omega
      · show s.g_cmd_read_count < 65536 ∧ (s.g_cmd_read_count ≤ 10 → s.g_cmd_read_count ≤ s.g_cmd_read_total)
        rw [hL.cnt]; omega

theorem body_step (s : State) (b : Nat) (hb : b < 256) (hI : Inv s) (hB : Body s) :
    Inv (getDataStep s b) := by
  by_cases h : s.g_read_count + 1 < s.g_data_len
  · rw [(body_step_mid s b hb hI hB h).1]
    exact (body_step_mid s b hb hI hB h).2.2.1
  · rw [(body_step_end s b hb hB (by have := hB.lt; omega)).1]
    exact Inv.afterReset _

/-- The loop invariant is kept by every pass of the loop. -/
theorem inv_step (s : State) (b : Nat) (hI : Inv s) : Inv (getDataStep s b) := by
  rw [getDataStep_mod]
  have hb : b % 256 < 256 := Nat.mod_lt _ (by decide)
  rcases hI.shape with h | h | h
  · exact quiet_step s _ hI h
  · exact len_step s _ hb hI h
  · exact body_step s _ hb hI h

theorem inv_run (s : State) (bs : List Nat) (hI : Inv s) : Inv (run s bs) := by
  induction bs generalizing s with
  | nil => exact hI
  | cons b bs ih => rw [run_cons]; exact ih _ (inv_step s b hI)

theorem inv_startup : Inv startup :=
  ⟨rfl, rfl, Or.inl ⟨rfl, rfl, rfl, rfl, rfl, rfl, rfl⟩⟩

theorem inv_reset (s : State) : Inv (reset s) :=
  ⟨rfl, rfl, Or.inl ⟨rfl, rfl, rfl, rfl, rfl, rfl, rfl⟩⟩
/-! ## The dispatcher -/

theorem processCommandsLoop_eq (m : Nat) (loc : Nat → Nat) :
    ∀ (d fuel j : Nat) (t : State), t.g_command_num = m → t.cmd_location_info = loc →
      j + d = m / 2 → d ≤ fuel →
      processCommandsLoop fuel (2 * j) t = (List.range' j d).foldl (dispatch loc) t := by
  intro d
  induction d with
  | zero =>
    intro fuel j t hm _ hj _
    cases fuel with
    | zero => rfl
    | succ f =>
      unfold processCommandsLoop
      rw [if_neg (by rw [hm]; omega)]
      rfl
  | succ d ih =>
    intro fuel j t hm hl hj hf
    cases fuel with
    | zero => omega
    | succ f =>
      unfold processCommandsLoop
      rw [if_pos (by rw [hm]; omega)]
      dsimp only
      have e : 2 * j + 2 = 2 * (j + 1) := by ring
      rw [e, ih f (j + 1) _ (by rw [(echo_fields _ _ _ _).2.2.2.2.2.2.2.2.2.2.2.1]; exact hm)
        (by rw [(echo_fields _ _ _ _).2.2.2.2.2.2.2.2.2.2.2.2.2.2.2.2.2.2.2.2.2.2.2]; exact hl)
        (by omega) (by omega)]
      rw [List.range'_succ, List.foldl_cons, hl]
      rfl

theorem processCommands_eq (s : State) :
    processCommands s =
      (List.range (s.g_command_num / 2)).foldl (dispatch s.cmd_location_info) s := by
  unfold processCommands
  have := processCommandsLoop_eq s.g_command_num s.cmd_location_info (s.g_command_num / 2)
    s.g_command_num 0 s rfl rfl (by omega) (Nat.div_le_self _ _)
  rw [List.range_eq_range']
  exact this

theorem dispatch_fold_out (loc : Nat → Nat) (js : List Nat) (t : State) :
    ∃ ps, (js.foldl (dispatch loc) t).sent = t.sent ++ ps ∧ EchoesOnly ps ∧
      ps.length = js.length := by
  induction js generalizing t with
  | nil => exact ⟨[], by simp, fun _ h => absurd h (List.not_mem_nil _), rfl⟩
  | cons j js ih =>
    obtain ⟨ps, e, he, hl⟩ := ih (dispatch loc t j)
    refine ⟨lastPacket (dispatch loc t j) :: ps, ?_, ?_, by simp [hl]⟩
    · rw [List.foldl_cons, e]
      unfold dispatch
      rw [echo_sent]
      simp
    · intro p hp
      rcases List.mem_cons.1 hp with h | h
      · rw [h]; exact echo_id _ _ _ _
      · exact he p h

theorem processCommands_out (s : State) :
    ∃ ps, (processCommands s).sent = s.sent ++ ps ∧ EchoesOnly ps ∧
      ps.length = s.g_command_num / 2 := by
  rw [processCommands_eq]
  obtain ⟨ps, e, he, hl⟩ := dispatch_fold_out s.cmd_location_info
    (List.range (s.g_command_num / 2)) s
  exact ⟨ps, e, he, by rw [hl, List.length_range]⟩

theorem filter_echoesOnly (ps : List (List Nat)) (h : EchoesOnly ps) :
    ps.filter isEcho = ps ∧ ps.filter isAlarm = [] ∧ ps.filter isStatus = [] := by
  refine ⟨List.filter_eq_self.2 ?_, List.filter_eq_nil_iff.2 ?_, List.filter_eq_nil_iff.2 ?_⟩
  · intro p hp; simp [isEcho, h p hp]
  · intro p hp; simp [isAlarm, h p hp]
  · intro p hp; simp [isStatus, h p hp]

theorem filter_alarmsOnly (ps : List (List Nat)) (h : AlarmsOnly ps) :
    ps.filter isEcho = [] ∧ ps.filter isAlarm = ps ∧ ps.filter isStatus = [] := by
  refine ⟨List.filter_eq_nil_iff.2 ?_, List.filter_eq_self.2 ?_, List.filter_eq_nil_iff.2 ?_⟩
  · intro p hp; simp [isEcho, (h p hp).1]
  · intro p hp; simp [isAlarm, (h p hp).1]
  · intro p hp; simp [isStatus, (h p hp).1]
/-! ## Consequences of the loop invariant -/

theorem readByte_inv (s : State) (b : Nat) (hI : Inv s) :
    (readByte s b).g_read_count ≤ 511 ∧ (readByte s b).sent = s.sent ∧
      ¬ (s.flag_sync_found = 1 ∧ (s.g_read_count + 1) % 65536 > K_MAX_PACKET_SIZE) := by
  rcases hI.shape with h | h | h
  · rw [readByte_quiet s b h.sync]
    refine ⟨?_, rfl, ?_⟩
    · show s.g_read_count ≤ 511
      rw [h.rc]; omega
    · rw [h.sync]; simp
  · rw [readByte_mod, readByte_locked s _ (Nat.mod_lt _ (by decide)) h.sync
      (by rcases h.rc with e | e <;> omega)]
    refine ⟨?_, rfl, ?_⟩
    · show s.g_read_count + 1 ≤ 511
      rcases h.rc with e | e <;> omega
    · simp only [K_MAX_PACKET_SIZE]
      rcases h.rc with e | e <;> omega
  · have := h.lt
    have := h.dl
    rw [readByte_mod, readByte_locked s _ (Nat.mod_lt _ (by decide)) h.sync (by omega)]
    refine ⟨?_, rfl, ?_⟩
    · show s.g_read_count + 1 ≤ 511
      omega
    · simp only [K_MAX_PACKET_SIZE]
      omega

theorem inv_body (s : State) (hI : Inv s) (h1 : s.state ≠ .E_REC_IDLE)
    (h2 : s.state ≠ .E_REC_LENGTH) : Body s := by
  rcases hI.shape with h | h | h
  · exact absurd h.state h1
  · exact absurd h.state h2
  · exact h

theorem inv_getData (x : State) (input : List Nat) : Inv (getData x input) :=
  inv_run _ _ (inv_reset x)

/-! ## Runs of passes -/

theorem AlarmsOnly.append {p q : List (List Nat)} (hp : AlarmsOnly p) (hq : AlarmsOnly q) :
    AlarmsOnly (p ++ q) := by
  intro x hx
  rcases List.mem_append.1 hx with h | h
  · exact hp x h
  · exact hq x h

/-- A run of bytes that stays inside the body of the frame. -/
theorem body_run (bs : List Nat) (s : State) (hb : ∀ b ∈ bs, b < 256) (hI : Inv s) (hB : Body s)
    (hlt : s.g_read_count + bs.length < s.g_data_len) :
    Inv (run s bs) ∧ Body (run s bs) ∧
    (run s bs).g_read_count = s.g_read_count + bs.length ∧
    (run s bs).g_data_len = s.g_data_len ∧
    (run s bs).crc_total = crcFold s.crc_total bs ∧
    (run s bs).i_time = s.i_time ∧
    ∃ ps, (run s bs).sent = s.sent ++ ps ∧ AlarmsOnly ps := by
  induction bs generalizing s with
  | nil => exact ⟨hI, hB, rfl, rfl, rfl, rfl, no_out _⟩
  | cons b bs ih =>
    simp only [List.length_cons] at hlt
    obtain ⟨e, hF, hI', hB'⟩ := body_step_mid s b (hb b (by simp)) hI hB (by omega)
    rw [run_cons, e]
    have rc' : (advance (switchState (nextByte s b))).g_read_count = s.g_read_count + 1 := hF.rc
    have dl' : (advance (switchState (nextByte s b))).g_data_len = s.g_data_len := hF.dl
    have crc' : (advance (switchState (nextByte s b))).crc_total = crc s.crc_total b := hF.crc
    have tm' : (advance (switchState (nextByte s b))).i_time = s.i_time := hF.time
    obtain ⟨p1, o1, a1⟩ := hF.out
    have o1' : (advance (switchState (nextByte s b))).sent = s.sent ++ p1 := o1
    obtain ⟨i1, i2, i3, i4, i5, i6, p2, o2, a2⟩ := ih _ (fun x hx => hb x (by simp [hx])) hI' hB'
      (by rw [rc', dl']; omega)
    refine ⟨i1, i2, by rw [i3, rc', List.length_cons]; omega, by rw [i4, dl'], ?_, by rw [i6, tm'],
      p1 ++ p2, by rw [o2, o1', List.append_assoc], a1.append a2⟩
    rw [i5, crc']
    rfl

/-! ## The sync marker and the length field -/

theorem and_57344 (x : Nat) (h : x < 8192) : x &&& 0xE000 = 0 := by
  apply Nat.eq_of_testBit_eq
  intro i
  rw [Nat.testBit_and, Nat.zero_testBit]
  by_cases hi : i < 13
  · have : (0xE000 : Nat).testBit i = false := by
      interval_cases i <;> rfl
    rw [this, Bool.and_false]
  · have : x.testBit i = false := by
      apply Nat.testBit_lt_two_pow
      calc x < 2 ^ 13 := by simpa using h
        _ ≤ 2 ^ i := Nat.pow_le_pow_right (by decide) (by omega)
    rw [this, Bool.false_and]

theorem caseLength_accept (t : State) (h6 : t.g_read_count = 6)
    (hf : t.g_two_bytes &&& 0xE000 = 0) (h10 : 10 < t.g_two_bytes % 8192 + 6)
    (h512 : t.g_two_bytes % 8192 + 6 < 512) :
    caseLength t =
      { t with g_data_len := t.g_two_bytes % 8192 + 6, next_state := .E_REC_TIME_START } := by
  unfold caseLength
  rw [if_pos (by simpa [K_INS_DATA_LEN_OFFSET] using h6)]
  dsimp only
  have e : ((t.g_two_bytes &&& 0x1FFF) + K_INS_DATA_LEN_OFFSET) % 65536 = t.g_two_bytes % 8192 + 6 := by
    rw [and_8191]
    simp only [K_INS_DATA_LEN_OFFSET]
    omega
  have hne : ¬ (0 ≠ (t.g_two_bytes &&& 0xE000)) := by rw [hf]; simp
  rw [e, if_neg hne]
  simp only [K_MAX_PACKET_SIZE, K_MIN_PACKET_SIZE]
  rw [if_pos ⟨h512, h10⟩]

theorem locked4_facts :
    locked4.state = .E_REC_LENGTH ∧ locked4.next_state = .E_REC_LENGTH ∧
    locked4.flag_sync_found = 1 ∧ locked4.flag_end_reached = 0 ∧ locked4.g_read_count = 4 ∧
    locked4.g_data_len = 0 ∧ locked4.crc_total = CRC_SEED ∧ locked4.g_cmd_read_total = 0 ∧
    locked4.g_cmd_read_count = 0 ∧ locked4.g_four_bytes = SYNC ∧ locked4.i_time = 1 ∧
    locked4.flag_time_recieved = 0 ∧ locked4.flag_packet_error = 0 ∧
    locked4.g_command_num = 0 ∧ locked4.g_idle_count = 0 := by
  decide

theorem locked4_sent :
    alarmPackets locked4 = [] ∧ echoPackets locked4 = [] ∧ (statusPackets locked4).length = 1 := by
  decide

theorem locked4_inv : Inv locked4 ∧ Len locked4 := by
  obtain ⟨h1, h2, h3, h4, h5, h6, h7, h8, h9, _⟩ := locked4_facts
  exact ⟨⟨h2.trans h1.symm, h4, Or.inr (Or.inl ⟨h1, h3, Or.inl h5, h6, h8, h9⟩)⟩,
    ⟨h1, h3, Or.inl h5, h6, h8, h9⟩⟩

/-- The two passes over an accepted length field. -/
theorem header_accept (hi lo : Nat) (hhi : hi < 32) (hlo : lo < 256) (h5 : 5 ≤ hi * 256 + lo)
    (h505 : hi * 256 + lo ≤ 505) : run locked4 [hi, lo] = accepted hi lo := by
  obtain ⟨hI, hL⟩ := locked4_inv
  obtain ⟨f1, f2, f3, f4, f5, f6, f7, f8, f9, f10, _⟩ := locked4_facts
  rw [run_cons, len_step_eq _ _ (by omega) hI hL,
    caseLength_other _ (by show locked4.g_read_count + 1 ≠ 6; rw [f5]; decide)]
  have hI1 : Inv (advance (nextByte locked4 hi)) :=
    ⟨rfl, f4, Or.inr (Or.inl ⟨f2, f3, Or.inr (by show locked4.g_read_count + 1 = 5; rw [f5]),
      f6, f8, f9⟩)⟩
  have hL1 : Len (advance (nextByte locked4 hi)) :=
    ⟨f2, f3, Or.inr (by show locked4.g_read_count + 1 = 5; rw [f5]), f6, f8, f9⟩
  rw [run_cons, run_nil, len_step_eq _ _ hlo hI1 hL1]
  have h2 : (nextByte (advance (nextByte locked4 hi)) lo).g_two_bytes = hi * 256 + lo := by
    show ((locked4.g_four_bytes % 16777216) * 256 + hi) % 256 * 256 + lo = hi * 256 + lo
    omega
  rw [caseLength_accept _ (by show locked4.g_read_count + 1 + 1 = 6; rw [f5])
    (by rw [h2]; exact and_57344 _ (by omega)) (by rw [h2]; omega) (by rw [h2]; omega)]
  have h3 : (hi * 256 + lo) % 8192 = hi * 256 + lo := Nat.mod_eq_of_lt (by omega)
  simp only [h2, h3]
  simp only [advance, nextByte, accepted, f5, f7, State.mk.injEq, and_true, true_and]
/-! ## The last pass of a frame -/

theorem flagged_body (s : State) (b : Nat) (hb : b < 256) (hI : Inv s)
    (hflag : (flagEnd (readByte s b)).flag_end_reached = 1) :
    Body s ∧ s.g_read_count + 1 = s.g_data_len := by
  rcases hI.shape with h | h | h
  · rw [readByte_quiet s b h.sync,
      flagEnd_early _ (Or.inr (by show s.g_read_count < 6; rw [h.rc]; decide))] at hflag
    have : s.flag_end_reached = 1 := hflag
    rw [hI.fend] at this
    exact absurd this (by decide)
  · rw [readByte_locked s b hb h.sync (by rcases h.rc with e | e <;> omega),
      flagEnd_early _ (Or.inl (by
        show s.g_read_count + 1 ≠ s.g_data_len
        rw [h.dl]; omega))] at hflag
    have : s.flag_end_reached = 1 := hflag
    rw [hI.fend] at this
    exact absurd this (by decide)
  · refine ⟨h, ?_⟩
    by_contra hne
    have := h.lt
    have := h.dl
    rw [readByte_locked s b hb h.sync (by omega),
      flagEnd_early _ (Or.inl (by show s.g_read_count + 1 ≠ s.g_data_len; omega))] at hflag
    have : s.flag_end_reached = 1 := hflag
    rw [hI.fend] at this
    exact absurd this (by decide)

theorem flagEnd_last (s : State) (b : Nat) (hB : Body s)
    (heq : s.g_read_count + 1 = s.g_data_len) :
    flagEnd (nextByte s b) = { nextByte s b with flag_end_reached := 1 } := by
  unfold flagEnd
  rw [if_pos]
  refine ⟨heq, ?_⟩
  show s.g_read_count + 1 ≥ K_INS_DATA_LEN_OFFSET
  have := hB.rc
  simp only [K_INS_DATA_LEN_OFFSET]
  omega

theorem frameEnd_bad (x : State) (h : x.crc_total ≠ 0) :
    (frameEnd x).sent = x.sent ++
      [lastPacket (alarm .ITF_CHECKSUM { x with flag_end_reached := 0, flag_time_recieved := 0 })] ∧
    packetId (lastPacket
      (alarm .ITF_CHECKSUM { x with flag_end_reached := 0, flag_time_recieved := 0 })) = 0x0B02 ∧
    (lastPacket
      (alarm .ITF_CHECKSUM { x with flag_end_reached := 0, flag_time_recieved := 0 })).getD 18 0
      = 2 := by
  unfold frameEnd
  rw [if_neg h]
  refine ⟨alarm_sent _ _, alarm_id _ _, ?_⟩
  rw [(alarm_body_bytes _ _).2.2.1]
  rfl

theorem frameEnd_good (x : State) (h : x.crc_total = 0) :
    frameEnd x = processCommands { x with flag_end_reached := 0 } := by
  unfold frameEnd
  rw [if_pos h]
/-! ## An accepted frame from the start-up state -/

theorem getData_frameOf (hi lo : Nat) (body : List Nat) (hhi : hi < 32) (hlo : lo < 256)
    (h5 : 5 ≤ hi * 256 + lo) (h505 : hi * 256 + lo ≤ 505) :
    getData startup (frameOf hi lo body) = run (accepted hi lo) body := by
  have e : getData startup (frameOf hi lo body) = run (run locked4 [hi, lo]) body := by
    unfold locked4 getData frameOf run
    rw [List.foldl_append, List.foldl_append]
  rw [e, header_accept hi lo hhi hlo h5 h505]

theorem accepted_inv (hi lo : Nat) (h5 : 5 ≤ hi * 256 + lo) (h505 : hi * 256 + lo ≤ 505) :
    Inv (accepted hi lo) ∧ Body (accepted hi lo) := by
  obtain ⟨f1, f2, f3, f4, f5, f6, f7, f8, f9, f10, _⟩ := locked4_facts
  have hB : Body (accepted hi lo) := by
    refine ⟨Or.inl rfl, f3, ?_, ?_, ?_, ?_, ?_⟩
    · show 6 ≤ 6
      omega
    · show 6 < hi * 256 + lo + 6
      omega
    · show 11 ≤ hi * 256 + lo + 6 ∧ hi * 256 + lo + 6 ≤ 511
      omega
    · show locked4.g_cmd_read_total ≤ 6
      rw [f8]; omega
    · show locked4.g_cmd_read_count < 65536 ∧
        (locked4.g_cmd_read_count ≤ 10 → locked4.g_cmd_read_count ≤ locked4.g_cmd_read_total)
      rw [f8, f9]; omega
  exact ⟨⟨rfl, f4, Or.inr (Or.inr hB)⟩, hB⟩

/-- The receiver while it is inside an accepted frame. -/
theorem frame_prefix (hi lo : Nat) (bs : List Nat) (hhi : hi < 32) (hlo : lo < 256)
    (h5 : 5 ≤ hi * 256 + lo) (h505 : hi * 256 + lo ≤ 505) (hb : ∀ b ∈ bs, b < 256)
    (hlen : bs.length < hi * 256 + lo) :
    Inv (getData startup (frameOf hi lo bs)) ∧ Body (getData startup (frameOf hi lo bs)) ∧
    (getData startup (frameOf hi lo bs)).g_read_count = 6 + bs.length ∧
    (getData startup (frameOf hi lo bs)).g_data_len = hi * 256 + lo + 6 ∧
    (getData startup (frameOf hi lo bs)).crc_total = crcFold CRC_SEED (hi :: lo :: bs) ∧
    (getData startup (frameOf hi lo bs)).i_time = 1 ∧
    ∃ ps, (getData startup (frameOf hi lo bs)).sent = locked4.sent ++ ps ∧ AlarmsOnly ps := by
  obtain ⟨hI, hB⟩ := accepted_inv hi lo h5 h505
  rw [getData_frameOf hi lo bs hhi hlo h5 h505]
  obtain ⟨i1, i2, i3, i4, i5, i6, i7⟩ := body_run bs (accepted hi lo) hb hI hB
    (by show 6 + bs.length < hi * 256 + lo + 6; omega)
  refine ⟨i1, i2, i3, i4, ?_, ?_, i7⟩
  · rw [i5]
    rfl
  · rw [i6]
    exact locked4_facts.2.2.2.2.2.2.2.2.2.2.1

theorem afterSwitch_last (s : State) (b : Nat) (hb : b < 256) (hB : Body s)
    (heq : s.g_read_count + 1 = s.g_data_len) :
    afterSwitch s b = switchState { nextByte s b with flag_end_reached := 1 } := by
  unfold afterSwitch
  rw [readByte_locked s b hb hB.sync (by have := hB.dl; have := hB.lt; omega),
    flagEnd_last s b hB heq]

/-- The last pass of a frame: the receiver is reset, and has sent the alarms of
the switch and then either the echoes of the dispatcher or one `ITF_CHECKSUM`
alarm. -/
theorem end_step_out (s : State) (b : Nat) (hb : b < 256) (hB : Body s)
    (heq : s.g_read_count + 1 = s.g_data_len) :
    Quiet (getDataStep s b) ∧ (getDataStep s b).next_state = .E_REC_IDLE ∧
    (getDataStep s b).flag_end_reached = 0 ∧
    (afterSwitch s b).crc_total = crc s.crc_total b ∧
    (afterSwitch s b).flag_end_reached = 1 ∧
    getDataStep s b = advance (reset (frameEnd (afterSwitch s b))) ∧
    ∃ pa, (afterSwitch s b).sent = s.sent ++ pa ∧ AlarmsOnly pa ∧
      ((crc s.crc_total b = 0 ∧
        ∃ pe, (getDataStep s b).sent = s.sent ++ pa ++ pe ∧ EchoesOnly pe ∧
          pe.length = (afterSwitch s b).g_command_num / 2) ∨
      (crc s.crc_total b ≠ 0 ∧
        ∃ pk, (getDataStep s b).sent = s.sent ++ pa ++ [pk] ∧
          packetId pk = 0x0B02 ∧ pk.getD 18 0 = 2)) := by
  obtain ⟨e2, hF⟩ := body_step_end s b hb hB heq
  rw [afterSwitch_last s b hb hB heq, e2]
  generalize switchState { nextByte s b with flag_end_reached := 1 } = x at hF ⊢
  have hcrc : x.crc_total = crc s.crc_total b := hF.crc
  obtain ⟨p1, o2, a2⟩ := hF.out
  have o2' : x.sent = s.sent ++ p1 := o2
  refine ⟨⟨rfl, rfl, rfl, rfl, rfl, rfl, rfl⟩, rfl, rfl, hcrc, hF.fend, rfl, p1, o2', a2, ?_⟩
  by_cases hz : crc s.crc_total b = 0
  · left
    refine ⟨hz, ?_⟩
    obtain ⟨pe, o3, a3, l3⟩ := processCommands_out { x with flag_end_reached := 0 }
    refine ⟨pe, ?_, a3, l3⟩
    show (frameEnd x).sent = _
    rw [frameEnd_good _ (by rw [hcrc]; exact hz), o3]
    show x.sent ++ pe = _
    rw [o2']
  · right
    refine ⟨hz, ?_⟩
    obtain ⟨o3, a3, v3⟩ := frameEnd_bad x (by rw [hcrc]; exact hz)
    refine ⟨_, ?_, a3, v3⟩
    show (frameEnd x).sent = _
    rw [o3, o2']

theorem getData_snoc (x : State) (bs : List Nat) (b : Nat) :
    getData x (bs ++ [b]) = getDataStep (getData x bs) b := by
  unfold getData
  rw [List.foldl_append]
  rfl

theorem frameOf_snoc (hi lo : Nat) (bs : List Nat) (b : Nat) :
    frameOf hi lo (bs ++ [b]) = frameOf hi lo bs ++ [b] := by
  unfold frameOf
  simp only [List.append_assoc]

/-- The receiver after the last byte of an accepted frame. -/
theorem frame_final (hi lo : Nat) (bs : List Nat) (b : Nat) (hhi : hi < 32) (hlo : lo < 256)
    (h5 : 5 ≤ hi * 256 + lo) (h505 : hi * 256 + lo ≤ 505) (hb : ∀ x ∈ bs, x < 256)
    (hb' : b < 256) (hlen : bs.length + 1 = hi * 256 + lo) :
    Quiet (getData startup (frameOf hi lo (bs ++ [b]))) ∧
    ∃ pa, AlarmsOnly pa ∧
      ((crcFold CRC_SEED (hi :: lo :: (bs ++ [b])) = 0 ∧
        ∃ pe, (getData startup (frameOf hi lo (bs ++ [b]))).sent = locked4.sent ++ pa ++ pe ∧
          EchoesOnly pe) ∨
      (crcFold CRC_SEED (hi :: lo :: (bs ++ [b])) ≠ 0 ∧
        ∃ pk, (getData startup (frameOf hi lo (bs ++ [b]))).sent = locked4.sent ++ pa ++ [pk] ∧
          packetId pk = 0x0B02 ∧ pk.getD 18 0 = 2)) := by
  obtain ⟨i1, i2, i3, i4, i5, _, ps, o1, a1⟩ :=
    frame_prefix hi lo bs hhi hlo h5 h505 hb (by omega)
  rw [frameOf_snoc, getData_snoc]
  generalize getData startup (frameOf hi lo bs) = s at i1 i2 i3 i4 i5 o1 ⊢
  obtain ⟨q, _, _, _, _, _, p1, _, a2, hc⟩ := end_step_out s b hb' i2 (by rw [i3, i4]; omega)
  have hcrc : crc s.crc_total b = crcFold CRC_SEED (hi :: lo :: (bs ++ [b])) := by
    rw [i5]
    simp [crcFold, List.foldl_append]
  rw [hcrc, o1] at hc
  refine ⟨q, ps ++ p1, a1.append a2, ?_⟩
  rcases hc with ⟨hz, pe, o3, a3, _⟩ | ⟨hz, pk, o3, a3, v3⟩
  · left
    exact ⟨hz, pe, by rw [o3, List.append_assoc locked4.sent], a3⟩
  · right
    exact ⟨hz, pk, by rw [o3, List.append_assoc locked4.sent], a3, v3⟩

theorem values_alarmsOnly (base ps : List (List Nat)) (hb : base.filter isAlarm = [])
    (ha : AlarmsOnly ps) (extra : List (List Nat)) (he : EchoesOnly extra) :
    2 ∉ (((base ++ ps ++ extra).filter isAlarm).map (fun p => p.getD 18 0)) := by
  rw [List.filter_append, List.filter_append, hb, (filter_alarmsOnly ps ha).2.1,
    (filter_echoesOnly extra he).2.1, List.nil_append, List.append_nil]
  intro h
  obtain ⟨p, hp, hv⟩ := List.mem_map.1 h
  rcases (ha p hp).2 with e | e | e | e <;> omega

/-! ## Algebra of the CRC update -/

theorem mod_65536_xor (a b : Nat) : (a ^^^ b) % 65536 = (a % 65536) ^^^ (b % 65536) := by
  rw [← and_65535, ← and_65535, ← and_65535, Nat.and_xor_distrib_right]

theorem mod_256_xor (a b : Nat) : (a ^^^ b) % 256 = (a % 256) ^^^ (b % 256) := by
  rw [← and_255, ← and_255, ← and_255, Nat.and_xor_distrib_right]

theorem and_32768 (v : Nat) : (v &&& 0x8000 ≠ 0) ↔ v.testBit 15 = true := by
  constructor
  · intro h
    by_contra hb
    apply h
    apply Nat.eq_of_testBit_eq
    intro i
    rw [Nat.testBit_and, Nat.zero_testBit]
    have e : (0x8000 : Nat) = 2 ^ 15 := by decide
    rw [e, Nat.testBit_two_pow]
    by_cases hi : 15 = i
    · subst hi
      simp at hb
      simp [hb]
    · simp [hi]
  · intro h e
    have : (v &&& 0x8000).testBit 15 = true := by
      rw [Nat.testBit_and, h]
      rfl
    rw [e, Nat.zero_testBit] at this
    exact absurd this (by decide)

theorem buildCRCBit_eq (v : Nat) : buildCRCBit v = specStep v := by
  unfold buildCRCBit specStep
  by_cases h : v.testBit 15 = true
  · rw [if_pos ((and_32768 v).2 h), if_pos h, mod_65536_xor, Nat.shiftLeft_eq]
    rfl
  · rw [if_neg (fun c => h ((and_32768 v).1 c)), if_neg h, Nat.shiftLeft_eq]

theorem specStep_testBit (v j : Nat) :
    (specStep v).testBit j =
      ((decide (j < 16) && (decide (j ≥ 1) && v.testBit (j - 1))) ^^
        (v.testBit 15 && (0x1021 : Nat).testBit j)) := by
  unfold specStep
  have e : (v * 2 % 65536).testBit j = (decide (j < 16) && (decide (j ≥ 1) && v.testBit (j - 1))) := by
    have h1 : v * 2 = 2 ^ 1 * v := by ring
    have h2 : (65536 : Nat) = 2 ^ 16 := by decide
    rw [h1, h2, Nat.testBit_mod_two_pow, Nat.testBit_mul_pow_two]
  by_cases h : v.testBit 15 = true
  · rw [if_pos h, Nat.testBit_xor, e, h]
    simp
  · rw [if_neg h, e]
    simp at h
    simp [h]

theorem specStep_xor (u v : Nat) : specStep (u ^^^ v) = specStep u ^^^ specStep v := by
  apply Nat.eq_of_testBit_eq
  intro j
  rw [Nat.testBit_xor, specStep_testBit, specStep_testBit, specStep_testBit, Nat.testBit_xor,
    Nat.testBit_xor]
  generalize u.testBit 15 = a
  generalize v.testBit 15 = b
  generalize u.testBit (j - 1) = c
  generalize v.testBit (j - 1) = d
  generalize (0x1021 : Nat).testBit j = p
  generalize decide (j < 16) = e
  generalize decide (j ≥ 1) = f
  cases a <;> cases b <;> cases c <;> cases d <;> cases p <;> cases e <;> cases f <;> rfl

theorem specStep_iter_xor (n u v : Nat) :
    specStep^[n] (u ^^^ v) = specStep^[n] u ^^^ specStep^[n] v := by
  induction n generalizing u v with
  | zero => rfl
  | succ n ih =>
    rw [Function.iterate_succ_apply, Function.iterate_succ_apply, Function.iterate_succ_apply,
      specStep_xor, ih]

theorem specStep_lt (v : Nat) : specStep v < 65536 := by
  unfold specStep
  split
  · exact Nat.xor_lt_two_pow (n := 16) (Nat.mod_lt _ (by decide)) (by decide)
  · exact Nat.mod_lt _ (by decide)

theorem specStep_low : ∀ l, l < 256 → specStep^[8] l = l * 256 := by
  decide

theorem table_eq (i : Nat) (h : i < 256) : CRC_LOOKUP.getD i 0 = specTableEntry i := by
  unfold CRC_LOOKUP buildCRC
  rw [getD_map_range _ _ _ _ h]
  unfold buildCRCEntry specTableEntry
  have e1 : CRC_SEED_TABLE ^^^ ((i <<< 8) &&& 0xFFFF) = i * 256 := by
    rw [and_65535, Nat.shiftLeft_eq]
    simp only [CRC_SEED_TABLE, Nat.zero_xor]
    omega
  have e2 : buildCRCBit = specStep := funext buildCRCBit_eq
  rw [e1, e2]

theorem split_top (c b : Nat) :
    c ^^^ (b * 256) = ((c / 256 ^^^ b) * 256) ^^^ (c % 256) := by
  apply Nat.eq_of_testBit_eq
  intro j
  have h1 : ∀ x, x * 256 = 2 ^ 8 * x := fun x => by ring
  have h2 : (256 : Nat) = 2 ^ 8 := by decide
  rw [Nat.testBit_xor, Nat.testBit_xor, h1, h1, Nat.testBit_mul_pow_two, Nat.testBit_mul_pow_two,
    Nat.testBit_xor]
  have h3 : c / 256 = c >>> 8 := by rw [Nat.shiftRight_eq_div_pow]
  have h4 : c % 256 = c % 2 ^ 8 := rfl
  rw [h3, h4, Nat.testBit_mod_two_pow, Nat.testBit_shiftRight]
  by_cases hj : j ≥ 8
  · have e : 8 + (j - 8) = j := by omega
    have e2 : ¬ j < 8 := by omega
    rw [e]
    simp [hj, e2]
  · have e2 : j < 8 := by omega
    simp [hj, e2]

theorem mul_256_xor (i j : Nat) : (i ^^^ j) * 256 = (i * 256) ^^^ (j * 256) := by
  apply Nat.eq_of_testBit_eq
  intro k
  have h1 : ∀ x, x * 256 = 2 ^ 8 * x := fun x => by ring
  rw [Nat.testBit_xor, h1, h1, h1, Nat.testBit_mul_pow_two, Nat.testBit_mul_pow_two,
    Nat.testBit_mul_pow_two, Nat.testBit_xor]
  cases decide (k ≥ 8) <;> simp

theorem specTableEntry_lt (i : Nat) : specTableEntry i < 65536 := by
  unfold specTableEntry
  rw [Function.iterate_succ_apply']
  exact specStep_lt _

/-- The table-driven update in terms of the two bytes of the checksum. -/
theorem crc_bytes (c b : Nat) (hc : c < 65536) (hb : b < 256) :
    crc c b = (c % 256 * 256) ^^^ specTableEntry (c / 256 ^^^ b) := by
  unfold crc
  have hx : c / 256 ^^^ b < 256 := Nat.xor_lt_two_pow (n := 8) (by omega) (by simpa using hb)
  have e1 : ((c >>> 8) ^^^ b) &&& 0xFF = c / 256 ^^^ b := by
    rw [and_255, Nat.shiftRight_eq_div_pow]
    exact Nat.mod_eq_of_lt hx
  simp only [e1]
  rw [table_eq _ hx, mod_65536_xor, Nat.mod_eq_of_lt (specTableEntry_lt _), Nat.shiftLeft_eq]
  congr 1
  omega

theorem crc_eq_specCrc (c b : Nat) (hc : c < 65536) (hb : b < 256) : crc c b = specCrc c b := by
  have hx : c / 256 ^^^ b < 256 := Nat.xor_lt_two_pow (n := 8) (by omega) (by simpa using hb)
  rw [crc_bytes c b hc hb]
  unfold specCrc
  rw [split_top, specStep_iter_xor, specStep_low _ (Nat.mod_lt _ (by decide)), Nat.xor_comm]
  rfl

theorem specTableEntry_xor (i j : Nat) :
    specTableEntry (i ^^^ j) = specTableEntry i ^^^ specTableEntry j := by
  unfold specTableEntry
  rw [mul_256_xor, specStep_iter_xor]

theorem table_low_zero : ∀ i, i < 256 → specTableEntry i % 256 = 0 → i = 0 := by
  decide

theorem table_low_inj (i j : Nat) (hi : i < 256) (hj : j < 256)
    (h : specTableEntry i % 256 = specTableEntry j % 256) : i = j := by
  have hx : i ^^^ j < 256 := Nat.xor_lt_two_pow (n := 8) (by simpa using hi) (by simpa using hj)
  have := table_low_zero (i ^^^ j) hx (by
    rw [specTableEntry_xor, mod_256_xor, h, Nat.xor_self])
  exact Nat.xor_eq_zero.1 this

theorem crc_low (c b : Nat) (hc : c < 65536) (hb : b < 256) :
    crc c b % 256 = specTableEntry (c / 256 ^^^ b) % 256 := by
  rw [crc_bytes c b hc hb, mod_256_xor]
  have : c % 256 * 256 % 256 = 0 := by omega
  rw [this, Nat.zero_xor]

/-- For a fixed byte the update is injective in the checksum. -/
theorem crc_inj_state (c c' b : Nat) (hc : c < 65536) (hc' : c' < 65536) (hb : b < 256)
    (h : crc c b = crc c' b) : c = c' := by
  have hx : c / 256 ^^^ b < 256 := Nat.xor_lt_two_pow (n := 8) (by omega) (by simpa using hb)
  have hx' : c' / 256 ^^^ b < 256 := Nat.xor_lt_two_pow (n := 8) (by omega) (by simpa using hb)
  have hl : c / 256 ^^^ b = c' / 256 ^^^ b := by
    apply table_low_inj _ _ hx hx'
    rw [← crc_low c b hc hb, ← crc_low c' b hc' hb, h]
  have h1 : c / 256 = c' / 256 := by
    have := congrArg (fun x => x ^^^ b) hl
    simpa [Nat.xor_cancel_right] using this
  rw [crc_bytes c b hc hb, crc_bytes c' b hc' hb, hl] at h
  have h2 : c % 256 * 256 = c' % 256 * 256 := by
    have := congrArg (fun x => x ^^^ specTableEntry (c' / 256 ^^^ b)) h
    simpa [Nat.xor_cancel_right] using this
  omega

/-- For a fixed checksum the update is injective in the byte. -/
theorem crc_inj_byte (c b b' : Nat) (hc : c < 65536) (hb : b < 256) (hb' : b' < 256)
    (h : crc c b = crc c b') : b = b' := by
  have hx : c / 256 ^^^ b < 256 := Nat.xor_lt_two_pow (n := 8) (by omega) (by simpa using hb)
  have hx' : c / 256 ^^^ b' < 256 := Nat.xor_lt_two_pow (n := 8) (by omega) (by simpa using hb')
  have hl : c / 256 ^^^ b = c / 256 ^^^ b' := by
    apply table_low_inj _ _ hx hx'
    rw [← crc_low c b hc hb, ← crc_low c b' hc hb', h]
  exact Nat.xor_right_inj.1 hl

theorem crcFold_inj (bs : List Nat) (hb : ∀ b ∈ bs, b < 256) (c c' : Nat) (hc : c < 65536)
    (hc' : c' < 65536) (h : crcFold c bs = crcFold c' bs) : c = c' := by
  induction bs generalizing c c' with
  | nil => exact h
  | cons b bs ih =>
    have hb0 := hb b (by simp)
    have := ih (fun x hx => hb x (by simp [hx])) (crc c b) (crc c' b) (crc_lt _ _) (crc_lt _ _) h
    exact crc_inj_state c c' b hc hc' hb0 this

/-- Only the two bytes of the checksum itself drive it to zero. -/
theorem crc_zero_unique (c a b : Nat) (hc : c < 65536) (ha : a < 256) (hb : b < 256)
    (h : crc (crc c a) b = 0) : a = c / 256 ∧ b = c % 256 := by
  have h0 : crc (crc c a) b = crc (crc c (c >>> 8)) (c &&& 0xFF) := by rw [h, crc_trailer]
  have hlo : c &&& 0xFF < 256 := by rw [and_255]; exact Nat.mod_lt _ (by decide)
  have hhi : c >>> 8 < 256 := by rw [Nat.shiftRight_eq_div_pow]; omega
  -- the low bytes of both results are zero, so both table indices are zero
  have z1 : crc c a / 256 ^^^ b = 0 := by
    have hx : crc c a / 256 ^^^ b < 256 :=
      Nat.xor_lt_two_pow (n := 8) (by have := crc_lt c a; omega) (by simpa using hb)
    apply table_low_zero _ hx
    rw [← crc_low _ _ (crc_lt _ _) hb, h]
  have e1 : crc (crc c a) b = crc c a % 256 * 256 := by
    rw [crc_bytes _ _ (crc_lt _ _) hb, z1]
    have : specTableEntry 0 = 0 := by decide
    rw [this, Nat.xor_zero]
  have l1 : crc c a % 256 = 0 := by
    rw [e1] at h
    omega
  have z2 : c / 256 ^^^ a = 0 := by
    have hx : c / 256 ^^^ a < 256 :=
      Nat.xor_lt_two_pow (n := 8) (by omega) (by simpa using ha)
    apply table_low_zero _ hx
    rw [← crc_low _ _ hc ha, l1]
  have ea : a = c / 256 := (Nat.xor_eq_zero.1 z2).symm
  refine ⟨ea, ?_⟩
  have e2 : crc c a = c % 256 * 256 := by
    rw [crc_bytes _ _ hc ha, z2]
    have : specTableEntry 0 = 0 := by decide
    rw [this, Nat.xor_zero]
  rw [e2] at z1
  have : c % 256 * 256 / 256 = c % 256 := by omega
  rw [this] at z1
  exact (Nat.xor_eq_zero.1 z1).symm

theorem table_remainder : ∀ i, i < 256 → CRC_LOOKUP.getD i 0 = gf2Rem24 (i <<< 16) := by
  decide

theorem flipBit_lt (a k : Nat) (ha : a < 256) (hk : k < 8) : flipBit a k < 256 := by
  unfold flipBit
  exact Nat.xor_lt_two_pow (n := 8) (by simpa using ha)
    (Nat.pow_lt_pow_right (by decide) hk)

theorem flipBit_ne (a k : Nat) : flipBit a k ≠ a := by
  unfold flipBit
  intro h
  have h2 : a ^^^ 2 ^ k = a ^^^ 0 := by rw [h, Nat.xor_zero]
  have := Nat.xor_right_inj.1 h2
  exact absurd this (by positivity)

/-! ## The statements of the case `E_REC_CMD` -/

theorem cmdStore_low (v : State) (h : v.g_cmd_read_count ≤ 10) : cmdStore v = v := by
  unfold cmdStore
  rw [if_neg (by simp only [K_INS_HEADER_OFFSET]; omega)]

theorem cmdDone_not (w : State) (h : w.g_cmd_read_count ≠ w.g_cmd_length + 7) :
    cmdDone w = w := by
  unfold cmdDone
  rw [if_neg (by simpa [K_INS_DATA_LEN_OFFSET] using h)]

theorem setWord_two_zero (a : Nat → Nat) (i j : Nat) :
    setWord (setWord a i 0) j 0 i = 0 ∧ setWord (setWord a i 0) j 0 j = 0 := by
  unfold setWord
  simp

/-- The state in which the length test leaves a command it rejects. -/
theorem cmdLength_bad (u : State) (h6 : u.g_cmd_read_count = 6)
    (hbad : (u.g_two_bytes + 11) % 65536 < 12 ∨ 256 < (u.g_two_bytes + 11) % 65536) :
    (∃ pk, (cmdLength u).sent = u.sent ++ [pk] ∧ isAlarm pk = true ∧
      pk.getD 18 0 = alarmValue .CCSDS_LENGTH) ∧
    (cmdLength u).next_state = .E_REC_CMD_START ∧
    (cmdLength u).cmd_location_info u.g_command_num = 0 ∧
    (cmdLength u).cmd_location_info (u.g_command_num - 1) = 0 ∧
    (cmdLength u).g_command_num = (u.g_command_num + 255) % 256 ∧
    (cmdLength u).g_cmd_read_count = 0 ∧
    (cmdLength u).g_cmd_read_total = (u.g_cmd_read_total + 65530) % 65536 ∧
    (cmdLength u).g_cmd_length = (u.g_two_bytes + 11) % 65536 ∧
    (cmdLength u).state = u.state ∧ (cmdLength u).flag_end_reached = u.flag_end_reached ∧
    (cmdLength u).g_idle_count = u.g_idle_count := by
  unfold cmdLength
  rw [if_pos (by simpa [K_INS_DATA_LEN_OFFSET] using h6)]
  dsimp only
  rw [if_pos (by simpa [K_INS_HEADER_OFFSET, K_MIN_CMD_SIZE, K_MAX_CMD_SIZE] using hbad)]
  refine ⟨⟨_, alarm_sent _ _, by simp [isAlarm, alarm_id], (alarm_body_bytes _ _).2.2.1⟩, rfl, ?_, ?_,
    rfl, ?_, rfl, rfl, rfl, rfl, rfl⟩
  · exact (setWord_two_zero _ u.g_command_num (u.g_command_num - 1)).1
  · exact (setWord_two_zero _ u.g_command_num (u.g_command_num - 1)).2
  · show (u.g_cmd_read_count + 65530) % 65536 = 0
    omega

/-- The state in which the length test leaves a command it accepts. -/
theorem cmdLength_good (u : State) (h6 : u.g_cmd_read_count = 6)
    (hgood : 12 ≤ (u.g_two_bytes + 11) % 65536 ∧ (u.g_two_bytes + 11) % 65536 ≤ 256) :
    cmdLength u =
      { u with
        g_cmd_length := (u.g_two_bytes + 11) % 65536
        cmd_location_info := setWord u.cmd_location_info u.g_command_num (u.g_two_bytes + 65533) } := by
  unfold cmdLength
  rw [if_pos (by simpa [K_INS_DATA_LEN_OFFSET] using h6)]
  dsimp only
  rw [if_neg (by simp only [K_INS_HEADER_OFFSET, K_MIN_CMD_SIZE, K_MAX_CMD_SIZE]; omega)]
  rfl

/-! ## Passes in the states `TIME_START` and `TIME` -/

theorem advance_id (x : State) (h : x.next_state = x.state) : advance x = x := by
  cases x
  simp only [advance] at h ⊢
  simp only [State.mk.injEq, true_and, and_true]
  exact h

theorem switch_timeStart (t : State) (h : t.state = .E_REC_TIME_START) :
    switchState t = caseTimeStart t := by
  unfold switchState
  rw [h]

theorem switch_time (t : State) (h : t.state = .E_REC_TIME) : switchState t = caseTime t := by
  unfold switchState
  rw [h]

theorem switch_cmdStart (t : State) (h : t.state = .E_REC_CMD_START) :
    switchState t = caseCmdStart t := by
  unfold switchState
  rw [h]

theorem switch_cmd (t : State) (h : t.state = .E_REC_CMD) : switchState t = caseCmd t := by
  unfold switchState
  rw [h]

theorem timeLength_id (t : State) (h : t.g_read_count ≠ 14 ∨ t.g_two_bytes = 33) :
    timeLength t = t := by
  unfold timeLength
  rw [if_neg]
  simp only [K_INS_TIME_LENGTH_OFFSET, K_TIME_SIZE]
  intro hh
  rcases h with h | h
  · exact h hh.1
  · exact hh.2 h

theorem timeCapture_id (t : State) (h : t.g_read_count ≠ 18) : timeCapture t = t := by
  unfold timeCapture
  rw [if_neg (by simpa [K_INS_TIME_OFFSET] using h)]

theorem timeCapture_at (t : State) (h : t.g_read_count = 18) :
    timeCapture t = { t with flag_time_recieved := 1, g_time_next := t.g_four_bytes } := by
  unfold timeCapture
  rw [if_pos (by simpa [K_INS_TIME_OFFSET] using h)]

theorem timeReserved_id (t : State)
    (h : t.g_read_count ≤ 20 ∨ 48 ≤ t.g_read_count ∨ t.g_two_bytes = 0) : timeReserved t = t := by
  unfold timeReserved
  rw [if_neg]
  simp only [K_INS_TIME_OFFSET]
  intro hh
  rcases h with h | h | h
  · omega
  · omega
  · exact hh.2.2 h

theorem timeReserved_at (t : State) (h1 : 20 < t.g_read_count) (h2 : t.g_read_count < 48)
    (h3 : t.g_two_bytes ≠ 0) : timeReserved t = { t with flag_packet_error := 1 } := by
  unfold timeReserved
  rw [if_pos]
  simp only [K_INS_TIME_OFFSET]
  exact ⟨by omega, by omega, h3⟩

theorem timeEnd_id (t : State) (h : t.g_read_count ≠ 48) : timeEnd t = t := by
  unfold timeEnd
  rw [if_neg (by simpa [K_INS_TIME_OFFSET] using h)]

theorem timeEnd_clean (t : State) (h : t.g_read_count = 48) (he : t.flag_packet_error ≠ 1) :
    timeEnd t = { t with next_state := .E_REC_CMD_START } := by
  unfold timeEnd
  rw [if_pos (by simpa [K_INS_TIME_OFFSET] using h)]
  dsimp only
  rw [if_neg he]

theorem timeEnd_error (t : State) (h : t.g_read_count = 48) (he : t.flag_packet_error = 1) :
    timeEnd t =
      { (alarm .CCSDS_FORMAT t) with
        flag_time_recieved := 0, flag_packet_error := 0, next_state := .E_REC_CMD_START } := by
  unfold timeEnd
  rw [if_pos (by simpa [K_INS_TIME_OFFSET] using h)]
  dsimp only
  rw [if_pos he]

theorem caseTimeStart_id (t : State) (h : t.g_read_count ≠ 10) : caseTimeStart t = t := by
  unfold caseTimeStart
  rw [if_neg (by simpa [K_INS_HEADER_OFFSET] using h)]

theorem caseTimeStart_time (t : State) (h : t.g_read_count = 10) (h2 : t.g_two_bytes = 0x1900) :
    caseTimeStart t = { t with next_state := .E_REC_TIME } := by
  unfold caseTimeStart
  rw [if_pos (by simpa [K_INS_HEADER_OFFSET] using h), if_pos h2]

theorem caseTimeStart_cmd (t : State) (h : t.g_read_count = 10) (h2 : t.g_two_bytes = 0x1B00) :
    caseTimeStart t =
      { t with
        flag_time_recieved := 0
        next_state := .E_REC_CMD
        g_command_num := (t.g_command_num + 1) % 256
        g_cmd_length := 0
        g_cmd_read_count := 0
        g_idle_count := 0 } := by
  unfold caseTimeStart
  rw [if_pos (by simpa [K_INS_HEADER_OFFSET] using h), if_neg (by rw [h2]; decide)]
  dsimp only
  rw [if_pos h2]

/-- A pass in the state `TIME_START` or `TIME` on a byte the case leaves alone. -/
theorem step_plain (s : State) (b : Nat) (hb : b < 256) (hI : Inv s) (hB : Body s)
    (hlt : s.g_read_count + 1 < s.g_data_len)
    (hsw : switchState (nextByte s b) = nextByte s b) : getDataStep s b = nextByte s b := by
  rw [(body_step_mid s b hb hI hB hlt).1, hsw]
  exact advance_id _ hI.next

theorem nextByte_inv (s : State) (b : Nat) (hI : Inv s) (hB : Body s)
    (hlt : s.g_read_count + 1 < s.g_data_len) : Inv (nextByte s b) ∧ Body (nextByte s b) := by
  have hB' : Body (nextByte s b) := by
    refine ⟨hB.state, hB.sync, ?_, hlt, hB.dl, ?_, hB.cnt⟩
    · show 6 ≤ s.g_read_count + 1
      have := hB.rc
      omega
    · show s.g_cmd_read_total ≤ s.g_read_count + 1
      have := hB.tot
      omega
  exact ⟨⟨hI.next, hI.fend, Or.inr (Or.inr hB')⟩, hB'⟩

/-- A run of bytes in the state `TIME_START` before the header offset. -/
theorem run_timeStart_plain (bs : List Nat) (s : State) (hb : ∀ b ∈ bs, b < 256) (hI : Inv s)
    (hB : Body s) (hst : s.state = .E_REC_TIME_START) (h9 : s.g_read_count + bs.length ≤ 9)
    (hlt : s.g_read_count + bs.length < s.g_data_len) : run s bs = nextBytes s bs := by
  induction bs generalizing s with
  | nil => rfl
  | cons b bs ih =>
    simp only [List.length_cons] at h9 hlt
    obtain ⟨hI', hB'⟩ := nextByte_inv s b hI hB (by omega)
    rw [run_cons, nextBytes_cons, step_plain s b (hb b (by simp)) hI hB (by omega)
      (by rw [switch_timeStart _ (by exact hst), caseTimeStart_id _ (by show s.g_read_count + 1 ≠ 10; omega)])]
    exact ih _ (fun x hx => hb x (by simp [hx])) hI' hB' hst
      (by show s.g_read_count + 1 + bs.length ≤ 9; omega)
      (by show s.g_read_count + 1 + bs.length < s.g_data_len; omega)

/-- A run of bytes in the state `TIME` at byte counts the case leaves alone:
11 to 13, 15 to 17, or 19 and 20. -/
theorem run_time_plain (bs : List Nat) (s : State) (hb : ∀ b ∈ bs, b < 256) (hI : Inv s)
    (hB : Body s) (hst : s.state = .E_REC_TIME)
    (hr : s.g_read_count + bs.length ≤ 13 ∨
      (14 ≤ s.g_read_count ∧ s.g_read_count + bs.length ≤ 17) ∨
      (18 ≤ s.g_read_count ∧ s.g_read_count + bs.length ≤ 20))
    (hlt : s.g_read_count + bs.length < s.g_data_len) : run s bs = nextBytes s bs := by
  induction bs generalizing s with
  | nil => rfl
  | cons b bs ih =>
    simp only [List.length_cons] at hr hlt
    obtain ⟨hI', hB'⟩ := nextByte_inv s b hI hB (by omega)
    have hc : (nextByte s b).g_read_count = s.g_read_count + 1 := rfl
    rw [run_cons, nextBytes_cons, step_plain s b (hb b (by simp)) hI hB (by omega)
      (by rw [switch_time _ (by exact hst), caseTime_eq, timeLength_id _ (Or.inl (by rw [hc]; omega)),
            timeCapture_id _ (by rw [hc]; omega),
            timeReserved_id _ (Or.inl (by rw [hc]; omega)), timeEnd_id _ (by rw [hc]; omega)])]
    exact ih _ (fun x hx => hb x (by simp [hx])) hI' hB' hst
      (by rw [hc]; omega) (by rw [hc]; show s.g_read_count + 1 + bs.length < s.g_data_len; omega)
/-! ## The passes over a timestamp header -/

/-- Moving a receiver inside a frame to another state of the frame body. -/
theorem retarget (t : State) (x : REC_STATE) (hI : Inv t) (hB : Body t)
    (hx : x = .E_REC_TIME_START ∨ x = .E_REC_TIME ∨ x = .E_REC_CMD_START ∨ x = .E_REC_CMD) :
    Inv { t with state := x, next_state := x } ∧ Body { t with state := x, next_state := x } := by
  have hB' : Body { t with state := x, next_state := x } :=
    ⟨hx, hB.sync, hB.rc, hB.lt, hB.dl, hB.tot, hB.cnt⟩
  exact ⟨⟨rfl, hI.fend, Or.inr (Or.inr hB')⟩, hB'⟩

theorem nextBytes_inv (bs : List Nat) (s : State) (hI : Inv s) (hB : Body s)
    (hlt : s.g_read_count + bs.length < s.g_data_len) :
    Inv (nextBytes s bs) ∧ Body (nextBytes s bs) := by
  induction bs generalizing s with
  | nil => exact ⟨hI, hB⟩
  | cons b bs ih =>
    simp only [List.length_cons] at hlt
    obtain ⟨hI', hB'⟩ := nextByte_inv s b hI hB (by omega)
    rw [nextBytes_cons]
    exact ih _ hI' hB' (by show s.g_read_count + 1 + bs.length < s.g_data_len; omega)

theorem nextBytes_fields (s : State) (bs : List Nat) :
    (nextBytes s bs).state = s.state ∧ (nextBytes s bs).next_state = s.next_state ∧
    (nextBytes s bs).g_read_count = s.g_read_count + bs.length ∧
    (nextBytes s bs).g_data_len = s.g_data_len ∧ (nextBytes s bs).sent = s.sent ∧
    (nextBytes s bs).flag_time_recieved = s.flag_time_recieved ∧
    (nextBytes s bs).flag_packet_error = s.flag_packet_error ∧
    (nextBytes s bs).g_time_next = s.g_time_next ∧ (nextBytes s bs).i_time = s.i_time ∧
    (nextBytes s bs).g_command_num = s.g_command_num ∧
    (nextBytes s bs).g_idle_count = s.g_idle_count ∧
    (nextBytes s bs).crc_total = crcFold s.crc_total bs := by
  rw [nextBytes_eq]
  exact ⟨rfl, rfl, rfl, rfl, rfl, rfl, rfl, rfl, rfl, rfl, rfl, rfl⟩

theorem two_window (s : State) (a b : Nat) (ha : a < 256) :
    (nextByte (nextByte s a) b).g_two_bytes = a * 256 + b := by
  show ((s.g_four_bytes % 16777216) * 256 + a) % 256 * 256 + b = a * 256 + b
  omega

theorem four_window (s : State) (a b c d : Nat) (ha : a < 256) (hb : b < 256) (hc : c < 256) :
    (nextByte (nextByte (nextByte (nextByte s a) b) c) d).g_four_bytes =
      a * 16777216 + b * 65536 + c * 256 + d := by
  show (((((s.g_four_bytes % 16777216) * 256 + a) % 16777216) * 256 + b) % 16777216 * 256 + c)
    % 16777216 * 256 + d = a * 16777216 + b * 65536 + c * 256 + d
  omega

theorem nextBytes_snoc (s : State) (bs : List Nat) (b : Nat) :
    nextBytes s (bs ++ [b]) = nextByte (nextBytes s bs) b := by
  rw [nextBytes_append]
  rfl

/-- The passes over byte counts 11 to 18 of a timestamp whose declared length
is 33: the last four bytes become the pending time. -/
theorem run_time_capture (s : State) (x11 x12 t1 t2 t3 t4 : Nat) (h11 : x11 < 256)
    (h12 : x12 < 256) (ht1 : t1 < 256) (ht2 : t2 < 256) (ht3 : t3 < 256) (ht4 : t4 < 256)
    (hI : Inv s) (hB : Body s) (hst : s.state = .E_REC_TIME) (h10 : s.g_read_count = 10)
    (hT : 18 < s.g_data_len) :
    run s [x11, x12, 0x00, 0x21, t1, t2, t3, t4] =
      { nextBytes s [x11, x12, 0x00, 0x21, t1, t2, t3, t4] with
        flag_time_recieved := 1
        g_time_next := t1 * 16777216 + t2 * 65536 + t3 * 256 + t4 } := by
  -- counts 11 to 13
  have e1 : run s [x11, x12, 0x00] = nextBytes s [x11, x12, 0x00] :=
    run_time_plain _ s (by simp; omega) hI hB hst (Or.inl (by rw [h10]; simp))
      (by rw [h10]; simp; omega)
  obtain ⟨hI13, hB13⟩ := nextBytes_inv [x11, x12, 0x00] s hI hB (by rw [h10]; simp; omega)
  obtain ⟨f1, _, f3, f4, _⟩ := nextBytes_fields s [x11, x12, 0x00]
  -- count 14
  have c14 : (nextByte (nextBytes s [x11, x12, 0x00]) 0x21).g_read_count = 14 := by
    show (nextBytes s [x11, x12, 0x00]).g_read_count + 1 = 14
    rw [f3, h10]
    rfl
  have e2 : getDataStep (nextBytes s [x11, x12, 0x00]) 0x21 =
      nextBytes s [x11, x12, 0x00, 0x21] := by
    rw [step_plain _ 0x21 (by decide) hI13 hB13 (by rw [f3, f4, h10]; simp; omega)
      (by rw [switch_time _ (by exact f1.trans hst), caseTime_eq,
            timeLength_id _ (Or.inr (by
              have hl2 : nextBytes s [x11, x12, 0x00] = nextByte (nextBytes s [x11, x12]) 0x00 := by
                rw [← nextBytes_snoc]
                simp only [List.cons_append, List.nil_append]
              rw [hl2]
              exact two_window (nextBytes s [x11, x12]) 0x00 0x21 (by decide))),
            timeCapture_id _ (by rw [c14]; decide),
            timeReserved_id _ (Or.inl (by rw [c14]; decide)), timeEnd_id _ (by rw [c14]; decide)]),
      ← nextBytes_snoc]
    simp only [List.cons_append, List.nil_append]
  obtain ⟨hI14, hB14⟩ := nextBytes_inv [x11, x12, 0x00, 0x21] s hI hB (by rw [h10]; simp; omega)
  obtain ⟨g1, _, g3, g4, _⟩ := nextBytes_fields s [x11, x12, 0x00, 0x21]
  -- counts 15 to 17
  have e3 : run (nextBytes s [x11, x12, 0x00, 0x21]) [t1, t2, t3] =
      nextBytes s [x11, x12, 0x00, 0x21, t1, t2, t3] := by
    rw [run_time_plain _ _ (by simp; omega) hI14 hB14 (g1.trans hst)
      (Or.inr (Or.inl ⟨by rw [g3, h10]; simp, by rw [g3, h10]; simp⟩))
      (by rw [g3, g4, h10]; simp; omega), ← nextBytes_append]
    simp only [List.cons_append, List.nil_append]
  obtain ⟨hI17, hB17⟩ := nextBytes_inv [x11, x12, 0x00, 0x21, t1, t2, t3] s hI hB
    (by rw [h10]; simp; omega)
  obtain ⟨k1, k2, k3, k4, _⟩ := nextBytes_fields s [x11, x12, 0x00, 0x21, t1, t2, t3]
  -- count 18
  have c18 : (nextByte (nextBytes s [x11, x12, 0x00, 0x21, t1, t2, t3]) t4).g_read_count = 18 := by
    show (nextBytes s [x11, x12, 0x00, 0x21, t1, t2, t3]).g_read_count + 1 = 18
    rw [k3, h10]
    rfl
  have e4 : getDataStep (nextBytes s [x11, x12, 0x00, 0x21, t1, t2, t3]) t4 =
      { nextBytes s [x11, x12, 0x00, 0x21, t1, t2, t3, t4] with
        flag_time_recieved := 1
        g_time_next := t1 * 16777216 + t2 * 65536 + t3 * 256 + t4 } := by
    rw [(body_step_mid _ t4 ht4 hI17 hB17 (by rw [k3, k4, h10]; simp; omega)).1,
      switch_time _ (by exact k1.trans hst), caseTime_eq,
      timeLength_id _ (Or.inl (by rw [c18]; decide)), timeCapture_at _ c18,
      timeReserved_id _ (Or.inl (by show (nextByte _ t4).g_read_count ≤ 20; rw [c18]; decide)),
      timeEnd_id _ (by show (nextByte _ t4).g_read_count ≠ 48; rw [c18]; decide)]
    have hw' : (nextByte (nextBytes s [x11, x12, 0x00, 0x21, t1, t2, t3]) t4).g_four_bytes =
        t1 * 16777216 + t2 * 65536 + t3 * 256 + t4 := by
      have hl3 : nextBytes s [x11, x12, 0x00, 0x21, t1, t2, t3] =
          nextByte (nextByte (nextByte (nextBytes s [x11, x12, 0x00, 0x21]) t1) t2) t3 := by
        rw [← nextBytes_snoc, ← nextBytes_snoc, ← nextBytes_snoc]
        simp only [List.cons_append, List.nil_append, List.append_assoc]
      rw [hl3]
      exact four_window (nextBytes s [x11, x12, 0x00, 0x21]) t1 t2 t3 t4 ht1 ht2 ht3
    have hl : nextBytes s [x11, x12, 0x00, 0x21, t1, t2, t3, t4] =
        nextByte (nextBytes s [x11, x12, 0x00, 0x21, t1, t2, t3]) t4 := by
      rw [← nextBytes_snoc]
      simp only [List.cons_append, List.nil_append]
    have hn : (nextByte (nextBytes s [x11, x12, 0x00, 0x21, t1, t2, t3]) t4).next_state =
        (nextByte (nextBytes s [x11, x12, 0x00, 0x21, t1, t2, t3]) t4).state := by
      show (nextBytes s [x11, x12, 0x00, 0x21, t1, t2, t3]).next_state =
        (nextBytes s [x11, x12, 0x00, 0x21, t1, t2, t3]).state
      rw [k1, k2]
      exact hI.next
    rw [hl]
    generalize nextByte (nextBytes s [x11, x12, 0x00, 0x21, t1, t2, t3]) t4 = x at hw' hn ⊢
    rw [advance_id _ (by exact hn)]
    dsimp only
    rw [hw']
  have main : run s ([x11, x12, 0x00] ++ ([0x21] ++ ([t1, t2, t3] ++ [t4]))) =
      { nextBytes s [x11, x12, 0x00, 0x21, t1, t2, t3, t4] with
        flag_time_recieved := 1
        g_time_next := t1 * 16777216 + t2 * 65536 + t3 * 256 + t4 } := by
    rw [run_append, e1, run_append, run_cons, run_nil, e2, run_append, e3, run_cons, run_nil, e4]
  simpa only [List.cons_append, List.nil_append] using main
theorem nextBytes_toTime (s : State) (bs : List Nat) :
    nextBytes { s with state := .E_REC_TIME, next_state := .E_REC_TIME } bs =
      { nextBytes s bs with state := .E_REC_TIME, next_state := .E_REC_TIME } :=
  nextBytes_comm (fun t => { t with state := .E_REC_TIME, next_state := .E_REC_TIME })
    (fun _ _ => rfl) s bs

/-- The passes over bytes 7 to 18 of a frame that begins with a timestamp:
bytes 7 and 8, the header `19 00`, two bytes, the declared length `00 21` and
the four bytes of the time. -/
theorem run_time_header (s : State) (b7 b8 x11 x12 t1 t2 t3 t4 : Nat) (h7 : b7 < 256)
    (h8 : b8 < 256) (h11 : x11 < 256) (h12 : x12 < 256) (ht1 : t1 < 256) (ht2 : t2 < 256)
    (ht3 : t3 < 256) (ht4 : t4 < 256) (hI : Inv s) (hB : Body s)
    (hst : s.state = .E_REC_TIME_START) (h6 : s.g_read_count = 6) (hT : 18 < s.g_data_len) :
    run s [b7, b8, 0x19, 0x00, x11, x12, 0x00, 0x21, t1, t2, t3, t4] =
      { nextBytes s [b7, b8, 0x19, 0x00, x11, x12, 0x00, 0x21, t1, t2, t3, t4] with
        state := .E_REC_TIME
        next_state := .E_REC_TIME
        flag_time_recieved := 1
        g_time_next := t1 * 16777216 + t2 * 65536 + t3 * 256 + t4 } := by
  -- counts 7 to 9
  have e1 : run s [b7, b8, 0x19] = nextBytes s [b7, b8, 0x19] :=
    run_timeStart_plain _ s (by simp; omega) hI hB hst (by rw [h6]; simp) (by rw [h6]; simp; omega)
  obtain ⟨hI9, hB9⟩ := nextBytes_inv [b7, b8, 0x19] s hI hB (by rw [h6]; simp; omega)
  obtain ⟨f1, f2, f3, f4, _⟩ := nextBytes_fields s [b7, b8, 0x19]
  have hl9 : nextBytes s [b7, b8, 0x19] = nextByte (nextBytes s [b7, b8]) 0x19 := by
    rw [← nextBytes_snoc]
    simp only [List.cons_append, List.nil_append]
  -- count 10
  have e2 : getDataStep (nextBytes s [b7, b8, 0x19]) 0x00 =
      { nextBytes s [b7, b8, 0x19, 0x00] with
        state := .E_REC_TIME, next_state := .E_REC_TIME } := by
    have hl10 : nextBytes s [b7, b8, 0x19, 0x00] = nextByte (nextBytes s [b7, b8, 0x19]) 0x00 := by
      rw [← nextBytes_snoc]
      simp only [List.cons_append, List.nil_append]
    rw [(body_step_mid _ 0x00 (by decide) hI9 hB9 (by rw [f3, f4, h6]; simp; omega)).1,
      switch_timeStart _ (by exact f1.trans hst),
      caseTimeStart_time _ (by show (nextBytes s [b7, b8, 0x19]).g_read_count + 1 = 10; rw [f3, h6]; rfl)
        (by rw [hl9]; exact two_window (nextBytes s [b7, b8]) 0x19 0x00 (by decide)), hl10]
    rfl
  obtain ⟨hI10, hB10⟩ := nextBytes_inv [b7, b8, 0x19, 0x00] s hI hB (by rw [h6]; simp; omega)
  obtain ⟨g1, g2, g3, g4, _⟩ := nextBytes_fields s [b7, b8, 0x19, 0x00]
  obtain ⟨hI10', hB10'⟩ := retarget _ .E_REC_TIME hI10 hB10 (Or.inr (Or.inl rfl))
  have e3 := run_time_capture
    { nextBytes s [b7, b8, 0x19, 0x00] with state := .E_REC_TIME, next_state := .E_REC_TIME }
    x11 x12 t1 t2 t3 t4 h11 h12 ht1 ht2 ht3 ht4 hI10' hB10' rfl
    (by show (nextBytes s [b7, b8, 0x19, 0x00]).g_read_count = 10; rw [g3, h6]; rfl)
    (by show 18 < (nextBytes s [b7, b8, 0x19, 0x00]).g_data_len; rw [g4]; exact hT)
  rw [nextBytes_toTime, ← nextBytes_append] at e3
  have main : run s ([b7, b8, 0x19] ++ (0x00 :: [x11, x12, 0x00, 0x21, t1, t2, t3, t4])) =
      { nextBytes s ([b7, b8, 0x19, 0x00] ++ [x11, x12, 0x00, 0x21, t1, t2, t3, t4]) with
        state := .E_REC_TIME
        next_state := .E_REC_TIME
        flag_time_recieved := 1
        g_time_next := t1 * 16777216 + t2 * 65536 + t3 * 256 + t4 } := by
    rw [run_append, e1, run_cons, e2, e3]
  simpa only [List.cons_append, List.nil_append] using main

theorem updateTime_time (s : State) :
    (s.flag_time_recieved = 1 →
      (instrumentUpdate .UPDATE_TIME s).i_time = s.g_time_next ∧
      (instrumentUpdate .UPDATE_TIME s).flag_time_recieved = 0) ∧
    (s.flag_time_recieved ≠ 1 →
      (instrumentUpdate .UPDATE_TIME s).i_time = (s.i_time + 1) % 4294967296 ∧
      (instrumentUpdate .UPDATE_TIME s).flag_time_recieved = s.flag_time_recieved) := by
  unfold instrumentUpdate
  dsimp only
  constructor
  · intro h
    rw [if_pos h]
    split_ifs <;> exact ⟨rfl, rfl⟩
  · intro h
    rw [if_neg h]
    split_ifs <;> exact ⟨rfl, rfl⟩

/-! ## The reserved bytes of a timestamp -/

theorem reservedFlag_cons (r prev e b : Nat) (bs : List Nat) :
    reservedFlag r prev e (b :: bs) =
      reservedFlag (r + 1) b (if 20 < r + 1 ∧ prev * 256 + b ≠ 0 then 1 else e) bs := rfl

theorem reservedFlag_one (bs : List Nat) (r prev : Nat) : reservedFlag r prev 1 bs = 1 := by
  induction bs generalizing r prev with
  | nil => rfl
  | cons b bs ih =>
    unfold reservedFlag
    split_ifs <;> exact ih _ _

theorem reservedFlag_zero (bs : List Nat) (r prev e : Nat) (hp : prev = 0 ∨ r + bs.length ≤ 20)
    (hz : (∀ b ∈ bs, b = 0) ∨ r + bs.length ≤ 20) : reservedFlag r prev e bs = e := by
  induction bs generalizing r prev with
  | nil => rfl
  | cons b bs ih =>
    unfold reservedFlag
    simp only [List.length_cons] at hp hz
    have hc : ¬ (20 < r + 1 ∧ prev * 256 + b ≠ 0) := by
      intro h
      rcases hz with hz | hz
      · have hb := hz b (by simp)
        rcases hp with hp | hp
        · rw [hp, hb] at h
          exact h.2 rfl
        · omega
      · omega
    rw [if_neg hc]
    refine ih _ _ ?_ ?_
    · rcases hz with hz | hz
      · exact Or.inl (hz b (by simp))
      · exact Or.inr (by omega)
    · rcases hz with hz | hz
      · exact Or.inl (fun x hx => hz x (by simp [hx]))
      · exact Or.inr (by omega)

theorem reservedFlag_bad (bs : List Nat) (r prev e : Nat) (h20 : 20 ≤ r)
    (h : (prev ≠ 0 ∧ bs ≠ []) ∨ ∃ b ∈ bs, b ≠ 0) : reservedFlag r prev e bs = 1 := by
  induction bs generalizing r prev e with
  | nil =>
    rcases h with ⟨_, h⟩ | ⟨b, hb, _⟩
    · exact absurd rfl h
    · exact absurd hb (List.not_mem_nil _)
  | cons b bs ih =>
    unfold reservedFlag
    by_cases hw : prev * 256 + b ≠ 0
    · rw [if_pos ⟨by omega, hw⟩]
      exact reservedFlag_one _ _ _
    · rw [if_neg (fun c => hw c.2)]
      have hp : prev = 0 ∧ b = 0 := by
        have : prev * 256 + b = 0 := by
          by_contra c
          exact hw c
        omega
      refine ih _ _ _ (by omega) ?_
      rcases h with ⟨h1, _⟩ | ⟨x, hx, hx0⟩
      · exact absurd hp.1 h1
      · rcases List.mem_cons.1 hx with e1 | e1
        · rw [e1] at hx0
          exact absurd hp.2 hx0
        · exact Or.inr ⟨x, e1, hx0⟩

/-- The reserved bytes of a timestamp, byte 19 first and byte 47 last: the flag
is raised exactly by a nonzero byte among bytes 20 to 47. -/
theorem reservedFlag_scan (res : List Nat) (t4 : Nat) (hl : res.length = 29) :
    ((∃ b ∈ res.tail, b ≠ 0) → reservedFlag 18 t4 0 res = 1) ∧
    ((∀ b ∈ res.tail, b = 0) → reservedFlag 18 t4 0 res = 0) := by
  obtain ⟨b19, b20, rest, rfl⟩ : ∃ b19 b20 rest, res = b19 :: b20 :: rest := by
    match res, hl with
    | a :: b :: r, _ => exact ⟨a, b, r, rfl⟩
  have hr : rest.length = 27 := by simpa using hl
  have e : reservedFlag 18 t4 0 (b19 :: b20 :: rest) = reservedFlag 20 b20 0 rest := by
    rw [reservedFlag_cons, if_neg (by omega), reservedFlag_cons, if_neg (by omega)]
  rw [e]
  simp only [List.tail_cons]
  constructor
  · rintro ⟨b, hb, hb0⟩
    apply reservedFlag_bad _ _ _ _ (Nat.le_refl _)
    rcases List.mem_cons.1 hb with h | h
    · left
      refine ⟨by rw [← h]; exact hb0, ?_⟩
      intro hn
      rw [hn] at hr
      simp at hr
    · exact Or.inr ⟨b, h, hb0⟩
  · intro hz
    exact reservedFlag_zero _ _ _ _ (Or.inl (hz b20 (by simp)))
      (Or.inl (fun x hx => hz x (by simp [hx])))
/-- A pass in the state `TIME` at a byte count from 19 to 47. -/
theorem step_reserved (s : State) (b : Nat) (hb : b < 256) (hI : Inv s) (hB : Body s)
    (hst : s.state = .E_REC_TIME) (h18 : 18 ≤ s.g_read_count) (h47 : s.g_read_count + 1 ≤ 47)
    (hlt : s.g_read_count + 1 < s.g_data_len) :
    getDataStep s b =
      { nextByte s b with
        flag_packet_error :=
          if 20 < s.g_read_count + 1 ∧ (s.g_four_bytes % 256) * 256 + b ≠ 0 then 1
          else s.flag_packet_error } := by
  have hc : (nextByte s b).g_read_count = s.g_read_count + 1 := rfl
  have hn : (nextByte s b).next_state = (nextByte s b).state := hI.next
  rw [(body_step_mid s b hb hI hB hlt).1, switch_time _ (by exact hst), caseTime_eq,
    timeLength_id _ (Or.inl (by rw [hc]; omega)), timeCapture_id _ (by rw [hc]; omega)]
  by_cases hw : 20 < s.g_read_count + 1 ∧ (s.g_four_bytes % 256) * 256 + b ≠ 0
  · rw [if_pos hw, timeReserved_at _ (by rw [hc]; exact hw.1) (by rw [hc]; omega) (by exact hw.2),
      timeEnd_id _ (by show (nextByte s b).g_read_count ≠ 48; rw [hc]; omega)]
    refine advance_id _ ?_
    exact hn
  · rw [if_neg hw, timeReserved_id _ (by
      rw [hc]
      by_cases h20 : 20 < s.g_read_count + 1
      · right; right
        by_contra hne
        exact hw ⟨h20, hne⟩
      · left; omega),
      timeEnd_id _ (by rw [hc]; omega), advance_id _ hn]
    cases s
    rfl

theorem nextBytes_error (s : State) (e : Nat) (bs : List Nat) :
    nextBytes { s with flag_packet_error := e } bs =
      { nextBytes s bs with flag_packet_error := e } :=
  nextBytes_comm (fun t => { t with flag_packet_error := e }) (fun _ _ => rfl) s bs

/-- The passes over byte counts 19 to 47 of a timestamp. -/
theorem run_reserved (bs : List Nat) (s : State) (hb : ∀ b ∈ bs, b < 256) (hI : Inv s)
    (hB : Body s) (hst : s.state = .E_REC_TIME) (h18 : 18 ≤ s.g_read_count)
    (h47 : s.g_read_count + bs.length ≤ 47) (hlt : s.g_read_count + bs.length < s.g_data_len) :
    run s bs =
      { nextBytes s bs with
        flag_packet_error :=
          reservedFlag s.g_read_count (s.g_four_bytes % 256) s.flag_packet_error bs } := by
  induction bs generalizing s with
  | nil =>
    cases s
    rfl
  | cons b bs ih =>
    simp only [List.length_cons] at h47 hlt
    have hb0 := hb b (by simp)
    obtain ⟨hI1, hB1⟩ := nextByte_inv s b hI hB (by omega)
    rw [run_cons, step_reserved s b hb0 hI hB hst h18 (by omega) (by omega), reservedFlag_cons,
      nextBytes_cons]
    generalize (if 20 < s.g_read_count + 1 ∧ (s.g_four_bytes % 256) * 256 + b ≠ 0 then 1
      else s.flag_packet_error) = e1
    have hB2 : Body { nextByte s b with flag_packet_error := e1 } :=
      ⟨hB1.state, hB1.sync, hB1.rc, hB1.lt, hB1.dl, hB1.tot, hB1.cnt⟩
    rw [ih { nextByte s b with flag_packet_error := e1 } (fun x hx => hb x (by simp [hx]))
      ⟨hI1.next, hI1.fend, Or.inr (Or.inr hB2)⟩ hB2 hst
      (by show 18 ≤ s.g_read_count + 1; omega)
      (by show s.g_read_count + 1 + bs.length ≤ 47; omega)
      (by show s.g_read_count + 1 + bs.length < s.g_data_len; omega)]
    rw [nextBytes_error]
    have e4 : ((s.g_four_bytes % 16777216) * 256 + b) % 256 = b := by omega
    show ({ nextBytes (nextByte s b) bs with
      flag_packet_error := reservedFlag (s.g_read_count + 1)
        (((s.g_four_bytes % 16777216) * 256 + b) % 256) e1 bs } : State) = _
    rw [e4]

/-- The pass in the state `TIME` at byte count 48. -/
theorem step_time_end (s : State) (b : Nat) (hb : b < 256) (hI : Inv s) (hB : Body s)
    (hst : s.state = .E_REC_TIME) (h47 : s.g_read_count = 47) (hlt : 48 < s.g_data_len) :
    (s.flag_packet_error = 1 →
      getDataStep s b =
        { (alarm .CCSDS_FORMAT (nextByte s b)) with
          flag_time_recieved := 0, flag_packet_error := 0
          next_state := .E_REC_CMD_START, state := .E_REC_CMD_START }) ∧
    (s.flag_packet_error ≠ 1 →
      getDataStep s b =
        { nextByte s b with next_state := .E_REC_CMD_START, state := .E_REC_CMD_START }) := by
  have hc : (nextByte s b).g_read_count = 48 := by
    show s.g_read_count + 1 = 48
    rw [h47]
  have e := (body_step_mid s b hb hI hB (by rw [h47]; exact hlt)).1
  rw [switch_time _ (by exact hst), caseTime_eq, timeLength_id _ (Or.inl (by rw [hc]; decide)),
    timeCapture_id _ (by rw [hc]; decide), timeReserved_id _ (Or.inr (Or.inl (by rw [hc])))] at e
  constructor
  · intro h1
    rw [e, timeEnd_error _ hc (by exact h1)]
    rfl
  · intro h1
    rw [e, timeEnd_clean _ hc (by exact h1)]
    rfl
/-- The passes over a whole timestamp of declared length 33, from the state in
which the length field of the frame was accepted. -/
theorem timestamp_run (s : State) (b7 b8 x11 x12 t1 t2 t3 t4 b48 : Nat) (res : List Nat)
    (h7 : b7 < 256) (h8 : b8 < 256) (h11 : x11 < 256) (h12 : x12 < 256) (ht1 : t1 < 256)
    (ht2 : t2 < 256) (ht3 : t3 < 256) (ht4 : t4 < 256) (h48 : b48 < 256)
    (hres : res.length = 29) (hb : ∀ b ∈ res, b < 256) (hI : Inv s) (hB : Body s)
    (hst : s.state = .E_REC_TIME_START) (h6 : s.g_read_count = 6) (hT : 48 < s.g_data_len)
    (he : s.flag_packet_error = 0) :
    (∀ k, k ≤ 29 →
      (run s (timestampHead b7 b8 x11 x12 t1 t2 t3 t4 ++ res.take k)).sent = s.sent ∧
      (run s (timestampHead b7 b8 x11 x12 t1 t2 t3 t4 ++ res.take k)).state = .E_REC_TIME) ∧
    ((∃ b ∈ res.tail, b ≠ 0) →
      (∃ pk, (run s (timestampHead b7 b8 x11 x12 t1 t2 t3 t4 ++ res ++ [b48])).sent =
          s.sent ++ [pk] ∧
        packetId pk = 0x0B02 ∧ pk.getD 18 0 = alarmValue .CCSDS_FORMAT) ∧
      (run s (timestampHead b7 b8 x11 x12 t1 t2 t3 t4 ++ res ++ [b48])).flag_time_recieved = 0) ∧
    ((∀ b ∈ res.tail, b = 0) →
      (run s (timestampHead b7 b8 x11 x12 t1 t2 t3 t4 ++ res ++ [b48])).sent = s.sent ∧
      (run s (timestampHead b7 b8 x11 x12 t1 t2 t3 t4 ++ res ++ [b48])).flag_time_recieved = 1 ∧
      (run s (timestampHead b7 b8 x11 x12 t1 t2 t3 t4 ++ res ++ [b48])).g_time_next =
        t1 * 16777216 + t2 * 65536 + t3 * 256 + t4) ∧
    (run s (timestampHead b7 b8 x11 x12 t1 t2 t3 t4 ++ res ++ [b48])).flag_packet_error = 0 ∧
    (run s (timestampHead b7 b8 x11 x12 t1 t2 t3 t4 ++ res ++ [b48])).state = .E_REC_CMD_START ∧
    (run s (timestampHead b7 b8 x11 x12 t1 t2 t3 t4 ++ res ++ [b48])).next_state
      = .E_REC_CMD_START := by
  have e18 := run_time_header s b7 b8 x11 x12 t1 t2 t3 t4 h7 h8 h11 h12 ht1 ht2 ht3 ht4 hI hB hst
    h6 (by omega)
  have hh : timestampHead b7 b8 x11 x12 t1 t2 t3 t4 =
      [b7, b8, 0x19, 0x00, x11, x12, 0x00, 0x21, t1, t2, t3, t4] := rfl
  rw [← hh] at e18
  have hlen : (timestampHead b7 b8 x11 x12 t1 t2 t3 t4).length = 12 := rfl
  have hw : (nextBytes s (timestampHead b7 b8 x11 x12 t1 t2 t3 t4)).g_four_bytes % 256 = t4 := by
    have e : nextBytes s (timestampHead b7 b8 x11 x12 t1 t2 t3 t4) =
        nextByte (nextBytes s [b7, b8, 0x19, 0x00, x11, x12, 0x00, 0x21, t1, t2, t3]) t4 := by
      rw [← nextBytes_snoc]
      rfl
    rw [e]
    show ((nextBytes s _).g_four_bytes % 16777216 * 256 + t4) % 256 = t4
    omega
  obtain ⟨hIn, hBn⟩ := nextBytes_inv (timestampHead b7 b8 x11 x12 t1 t2 t3 t4) s hI hB
    (by rw [h6, hlen]; omega)
  obtain ⟨n1, n2, n3, n4, n5, n6, n7, _⟩ := nextBytes_fields s (timestampHead b7 b8 x11 x12 t1 t2 t3 t4)
  generalize nextBytes s (timestampHead b7 b8 x11 x12 t1 t2 t3 t4) = x at e18 hw hIn hBn n1 n2 n3 n4 n5 n6 n7
  -- the state at byte count 18
  have e18' : run s (timestampHead b7 b8 x11 x12 t1 t2 t3 t4) =
      timeCaptured x (t1 * 16777216 + t2 * 65536 + t3 * 256 + t4) := e18
  have hB18 : Body (timeCaptured x (t1 * 16777216 + t2 * 65536 + t3 * 256 + t4)) :=
    ⟨Or.inr (Or.inl rfl), hBn.sync, hBn.rc, hBn.lt, hBn.dl, hBn.tot, hBn.cnt⟩
  have hI18 : Inv (timeCaptured x (t1 * 16777216 + t2 * 65536 + t3 * 256 + t4)) :=
    ⟨rfl, hIn.fend, Or.inr (Or.inr hB18)⟩
  have y1 : (timeCaptured x (t1 * 16777216 + t2 * 65536 + t3 * 256 + t4)).state = .E_REC_TIME :=
    rfl
  have y2 : (timeCaptured x (t1 * 16777216 + t2 * 65536 + t3 * 256 + t4)).g_read_count = 18 := by
    show x.g_read_count = 18
    rw [n3, h6, hlen]
  have y3 : (timeCaptured x (t1 * 16777216 + t2 * 65536 + t3 * 256 + t4)).g_data_len =
      s.g_data_len := n4
  have y4 : (timeCaptured x (t1 * 16777216 + t2 * 65536 + t3 * 256 + t4)).flag_packet_error = 0 :=
    n7.trans he
  have y5 : (timeCaptured x (t1 * 16777216 + t2 * 65536 + t3 * 256 + t4)).g_four_bytes % 256 = t4 :=
    hw
  have y6 : (timeCaptured x (t1 * 16777216 + t2 * 65536 + t3 * 256 + t4)).sent = s.sent := n5
  have y7 : (timeCaptured x (t1 * 16777216 + t2 * 65536 + t3 * 256 + t4)).flag_time_recieved = 1 :=
    rfl
  have y8 : (timeCaptured x (t1 * 16777216 + t2 * 65536 + t3 * 256 + t4)).g_time_next =
      t1 * 16777216 + t2 * 65536 + t3 * 256 + t4 := rfl
  generalize timeCaptured x (t1 * 16777216 + t2 * 65536 + t3 * 256 + t4) = y at e18' hB18 hI18 y1 y2 y3 y4 y5 y6 y7 y8
  clear e18
  have runres : ∀ bs : List Nat, (∀ b ∈ bs, b < 256) → bs.length ≤ 29 →
      run y bs = withError (nextBytes y bs) (reservedFlag 18 t4 0 bs) := by
    intro bs hbs hl
    rw [run_reserved bs y hbs hI18 hB18 y1 (by rw [y2]) (by rw [y2]; omega)
      (by rw [y2, y3]; omega), y2, y4, y5]
    rfl
  refine ⟨?_, ?_⟩
  · intro k hk
    rw [run_append, e18', runres _ (fun b hb' => hb b (List.mem_of_mem_take hb'))
      (by rw [List.length_take]; omega)]
    refine ⟨?_, ?_⟩
    · show (nextBytes y _).sent = s.sent
      rw [(nextBytes_fields _ _).2.2.2.2.1, y6]
    · show (nextBytes y _).state = _
      rw [(nextBytes_fields _ _).1, y1]
  · have e47 : run s (timestampHead b7 b8 x11 x12 t1 t2 t3 t4 ++ res) =
        withError (nextBytes y res) (reservedFlag 18 t4 0 res) := by
      rw [run_append, e18', runres res hb (by omega)]
    obtain ⟨hI47, hB47⟩ := nextBytes_inv res y hI18 hB18 (by rw [y2, y3, hres]; omega)
    obtain ⟨m1, m2, m3, m4, m5, m6, m7, m8, _⟩ := nextBytes_fields y res
    generalize nextBytes y res = z at e47 hI47 hB47 m1 m2 m3 m4 m5 m6 m7 m8
    have hBz : Body (withError z (reservedFlag 18 t4 0 res)) :=
      ⟨hB47.state, hB47.sync, hB47.rc, hB47.lt, hB47.dl, hB47.tot, hB47.cnt⟩
    have hIz : Inv (withError z (reservedFlag 18 t4 0 res)) :=
      ⟨hI47.next, hI47.fend, Or.inr (Or.inr hBz)⟩
    obtain ⟨se, sc⟩ := step_time_end (withError z (reservedFlag 18 t4 0 res)) b48
      h48 hIz hBz (m1.trans y1) (by show z.g_read_count = 47; rw [m3, y2, hres])
      (by show 48 < z.g_data_len; rw [m4, y3]; exact hT)
    have efin : run s (timestampHead b7 b8 x11 x12 t1 t2 t3 t4 ++ res ++ [b48]) =
        getDataStep (withError z (reservedFlag 18 t4 0 res)) b48 := by
      rw [run_append, e47]
      rfl
    rw [efin]
    obtain ⟨sb, sg⟩ := reservedFlag_scan res t4 hres
    have hzs : z.sent = s.sent := m5.trans y6
    by_cases hbad : ∃ b ∈ res.tail, b ≠ 0
    · have hf := sb hbad
      rw [se (by exact hf)]
      refine ⟨fun _ => ⟨?_, rfl⟩, fun hz => ?_, rfl, rfl, rfl⟩
      · refine ⟨_, ?_, alarm_id .CCSDS_FORMAT (nextByte (withError z (reservedFlag 18 t4 0 res)) b48),
          (alarm_body_bytes .CCSDS_FORMAT _).2.2.1⟩
        show (alarm .CCSDS_FORMAT _).sent = _
        rw [alarm_sent]
        show z.sent ++ _ = _
        rw [hzs]
      · obtain ⟨b, hb1, hb2⟩ := hbad
        exact absurd (hz b hb1) hb2
    · have hz : ∀ b ∈ res.tail, b = 0 := by
        intro b hb1
        by_contra hne
        exact hbad ⟨b, hb1, hne⟩
      have hf := sg hz
      rw [sc (by show reservedFlag 18 t4 0 res ≠ 1; rw [hf]; decide)]
      refine ⟨fun h => absurd h hbad, fun _ => ⟨hzs, m6.trans y7, m8.trans y8⟩, hf, rfl, rfl⟩

theorem accepted_facts (hi lo : Nat) :
    (accepted hi lo).state = .E_REC_TIME_START ∧ (accepted hi lo).g_read_count = 6 ∧
    (accepted hi lo).g_data_len = hi * 256 + lo + 6 ∧ (accepted hi lo).sent = locked4.sent ∧
    (accepted hi lo).flag_packet_error = 0 ∧ (accepted hi lo).flag_time_recieved = 0 ∧
    (accepted hi lo).g_command_num = 0 ∧ (accepted hi lo).g_idle_count = 0 ∧
    (accepted hi lo).i_time = 1 ∧ (accepted hi lo).g_cmd_read_total = 0 := by
  obtain ⟨_, _, _, _, _, _, _, f8, _, _, f11, f12, f13, f14, f15⟩ := locked4_facts
  exact ⟨rfl, rfl, rfl, rfl, f13, f12, f14, f15, f11, f8⟩

theorem alarmValues_base (x : State) (h : x.sent = locked4.sent) :
    alarmValues x = [] ∧ echoPackets x = [] := by
  unfold alarmValues alarmPackets echoPackets
  rw [h]
  have h1 := locked4_sent.1
  have h2 := locked4_sent.2.1
  unfold alarmPackets at h1
  unfold echoPackets at h2
  rw [h1, h2]
  exact ⟨rfl, rfl⟩

theorem alarmValues_one (x : State) (pk : List Nat) (v : Nat) (h : x.sent = locked4.sent ++ [pk])
    (hid : packetId pk = 0x0B02) (hv : pk.getD 18 0 = v) :
    alarmValues x = [v] ∧ echoPackets x = [] := by
  unfold alarmValues alarmPackets echoPackets
  rw [h, List.filter_append, List.filter_append]
  have h1 := locked4_sent.1
  have h2 := locked4_sent.2.1
  unfold alarmPackets at h1
  unfold echoPackets at h2
  rw [h1, h2]
  have ha : isAlarm pk = true := by simp [isAlarm, hid]
  have he : isEcho pk = false := by simp [isEcho, hid]
  have hv' : pk[18]?.getD 0 = v := by rw [← List.getD_eq_getElem?_getD]; exact hv
  simp [ha, he, hv']

/-! ## The switch on the bytes of a command -/

theorem cmdLength_id (u : State) (h : u.g_cmd_read_count ≠ 6) : cmdLength u = u := by
  unfold cmdLength
  rw [if_neg (by simpa [K_INS_DATA_LEN_OFFSET] using h)]

theorem cmdDone_at (w : State) (h : w.g_cmd_read_count = w.g_cmd_length + 7) :
    cmdDone w =
      { w with next_state := .E_REC_CMD_START, g_command_num := (w.g_command_num + 1) % 256 } := by
  unfold cmdDone
  rw [if_pos (by simpa [K_INS_DATA_LEN_OFFSET] using h)]

/-- What the storing of the byte leaves alone when the command read total is
in range. -/
theorem cmdStore_held (v : State) (h : v.g_cmd_read_total ≤ 2460) :
    (cmdStore v).sent = v.sent ∧ (cmdStore v).flag_time_recieved = v.flag_time_recieved ∧
    (cmdStore v).g_time_next = v.g_time_next ∧ (cmdStore v).next_state = v.next_state ∧
    (cmdStore v).g_cmd_read_count = v.g_cmd_read_count ∧
    (cmdStore v).g_cmd_length = v.g_cmd_length ∧
    (cmdStore v).g_command_num = v.g_command_num ∧
    (cmdStore v).g_idle_count = v.g_idle_count := by
  unfold cmdStore
  dsimp only
  split_ifs with h1 h2 h3
  · simp only [K_MAX_CMD_SIZE, K_MAX_CMDS] at h2
    omega
  · exact ⟨rfl, rfl, rfl, rfl, rfl, rfl, rfl, rfl⟩
  · exact ⟨rfl, rfl, rfl, rfl, rfl, rfl, rfl, rfl⟩
  · exact ⟨rfl, rfl, rfl, rfl, rfl, rfl, rfl, rfl⟩

/-- The case `E_REC_CMD` on a byte that is neither the second byte of the
length field nor the last byte of the command. -/
theorem sw_cmd_plain (t : State) (hst : t.state = .E_REC_CMD) (ht : t.g_cmd_read_total ≤ 511)
    (hc : t.g_cmd_read_count < 65535) (h6 : t.g_cmd_read_count + 1 ≠ 6)
    (h7 : t.g_cmd_read_count + 1 ≠ t.g_cmd_length + 7) :
    (switchState t).sent = t.sent ∧
    (switchState t).flag_time_recieved = t.flag_time_recieved ∧
    (switchState t).g_time_next = t.g_time_next ∧ (switchState t).next_state = t.next_state ∧
    (switchState t).g_cmd_read_count = t.g_cmd_read_count + 1 ∧
    (switchState t).g_cmd_length = t.g_cmd_length ∧
    (switchState t).g_command_num = t.g_command_num ∧
    (switchState t).g_idle_count = t.g_idle_count := by
  have c1 : (cmdCount t).g_cmd_read_count = t.g_cmd_read_count + 1 := by
    show (t.g_cmd_read_count + 1) % 65536 = _
    omega
  have c2 : (cmdCount t).g_cmd_read_total ≤ 2460 := by
    show (t.g_cmd_read_total + 1) % 65536 ≤ 2460
    omega
  rw [switch_cmd t hst, caseCmd_eq, cmdLength_id _ (by rw [c1]; exact h6)]
  obtain ⟨s1, s2, s3, s4, s5, s6, s7, s8⟩ := cmdStore_held (cmdCount t) c2
  rw [cmdDone_not _ (by rw [s5, s6, c1]; exact h7)]
  exact ⟨s1, s2, s3, s4, s5.trans c1, s6, s7, s8⟩

/-- The case `E_REC_CMD` on the second byte of a length field in range. -/
theorem sw_cmd_length (t : State) (hst : t.state = .E_REC_CMD) (hc : t.g_cmd_read_count = 5)
    (hgood : 12 ≤ (t.g_two_bytes + 11) % 65536 ∧ (t.g_two_bytes + 11) % 65536 ≤ 256) :
    (switchState t).sent = t.sent ∧
    (switchState t).flag_time_recieved = t.flag_time_recieved ∧
    (switchState t).g_time_next = t.g_time_next ∧ (switchState t).next_state = t.next_state ∧
    (switchState t).g_cmd_read_count = 6 ∧
    (switchState t).g_cmd_length = (t.g_two_bytes + 11) % 65536 ∧
    (switchState t).g_command_num = t.g_command_num ∧
    (switchState t).g_idle_count = t.g_idle_count := by
  have c1 : (cmdCount t).g_cmd_read_count = 6 := by
    show (t.g_cmd_read_count + 1) % 65536 = 6
    rw [hc]
  rw [switch_cmd t hst, caseCmd_eq, cmdLength_good (cmdCount t) c1 hgood,
    cmdStore_low _ (by show (cmdCount t).g_cmd_read_count ≤ 10; rw [c1]; omega),
    cmdDone_not _ (by
      show (cmdCount t).g_cmd_read_count ≠ (t.g_two_bytes + 11) % 65536 + 7
      rw [c1]; omega)]
  exact ⟨rfl, rfl, rfl, rfl, c1, rfl, rfl, rfl⟩

/-- The case `E_REC_CMD` on the last byte of a command. -/
theorem sw_cmd_done (t : State) (hst : t.state = .E_REC_CMD) (ht : t.g_cmd_read_total ≤ 511)
    (hc : t.g_cmd_read_count < 65535) (h6 : t.g_cmd_read_count + 1 ≠ 6)
    (h7 : t.g_cmd_read_count + 1 = t.g_cmd_length + 7) :
    (switchState t).sent = t.sent ∧
    (switchState t).flag_time_recieved = t.flag_time_recieved ∧
    (switchState t).g_time_next = t.g_time_next ∧
    (switchState t).next_state = .E_REC_CMD_START ∧
    (switchState t).g_command_num = (t.g_command_num + 1) % 256 ∧
    (switchState t).g_idle_count = t.g_idle_count := by
  have c1 : (cmdCount t).g_cmd_read_count = t.g_cmd_read_count + 1 := by
    show (t.g_cmd_read_count + 1) % 65536 = _
    omega
  have c2 : (cmdCount t).g_cmd_read_total ≤ 2460 := by
    show (t.g_cmd_read_total + 1) % 65536 ≤ 2460
    omega
  rw [switch_cmd t hst, caseCmd_eq, cmdLength_id _ (by rw [c1]; exact h6)]
  obtain ⟨s1, s2, s3, s4, s5, s6, s7, s8⟩ := cmdStore_held (cmdCount t) c2
  rw [cmdDone_at _ (by rw [s5, s6, c1]; exact h7)]
  exact ⟨s1, s2, s3, rfl, by show ((cmdStore (cmdCount t)).g_command_num + 1) % 256 = _; rw [s7]; rfl,
    s8⟩

/-- The case `E_REC_CMD_START` on a byte that completes no header, while the
idle count stays at most 2. -/
theorem sw_start_idle (t : State) (hst : t.state = .E_REC_CMD_START)
    (hne : t.g_two_bytes ≠ 0x1B00) (hidle : t.g_idle_count + 1 ≤ 2) :
    (switchState t).sent = t.sent ∧
    (switchState t).flag_time_recieved = t.flag_time_recieved ∧
    (switchState t).g_time_next = t.g_time_next ∧ (switchState t).next_state = t.next_state ∧
    (switchState t).g_command_num = t.g_command_num ∧
    (switchState t).g_idle_count = t.g_idle_count + 1 := by
  have e1 : cmdStartHeader t = { t with g_idle_count := (t.g_idle_count + 1) % 256 } := by
    unfold cmdStartHeader
    dsimp only
    rw [if_neg hne]
  have e2 : (t.g_idle_count + 1) % 256 = t.g_idle_count + 1 := by omega
  rw [switch_cmdStart t hst, caseCmdStart_eq, e1, e2]
  unfold cmdStartIdle
  rw [if_neg (by show ¬ (t.g_idle_count + 1 > 2); omega)]
  exact ⟨rfl, rfl, rfl, rfl, rfl, rfl⟩

/-- The case `E_REC_CMD_START` on the second byte of a command header. -/
theorem sw_start_match (t : State) (hst : t.state = .E_REC_CMD_START)
    (h : t.g_two_bytes = 0x1B00) :
    (switchState t).sent = t.sent ∧
    (switchState t).flag_time_recieved = t.flag_time_recieved ∧
    (switchState t).g_time_next = t.g_time_next ∧ (switchState t).next_state = .E_REC_CMD ∧
    (switchState t).g_command_num = (t.g_command_num + 1) % 256 ∧
    (switchState t).g_idle_count = 0 ∧ (switchState t).g_cmd_read_count = 0 ∧
    (switchState t).g_cmd_length = 0 := by
  rw [switch_cmdStart t hst, caseCmdStart_eq]
  unfold cmdStartHeader
  dsimp only
  rw [if_pos h]
  unfold cmdStartIdle
  rw [if_neg (by show ¬ ((0 : Nat) > 2); omega)]
  exact ⟨rfl, rfl, rfl, rfl, rfl, rfl, rfl, rfl⟩
/-! ## The time variables through the command states and at the next sync -/

theorem Late.comp {a b c : State} (h1 : Late a b) (h2 : Late b c) : Late a c := by
  refine ⟨h2.ft.trans h1.ft, h2.tn.trans h1.tn, ?_⟩
  rcases h2.next with h | h
  · rw [h]; exact h1.next
  · exact Or.inr h

theorem cmdStartHeader_late (t : State) : Late t (cmdStartHeader t) := by
  unfold cmdStartHeader
  dsimp only
  split_ifs
  · exact ⟨rfl, rfl, Or.inr (Or.inl rfl)⟩
  · exact ⟨rfl, rfl, Or.inl rfl⟩

theorem cmdStartIdle_late (t : State) : Late t (cmdStartIdle t) := by
  unfold cmdStartIdle
  dsimp only
  split_ifs <;> exact ⟨rfl, rfl, Or.inl rfl⟩

theorem cmdCount_late (t : State) : Late t (cmdCount t) := ⟨rfl, rfl, Or.inl rfl⟩

theorem cmdLength_late (t : State) : Late t (cmdLength t) := by
  unfold cmdLength
  dsimp only
  split_ifs
  · exact ⟨rfl, rfl, Or.inr (Or.inr rfl)⟩
  · exact ⟨rfl, rfl, Or.inl rfl⟩
  · exact ⟨rfl, rfl, Or.inl rfl⟩

theorem cmdStore_late (t : State) (h : t.g_cmd_read_total ≤ 2460) : Late t (cmdStore t) := by
  obtain ⟨_, s2, s3, s4, _⟩ := cmdStore_held t h
  exact ⟨s2, s3, Or.inl s4⟩

theorem cmdDone_late (t : State) : Late t (cmdDone t) := by
  unfold cmdDone
  split_ifs
  · exact ⟨rfl, rfl, Or.inr (Or.inr rfl)⟩
  · exact ⟨rfl, rfl, Or.inl rfl⟩

/-- The switch in the states `CMD_START` and `CMD`. -/
theorem sw_late (t : State) (hst : t.state = .E_REC_CMD_START ∨ t.state = .E_REC_CMD)
    (ht : t.g_cmd_read_total ≤ 511) (hc : CntOK t) : Late t (switchState t) := by
  rcases hst with h | h
  · rw [switch_cmdStart t h, caseCmdStart_eq]
    exact (cmdStartHeader_late t).comp (cmdStartIdle_late _)
  · rw [switch_cmd t h, caseCmd_eq]
    obtain ⟨f1, e1⟩ := cmdCount_frame t ht hc
    obtain ⟨f2, l2, _⟩ := cmdLength_frame (cmdCount t) f1.cnt (by omega)
    exact (((cmdCount_late t).comp (cmdLength_late _)).comp
      (cmdStore_late _ (by omega))).comp (cmdDone_late _)

/-- A pass inside the frame in the states `CMD_START` and `CMD`. -/
theorem late_step (s : State) (b : Nat) (hb : b < 256) (hI : Inv s) (hB : Body s)
    (hst : s.state = .E_REC_CMD_START ∨ s.state = .E_REC_CMD)
    (hlt : s.g_read_count + 1 < s.g_data_len) :
    ((getDataStep s b).state = .E_REC_CMD_START ∨ (getDataStep s b).state = .E_REC_CMD) ∧
    (getDataStep s b).flag_time_recieved = s.flag_time_recieved ∧
    (getDataStep s b).g_time_next = s.g_time_next := by
  have hL := sw_late (nextByte s b) hst
    (by show s.g_cmd_read_total ≤ 511; have := hB.tot; have := hB.dl; have := hB.lt; omega) hB.cnt
  rw [(body_step_mid s b hb hI hB hlt).1]
  refine ⟨?_, hL.ft, hL.tn⟩
  show (switchState (nextByte s b)).next_state = _ ∨ (switchState (nextByte s b)).next_state = _
  rcases hL.next with h | h | h
  · rw [h]
    show s.next_state = _ ∨ s.next_state = _
    rw [hI.next]
    exact hst
  · exact Or.inr h
  · exact Or.inl h

theorem late_run (bs : List Nat) (s : State) (hb : ∀ b ∈ bs, b < 256) (hI : Inv s) (hB : Body s)
    (hst : s.state = .E_REC_CMD_START ∨ s.state = .E_REC_CMD)
    (hlt : s.g_read_count + bs.length < s.g_data_len) :
    ((run s bs).state = .E_REC_CMD_START ∨ (run s bs).state = .E_REC_CMD) ∧
    (run s bs).flag_time_recieved = s.flag_time_recieved ∧
    (run s bs).g_time_next = s.g_time_next := by
  induction bs generalizing s with
  | nil => exact ⟨hst, rfl, rfl⟩
  | cons b bs ih =>
    simp only [List.length_cons] at hlt
    have hb0 := hb b (by simp)
    obtain ⟨e, hF, hI', hB'⟩ := body_step_mid s b hb0 hI hB (by omega)
    obtain ⟨l1, l2, l3⟩ := late_step s b hb0 hI hB hst (by omega)
    rw [run_cons]
    rw [e] at l1 l2 l3 ⊢
    have rc' : (advance (switchState (nextByte s b))).g_read_count = s.g_read_count + 1 := hF.rc
    have dl' : (advance (switchState (nextByte s b))).g_data_len = s.g_data_len := hF.dl
    obtain ⟨i1, i2, i3⟩ := ih _ (fun x hx => hb x (by simp [hx])) hI' hB' l1
      (by rw [rc', dl']; omega)
    exact ⟨i1, i2.trans l2, i3.trans l3⟩

theorem dispatch_fold_fields (loc : Nat → Nat) (js : List Nat) (t : State) :
    (js.foldl (dispatch loc) t).flag_time_recieved = t.flag_time_recieved ∧
    (js.foldl (dispatch loc) t).g_time_next = t.g_time_next ∧
    (js.foldl (dispatch loc) t).i_time = t.i_time := by
  induction js generalizing t with
  | nil => exact ⟨rfl, rfl, rfl⟩
  | cons j js ih =>
    rw [List.foldl_cons]
    obtain ⟨h1, h2, h3⟩ := ih (dispatch loc t j)
    exact ⟨h1, h2, h3⟩

theorem processCommands_fields (s : State) :
    (processCommands s).flag_time_recieved = s.flag_time_recieved ∧
    (processCommands s).g_time_next = s.g_time_next ∧
    (processCommands s).i_time = s.i_time := by
  rw [processCommands_eq]
  exact dispatch_fold_fields _ _ _

/-- The time variables after the end-of-frame check. -/
theorem frameEnd_time (x : State) :
    (x.crc_total ≠ 0 → (frameEnd x).flag_time_recieved = 0) ∧
    (x.crc_total = 0 → (frameEnd x).flag_time_recieved = x.flag_time_recieved) ∧
    (frameEnd x).g_time_next = x.g_time_next ∧ (frameEnd x).i_time = x.i_time := by
  unfold frameEnd
  refine ⟨?_, ?_, ?_, ?_⟩
  · intro h
    rw [if_neg h]
    rfl
  · intro h
    rw [if_pos h]
    exact (processCommands_fields _).1
  · split_ifs
    · exact (processCommands_fields _).2.1
    · rfl
  · split_ifs
    · exact (processCommands_fields _).2.2
    · rfl

/-- The time variables after the last pass of a frame. -/
theorem end_step_time (s : State) (b : Nat) (hb : b < 256) (hB : Body s)
    (heq : s.g_read_count + 1 = s.g_data_len) :
    (crc s.crc_total b ≠ 0 → (getDataStep s b).flag_time_recieved = 0) ∧
    (getDataStep s b).i_time = s.i_time ∧
    (s.state = .E_REC_CMD_START ∨ s.state = .E_REC_CMD → crc s.crc_total b = 0 →
      (getDataStep s b).flag_time_recieved = s.flag_time_recieved ∧
      (getDataStep s b).g_time_next = s.g_time_next) := by
  obtain ⟨_, _, _, hcrc, _, hstep, _⟩ := end_step_out s b hb hB heq
  have htime : (afterSwitch s b).i_time = s.i_time := by
    rw [afterSwitch_last s b hb hB heq]
    exact (body_step_end s b hb hB heq).2.time
  have hlate : s.state = .E_REC_CMD_START ∨ s.state = .E_REC_CMD →
      Late s (afterSwitch s b) := by
    intro hst
    have hL := sw_late { nextByte s b with flag_end_reached := 1 } hst
      (by show s.g_cmd_read_total ≤ 511; have := hB.tot; have := hB.dl; have := hB.lt; omega)
      hB.cnt
    rw [afterSwitch_last s b hb hB heq]
    exact ⟨hL.ft, hL.tn, hL.next⟩
  rw [hstep]
  generalize afterSwitch s b = x at hcrc htime hlate
  obtain ⟨t1, t2, t3, t4⟩ := frameEnd_time x
  refine ⟨?_, ?_, ?_⟩
  · intro h
    exact t1 (by rw [hcrc]; exact h)
  · show (frameEnd x).i_time = _
    rw [t4, htime]
  · intro hst hz
    refine ⟨?_, ?_⟩
    · show (frameEnd x).flag_time_recieved = _
      rw [t2 (by rw [hcrc]; exact hz), (hlate hst).ft]
    · show (frameEnd x).g_time_next = _
      rw [t3, (hlate hst).tn]

theorem shiftIn_four (s : State) (b : Nat) :
    (shiftIn s b).g_four_bytes = (s.g_four_bytes % 16777216) * 256 + b % 256 :=
  shift4_eq _ _

theorem shiftIn_quiet (s : State) (b : Nat) (hI : Inv s) (hQ : Quiet s) :
    Inv (shiftIn s b) ∧ Quiet (shiftIn s b) :=
  ⟨⟨hI.next, hI.fend, Or.inl ⟨hQ.state, hQ.sync, hQ.rc, hQ.dl, hQ.crc, hQ.tot, hQ.cnt⟩⟩,
    ⟨hQ.state, hQ.sync, hQ.rc, hQ.dl, hQ.crc, hQ.tot, hQ.cnt⟩⟩

theorem quiet_step_miss (s : State) (b : Nat) (hI : Inv s) (hQ : Quiet s)
    (h : (s.g_four_bytes % 16777216) * 256 + b % 256 ≠ SYNC) :
    getDataStep s b = shiftIn s b := by
  rw [quiet_step_eq s b hI hQ, caseIdle_eq, if_neg (by rw [shiftIn_four]; exact h)]
  exact advance_id _ hI.next

theorem shiftIn_fields (s : State) (b : Nat) :
    (shiftIn s b).flag_time_recieved = s.flag_time_recieved ∧
    (shiftIn s b).g_time_next = s.g_time_next ∧ (shiftIn s b).i_time = s.i_time :=
  ⟨rfl, rfl, rfl⟩

theorem synced_fields (s : State) :
    (synced s).flag_time_recieved = s.flag_time_recieved ∧
    (synced s).g_time_next = s.g_time_next ∧ (synced s).i_time = s.i_time ∧
    (synced s).next_state = .E_REC_LENGTH :=
  ⟨rfl, rfl, rfl, rfl⟩

/-- The passes over a sync marker that follows a frame. -/
theorem next_sync (s : State) (hI : Inv s) (hQ : Quiet s) :
    (s.flag_time_recieved = 1 → (run s syncBytes).i_time = s.g_time_next) ∧
    (s.flag_time_recieved ≠ 1 → (run s syncBytes).i_time = (s.i_time + 1) % 4294967296) ∧
    (run s syncBytes).state = .E_REC_LENGTH := by
  have e1 : getDataStep s 0xFE = shiftIn s 0xFE :=
    quiet_step_miss s _ hI hQ (by simp only [SYNC]; omega)
  obtain ⟨hI1, hQ1⟩ := shiftIn_quiet s 0xFE hI hQ
  have e2 : getDataStep (shiftIn s 0xFE) 0xFA = shiftIn (shiftIn s 0xFE) 0xFA :=
    quiet_step_miss _ _ hI1 hQ1 (by simp only [SYNC]; omega)
  obtain ⟨hI2, hQ2⟩ := shiftIn_quiet _ 0xFA hI1 hQ1
  have e3 : getDataStep (shiftIn (shiftIn s 0xFE) 0xFA) 0x30 =
      shiftIn (shiftIn (shiftIn s 0xFE) 0xFA) 0x30 :=
    quiet_step_miss _ _ hI2 hQ2 (by simp only [SYNC]; omega)
  obtain ⟨hI3, hQ3⟩ := shiftIn_quiet _ 0x30 hI2 hQ2
  have f4 : (shiftIn (shiftIn (shiftIn (shiftIn s 0xFE) 0xFA) 0x30) 0xC8).g_four_bytes = SYNC := by
    rw [shiftIn_four, shiftIn_four, shiftIn_four, shiftIn_four]
    simp only [SYNC]
    omega
  have e4 : getDataStep (shiftIn (shiftIn (shiftIn s 0xFE) 0xFA) 0x30) 0xC8 =
      advance (instrumentUpdate .UPDATE_TIME
        (synced (shiftIn (shiftIn (shiftIn (shiftIn s 0xFE) 0xFA) 0x30) 0xC8))) := by
    rw [quiet_step_eq _ _ hI3 hQ3, caseIdle_eq, if_pos f4]
  have er : run s syncBytes = advance (instrumentUpdate .UPDATE_TIME
        (synced (shiftIn (shiftIn (shiftIn (shiftIn s 0xFE) 0xFA) 0x30) 0xC8))) := by
    unfold syncBytes
    rw [run_cons, e1, run_cons, e2, run_cons, e3, run_cons, e4, run_nil]
  rw [er]
  have x1 : (synced (shiftIn (shiftIn (shiftIn (shiftIn s 0xFE) 0xFA) 0x30) 0xC8)).flag_time_recieved
      = s.flag_time_recieved := by
    rw [(synced_fields _).1, (shiftIn_fields _ _).1, (shiftIn_fields _ _).1, (shiftIn_fields _ _).1,
      (shiftIn_fields _ _).1]
  have x2 : (synced (shiftIn (shiftIn (shiftIn (shiftIn s 0xFE) 0xFA) 0x30) 0xC8)).g_time_next
      = s.g_time_next := by
    rw [(synced_fields _).2.1, (shiftIn_fields _ _).2.1, (shiftIn_fields _ _).2.1,
      (shiftIn_fields _ _).2.1, (shiftIn_fields _ _).2.1]
  have x3 : (synced (shiftIn (shiftIn (shiftIn (shiftIn s 0xFE) 0xFA) 0x30) 0xC8)).i_time
      = s.i_time := by
    rw [(synced_fields _).2.2.1, (shiftIn_fields _ _).2.2, (shiftIn_fields _ _).2.2,
      (shiftIn_fields _ _).2.2, (shiftIn_fields _ _).2.2]
  have x4 : (synced (shiftIn (shiftIn (shiftIn (shiftIn s 0xFE) 0xFA) 0x30) 0xC8)).next_state
      = .E_REC_LENGTH := (synced_fields _).2.2.2
  generalize synced (shiftIn (shiftIn (shiftIn (shiftIn s 0xFE) 0xFA) 0x30) 0xC8) = x at x1 x2 x3 x4
  obtain ⟨u1, u2⟩ := updateTime_time x
  have a1 : ∀ y : State, (advance y).i_time = y.i_time := fun _ => rfl
  have a2 : ∀ y : State, (advance y).state = y.next_state := fun _ => rfl
  rw [a1, a2, (updateTime_recv x).2.1, x4]
  refine ⟨?_, ?_, rfl⟩
  · intro h
    rw [(u1 (by rw [x1]; exact h)).1, x2]
  · intro h
    rw [(u2 (by rw [x1]; exact h)).1, x3]

/-- The time variables after a frame that begins with a timestamp, from the
state in which the length field was accepted. -/
theorem stamped_run (s : State) (b7 b8 x11 x12 t1 t2 t3 t4 b48 last : Nat) (res rest : List Nat)
    (h7 : b7 < 256) (h8 : b8 < 256) (h11 : x11 < 256) (h12 : x12 < 256) (ht1 : t1 < 256)
    (ht2 : t2 < 256) (ht3 : t3 < 256) (ht4 : t4 < 256) (h48 : b48 < 256) (hlast : last < 256)
    (hres : res.length = 29) (hb : ∀ b ∈ res, b < 256) (hrest : ∀ b ∈ rest, b < 256)
    (hI : Inv s) (hB : Body s) (hst : s.state = .E_REC_TIME_START) (h6 : s.g_read_count = 6)
    (hT : s.g_data_len = 48 + rest.length + 1) (he : s.flag_packet_error = 0) :
    Quiet (run s (stampedBody b7 b8 x11 x12 t1 t2 t3 t4 res b48 rest last)) ∧
    (run s (stampedBody b7 b8 x11 x12 t1 t2 t3 t4 res b48 rest last)).i_time = s.i_time ∧
    (crcFold s.crc_total (stampedBody b7 b8 x11 x12 t1 t2 t3 t4 res b48 rest last) ≠ 0 →
      (run s (stampedBody b7 b8 x11 x12 t1 t2 t3 t4 res b48 rest last)).flag_time_recieved = 0) ∧
    (crcFold s.crc_total (stampedBody b7 b8 x11 x12 t1 t2 t3 t4 res b48 rest last) = 0 →
      (∀ b ∈ res.tail, b = 0) →
      (run s (stampedBody b7 b8 x11 x12 t1 t2 t3 t4 res b48 rest last)).flag_time_recieved = 1 ∧
      (run s (stampedBody b7 b8 x11 x12 t1 t2 t3 t4 res b48 rest last)).g_time_next =
        t1 * 16777216 + t2 * 65536 + t3 * 256 + t4) := by
  have hP : ∀ b ∈ timestampHead b7 b8 x11 x12 t1 t2 t3 t4 ++ res ++ [b48], b < 256 := by
    intro b hb'
    simp only [timestampHead, List.mem_append, List.mem_cons, List.mem_singleton,
      List.not_mem_nil, or_false] at hb'
    rcases hb' with (h | h) | h
    · rcases h with h | h | h | h | h | h | h | h | h | h | h | h <;> omega
    · exact hb b h
    · omega
  have lP : (timestampHead b7 b8 x11 x12 t1 t2 t3 t4 ++ res ++ [b48]).length = 42 := by
    simp [timestampHead, hres]
  obtain ⟨p1, p2, p3, p4, p5, p6, _⟩ := body_run _ s hP hI hB (by rw [lP, h6, hT]; omega)
  obtain ⟨_, _, r3, _, r5, _⟩ := timestamp_run s b7 b8 x11 x12 t1 t2 t3 t4 b48 res h7 h8 h11 h12
    ht1 ht2 ht3 ht4 h48 hres hb hI hB hst h6 (by rw [hT]; omega) he
  have split : stampedBody b7 b8 x11 x12 t1 t2 t3 t4 res b48 rest last =
      (timestampHead b7 b8 x11 x12 t1 t2 t3 t4 ++ res ++ [b48]) ++ (rest ++ [last]) := by
    unfold stampedBody
    simp only [List.append_assoc]
  rw [split, run_append, crcFold_append, ← p5]
  generalize run s (timestampHead b7 b8 x11 x12 t1 t2 t3 t4 ++ res ++ [b48]) = u at p1 p2 p3 p4 p5 p6 r3 r5
  rw [lP, h6] at p3
  obtain ⟨q1, q2, q3, q4, q5, q6, _⟩ := body_run rest u hrest p1 p2 (by rw [p3, p4, hT]; omega)
  obtain ⟨l1, l2, l3⟩ := late_run rest u hrest p1 p2 (Or.inl r5) (by rw [p3, p4, hT]; omega)
  rw [run_append, crcFold_append, ← q5]
  generalize run u rest = v at q1 q2 q3 q4 q5 q6 l1 l2 l3
  have heq : v.g_read_count + 1 = v.g_data_len := by omega
  obtain ⟨e1, e2, e3⟩ := end_step_time v last hlast q2 heq
  obtain ⟨qq, _⟩ := end_step_out v last hlast q2 heq
  have hr : run v [last] = getDataStep v last := rfl
  have hc : crcFold v.crc_total [last] = crc v.crc_total last := rfl
  rw [hr, hc]
  refine ⟨qq, by rw [e2, q6, p6], e1, ?_⟩
  intro hz hzero
  obtain ⟨g1, g2⟩ := e3 l1 hz
  obtain ⟨_, z2, z3⟩ := r3 hzero
  exact ⟨by rw [g1, l2, z2], by rw [g2, l3, z3]⟩

/-- The sync marker at the head of the next call of `getData`. -/
theorem next_call_sync (s : State) :
    (s.flag_time_recieved = 1 → (getData s syncBytes).i_time = s.g_time_next) ∧
    (s.flag_time_recieved ≠ 1 → (getData s syncBytes).i_time = (s.i_time + 1) % 4294967296) :=
  ⟨(next_sync (reset s) (inv_reset s) (Quiet.reset s)).1,
    (next_sync (reset s) (inv_reset s) (Quiet.reset s)).2.1⟩

/-! ## The location table above the current slot -/

theorem setWord_other (a : Nat → Nat) (i j v : Nat) (h : i ≠ j) : setWord a j v i = a i := by
  unfold setWord
  rw [if_neg h]

/-- What the idle test leaves alone, and the idle count it leaves. -/
theorem cmdStartIdle_fields (t : State) :
    (cmdStartIdle t).state = t.state ∧ (cmdStartIdle t).next_state = t.next_state ∧
    (cmdStartIdle t).g_command_num = t.g_command_num ∧
    (cmdStartIdle t).g_idle_count = (if t.g_idle_count > 2 then 0 else t.g_idle_count) ∧
    (cmdStartIdle t).g_cmd_read_total = t.g_cmd_read_total ∧
    (cmdStartIdle t).g_cmd_read_count = t.g_cmd_read_count ∧
    (cmdStartIdle t).g_cmd_length = t.g_cmd_length ∧
    (cmdStartIdle t).cmd_packets = t.cmd_packets ∧
    (cmdStartIdle t).cmd_location_info = t.cmd_location_info ∧
    (cmdStartIdle t).g_four_bytes = t.g_four_bytes ∧
    (cmdStartIdle t).new_byte = t.new_byte ∧ (cmdStartIdle t).g_two_bytes = t.g_two_bytes := by
  unfold cmdStartIdle
  dsimp only
  split_ifs <;> exact ⟨rfl, rfl, rfl, rfl, rfl, rfl, rfl, rfl, rfl, rfl, rfl, rfl⟩

theorem cmdStartHeader_loc (t : State) (i : Nat) (h : i ≠ t.g_command_num) :
    (cmdStartHeader t).cmd_location_info i = t.cmd_location_info i := by
  unfold cmdStartHeader
  dsimp only
  split_ifs
  · exact setWord_other _ _ _ _ h
  · rfl

theorem cmdStore_loc (v : State) (i : Nat) (h : i ≠ v.g_command_num)
    (ht : v.g_cmd_read_total ≤ 2460) :
    (cmdStore v).cmd_location_info i = v.cmd_location_info i := by
  unfold cmdStore
  dsimp only
  split_ifs with h1 h2 h3
  · simp only [K_MAX_CMD_SIZE, K_MAX_CMDS] at h2
    omega
  · exact setWord_other _ _ _ _ h
  · rfl
  · rfl

theorem cmdDone_loc (w : State) : (cmdDone w).cmd_location_info = w.cmd_location_info := by
  unfold cmdDone
  split_ifs <;> rfl

/-- The switch in the states `CMD_START` and `CMD` writes the location table
only at the slot of the current command number, unless it rejects a length
field. -/
theorem sw_loc_other (t : State) (hst : t.state = .E_REC_CMD_START ∨ t.state = .E_REC_CMD)
    (ht : t.g_cmd_read_total ≤ 511) (hc : t.state = .E_REC_CMD → t.g_cmd_read_count < 65535)
    (hgood : t.state = .E_REC_CMD → t.g_cmd_read_count + 1 = 6 →
      12 ≤ (t.g_two_bytes + 11) % 65536 ∧ (t.g_two_bytes + 11) % 65536 ≤ 256)
    (i : Nat) (h : i ≠ t.g_command_num) :
    (switchState t).cmd_location_info i = t.cmd_location_info i := by
  rcases hst with hs | hs
  · rw [switch_cmdStart t hs, caseCmdStart_eq, (cmdStartIdle_fields _).2.2.2.2.2.2.2.2.1]
    exact cmdStartHeader_loc t i h
  · rw [switch_cmd t hs, caseCmd_eq, cmdDone_loc]
    have hc' := hc hs
    have c1 : (cmdCount t).g_cmd_read_count = t.g_cmd_read_count + 1 := by
      show (t.g_cmd_read_count + 1) % 65536 = _
      omega
    have c2 : (cmdCount t).g_cmd_read_total ≤ 2460 := by
      show (t.g_cmd_read_total + 1) % 65536 ≤ 2460
      omega
    by_cases h6 : t.g_cmd_read_count + 1 = 6
    · have hg := hgood hs h6
      rw [cmdLength_good (cmdCount t) (by rw [c1]; exact h6) hg,
        cmdStore_low _ (by show (cmdCount t).g_cmd_read_count ≤ 10; rw [c1]; omega)]
      exact setWord_other _ _ _ _ h
    · rw [cmdLength_id _ (by rw [c1]; exact h6)]
      exact cmdStore_loc _ i h c2


/-- The case `E_REC_CMD_START` leaves the command buffer and the command read
total alone; it writes the location table only when it matches a header, and
then the read total into the slot of the command number. -/
theorem sw_start_table (t : State) (hst : t.state = .E_REC_CMD_START) :
    (switchState t).cmd_packets = t.cmd_packets ∧
    (switchState t).g_cmd_read_total = t.g_cmd_read_total ∧
    (t.g_two_bytes ≠ 0x1B00 → (switchState t).cmd_location_info = t.cmd_location_info) ∧
    (t.g_two_bytes = 0x1B00 → (switchState t).cmd_location_info =
      setWord t.cmd_location_info t.g_command_num t.g_cmd_read_total) := by
  obtain ⟨_, _, _, _, a5, _, _, a8, a9, _⟩ := cmdStartIdle_fields (cmdStartHeader t)
  rw [switch_cmdStart t hst, caseCmdStart_eq, a5, a8, a9]
  unfold cmdStartHeader
  dsimp only
  refine ⟨?_, ?_, ?_, ?_⟩
  · split_ifs <;> rfl
  · split_ifs <;> rfl
  · intro h
    rw [if_neg h]
  · intro h
    rw [if_pos h]

/-- The case `E_REC_CMD` on one of the first ten bytes of a command, the
second byte of the length field apart: the byte is counted and nothing is
stored. -/
theorem sw_cmd_early_table (t : State) (hst : t.state = .E_REC_CMD)
    (h10 : t.g_cmd_read_count + 1 ≤ 10) (h6 : t.g_cmd_read_count + 1 ≠ 6) :
    (switchState t).cmd_packets = t.cmd_packets ∧
    (switchState t).cmd_location_info = t.cmd_location_info ∧
    (switchState t).g_cmd_read_total = (t.g_cmd_read_total + 1) % 65536 := by
  have c1 : (cmdCount t).g_cmd_read_count = t.g_cmd_read_count + 1 := by
    show (t.g_cmd_read_count + 1) % 65536 = _
    omega
  rw [switch_cmd t hst, caseCmd_eq, cmdLength_id _ (by rw [c1]; exact h6),
    cmdStore_low _ (by rw [c1]; exact h10)]
  unfold cmdDone
  split_ifs <;> exact ⟨rfl, rfl, rfl⟩

theorem Silent.same (n : Nat) (s : State) : Silent n s s := ⟨rfl, rfl, rfl, fun _ _ => rfl⟩

theorem Silent.then {n : Nat} {a b c : State} (h1 : Silent n a b) (h2 : Silent n b c) :
    Silent n a c :=
  ⟨h2.sent.trans h1.sent, h2.ft.trans h1.ft, h2.tn.trans h1.tn,
    fun i hi => (h2.loc i hi).trans (h1.loc i hi)⟩

theorem Silent.widen {n k : Nat} {a b : State} (h : Silent n a b) (hk : n ≤ k) : Silent k a b :=
  ⟨h.sent, h.ft, h.tn, fun i hi => h.loc i (by omega)⟩

theorem cmdStartHeader_four (t : State) : (cmdStartHeader t).g_four_bytes = t.g_four_bytes := by
  unfold cmdStartHeader
  dsimp only
  split_ifs <;> rfl

theorem cmdStartIdle_four (t : State) : (cmdStartIdle t).g_four_bytes = t.g_four_bytes := by
  unfold cmdStartIdle
  dsimp only
  split_ifs <;> rfl

theorem cmdLength_four (t : State) : (cmdLength t).g_four_bytes = t.g_four_bytes := by
  unfold cmdLength
  dsimp only
  split_ifs <;> rfl

theorem cmdStore_four (t : State) : (cmdStore t).g_four_bytes = t.g_four_bytes := by
  unfold cmdStore
  dsimp only
  split_ifs <;> rfl

theorem cmdDone_four (t : State) : (cmdDone t).g_four_bytes = t.g_four_bytes := by
  unfold cmdDone
  split_ifs <;> rfl

/-- The cases `E_REC_CMD_START` and `E_REC_CMD` leave the window of the last
four bytes alone. -/
theorem sw_four (t : State) (hst : t.state = .E_REC_CMD_START ∨ t.state = .E_REC_CMD) :
    (switchState t).g_four_bytes = t.g_four_bytes := by
  rcases hst with h | h
  · rw [switch_cmdStart t h, caseCmdStart_eq, cmdStartIdle_four, cmdStartHeader_four]
  · rw [switch_cmd t h, caseCmd_eq, cmdDone_four, cmdStore_four, cmdLength_four]
    rfl

/-- The last byte read is the low byte of the window after a pass inside the
frame in the states `CMD_START` and `CMD`. -/
theorem step_last_byte (s : State) (b : Nat) (hb : b < 256) (hI : Inv s) (hB : Body s)
    (hst : s.state = .E_REC_CMD_START ∨ s.state = .E_REC_CMD)
    (hlt : s.g_read_count + 1 < s.g_data_len) :
    (getDataStep s b).g_four_bytes % 256 = b := by
  rw [(body_step_mid s b hb hI hB hlt).1]
  show (switchState (nextByte s b)).g_four_bytes % 256 = b
  rw [sw_four _ (by exact hst)]
  show ((s.g_four_bytes % 16777216) * 256 + b) % 256 = b
  omega

/-- A pass inside the frame keeps the invariant and counts the byte. -/
theorem mid_step (s : State) (b : Nat) (hb : b < 256) (hI : Inv s) (hB : Body s)
    (hlt : s.g_read_count + 1 < s.g_data_len) :
    Inv (getDataStep s b) ∧ Body (getDataStep s b) ∧
    (getDataStep s b).g_read_count = s.g_read_count + 1 ∧
    (getDataStep s b).g_data_len = s.g_data_len := by
  obtain ⟨e, hF, hI1, hB1⟩ := body_step_mid s b hb hI hB hlt
  rw [e]
  exact ⟨hI1, hB1, hF.rc, hF.dl⟩

/-- A pass inside the frame in the states `CMD_START` and `CMD` that does not
reject a length field leaves the location table alone above the slot of the
command number. -/
theorem step_loc (s : State) (b : Nat) (hb : b < 256) (hI : Inv s) (hB : Body s)
    (hst : s.state = .E_REC_CMD_START ∨ s.state = .E_REC_CMD)
    (hlt : s.g_read_count + 1 < s.g_data_len)
    (hc : s.state = .E_REC_CMD → s.g_cmd_read_count < 65535)
    (hgood : s.state = .E_REC_CMD → s.g_cmd_read_count + 1 = 6 →
      12 ≤ ((s.g_four_bytes % 256) * 256 + b + 11) % 65536 ∧
      ((s.g_four_bytes % 256) * 256 + b + 11) % 65536 ≤ 256)
    (n : Nat) (hn : s.g_command_num < n) (i : Nat) (hi : n ≤ i) :
    (getDataStep s b).cmd_location_info i = s.cmd_location_info i := by
  rw [(body_step_mid s b hb hI hB hlt).1]
  show (switchState (nextByte s b)).cmd_location_info i = (nextByte s b).cmd_location_info i
  exact sw_loc_other (nextByte s b) (by exact hst)
    (by show s.g_cmd_read_total ≤ 511; have := hB.tot; have := hB.dl; have := hB.lt; omega)
    (by exact hc) (by exact hgood) i (by show i ≠ s.g_command_num; omega)

/-- The pass on the first byte `1B` of a command header. -/
theorem step_header_first (s : State) (m : Nat) (hI : Inv s) (hB : Body s) (hR : Ready s m)
    (hlt : s.g_read_count + 1 < s.g_data_len) :
    (getDataStep s 0x1B).state = .E_REC_CMD_START ∧ (getDataStep s 0x1B).g_command_num = m ∧
    (getDataStep s 0x1B).g_idle_count = 1 ∧ (getDataStep s 0x1B).g_four_bytes % 256 = 0x1B ∧
    Silent (m + 1) s (getDataStep s 0x1B) := by
  have hloc := step_loc s 0x1B (by decide) hI hB (Or.inl hR.state) hlt
    (fun h => absurd (hR.state.symm.trans h) (by decide))
    (fun h => absurd (hR.state.symm.trans h) (by decide)) (m + 1) (by rw [hR.num]; omega)
  have h4 := step_last_byte s 0x1B (by decide) hI hB (Or.inl hR.state) hlt
  have hne : (nextByte s 0x1B).g_two_bytes ≠ 0x1B00 := by
    show (s.g_four_bytes % 256) * 256 + 0x1B ≠ 0x1B00
    omega
  obtain ⟨w1, w2, w3, w4, w5, w6⟩ := sw_start_idle (nextByte s 0x1B) (by exact hR.state) hne
    (by show s.g_idle_count + 1 ≤ 2; rw [hR.idle]; omega)
  rw [(body_step_mid s 0x1B (by decide) hI hB hlt).1] at h4 hloc ⊢
  refine ⟨?_, ?_, ?_, h4, ⟨w1, w2, w3, hloc⟩⟩
  · show (switchState (nextByte s 0x1B)).next_state = _
    rw [w4]
    show s.next_state = _
    rw [hI.next, hR.state]
  · show (switchState (nextByte s 0x1B)).g_command_num = m
    rw [w5]
    exact hR.num
  · show (switchState (nextByte s 0x1B)).g_idle_count = 1
    rw [w6]
    show s.g_idle_count + 1 = 1
    rw [hR.idle]

/-- The pass on the second byte `00` of a command header. -/
theorem step_header_second (s : State) (m : Nat) (hI : Inv s) (hB : Body s)
    (hst : s.state = .E_REC_CMD_START) (hm : s.g_command_num = m) (hm1 : m + 1 ≤ 255)
    (h4 : s.g_four_bytes % 256 = 0x1B) (hlt : s.g_read_count + 1 < s.g_data_len) :
    InCmd (getDataStep s 0x00) (m + 1) 0 0 ∧ Silent (m + 1) s (getDataStep s 0x00) := by
  have hloc := step_loc s 0x00 (by decide) hI hB (Or.inl hst) hlt
    (fun h => absurd (hst.symm.trans h) (by decide))
    (fun h => absurd (hst.symm.trans h) (by decide)) (m + 1) (by rw [hm]; omega)
  have he : (nextByte s 0x00).g_two_bytes = 0x1B00 := by
    show (s.g_four_bytes % 256) * 256 + 0x00 = 0x1B00
    rw [h4]
  obtain ⟨w1, w2, w3, w4, w5, w6, w7, w8⟩ := sw_start_match (nextByte s 0x00) (by exact hst) he
  rw [(body_step_mid s 0x00 (by decide) hI hB hlt).1] at hloc ⊢
  refine ⟨⟨w4, ?_, w6, w7, w8⟩, ⟨w1, w2, w3, hloc⟩⟩
  show (switchState (nextByte s 0x00)).g_command_num = m + 1
  rw [w5]
  show (s.g_command_num + 1) % 256 = m + 1
  rw [hm]
  omega

/-- A pass inside a command on a byte that is neither the second byte of the
length field nor the last byte of the command. -/
theorem step_cmd_plain (s : State) (b m c len : Nat) (hb : b < 256) (hI : Inv s) (hB : Body s)
    (hC : InCmd s m c len) (hc : c < 65535) (h6 : c + 1 ≠ 6) (h7 : c + 1 ≠ len + 7)
    (hlt : s.g_read_count + 1 < s.g_data_len) :
    InCmd (getDataStep s b) m (c + 1) len ∧ Silent (m + 1) s (getDataStep s b) := by
  have hc1 : s.g_cmd_read_count < 65535 := by rw [hC.count]; exact hc
  have hloc := step_loc s b hb hI hB (Or.inr hC.state) hlt (fun _ => hc1)
    (fun _ h => absurd h (by rw [hC.count]; exact h6)) (m + 1) (by rw [hC.num]; omega)
  obtain ⟨w1, w2, w3, w4, w5, w6, w7, w8⟩ := sw_cmd_plain (nextByte s b) (by exact hC.state)
    (by show s.g_cmd_read_total ≤ 511; have := hB.tot; have := hB.dl; have := hB.lt; omega)
    (by exact hc1) (by show s.g_cmd_read_count + 1 ≠ 6; rw [hC.count]; exact h6)
    (by show s.g_cmd_read_count + 1 ≠ s.g_cmd_length + 7; rw [hC.count, hC.len]; exact h7)
  rw [(body_step_mid s b hb hI hB hlt).1] at hloc ⊢
  refine ⟨⟨?_, ?_, ?_, ?_, ?_⟩, ⟨w1, w2, w3, hloc⟩⟩
  · show (switchState (nextByte s b)).next_state = _
    rw [w4]
    show s.next_state = _
    rw [hI.next, hC.state]
  · show (switchState (nextByte s b)).g_command_num = m
    rw [w7]
    exact hC.num
  · show (switchState (nextByte s b)).g_idle_count = 0
    rw [w8]
    exact hC.idle
  · show (switchState (nextByte s b)).g_cmd_read_count = c + 1
    rw [w5]
    show s.g_cmd_read_count + 1 = c + 1
    rw [hC.count]
  · show (switchState (nextByte s b)).g_cmd_length = len
    rw [w6]
    exact hC.len

/-- The pass on the second byte of the length field of a command, for a
declared length `L` with `1 ≤ L ≤ 245`. -/
theorem step_cmd_length (s : State) (lhi llo m len : Nat) (hlo : llo < 256) (hI : Inv s)
    (hB : Body s) (hC : InCmd s m 5 len) (h4 : s.g_four_bytes % 256 = lhi)
    (h1 : 1 ≤ lhi * 256 + llo) (h245 : lhi * 256 + llo ≤ 245)
    (hlt : s.g_read_count + 1 < s.g_data_len) :
    InCmd (getDataStep s llo) m 6 (lhi * 256 + llo + 11) ∧
    Silent (m + 1) s (getDataStep s llo) := by
  have hloc := step_loc s llo hlo hI hB (Or.inr hC.state) hlt
    (fun _ => by rw [hC.count]; omega) (fun _ _ => by rw [h4]; omega) (m + 1)
    (by rw [hC.num]; omega)
  have he : (nextByte s llo).g_two_bytes = lhi * 256 + llo := by
    show (s.g_four_bytes % 256) * 256 + llo = lhi * 256 + llo
    rw [h4]
  obtain ⟨w1, w2, w3, w4, w5, w6, w7, w8⟩ := sw_cmd_length (nextByte s llo) (by exact hC.state)
    (by exact hC.count) (by rw [he]; omega)
  rw [(body_step_mid s llo hlo hI hB hlt).1] at hloc ⊢
  refine ⟨⟨?_, ?_, ?_, w5, ?_⟩, ⟨w1, w2, w3, hloc⟩⟩
  · show (switchState (nextByte s llo)).next_state = _
    rw [w4]
    show s.next_state = _
    rw [hI.next, hC.state]
  · show (switchState (nextByte s llo)).g_command_num = m
    rw [w7]
    exact hC.num
  · show (switchState (nextByte s llo)).g_idle_count = 0
    rw [w8]
    exact hC.idle
  · show (switchState (nextByte s llo)).g_cmd_length = lhi * 256 + llo + 11
    rw [w6, he]
    omega

/-- The pass on the last byte of a command. -/
theorem step_cmd_last (s : State) (b m c len : Nat) (hb : b < 256) (hI : Inv s) (hB : Body s)
    (hC : InCmd s m c len) (hc : c < 65535) (hm1 : m + 1 ≤ 255) (h6 : c + 1 ≠ 6)
    (h7 : c + 1 = len + 7) (hlt : s.g_read_count + 1 < s.g_data_len) :
    Ready (getDataStep s b) (m + 1) ∧ Silent (m + 1) s (getDataStep s b) := by
  have hloc := step_loc s b hb hI hB (Or.inr hC.state) hlt (fun _ => by rw [hC.count]; exact hc)
    (fun _ h => absurd h (by rw [hC.count]; exact h6)) (m + 1) (by rw [hC.num]; omega)
  obtain ⟨w1, w2, w3, w4, w5, w6⟩ := sw_cmd_done (nextByte s b) (by exact hC.state)
    (by show s.g_cmd_read_total ≤ 511; have := hB.tot; have := hB.dl; have := hB.lt; omega)
    (by show s.g_cmd_read_count < 65535; rw [hC.count]; exact hc)
    (by show s.g_cmd_read_count + 1 ≠ 6; rw [hC.count]; exact h6)
    (by show s.g_cmd_read_count + 1 = s.g_cmd_length + 7; rw [hC.count, hC.len]; exact h7)
  rw [(body_step_mid s b hb hI hB hlt).1] at hloc ⊢
  refine ⟨⟨w4, ?_, ?_⟩, ⟨w1, w2, w3, hloc⟩⟩
  · show (switchState (nextByte s b)).g_command_num = m + 1
    rw [w5]
    show (s.g_command_num + 1) % 256 = m + 1
    rw [hC.num]
    omega
  · show (switchState (nextByte s b)).g_idle_count = 0
    rw [w6]
    exact hC.idle

/-- A run of bytes inside a command, none of which is the second byte of the
length field or the last byte of the command. -/
theorem run_cmd_plain (bs : List Nat) (s : State) (m c len : Nat) (hb : ∀ b ∈ bs, b < 256)
    (hI : Inv s) (hB : Body s) (hC : InCmd s m c len)
    (hr : c + bs.length < 6 ∨ (6 ≤ c ∧ c + bs.length < len + 7 ∧ len ≤ 1000))
    (hlt : s.g_read_count + bs.length < s.g_data_len) :
    InCmd (run s bs) m (c + bs.length) len ∧ Silent (m + 1) s (run s bs) ∧
    (∀ x, bs.getLast? = some x → (run s bs).g_four_bytes % 256 = x) := by
  induction bs generalizing s c with
  | nil => exact ⟨hC, Silent.same _ s, fun x hx => by simp at hx⟩
  | cons b bs ih =>
    simp only [List.length_cons] at hr hlt
    have hb0 := hb b (by simp)
    obtain ⟨hI1, hB1, hrc, hdl⟩ := mid_step s b hb0 hI hB (by omega)
    obtain ⟨k1, k2⟩ := step_cmd_plain s b m c len hb0 hI hB hC (by omega) (by omega) (by omega)
      (by omega)
    have h4 := step_last_byte s b hb0 hI hB (Or.inr hC.state) (by omega)
    rw [run_cons]
    obtain ⟨i1, i2, i3⟩ := ih (getDataStep s b) (c + 1) (fun x hx => hb x (by simp [hx])) hI1 hB1 k1
      (by omega) (by rw [hrc, hdl]; omega)
    have hl : c + (b :: bs).length = c + 1 + bs.length := by
      rw [List.length_cons]
      omega
    rw [hl]
    refine ⟨i1, k2.then i2, ?_⟩
    intro x hx
    cases bs with
    | nil =>
      simp only [List.getLast?_singleton, Option.some.injEq] at hx
      rw [← hx]
      exact h4
    | cons y ys =>
      rw [List.getLast?_cons_cons] at hx
      exact i3 x hx

theorem Command.rest_lt (c : Command) (h : c.wellFormed) : ∀ b ∈ c.rest, b < 256 := by
  obtain ⟨h1, h2, h3, h4, h5, h6, h7, _⟩ := h
  intro b hb
  simp only [Command.rest, List.mem_append, List.mem_cons, List.not_mem_nil, or_false] at hb
  rcases hb with (h | h | h | h | h | h) | h
  · omega
  · omega
  · omega
  · omega
  · omega
  · omega
  · exact h7 b h

theorem Command.bytes_lt (c : Command) (h : c.wellFormed) : ∀ b ∈ c.bytes, b < 256 := by
  intro b hb
  simp only [Command.bytes, List.mem_cons] at hb
  rcases hb with h1 | h1 | h1
  · omega
  · omega
  · exact c.rest_lt h b h1

theorem Command.rest_length (c : Command) (h : c.wellFormed) :
    c.rest.length = c.declared + 18 := by
  obtain ⟨_, _, _, _, _, _, _, _, _, h10⟩ := h
  simp only [Command.rest, List.length_append, List.length_cons, List.length_nil, h10]
  omega

theorem Command.bytes_length (c : Command) (h : c.wellFormed) :
    c.bytes.length = c.declared + 20 := by
  simp only [Command.bytes, List.length_cons, c.rest_length h]

/-- The passes over the bytes of a well-formed command after its header. -/
theorem command_rest_run (s : State) (c : Command) (m : Nat) (hw : c.wellFormed) (hI : Inv s)
    (hB : Body s) (hC : InCmd s m 0 0) (hm : m + 1 ≤ 255)
    (hlt : s.g_read_count + c.rest.length < s.g_data_len) :
    Ready (run s c.rest) (m + 1) ∧ Silent (m + 1) s (run s c.rest) := by
  have hlen := c.rest_length hw
  obtain ⟨h1, h2, h3, h4, h5, h6, h7, h8, h9, h10⟩ := hw
  have hne : c.payload ≠ [] := by
    intro h
    rw [h] at h10
    simp at h10
  have hsplit : c.rest = [c.a1, c.a2, c.a3, c.a4, c.lhi] ++ ([c.llo] ++
      (c.payload.dropLast ++ [c.payload.getLast hne])) := by
    rw [List.dropLast_append_getLast hne]
    rfl
  have hdrop : c.payload.dropLast.length = c.declared + 11 := by
    rw [List.length_dropLast, h10]
    omega
  have hd7 : ∀ b ∈ c.payload.dropLast, b < 256 :=
    fun b hb => h7 b (List.mem_of_mem_dropLast hb)
  have hl7 : c.payload.getLast hne < 256 := h7 _ (List.getLast_mem hne)
  rw [hlen] at hlt
  rw [hsplit, run_append, run_append, run_append]
  -- counts 1 to 5
  have hb5 : ∀ b ∈ [c.a1, c.a2, c.a3, c.a4, c.lhi], b < 256 := by
    intro b hb
    simp only [List.mem_cons, List.not_mem_nil, or_false] at hb
    rcases hb with h | h | h | h | h <;> omega
  obtain ⟨p1, p2, p3⟩ := run_cmd_plain [c.a1, c.a2, c.a3, c.a4, c.lhi] s m 0 0 hb5 hI hB hC
    (Or.inl (by simp)) (by simp; omega)
  obtain ⟨i1, i2, i3, i4, _⟩ := body_run [c.a1, c.a2, c.a3, c.a4, c.lhi] s hb5 hI hB
    (by simp; omega)
  have p4 := p3 c.lhi rfl
  simp only [List.length_cons, List.length_nil] at p1 i3
  generalize run s [c.a1, c.a2, c.a3, c.a4, c.lhi] = u at p1 p2 p4 i1 i2 i3 i4
  -- count 6
  have hs6 : run u [c.llo] = getDataStep u c.llo := rfl
  rw [hs6]
  obtain ⟨q1, q2⟩ := step_cmd_length u c.lhi c.llo m 0 h6 i1 i2 p1 p4 h8 h9
    (by rw [i3, i4]; omega)
  obtain ⟨j1, j2, j3, j4⟩ := mid_step u c.llo h6 i1 i2 (by rw [i3, i4]; omega)
  generalize getDataStep u c.llo = v at q1 q2 j1 j2 j3 j4
  -- counts 7 to L + 17
  obtain ⟨r1, r2, _⟩ := run_cmd_plain c.payload.dropLast v m 6 (c.lhi * 256 + c.llo + 11) hd7
    j1 j2 q1 (Or.inr ⟨le_refl _, by rw [hdrop]; unfold Command.declared; omega,
      by unfold Command.declared at h9; omega⟩)
    (by rw [hdrop, j3, j4, i3, i4]; omega)
  obtain ⟨k1, k2, k3, k4, _⟩ := body_run c.payload.dropLast v hd7 j1 j2
    (by rw [hdrop, j3, j4, i3, i4]; omega)
  rw [hdrop] at r1 k3
  generalize run v c.payload.dropLast = w at r1 r2 k1 k2 k3 k4
  -- count L + 18
  have hs8 : run w [c.payload.getLast hne] = getDataStep w (c.payload.getLast hne) := rfl
  rw [hs8]
  obtain ⟨t1, t2⟩ := step_cmd_last w (c.payload.getLast hne) m (6 + (c.declared + 11))
    (c.lhi * 256 + c.llo + 11) hl7 k1 k2 r1 (by omega) hm (by omega)
    (by unfold Command.declared; omega) (by rw [k3, k4, j3, j4, i3, i4]; omega)
  exact ⟨t1, ((p2.then q2).then r2).then t2⟩

/-- The passes over a well-formed command, header included. -/
theorem command_run (s : State) (c : Command) (m : Nat) (hw : c.wellFormed) (hI : Inv s)
    (hB : Body s) (hR : Ready s m) (hm : m + 2 ≤ 255)
    (hlt : s.g_read_count + c.bytes.length < s.g_data_len) :
    Ready (run s c.bytes) (m + 2) ∧ Silent (m + 2) s (run s c.bytes) := by
  have hlen := c.rest_length hw
  rw [c.bytes_length hw] at hlt
  have e : run s c.bytes = run (getDataStep (getDataStep s 0x1B) 0x00) c.rest := by
    unfold Command.bytes
    rw [run_cons, run_cons]
  rw [e]
  obtain ⟨a1, a2, a3, a4, a5⟩ := step_header_first s m hI hB hR (by omega)
  obtain ⟨i1, i2, i3, i4⟩ := mid_step s 0x1B (by decide) hI hB (by omega)
  generalize getDataStep s 0x1B = u at a1 a2 a3 a4 a5 i1 i2 i3 i4
  obtain ⟨b1, b2⟩ := step_header_second u m i1 i2 a1 a2 (by omega) a4 (by rw [i3, i4]; omega)
  obtain ⟨j1, j2, j3, j4⟩ := mid_step u 0x00 (by decide) i1 i2 (by rw [i3, i4]; omega)
  generalize getDataStep u 0x00 = v at b1 b2 j1 j2 j3 j4
  obtain ⟨c1, c2⟩ := command_rest_run v c (m + 1) hw j1 j2 b1 (by omega)
    (by rw [hlen, j3, j4, i3, i4]; omega)
  exact ⟨c1, ((a5.then b2).widen (by omega)).then c2⟩

theorem nextBytes_table (s : State) (bs : List Nat) :
    (nextBytes s bs).g_cmd_read_total = s.g_cmd_read_total ∧
    (nextBytes s bs).g_cmd_read_count = s.g_cmd_read_count ∧
    (nextBytes s bs).g_cmd_length = s.g_cmd_length ∧
    (nextBytes s bs).cmd_packets = s.cmd_packets ∧
    (nextBytes s bs).cmd_location_info = s.cmd_location_info := by
  rw [nextBytes_eq]
  exact ⟨rfl, rfl, rfl, rfl, rfl⟩

/-- The timestamp leaves the command variables alone, whatever its reserved
bytes. -/
theorem timestamp_run_ready (s : State) (b7 b8 x11 x12 t1 t2 t3 t4 b48 : Nat) (res : List Nat)
    (h7 : b7 < 256) (h8 : b8 < 256) (h11 : x11 < 256) (h12 : x12 < 256) (ht1 : t1 < 256)
    (ht2 : t2 < 256) (ht3 : t3 < 256) (ht4 : t4 < 256) (h48 : b48 < 256)
    (hres : res.length = 29) (hb : ∀ b ∈ res, b < 256) (hI : Inv s) (hB : Body s)
    (hst : s.state = .E_REC_TIME_START) (h6 : s.g_read_count = 6) (hT : 48 < s.g_data_len) :
    (run s (timestampHead b7 b8 x11 x12 t1 t2 t3 t4 ++ res ++ [b48])).g_command_num =
      s.g_command_num ∧
    (run s (timestampHead b7 b8 x11 x12 t1 t2 t3 t4 ++ res ++ [b48])).g_idle_count =
      s.g_idle_count ∧
    (run s (timestampHead b7 b8 x11 x12 t1 t2 t3 t4 ++ res ++ [b48])).g_cmd_read_total =
      s.g_cmd_read_total ∧
    (run s (timestampHead b7 b8 x11 x12 t1 t2 t3 t4 ++ res ++ [b48])).g_cmd_read_count =
      s.g_cmd_read_count ∧
    (run s (timestampHead b7 b8 x11 x12 t1 t2 t3 t4 ++ res ++ [b48])).g_cmd_length =
      s.g_cmd_length ∧
    (run s (timestampHead b7 b8 x11 x12 t1 t2 t3 t4 ++ res ++ [b48])).cmd_packets =
      s.cmd_packets ∧
    (run s (timestampHead b7 b8 x11 x12 t1 t2 t3 t4 ++ res ++ [b48])).cmd_location_info =
      s.cmd_location_info ∧
    (run s (timestampHead b7 b8 x11 x12 t1 t2 t3 t4 ++ res ++ [b48])).g_four_bytes % 256 =
      b48 := by
  have e18 := run_time_header s b7 b8 x11 x12 t1 t2 t3 t4 h7 h8 h11 h12 ht1 ht2 ht3 ht4 hI hB hst
    h6 (by omega)
  have hh : timestampHead b7 b8 x11 x12 t1 t2 t3 t4 =
      [b7, b8, 0x19, 0x00, x11, x12, 0x00, 0x21, t1, t2, t3, t4] := rfl
  rw [← hh] at e18
  have hlen : (timestampHead b7 b8 x11 x12 t1 t2 t3 t4).length = 12 := rfl
  obtain ⟨hIn, hBn⟩ := nextBytes_inv (timestampHead b7 b8 x11 x12 t1 t2 t3 t4) s hI hB
    (by rw [h6, hlen]; omega)
  obtain ⟨n1, n2, n3, n4, n5, n6, n7, _, _, n10, n11, _⟩ :=
    nextBytes_fields s (timestampHead b7 b8 x11 x12 t1 t2 t3 t4)
  obtain ⟨u1, u2, u3, u4, u5⟩ := nextBytes_table s (timestampHead b7 b8 x11 x12 t1 t2 t3 t4)
  generalize nextBytes s (timestampHead b7 b8 x11 x12 t1 t2 t3 t4) = x at e18 hIn hBn n1 n2 n3 n4 n5 n6 n7 n10 n11 u1 u2 u3 u4 u5
  have e18' : run s (timestampHead b7 b8 x11 x12 t1 t2 t3 t4) =
      timeCaptured x (t1 * 16777216 + t2 * 65536 + t3 * 256 + t4) := e18
  have hB18 : Body (timeCaptured x (t1 * 16777216 + t2 * 65536 + t3 * 256 + t4)) :=
    ⟨Or.inr (Or.inl rfl), hBn.sync, hBn.rc, hBn.lt, hBn.dl, hBn.tot, hBn.cnt⟩
  have hI18 : Inv (timeCaptured x (t1 * 16777216 + t2 * 65536 + t3 * 256 + t4)) :=
    ⟨rfl, hIn.fend, Or.inr (Or.inr hB18)⟩
  have y1 : (timeCaptured x (t1 * 16777216 + t2 * 65536 + t3 * 256 + t4)).state = .E_REC_TIME :=
    rfl
  have y2 : (timeCaptured x (t1 * 16777216 + t2 * 65536 + t3 * 256 + t4)).g_read_count = 18 := by
    show x.g_read_count = 18
    rw [n3, h6, hlen]
  have y3 : (timeCaptured x (t1 * 16777216 + t2 * 65536 + t3 * 256 + t4)).g_data_len =
      s.g_data_len := n4
  have y9 : (timeCaptured x (t1 * 16777216 + t2 * 65536 + t3 * 256 + t4)).g_command_num =
      s.g_command_num := n10
  have y10 : (timeCaptured x (t1 * 16777216 + t2 * 65536 + t3 * 256 + t4)).g_idle_count =
      s.g_idle_count := n11
  have y11 : (timeCaptured x (t1 * 16777216 + t2 * 65536 + t3 * 256 + t4)).g_cmd_read_total =
      s.g_cmd_read_total := u1
  have y12 : (timeCaptured x (t1 * 16777216 + t2 * 65536 + t3 * 256 + t4)).g_cmd_read_count =
      s.g_cmd_read_count := u2
  have y13 : (timeCaptured x (t1 * 16777216 + t2 * 65536 + t3 * 256 + t4)).g_cmd_length =
      s.g_cmd_length := u3
  have y14 : (timeCaptured x (t1 * 16777216 + t2 * 65536 + t3 * 256 + t4)).cmd_packets =
      s.cmd_packets := u4
  have y15 : (timeCaptured x (t1 * 16777216 + t2 * 65536 + t3 * 256 + t4)).cmd_location_info =
      s.cmd_location_info := u5
  generalize timeCaptured x (t1 * 16777216 + t2 * 65536 + t3 * 256 + t4) = y at e18' hB18 hI18 y1 y2 y3 y9 y10 y11 y12 y13 y14 y15
  clear e18
  have e47 : run s (timestampHead b7 b8 x11 x12 t1 t2 t3 t4 ++ res) =
      withError (nextBytes y res)
        (reservedFlag y.g_read_count (y.g_four_bytes % 256) y.flag_packet_error res) := by
    rw [run_append, e18', run_reserved res y hb hI18 hB18 y1 (by rw [y2]) (by rw [y2]; omega)
      (by rw [y2, y3]; omega)]
    rfl
  obtain ⟨hI47, hB47⟩ := nextBytes_inv res y hI18 hB18 (by rw [y2, y3, hres]; omega)
  obtain ⟨m1, m2, m3, m4, m5, m6, m7, m8, _, m10, m11, _⟩ := nextBytes_fields y res
  obtain ⟨v1, v2, v3, v4, v5⟩ := nextBytes_table y res
  generalize reservedFlag y.g_read_count (y.g_four_bytes % 256) y.flag_packet_error res = fl at e47
  generalize nextBytes y res = z at e47 hI47 hB47 m1 m2 m3 m4 m5 m6 m7 m8 m10 m11 v1 v2 v3 v4 v5
  have hBz : Body (withError z fl) :=
    ⟨hB47.state, hB47.sync, hB47.rc, hB47.lt, hB47.dl, hB47.tot, hB47.cnt⟩
  have hIz : Inv (withError z fl) := ⟨hI47.next, hI47.fend, Or.inr (Or.inr hBz)⟩
  obtain ⟨se, sc⟩ := step_time_end (withError z fl) b48
    h48 hIz hBz (m1.trans y1) (by show z.g_read_count = 47; rw [m3, y2, hres])
    (by show 48 < z.g_data_len; rw [m4, y3]; exact hT)
  have efin : run s (timestampHead b7 b8 x11 x12 t1 t2 t3 t4 ++ res ++ [b48]) =
      getDataStep (withError z fl) b48 := by
    rw [run_append, e47]
    rfl
  rw [efin]
  have h48' : ((z.g_four_bytes % 16777216) * 256 + b48) % 256 = b48 := by omega
  by_cases hf : (withError z fl).flag_packet_error = 1
  · rw [se hf]
    exact ⟨m10.trans y9, m11.trans y10, v1.trans y11, v2.trans y12, v3.trans y13, v4.trans y14,
      v5.trans y15, h48'⟩
  · rw [sc hf]
    exact ⟨m10.trans y9, m11.trans y10, v1.trans y11, v2.trans y12, v3.trans y13, v4.trans y14,
      v5.trans y15, h48'⟩

/-! ## The echoes of the dispatcher -/

theorem echo_echoOf (s : State) (a h : Nat) :
    EchoOf s.cmd_packets h a (lastPacket (echo s a h 0x00)) := by
  obtain ⟨e1, e2, e3⟩ := echo_payload_raw s a h 0x00
  exact ⟨echo_length s a h 0x00, e1, e2, e3⟩

/-- The packets of a run of the dispatcher over the slots `js`: one echo for
each, carrying the bytes of the command buffer the run started with. -/
theorem dispatch_fold_echo (loc : Nat → Nat) (js : List Nat) (t : State) :
    ∃ ps, (js.foldl (dispatch loc) t).sent = t.sent ++ ps ∧ EchoesOnly ps ∧
      ps.length = js.length ∧
      ∀ n, n < js.length →
        EchoOf t.cmd_packets (loc (2 * js.getD n 0)) (loc (2 * js.getD n 0 + 1))
          (ps.getD n []) := by
  induction js generalizing t with
  | nil =>
    exact ⟨[], by simp, fun _ h => absurd h (List.not_mem_nil _), rfl,
      fun n hn => absurd hn (by simp)⟩
  | cons j js ih =>
    obtain ⟨ps, e, he, hl, hp⟩ := ih (dispatch loc t j)
    have hcmd : (dispatch loc t j).cmd_packets = t.cmd_packets := rfl
    rw [hcmd] at hp
    refine ⟨lastPacket (dispatch loc t j) :: ps, ?_, ?_, by simp [hl], ?_⟩
    · rw [List.foldl_cons, e]
      unfold dispatch
      rw [echo_sent]
      simp
    · intro p hp'
      rcases List.mem_cons.1 hp' with h | h
      · rw [h]
        exact echo_id _ _ _ _
      · exact he p h
    · intro n hn
      cases n with
      | zero => exact echo_echoOf t (loc (2 * j + 1)) (loc (2 * j))
      | succ n =>
        simp only [List.length_cons] at hn
        exact hp n (by omega)

theorem processCommands_echo (s : State) :
    ∃ ps, (processCommands s).sent = s.sent ++ ps ∧ EchoesOnly ps ∧
      ps.length = s.g_command_num / 2 ∧
      ∀ n, n < s.g_command_num / 2 →
        EchoOf s.cmd_packets (s.cmd_location_info (2 * n)) (s.cmd_location_info (2 * n + 1))
          (ps.getD n []) := by
  rw [processCommands_eq]
  obtain ⟨ps, e, he, hl, hp⟩ := dispatch_fold_echo s.cmd_location_info
    (List.range (s.g_command_num / 2)) s
  rw [List.length_range] at hl hp
  refine ⟨ps, e, he, hl, ?_⟩
  intro n hn
  have h := hp n hn
  have hg : (List.range (s.g_command_num / 2)).getD n 0 = n := by
    rw [List.getD_eq_getElem?_getD, List.getElem?_range hn]
    rfl
  rw [hg] at h
  exact h

/-- The echoes of the last pass of a frame whose CRC residue is zero, in terms
of the command table the end-of-frame check sees. -/
theorem end_step_echo (s : State) (b : Nat) (hb : b < 256) (hB : Body s)
    (heq : s.g_read_count + 1 = s.g_data_len) (hz : crc s.crc_total b = 0) :
    ∃ pe, (getDataStep s b).sent = (afterSwitch s b).sent ++ pe ∧ EchoesOnly pe ∧
      pe.length = (afterSwitch s b).g_command_num / 2 ∧
      ∀ n, n < (afterSwitch s b).g_command_num / 2 →
        EchoOf (afterSwitch s b).cmd_packets ((afterSwitch s b).cmd_location_info (2 * n))
          ((afterSwitch s b).cmd_location_info (2 * n + 1)) (pe.getD n []) := by
  obtain ⟨_, _, _, hcrc, _, hstep, _⟩ := end_step_out s b hb hB heq
  rw [hstep]
  generalize afterSwitch s b = x at hcrc
  obtain ⟨pe, o3, a3, l3, p3⟩ := processCommands_echo { x with flag_end_reached := 0 }
  refine ⟨pe, ?_, a3, l3, p3⟩
  show (frameEnd x).sent = _
  rw [frameEnd_good _ (by rw [hcrc]; exact hz), o3]

theorem commandStream_lt (cs : List Command) (hw : ∀ c ∈ cs, c.wellFormed) :
    ∀ b ∈ commandStream cs, b < 256 := by
  induction cs with
  | nil => intro b hb; simp [commandStream] at hb
  | cons c cs ih =>
    intro b hb
    simp only [commandStream, List.mem_append] at hb
    rcases hb with h | h
    · exact c.bytes_lt (hw c (by simp)) b h
    · exact ih (fun x hx => hw x (by simp [hx])) b h

/-- The passes over well-formed commands that follow one another. -/
theorem commands_run (cs : List Command) (s : State) (m : Nat) (hw : ∀ c ∈ cs, c.wellFormed)
    (hI : Inv s) (hB : Body s) (hR : Ready s m) (hm : m + 2 * cs.length ≤ 255)
    (hlt : s.g_read_count + (commandStream cs).length < s.g_data_len) :
    Ready (run s (commandStream cs)) (m + 2 * cs.length) ∧
    Silent (m + 2 * cs.length) s (run s (commandStream cs)) := by
  induction cs generalizing s m with
  | nil => exact ⟨hR, Silent.same _ s⟩
  | cons c cs ih =>
    have hc := hw c (by simp)
    simp only [commandStream, List.length_append, List.length_cons] at hlt hm ⊢
    obtain ⟨a1, a2⟩ := command_run s c m hc hI hB hR (by omega) (by omega)
    obtain ⟨i1, i2, i3, i4, _⟩ := body_run c.bytes s (c.bytes_lt hc) hI hB (by omega)
    rw [run_append]
    generalize run s c.bytes = u at a1 a2 i1 i2 i3 i4
    obtain ⟨r1, r2⟩ := ih u (m + 2) (fun x hx => hw x (by simp [hx])) i1 i2 a1 (by omega)
      (by rw [i3, i4]; omega)
    rw [show m + 2 * (cs.length + 1) = m + 2 + 2 * cs.length by omega]
    exact ⟨r1, (a2.widen (by omega)).then r2⟩

/-- The switch on a trailer byte in the state `CMD_START` with the idle count
at most 1: nothing is sent, and at most a header is matched. -/
theorem sw_trailer_start (t : State) (m : Nat) (hst : t.state = .E_REC_CMD_START)
    (hn : t.g_command_num = m) (hm : m + 1 ≤ 255) (hidle : t.g_idle_count ≤ 1) :
    ((switchState t).sent = t.sent ∧
      (switchState t).flag_time_recieved = t.flag_time_recieved ∧
      (switchState t).g_time_next = t.g_time_next) ∧
    (((switchState t).next_state = t.next_state ∧ (switchState t).g_command_num = m ∧
        (switchState t).g_idle_count = t.g_idle_count + 1) ∨
      ((switchState t).next_state = .E_REC_CMD ∧ (switchState t).g_command_num = m + 1 ∧
        (switchState t).g_cmd_read_count = 0 ∧ (switchState t).g_cmd_length = 0 ∧
        (switchState t).g_idle_count = 0)) := by
  by_cases h : t.g_two_bytes = 0x1B00
  · obtain ⟨w1, w2, w3, w4, w5, w6, w7, w8⟩ := sw_start_match t hst h
    refine ⟨⟨w1, w2, w3⟩, Or.inr ⟨w4, ?_, w7, w8, w6⟩⟩
    rw [w5, hn]
    omega
  · obtain ⟨w1, w2, w3, w4, w5, w6⟩ := sw_start_idle t hst h (by omega)
    exact ⟨⟨w1, w2, w3⟩, Or.inl ⟨w4, w5.trans hn, w6⟩⟩

/-- The switch on a trailer byte leaves the command buffer alone, and the
location table apart from the slot of the command number. -/
theorem sw_trailer_table (t : State)
    (hst : t.state = .E_REC_CMD_START ∨ (t.state = .E_REC_CMD ∧ t.g_cmd_read_count = 0))
    (ht : t.g_cmd_read_total ≤ 511) :
    (switchState t).cmd_packets = t.cmd_packets ∧
    ∀ i, i ≠ t.g_command_num → (switchState t).cmd_location_info i = t.cmd_location_info i := by
  rcases hst with hs | ⟨hs, hc⟩
  · refine ⟨(sw_start_table t hs).1, ?_⟩
    exact sw_loc_other t (Or.inl hs) ht (fun h => absurd (hs.symm.trans h) (by decide))
      (fun h => absurd (hs.symm.trans h) (by decide))
  · obtain ⟨e1, e2, _⟩ := sw_cmd_early_table t hs (by rw [hc]; omega) (by rw [hc]; omega)
    exact ⟨e1, fun i _ => by rw [e2]⟩

/-- The passes over the two trailer bytes of a frame whose CRC residue is zero,
after `k` commands: `k` echoes are sent and nothing else, each carrying the
bytes of its command in the command buffer, the receiver is reset, and the
time variables are left alone. -/
theorem trailer_run (s : State) (k c1 c2 : Nat) (hc1 : c1 < 256) (hc2 : c2 < 256) (hI : Inv s)
    (hB : Body s) (hR : Ready s (2 * k)) (hk : 2 * k + 1 ≤ 255)
    (h2 : s.g_read_count + 2 = s.g_data_len) (hcrc : crcFold s.crc_total [c1, c2] = 0) :
    Quiet (run s [c1, c2]) ∧
    (∃ pe, (run s [c1, c2]).sent = s.sent ++ pe ∧ EchoesOnly pe ∧ pe.length = k ∧
      ∀ n, n < k →
        EchoOf s.cmd_packets (s.cmd_location_info (2 * n)) (s.cmd_location_info (2 * n + 1))
          (pe.getD n [])) ∧
    (run s [c1, c2]).flag_time_recieved = s.flag_time_recieved ∧
    (run s [c1, c2]).g_time_next = s.g_time_next ∧ (run s [c1, c2]).i_time = s.i_time := by
  have hrun : run s [c1, c2] = getDataStep (getDataStep s c1) c2 := rfl
  have hfold : crcFold s.crc_total [c1, c2] = crc (crc s.crc_total c1) c2 := rfl
  rw [hrun]
  rw [hfold] at hcrc
  have htot : s.g_cmd_read_total ≤ 511 := by
    have := hB.tot
    have := hB.dl
    have := hB.lt
    omega
  -- the first trailer byte
  obtain ⟨e, hF, _, _⟩ := body_step_mid s c1 hc1 hI hB (by omega)
  obtain ⟨i1, i2, i3, i4⟩ := mid_step s c1 hc1 hI hB (by omega)
  obtain ⟨a1, a2⟩ := sw_trailer_start (nextByte s c1) (2 * k) (by exact hR.state)
    (by exact hR.num) hk (by show s.g_idle_count ≤ 1; rw [hR.idle]; omega)
  obtain ⟨a3, a4⟩ := sw_trailer_table (nextByte s c1) (Or.inl hR.state) htot
  have hcrc1 : (getDataStep s c1).crc_total = crc s.crc_total c1 := by
    rw [e]
    exact hF.crc
  have htime1 : (getDataStep s c1).i_time = s.i_time := by
    rw [e]
    exact hF.time
  have hsil : (getDataStep s c1).sent = s.sent ∧
      (getDataStep s c1).flag_time_recieved = s.flag_time_recieved ∧
      (getDataStep s c1).g_time_next = s.g_time_next := by
    rw [e]
    exact a1
  have htab : (getDataStep s c1).cmd_packets = s.cmd_packets ∧
      ∀ i, i < 2 * k → (getDataStep s c1).cmd_location_info i = s.cmd_location_info i := by
    rw [e]
    refine ⟨a3, fun i hi => a4 i ?_⟩
    show i ≠ s.g_command_num
    rw [hR.num]
    omega
  have hpos : ((getDataStep s c1).state = .E_REC_CMD_START ∧
        (getDataStep s c1).g_command_num = 2 * k ∧ (getDataStep s c1).g_idle_count = 1) ∨
      InCmd (getDataStep s c1) (2 * k + 1) 0 0 := by
    rw [e]
    rcases a2 with ⟨x1, x2, x3⟩ | ⟨x1, x2, x3, x4, x5⟩
    · left
      refine ⟨?_, x2, ?_⟩
      · show (switchState (nextByte s c1)).next_state = _
        rw [x1]
        show s.next_state = _
        rw [hI.next, hR.state]
      · show (switchState (nextByte s c1)).g_idle_count = 1
        rw [x3]
        show s.g_idle_count + 1 = 1
        rw [hR.idle]
    · right
      exact ⟨x1, x2, x5, x3, x4⟩
  generalize getDataStep s c1 = u at i1 i2 i3 i4 hcrc1 htime1 hsil htab hpos
  -- the last byte
  have heq : u.g_read_count + 1 = u.g_data_len := by omega
  have htot2 : u.g_cmd_read_total ≤ 511 := by
    have := i2.tot
    have := i2.dl
    have := i2.lt
    omega
  obtain ⟨q, _, _, _, _, _, pa, o1, _, _⟩ := end_step_out u c2 hc2 i2 heq
  obtain ⟨_, t2, t3⟩ := end_step_time u c2 hc2 i2 heq
  rw [hcrc1] at t3
  have hlate : u.state = .E_REC_CMD_START ∨ u.state = .E_REC_CMD := by
    rcases hpos with ⟨x1, _, _⟩ | hC
    · exact Or.inl x1
    · exact Or.inr hC.state
  obtain ⟨g1, g2⟩ := t3 hlate hcrc
  obtain ⟨pe, o2, p2, l2, v2⟩ := end_step_echo u c2 hc2 i2 heq (by rw [hcrc1]; exact hcrc)
  have hsw : (afterSwitch u c2).sent = u.sent ∧ (afterSwitch u c2).g_command_num / 2 = k ∧
      (afterSwitch u c2).cmd_packets = u.cmd_packets ∧
      ∀ i, i < 2 * k → (afterSwitch u c2).cmd_location_info i = u.cmd_location_info i := by
    rw [afterSwitch_last u c2 hc2 i2 heq]
    rcases hpos with ⟨x1, x2, x3⟩ | hC
    · obtain ⟨b1, b2⟩ := sw_trailer_start { nextByte u c2 with flag_end_reached := 1 } (2 * k)
        (by exact x1) (by exact x2) hk (by show u.g_idle_count ≤ 1; rw [x3])
      obtain ⟨b3, b4⟩ := sw_trailer_table { nextByte u c2 with flag_end_reached := 1 }
        (Or.inl x1) htot2
      refine ⟨b1.1, ?_, b3, fun i hi => b4 i ?_⟩
      · rcases b2 with ⟨_, y2, _⟩ | ⟨_, y2, _⟩
        · rw [y2]
          omega
        · rw [y2]
          omega
      · show i ≠ u.g_command_num
        rw [x2]
        omega
    · obtain ⟨w1, _, _, _, _, _, w7, _⟩ := sw_cmd_plain { nextByte u c2 with flag_end_reached := 1 }
        (by exact hC.state) htot2
        (by show u.g_cmd_read_count < 65535; rw [hC.count]; omega)
        (by show u.g_cmd_read_count + 1 ≠ 6; rw [hC.count]; omega)
        (by show u.g_cmd_read_count + 1 ≠ u.g_cmd_length + 7; rw [hC.count, hC.len]; omega)
      obtain ⟨b3, b4⟩ := sw_trailer_table { nextByte u c2 with flag_end_reached := 1 }
        (Or.inr ⟨hC.state, hC.count⟩) htot2
      refine ⟨w1, ?_, b3, fun i hi => b4 i ?_⟩
      · rw [w7]
        show u.g_command_num / 2 = k
        rw [hC.num]
        omega
      · show i ≠ u.g_command_num
        rw [hC.num]
        omega
  obtain ⟨s1, s2, s3, s4⟩ := hsw
  refine ⟨q, ⟨pe, ?_, p2, l2.trans s2, ?_⟩, g1.trans hsil.2.1, g2.trans hsil.2.2,
    t2.trans htime1⟩
  · rw [o2, s1, hsil.1]
  · intro n hn
    have h := v2 n (by rw [s2]; exact hn)
    rw [s3, s4 _ (by omega), s4 _ (by omega), htab.1, htab.2 _ (by omega),
      htab.2 _ (by omega)] at h
    exact h

/-! ## Frames of well-formed sub-packets -/

theorem sent_echoes (x : State) (pe : List (List Nat)) (h : x.sent = locked4.sent ++ pe)
    (he : EchoesOnly pe) : alarmValues x = [] ∧ echoPackets x = pe := by
  unfold alarmValues alarmPackets echoPackets
  rw [h, List.filter_append, List.filter_append]
  have h1 := locked4_sent.1
  have h2 := locked4_sent.2.1
  unfold alarmPackets at h1
  unfold echoPackets at h2
  obtain ⟨f1, f2, _⟩ := filter_echoesOnly pe he
  rw [h1, h2, f1, f2]
  exact ⟨rfl, rfl⟩

/-- The passes over bytes 7 to 10 of a frame that begins with a command: the
header `1B 00` at bytes 9 and 10 starts the first command and clears the
time-received flag. -/
theorem first_header_run (s : State) (b7 b8 : Nat) (h7 : b7 < 256) (h8 : b8 < 256) (hI : Inv s)
    (hB : Body s) (hst : s.state = .E_REC_TIME_START) (h6 : s.g_read_count = 6)
    (hT : 10 < s.g_data_len) (hn : s.g_command_num + 1 ≤ 255) :
    InCmd (run s [b7, b8, 0x1B, 0x00]) (s.g_command_num + 1) 0 0 ∧
    (run s [b7, b8, 0x1B, 0x00]).sent = s.sent ∧
    (run s [b7, b8, 0x1B, 0x00]).flag_time_recieved = 0 ∧
    (run s [b7, b8, 0x1B, 0x00]).g_cmd_read_total = s.g_cmd_read_total ∧
    (run s [b7, b8, 0x1B, 0x00]).cmd_packets = s.cmd_packets ∧
    (run s [b7, b8, 0x1B, 0x00]).cmd_location_info = s.cmd_location_info ∧
    (run s [b7, b8, 0x1B, 0x00]).g_four_bytes % 256 = 0x00 := by
  have e1 : run s [b7, b8, 0x1B] = nextBytes s [b7, b8, 0x1B] :=
    run_timeStart_plain _ s (by simp; omega) hI hB hst (by rw [h6]; simp) (by rw [h6]; simp; omega)
  obtain ⟨hI9, hB9⟩ := nextBytes_inv [b7, b8, 0x1B] s hI hB (by rw [h6]; simp; omega)
  obtain ⟨f1, f2, f3, f4, f5, _, _, _, _, f10, f11, _⟩ := nextBytes_fields s [b7, b8, 0x1B]
  obtain ⟨u1, _, _, u4, u5⟩ := nextBytes_table s [b7, b8, 0x1B]
  have hl9 : nextBytes s [b7, b8, 0x1B] = nextByte (nextBytes s [b7, b8]) 0x1B := by
    rw [← nextBytes_snoc]
    simp only [List.cons_append, List.nil_append]
  have hw : (nextByte (nextBytes s [b7, b8, 0x1B]) 0x00).g_two_bytes = 0x1B00 := by
    rw [hl9]
    exact two_window (nextBytes s [b7, b8]) 0x1B 0x00 (by decide)
  have hsplit : run s [b7, b8, 0x1B, 0x00] = getDataStep (run s [b7, b8, 0x1B]) 0x00 := by
    have : [b7, b8, 0x1B, 0x00] = [b7, b8, 0x1B] ++ [0x00] := rfl
    rw [this, run_append]
    rfl
  rw [hsplit, e1]
  simp only [List.length_cons, List.length_nil] at f3
  generalize nextBytes s [b7, b8, 0x1B] = u at hI9 hB9 f1 f2 f3 f4 f5 f10 f11 hw u1 u4 u5
  rw [(body_step_mid u 0x00 (by decide) hI9 hB9 (by rw [f3, f4, h6]; omega)).1,
    switch_timeStart _ (by exact f1.trans hst),
    caseTimeStart_cmd _ (by show u.g_read_count + 1 = 10; rw [f3, h6]) hw]
  refine ⟨⟨rfl, ?_, rfl, rfl, rfl⟩, f5, rfl, u1, u4, u5, ?_⟩
  · show (u.g_command_num + 1) % 256 = s.g_command_num + 1
    rw [f10]
    omega
  · show ((u.g_four_bytes % 16777216) * 256 + 0x00) % 256 = 0x00
    omega

theorem Lead.lead_lt (ld : Lead) (h : ld.wellFormed) : ∀ b ∈ ld.bytes, b < 256 := by
  cases ld with
  | stamp b7 b8 x11 x12 t1 t2 t3 t4 b19 b48 =>
    obtain ⟨h1, h2, h3, h4, h5, h6, h7, h8, h9, h10⟩ := h
    intro b hb
    simp only [Lead.bytes, timestampHead, List.mem_append, List.mem_cons, List.mem_singleton,
      List.not_mem_nil, or_false, List.mem_replicate] at hb
    rcases hb with ((h | h | h | h | h | h | h | h | h | h | h | h) | (h | h)) | h <;> omega
  | plain b7 b8 =>
    obtain ⟨h1, h2⟩ := h
    intro b hb
    simp only [Lead.bytes, List.mem_cons, List.not_mem_nil, or_false] at hb
    rcases hb with h | h <;> omega

/-- The passes over the lead and the commands of a frame of well-formed
sub-packets, from the state in which the length field was accepted: nothing is
sent, the receiver waits for a header with two slots used per command, and the
time-received flag tells whether a timestamp was read. -/
theorem lead_run (s : State) (ld : Lead) (cs : List Command) (hld : ld.wellFormed)
    (hcs : ∀ c ∈ cs, c.wellFormed) (hk : cs.length ≤ 5) (hfirst : ld.time = none → 1 ≤ cs.length)
    (hI : Inv s) (hB : Body s) (hst : s.state = .E_REC_TIME_START) (h6 : s.g_read_count = 6)
    (he : s.flag_packet_error = 0) (hn : s.g_command_num = 0) (hidle : s.g_idle_count = 0)
    (hT : s.g_read_count + (ld.bytes ++ commandStream cs).length < s.g_data_len) :
    Ready (run s (ld.bytes ++ commandStream cs)) (2 * cs.length) ∧
    (run s (ld.bytes ++ commandStream cs)).sent = s.sent ∧
    (∀ T, ld.time = some T →
      (run s (ld.bytes ++ commandStream cs)).flag_time_recieved = 1 ∧
      (run s (ld.bytes ++ commandStream cs)).g_time_next = T) ∧
    (ld.time = none → (run s (ld.bytes ++ commandStream cs)).flag_time_recieved = 0) ∧
    (∀ i, 2 * cs.length ≤ i →
      (run s (ld.bytes ++ commandStream cs)).cmd_location_info i = s.cmd_location_info i) := by
  cases ld with
  | stamp b7 b8 x11 x12 t1 t2 t3 t4 b19 b48 =>
    obtain ⟨h1, h2, h3, h4, h5, h6', h7, h8, h9, h10⟩ := hld
    have hres : (b19 :: List.replicate 28 0).length = 29 := by simp
    have hb : ∀ b ∈ b19 :: List.replicate 28 0, b < 256 := by
      intro b hb
      simp only [List.mem_cons, List.mem_replicate] at hb
      rcases hb with h | h <;> omega
    have hz : ∀ b ∈ (b19 :: List.replicate 28 0).tail, b = 0 := by
      intro b hb
      simp only [List.tail_cons, List.mem_replicate] at hb
      exact hb.2
    have hlb : (Lead.stamp b7 b8 x11 x12 t1 t2 t3 t4 b19 b48).bytes.length = 42 := by
      simp [Lead.bytes, timestampHead]
    rw [List.length_append, hlb, h6] at hT
    obtain ⟨_, _, r3, _, r5, _⟩ := timestamp_run s b7 b8 x11 x12 t1 t2 t3 t4 b48
      (b19 :: List.replicate 28 0) h1 h2 h3 h4 h5 h6' h7 h8 h10 hres hb hI hB hst h6 (by omega) he
    obtain ⟨n1, n2, _, _, _, _, n7, _⟩ := timestamp_run_ready s b7 b8 x11 x12 t1 t2 t3 t4 b48
      (b19 :: List.replicate 28 0) h1 h2 h3 h4 h5 h6' h7 h8 h10 hres hb hI hB hst h6 (by omega)
    obtain ⟨z1, z2, z3⟩ := r3 hz
    obtain ⟨i1, i2, i3, i4, _⟩ := body_run (Lead.stamp b7 b8 x11 x12 t1 t2 t3 t4 b19 b48).bytes s
      (Lead.lead_lt _ ⟨h1, h2, h3, h4, h5, h6', h7, h8, h9, h10⟩) hI hB (by rw [hlb, h6]; omega)
    have hbytes : (Lead.stamp b7 b8 x11 x12 t1 t2 t3 t4 b19 b48).bytes =
        timestampHead b7 b8 x11 x12 t1 t2 t3 t4 ++ (b19 :: List.replicate 28 0) ++ [b48] := rfl
    rw [← hbytes] at r5 n1 n2 n7 z1 z2 z3
    rw [run_append]
    rw [hlb, h6] at i3
    generalize run s (Lead.stamp b7 b8 x11 x12 t1 t2 t3 t4 b19 b48).bytes = u at r5 n1 n2 n7 z1 z2 z3 i1 i2 i3 i4
    obtain ⟨c1, c2⟩ := commands_run cs u 0 hcs i1 i2 ⟨r5, n1.trans hn, n2.trans hidle⟩
      (by omega) (by rw [i3, i4]; omega)
    rw [Nat.zero_add] at c1
    refine ⟨c1, c2.sent.trans z1, ?_, ?_, ?_⟩
    · intro T hT'
      simp only [Lead.time, Option.some.injEq] at hT'
      rw [← hT']
      exact ⟨c2.ft.trans z2, c2.tn.trans z3⟩
    · intro hnone
      simp [Lead.time] at hnone
    · intro i hi
      rw [c2.loc i (by omega), n7]
  | plain b7 b8 =>
    obtain ⟨h1, h2⟩ := hld
    cases cs with
    | nil => exact absurd (hfirst rfl) (by simp)
    | cons c cs =>
      have hc := hcs c (by simp)
      have hsplit : (Lead.plain b7 b8).bytes ++ commandStream (c :: cs) =
          [b7, b8, 0x1B, 0x00] ++ (c.rest ++ commandStream cs) := by
        simp [Lead.bytes, commandStream, Command.bytes]
      rw [hsplit] at hT ⊢
      simp only [List.length_append, List.length_cons, List.length_nil, c.rest_length hc] at hT hk
      obtain ⟨a1, a2, a3, _, _, a6, _⟩ := first_header_run s b7 b8 h1 h2 hI hB hst h6 (by omega)
        (by omega)
      have hb4 : ∀ b ∈ [b7, b8, 0x1B, 0x00], b < 256 := by
        intro b hb
        simp only [List.mem_cons, List.not_mem_nil, or_false] at hb
        rcases hb with h | h | h | h <;> omega
      obtain ⟨i1, i2, i3, i4, _⟩ := body_run [b7, b8, 0x1B, 0x00] s hb4 hI hB (by simp; omega)
      simp only [List.length_cons, List.length_nil] at i3
      rw [hn] at a1
      rw [run_append, run_append]
      generalize run s [b7, b8, 0x1B, 0x00] = u at a1 a2 a3 a6 i1 i2 i3 i4
      obtain ⟨b1, b2⟩ := command_rest_run u c (0 + 1) hc i1 i2 a1 (by omega)
        (by rw [c.rest_length hc, i3, i4]; omega)
      obtain ⟨j1, j2, j3, j4, _⟩ := body_run c.rest u (c.rest_lt hc) i1 i2
        (by rw [c.rest_length hc, i3, i4]; omega)
      rw [c.rest_length hc] at j3
      generalize run u c.rest = v at b1 b2 j1 j2 j3 j4
      obtain ⟨c1, c2⟩ := commands_run cs v (0 + 1 + 1) (fun x hx => hcs x (by simp [hx])) j1 j2 b1
        (by omega) (by rw [j3, j4, i3, i4]; omega)
      rw [show 2 * (c :: cs).length = 0 + 1 + 1 + 2 * cs.length by simp; omega]
      refine ⟨c1, (c2.sent.trans b2.sent).trans a2, ?_, ?_, ?_⟩
      · intro T hT'
        simp [Lead.time] at hT'
      · intro _
        exact (c2.ft.trans b2.ft).trans a3
      · intro i hi
        rw [c2.loc i (by omega), b2.loc i (by omega), a6]

/-- The lead and the commands of a frame of well-formed sub-packets take at
least 23 bytes. -/
theorem lead_length (ld : Lead) (cs : List Command) (hcs : ∀ c ∈ cs, c.wellFormed)
    (hfirst : ld.time = none → 1 ≤ cs.length) :
    23 ≤ (ld.bytes ++ commandStream cs).length := by
  cases ld with
  | stamp b7 b8 x11 x12 t1 t2 t3 t4 b19 b48 =>
    simp [Lead.bytes, timestampHead]
  | plain b7 b8 =>
    cases cs with
    | nil => exact absurd (hfirst rfl) (by simp)
    | cons c cs =>
      have := c.bytes_length (hcs c (by simp))
      have h1 : 1 ≤ c.declared := (hcs c (by simp)).2.2.2.2.2.2.2.1
      simp only [Lead.bytes, commandStream, List.length_append, List.length_cons,
        List.length_nil, this]
      omega

/-! ## The command table through the passes of a frame -/

theorem alarm_loc (k : ALARM_STATE) (s : State) :
    (alarm k s).cmd_location_info = s.cmd_location_info := rfl

theorem reset_upper (s : State) (i : Nat) (hi : 20 ≤ i) :
    (reset s).cmd_location_info i = s.cmd_location_info i := by
  show (if i < 20 / 2 then 0 else s.cmd_location_info i) = _
  rw [if_neg (by omega)]

theorem readByte_upper (s : State) (b i : Nat) (hi : 20 ≤ i) :
    (readByte s b).cmd_location_info i = s.cmd_location_info i := by
  unfold readByte
  dsimp only
  split_ifs
  · rw [reset_upper _ _ hi]
    rfl
  · rfl
  · rfl

theorem flagEnd_loc (s : State) : (flagEnd s).cmd_location_info = s.cmd_location_info := by
  unfold flagEnd
  split_ifs <;> rfl

theorem instrumentUpdate_loc (u : UPDATE_STATE) (s : State) :
    (instrumentUpdate u s).cmd_location_info = s.cmd_location_info := by
  cases u <;> unfold instrumentUpdate <;> dsimp only <;> (try split_ifs) <;> rfl

theorem caseIdle_loc (s : State) : (caseIdle s).cmd_location_info = s.cmd_location_info := by
  unfold caseIdle
  split_ifs
  · dsimp only
    rw [instrumentUpdate_loc]
  · rfl

theorem caseLength_upper (s : State) (i : Nat) (hi : 20 ≤ i) :
    (caseLength s).cmd_location_info i = s.cmd_location_info i := by
  unfold caseLength
  dsimp only
  split_ifs <;> first | rfl | (rw [reset_upper _ _ hi]; rfl) |
    (rw [reset_upper _ _ hi]; show (reset _).cmd_location_info i = _; rw [reset_upper _ _ hi]; rfl)

theorem caseTimeStart_loc (s : State) :
    (caseTimeStart s).cmd_location_info = s.cmd_location_info := by
  unfold caseTimeStart
  dsimp only
  split_ifs <;> rfl

theorem caseTime_loc (s : State) : (caseTime s).cmd_location_info = s.cmd_location_info := by
  rw [caseTime_eq]
  unfold timeEnd timeReserved timeCapture timeLength
  dsimp only
  split_ifs <;> rfl

theorem setWord_upper (a : Nat → Nat) (n v i : Nat) (hn : n < 20) (hi : 20 ≤ i) :
    setWord a n v i = a i := by
  unfold setWord
  rw [if_neg (by omega)]

theorem caseCmdStart_upper (s : State) (i : Nat) (hi : 20 ≤ i)
    (ht : caseCmdStartInTable s = true) :
    (caseCmdStart s).cmd_location_info i = s.cmd_location_info i := by
  rw [caseCmdStart_eq, (cmdStartIdle_fields _).2.2.2.2.2.2.2.2.1]
  unfold caseCmdStartInTable at ht
  unfold cmdStartHeader
  dsimp only
  split_ifs with h
  · rw [if_pos h] at ht
    have hn : s.g_command_num < 20 := by simpa [K_MAX_CMDS] using ht
    exact setWord_upper _ _ _ _ hn hi
  · rfl

theorem caseCmd_upper (s : State) (i : Nat) (hi : 20 ≤ i) (ht : caseCmdInTable s = true) :
    (caseCmd s).cmd_location_info i = s.cmd_location_info i := by
  unfold caseCmdInTable at ht
  dsimp only at ht
  rw [caseCmd_eq, cmdDone_loc]
  by_cases h6 : (s.g_cmd_read_count + 1) % 65536 = K_INS_DATA_LEN_OFFSET
  · rw [if_pos h6] at ht
    have hlow : (cmdLength (cmdCount s)).g_cmd_read_count ≤ 10 := by
      unfold cmdLength
      dsimp only
      rw [if_pos (by exact h6)]
      split_ifs
      · show ((cmdCount s).g_cmd_read_count + 65530) % 65536 ≤ 10
        have : (cmdCount s).g_cmd_read_count = 6 := h6
        rw [this]
        decide
      · show (cmdCount s).g_cmd_read_count ≤ 10
        have : (cmdCount s).g_cmd_read_count = 6 := h6
        rw [this]
        omega
    rw [cmdStore_low _ hlow]
    unfold cmdLength
    dsimp only
    rw [if_pos (by exact h6)]
    split_ifs with hbad
    · rw [if_pos (by exact hbad)] at ht
      have hn : 1 ≤ s.g_command_num ∧ s.g_command_num < 20 := by simpa [K_MAX_CMDS] using ht
      show setWord (setWord (setWord s.cmd_location_info s.g_command_num _) s.g_command_num _)
        (s.g_command_num - 1) _ i = _
      rw [setWord_upper _ _ _ _ (by omega) hi, setWord_upper _ _ _ _ hn.2 hi,
        setWord_upper _ _ _ _ hn.2 hi]
    · rw [if_neg (by exact hbad)] at ht
      have hn : s.g_command_num < 20 := by simpa [K_MAX_CMDS] using ht
      show setWord s.cmd_location_info s.g_command_num _ i = _
      rw [setWord_upper _ _ _ _ hn hi]
  · rw [if_neg h6] at ht
    rw [cmdLength_id _ (by exact h6)]
    unfold cmdStore
    dsimp only
    split_ifs with h10 hov hpad
    · rw [reset_upper _ _ hi]
      rfl
    · rw [if_pos ⟨h10, hov, hpad.1, hpad.2⟩] at ht
      have hn : s.g_command_num < 20 := by simpa [K_MAX_CMDS] using ht
      show setWord s.cmd_location_info s.g_command_num _ i = _
      rw [setWord_upper _ _ _ _ hn hi]
    · rfl
    · rfl

theorem switchState_upper (s : State) (i : Nat) (hi : 20 ≤ i)
    (ht : (match s.state with
      | .E_REC_CMD_START => caseCmdStartInTable s
      | .E_REC_CMD => caseCmdInTable s
      | _ => true) = true) :
    (switchState s).cmd_location_info i = s.cmd_location_info i := by
  unfold switchState
  cases hs : s.state <;> rw [hs] at ht <;> dsimp only at ht ⊢
  · rw [caseIdle_loc]
  · exact caseLength_upper s i hi
  · rw [caseTimeStart_loc]
  · rw [caseTime_loc]
  · exact caseCmdStart_upper s i hi ht
  · exact caseCmd_upper s i hi ht

theorem processCommandsLoop_loc (n i : Nat) (s : State) :
    (processCommandsLoop n i s).cmd_location_info = s.cmd_location_info := by
  induction n generalizing i s with
  | zero => rfl
  | succ n ih =>
    unfold processCommandsLoop
    dsimp only
    split_ifs
    · rw [ih]
      rfl
    · rfl

theorem endOfFrame_upper (s : State) (i : Nat) (hi : 20 ≤ i) :
    (endOfFrame s).cmd_location_info i = s.cmd_location_info i := by
  unfold endOfFrame
  dsimp only
  split_ifs
  · rw [reset_upper _ _ hi]
    unfold processCommands
    rw [processCommandsLoop_loc]
  · rw [reset_upper _ _ hi]
    rfl
  · rfl

/-- A pass that stays inside the table leaves the entries from 20 on as they
were: on such passes the function of the index and the 20-entry array of the
source hold the same values. -/
theorem step_upper (s : State) (b : Nat) (ht : stepInTable s b = true) (i : Nat) (hi : 20 ≤ i) :
    (getDataStep s b).cmd_location_info i = s.cmd_location_info i := by
  unfold stepInTable at ht
  dsimp only at ht
  rw [Bool.and_eq_true] at ht
  show (endOfFrame (switchState (flagEnd (readByte s b)))).cmd_location_info i = _
  rw [endOfFrame_upper _ _ hi, switchState_upper _ _ hi ht.1, flagEnd_loc, readByte_upper _ _ _ hi]

/-- A call of `getData` that stays inside the table leaves the entries from 20
on as they were. -/
theorem getData_upper (x : State) (input : List Nat) (ht : getDataInTable x input = true)
    (i : Nat) (hi : 20 ≤ i) :
    (getData x input).cmd_location_info i = x.cmd_location_info i := by
  have key : ∀ (bs : List Nat) (s : State), runInTable s bs = true →
      (bs.foldl getDataStep s).cmd_location_info i = s.cmd_location_info i := by
    intro bs
    induction bs with
    | nil => intro s _; rfl
    | cons b bs ih =>
      intro s h
      unfold runInTable at h
      rw [Bool.and_eq_true] at h
      rw [List.foldl_cons, ih _ h.2, step_upper s b h.1 i hi]
  unfold getDataInTable at ht
  unfold getData
  rw [key input _ ht, reset_upper _ _ hi]
/-! ## The switch on the trailer bytes -/

/-- The case `E_REC_CMD_START` on one of the last two bytes of a frame sends
nothing. -/
theorem sw_start_silent (t : State) (hst : t.state = .E_REC_CMD_START)
    (hg : ¬ (t.g_read_count + 2 ≤ t.g_data_len)) :
    (switchState t).sent = t.sent ∧
    ((switchState t).next_state = t.next_state ∨
      ((switchState t).next_state = .E_REC_CMD ∧ (switchState t).g_cmd_read_count = 0)) := by
  rw [switch_cmdStart t hst, caseCmdStart_eq]
  unfold cmdStartIdle cmdStartHeader
  dsimp only
  split_ifs <;> first
    | exact ⟨rfl, Or.inl rfl⟩
    | exact ⟨rfl, Or.inr ⟨rfl, rfl⟩⟩

/-- The case `E_REC_CMD` away from the length field sends nothing. -/
theorem sw_cmd_silent (t : State) (hst : t.state = .E_REC_CMD) (ht : t.g_cmd_read_total ≤ 511)
    (h6 : (t.g_cmd_read_count + 1) % 65536 ≠ 6) :
    (switchState t).sent = t.sent ∧
    ((switchState t).next_state = t.next_state ∨ (switchState t).next_state = .E_REC_CMD_START) ∧
    (switchState t).g_cmd_read_count = (t.g_cmd_read_count + 1) % 65536 := by
  have c2 : (cmdCount t).g_cmd_read_total ≤ 2460 := by
    show (t.g_cmd_read_total + 1) % 65536 ≤ 2460
    omega
  rw [switch_cmd t hst, caseCmd_eq, cmdLength_id _ (by exact h6)]
  obtain ⟨s1, _, _, s4, s5, _, _, _⟩ := cmdStore_held (cmdCount t) c2
  unfold cmdDone
  split_ifs
  · exact ⟨s1, Or.inr rfl, s5⟩
  · exact ⟨s1, Or.inl s4, s5⟩

/-- The case `E_REC_TIME` away from the length field and from the end of the
timestamp sends nothing and stays in the timestamp. -/
theorem sw_time_silent (t : State) (hst : t.state = .E_REC_TIME) (h14 : t.g_read_count ≠ 14)
    (h48 : t.g_read_count ≠ 48) :
    (switchState t).sent = t.sent ∧ (switchState t).next_state = t.next_state := by
  rw [switch_time t hst, caseTime_eq, timeLength_id _ (Or.inl h14)]
  have e1 : (timeCapture t).sent = t.sent ∧ (timeCapture t).next_state = t.next_state ∧
      (timeCapture t).g_read_count = t.g_read_count := by
    unfold timeCapture
    split_ifs <;> exact ⟨rfl, rfl, rfl⟩
  have e2 : (timeReserved (timeCapture t)).sent = t.sent ∧
      (timeReserved (timeCapture t)).next_state = t.next_state ∧
      (timeReserved (timeCapture t)).g_read_count = t.g_read_count := by
    unfold timeReserved
    split_ifs <;> exact e1
  rw [timeEnd_id _ (by rw [e2.2.2]; exact h48)]
  exact ⟨e2.1, e2.2.1⟩

/-- The first of the last two bytes of a frame, read where the state logic
does not test it: nothing is sent, and the receiver is again where it does not
test the byte that follows. -/
theorem trailer_first (s : State) (x : Nat) (hx : x < 256) (hI : Inv s) (hB : Body s)
    (h2 : s.g_read_count + 2 = s.g_data_len) (hu : trailerUntested s)
    (hclean : s.state = .E_REC_TIME → s.g_read_count = 47 → s.flag_packet_error ≠ 1) :
    (getDataStep s x).sent = s.sent ∧
    ((getDataStep s x).state = .E_REC_CMD_START ∨
      ((getDataStep s x).state = .E_REC_CMD ∧ (getDataStep s x).g_cmd_read_count ≠ 5) ∨
      ((getDataStep s x).state = .E_REC_TIME ∧ (getDataStep s x).g_read_count ≠ 13 ∧
        (getDataStep s x).g_read_count ≠ 47)) := by
  have htot : s.g_cmd_read_total ≤ 511 := by
    have := hB.tot
    have := hB.dl
    have := hB.lt
    omega
  obtain ⟨e, hF, _, _⟩ := body_step_mid s x hx hI hB (by omega)
  rw [e]
  rcases hu with h | ⟨h, h4, h5⟩ | ⟨h, h12, h13, h46⟩
  · obtain ⟨a1, a2⟩ := sw_start_silent (nextByte s x) (by exact h)
      (by show ¬ (s.g_read_count + 1 + 2 ≤ s.g_data_len); omega)
    refine ⟨a1, ?_⟩
    rcases a2 with a2 | ⟨a2, a3⟩
    · left
      show (switchState (nextByte s x)).next_state = _
      rw [a2]
      show s.next_state = _
      rw [hI.next, h]
    · right
      left
      refine ⟨a2, ?_⟩
      show (switchState (nextByte s x)).g_cmd_read_count ≠ 5
      rw [a3]
      omega
  · obtain ⟨a1, a2, a3⟩ := sw_cmd_silent (nextByte s x) (by exact h) (by exact htot)
      (by show (s.g_cmd_read_count + 1) % 65536 ≠ 6; have := hB.cnt.1; omega)
    refine ⟨a1, ?_⟩
    rcases a2 with a2 | a2
    · right
      left
      refine ⟨?_, ?_⟩
      · show (switchState (nextByte s x)).next_state = _
        rw [a2]
        show s.next_state = _
        rw [hI.next, h]
      · show (switchState (nextByte s x)).g_cmd_read_count ≠ 5
        rw [a3]
        show (s.g_cmd_read_count + 1) % 65536 ≠ 5
        have := hB.cnt.1
        omega
    · left
      exact a2
  · by_cases h47 : s.g_read_count = 47
    · have hc := hclean h h47
      have e1 : switchState (nextByte s x) =
          { nextByte s x with next_state := .E_REC_CMD_START } := by
        rw [switch_time _ (by exact h), caseTime_eq,
          timeLength_id _ (Or.inl (by show s.g_read_count + 1 ≠ 14; omega)),
          timeCapture_id _ (by show s.g_read_count + 1 ≠ 18; omega),
          timeReserved_id _ (Or.inr (Or.inl (by show 48 ≤ s.g_read_count + 1; omega))),
          timeEnd_clean _ (by show s.g_read_count + 1 = 48; omega) (by exact hc)]
      rw [e1]
      exact ⟨rfl, Or.inl rfl⟩
    · obtain ⟨a1, a2⟩ := sw_time_silent (nextByte s x) (by exact h)
        (by show s.g_read_count + 1 ≠ 14; omega) (by show s.g_read_count + 1 ≠ 48; omega)
      refine ⟨a1, Or.inr (Or.inr ⟨?_, ?_, ?_⟩)⟩
      · show (switchState (nextByte s x)).next_state = _
        rw [a2]
        show s.next_state = _
        rw [hI.next, h]
      · show (switchState (nextByte s x)).g_read_count ≠ 13
        rw [hF.rc]
        show s.g_read_count + 1 ≠ 13
        omega
      · show (switchState (nextByte s x)).g_read_count ≠ 47
        rw [hF.rc]
        show s.g_read_count + 1 ≠ 47
        omega

/-- The last byte of a frame, read where the state logic does not test it:
the switch sends nothing. -/
theorem trailer_last (u : State) (y : Nat) (hy : y < 256) (hB : Body u)
    (heq : u.g_read_count + 1 = u.g_data_len)
    (hpos : u.state = .E_REC_CMD_START ∨
      (u.state = .E_REC_CMD ∧ u.g_cmd_read_count ≠ 5) ∨
      (u.state = .E_REC_TIME ∧ u.g_read_count ≠ 13 ∧ u.g_read_count ≠ 47)) :
    (afterSwitch u y).sent = u.sent := by
  have htot : u.g_cmd_read_total ≤ 511 := by
    have := hB.tot
    have := hB.dl
    have := hB.lt
    omega
  rw [afterSwitch_last u y hy hB heq]
  rcases hpos with h | ⟨h, h5⟩ | ⟨h, h13, h47⟩
  · exact (sw_start_silent { nextByte u y with flag_end_reached := 1 } (by exact h)
      (by show ¬ (u.g_read_count + 1 + 2 ≤ u.g_data_len); omega)).1
  · exact (sw_cmd_silent { nextByte u y with flag_end_reached := 1 } (by exact h) (by exact htot)
      (by show (u.g_cmd_read_count + 1) % 65536 ≠ 6; have := hB.cnt.1; omega)).1
  · exact (sw_time_silent { nextByte u y with flag_end_reached := 1 } (by exact h)
      (by show u.g_read_count + 1 ≠ 14; omega) (by show u.g_read_count + 1 ≠ 48; omega)).1

/-- A timestamp whose last byte is read with the format flag set sends the
alarm, whatever the byte. -/
theorem sw_time_flagged (t : State) (hst : t.state = .E_REC_TIME) (h48 : t.g_read_count = 48)
    (he : t.flag_packet_error = 1) : (switchState t).sent ≠ t.sent := by
  rw [switch_time _ hst, caseTime_eq, timeLength_id _ (Or.inl (by omega)),
    timeCapture_id _ (by omega), timeReserved_id _ (Or.inr (Or.inl (by omega))),
    timeEnd_error _ h48 he]
  intro h
  have h' : (alarm .CCSDS_FORMAT t).sent = t.sent := h
  rw [alarm_sent] at h'
  have := congrArg List.length h'
  simp at this
/-! ## What a command leaves in the command buffer -/

/-- C1: for every byte sequence `s`, with `c` the result of folding `crc` over
`s` from seed `0xFFFF`, folding `crc` over `s` followed by the two bytes
`c >> 8` and `c & 0xFF` from `0xFFFF` yields `0x0000`. -/
theorem crc_round_trip (s : List Nat) :
    crcFold CRC_SEED (s ++ [crcFold CRC_SEED s >>> 8, crcFold CRC_SEED s &&& 0xFF]) = 0 := by
  rw [crcFold_append]
  show crc (crc (crcFold CRC_SEED s) (crcFold CRC_SEED s >>> 8)) (crcFold CRC_SEED s &&& 0xFF) = 0
  rw [crc_high_byte, crc_low_byte]

/-- C3, as stated, fails: on the scenario frame (whose trailer `AD 10` is the
CRC of the 24 bytes between the length field and the trailer, residue zero) the
receiver does not send exactly one Echo packet with opcode `0xAB` and argument
`0xCD` and no alarm. -/
theorem scenario_not_one_echo :
    crcFold CRC_SEED ((scenarioFrame.drop 4).take 26) = 0xAD10 ∧
    ¬ (∃ e, echoPackets (getData startup scenarioFrame) = [e] ∧ e.getD 17 0 = 0xAB ∧
        e.getD 18 0 = 0xCD ∧ alarmPackets (getData startup scenarioFrame) = []) := by
  refine ⟨by decide, ?_⟩
  rintro ⟨e, he, -⟩
  have h : echoPackets (getData startup scenarioFrame) = [] := by decide
  rw [h] at he
  exact List.noConfusion he

/-- C3, amended: on the scenario frame the receiver finds neither a timestamp
nor a command header in bytes 9-10 (`00 02`), so it sends no Echo packet; it
sends one status packet and seven alarm packets, all `CCSDS_APID` (value 4), and
ends in `E_REC_IDLE`. -/
theorem scenario_outcome :
    scenarioFrame.length = 32 ∧
    crcFold CRC_SEED (scenarioFrame.drop 4) = 0 ∧
    echoPackets (getData startup scenarioFrame) = [] ∧
    alarmValues (getData startup scenarioFrame) = [4, 4, 4, 4, 4, 4, 4] ∧
    (getData startup scenarioFrame).sent.map isStatus =
      [true, false, false, false, false, false, false, false] ∧
    (getData startup scenarioFrame).state = .E_REC_IDLE := by
  decide

/-- C4 at the failing input: a length field `E0 1A` (top 3 bits set) makes the
receiver send two alarm packets, `CCSDS_FORMAT` (value 3) and then `ITF_LENGTH`
(value 1); it sends no Echo packet and ends in `E_REC_IDLE`. -/
theorem badFormat_two_alarms :
    alarmValues (getData startup badFormatFrame) = [3, 1] ∧
    echoPackets (getData startup badFormatFrame) = [] ∧
    (getData startup badFormatFrame).state = .E_REC_IDLE := by
  decide

/-- C7 at a failing input: the frame `oddEchoFrame` is accepted without alarm
and echoed with one argument; the echo packet is 22 bytes long, its last two
bytes are not the big-endian CRC of bytes 4-19, and the residue over bytes 4-21
is not zero (the trailer sits in bytes 19-20, byte 21 is zero). -/
theorem odd_echo_trailer_misplaced :
    crcFold CRC_SEED (oddEchoFrame.drop 4) = 0 ∧
    alarmPackets (getData startup oddEchoFrame) = [] ∧
    isEcho (lastPacket (getData startup oddEchoFrame)) = true ∧
    (lastPacket (getData startup oddEchoFrame)).length = 22 ∧
    be16 (lastPacket (getData startup oddEchoFrame)) 20 ≠
      crcFold CRC_SEED (((lastPacket (getData startup oddEchoFrame)).drop 4).take 16) ∧
    crcFold CRC_SEED ((lastPacket (getData startup oddEchoFrame)).drop 4) ≠ 0 ∧
    (lastPacket (getData startup oddEchoFrame)).drop 19 = [0x65, 0xED, 0x00] := by
  decide

/-- C8: for a state with heartbeat in `{0, 0x80}`, power in `{0, 0x40}`, a
sequence count below `2^14` and a 32-bit mission time, every status, echo and
alarm packet carries in byte 4 the heartbeat flag (bit 7) and the power flag
(bit 6) as they were when the build started, in bytes 8-9 the value `0xC000`
OR'd with the old sequence count plus one modulo `2^14`, and in bytes 12-15 the
mission time; the old sequence count is recovered from bytes 8-9. -/
theorem header_encodes_state (s : State) (arg_count head result : Nat) (k : ALARM_STATE)
    (hhb : s.i_heartbeat = 0 ∨ s.i_heartbeat = 0x80) (hpw : s.i_power = 0 ∨ s.i_power = 0x40)
    (hseq : s.i_sequence_count < 16384) (htime : s.i_time < 4294967296) :
    ∀ p ∈ [lastPacket (status s), lastPacket (echo s arg_count head result),
        lastPacket (alarm k s)],
      p.getD 4 0 &&& 0x80 = s.i_heartbeat ∧ p.getD 4 0 &&& 0x40 = s.i_power ∧
      be16 p 8 = 0xC000 ||| ((s.i_sequence_count + 1) % 16384) ∧
      be32 p 12 = s.i_time ∧
      s.i_sequence_count = (be16 p 8 % 16384 + 16383) % 16384 := by
  have key : ∀ (p : List Nat) (size apid len : Nat),
      p.take 16 = packetHeader (updateSequence s) size apid len → 6 ≤ size ∧ size < 262 →
      p.getD 4 0 &&& 0x80 = s.i_heartbeat ∧ p.getD 4 0 &&& 0x40 = s.i_power ∧
      be16 p 8 = 0xC000 ||| ((s.i_sequence_count + 1) % 16384) ∧
      be32 p 12 = s.i_time ∧
      s.i_sequence_count = (be16 p 8 % 16384 + 16383) % 16384 := by
    intro p size apid len hp hsize
    have hlt : (updateSequence s).i_sequence_count < 16384 := by
      rw [updateSequence_count]; omega
    obtain ⟨h1, h2, -⟩ := header_length (updateSequence s) size apid len p hp hsize hhb hpw
    obtain ⟨h3, h4⟩ := header_seq_time (updateSequence s) size apid len p hp hlt htime
    rw [updateSequence_count] at h3
    refine ⟨h1, h2, h3, h4, ?_⟩
    rw [h3, or_49152 _ (by omega)]
    omega
  intro p hp
  simp only [List.mem_cons, List.mem_singleton, List.not_mem_nil, or_false] at hp
  have hb := echoSize_bounds arg_count
  rcases hp with rfl | rfl | rfl
  · exact key _ _ _ _ (status_header s) (by omega)
  · exact key _ _ _ _ (echo_header s arg_count head result) (by omega)
  · exact key _ _ _ _ (alarm_header k s) (by omega)

/-- Witness for C8 at the start-up state. -/
theorem header_encodes_state_witness :
    (startup.i_heartbeat = 0 ∨ startup.i_heartbeat = 0x80) ∧
    (startup.i_power = 0 ∨ startup.i_power = 0x40) ∧
    startup.i_sequence_count < 16384 ∧ startup.i_time < 4294967296 ∧
    ∀ p ∈ [lastPacket (status startup), lastPacket (echo startup 3 0 0),
        lastPacket (alarm .CCSDS_APID startup)],
      p.getD 4 0 &&& 0x80 = startup.i_heartbeat ∧ p.getD 4 0 &&& 0x40 = startup.i_power ∧
      be16 p 8 = 0xC000 ||| ((startup.i_sequence_count + 1) % 16384) ∧
      be32 p 12 = startup.i_time ∧
      startup.i_sequence_count = (be16 p 8 % 16384 + 16383) % 16384 :=
  ⟨Or.inr rfl, Or.inl rfl, by decide, by decide,
    header_encodes_state startup 3 0 0 .CCSDS_APID (Or.inr rfl) (Or.inl rfl)
      (by decide) (by decide)⟩

/-- C9: a status packet is 140 bytes with bytes 16-137 all zero, an alarm
packet is 22 bytes, an echo packet for argument count `n` is `20 + min n 10`
bytes rounded up to the next even number (even, between 20 and 30); in every
packet bytes 0-3 are `FE FA 30 C8` and the low six bits of byte 4 together with
byte 5 hold the transmitted size minus 6 (heartbeat in `{0, 0x80}`, power in
`{0, 0x40}`). -/
theorem packet_sizes (s : State) (arg_count head result : Nat) (k : ALARM_STATE)
    (hhb : s.i_heartbeat = 0 ∨ s.i_heartbeat = 0x80) (hpw : s.i_power = 0 ∨ s.i_power = 0x40) :
    ((lastPacket (status s)).length = 140 ∧
      ∀ i, 16 ≤ i → i ≤ 137 → (lastPacket (status s)).getD i 0 = 0) ∧
    (lastPacket (alarm k s)).length = 22 ∧
    ((lastPacket (echo s arg_count head result)).length = (20 + min arg_count 10 + 1) / 2 * 2 ∧
      (lastPacket (echo s arg_count head result)).length % 2 = 0 ∧
      20 ≤ (lastPacket (echo s arg_count head result)).length ∧
      (lastPacket (echo s arg_count head result)).length ≤ 30) ∧
    ∀ p ∈ [lastPacket (status s), lastPacket (echo s arg_count head result),
        lastPacket (alarm k s)],
      p.take 4 = [0xFE, 0xFA, 0x30, 0xC8] ∧
      (p.getD 4 0 % 64) * 256 + p.getD 5 0 = p.length - 6 := by
  have hb := echoSize_bounds arg_count
  refine ⟨⟨status_length s, status_zero_region s⟩, alarm_length k s, ?_, ?_⟩
  · rw [echo_length, ← echoSize_eq]
    omega
  · intro p hp
    simp only [List.mem_cons, List.mem_singleton, List.not_mem_nil, or_false] at hp
    rcases hp with rfl | rfl | rfl
    · rw [status_length]
      exact ⟨header_sync _ _ _ _ _ (status_header s),
        (header_length _ _ _ _ _ (status_header s) (by omega) hhb hpw).2.2⟩
    · rw [echo_length]
      exact ⟨header_sync _ _ _ _ _ (echo_header s arg_count head result),
        (header_length _ _ _ _ _ (echo_header s arg_count head result) (by omega) hhb hpw).2.2⟩
    · rw [alarm_length]
      exact ⟨header_sync _ _ _ _ _ (alarm_header k s),
        (header_length _ _ _ _ _ (alarm_header k s) (by omega) hhb hpw).2.2⟩

/-- Witness for C9 at the start-up state, with an echo of 3 arguments. -/
theorem packet_sizes_witness :
    (startup.i_heartbeat = 0 ∨ startup.i_heartbeat = 0x80) ∧
    (startup.i_power = 0 ∨ startup.i_power = 0x40) ∧
    ((lastPacket (status startup)).length = 140 ∧
      ∀ i, 16 ≤ i → i ≤ 137 → (lastPacket (status startup)).getD i 0 = 0) ∧
    (lastPacket (alarm .ITF_CHECKSUM startup)).length = 22 ∧
    ((lastPacket (echo startup 3 0 0)).length = (20 + min 3 10 + 1) / 2 * 2 ∧
      (lastPacket (echo startup 3 0 0)).length % 2 = 0 ∧
      20 ≤ (lastPacket (echo startup 3 0 0)).length ∧
      (lastPacket (echo startup 3 0 0)).length ≤ 30) ∧
    ∀ p ∈ [lastPacket (status startup), lastPacket (echo startup 3 0 0),
        lastPacket (alarm .ITF_CHECKSUM startup)],
      p.take 4 = [0xFE, 0xFA, 0x30, 0xC8] ∧
      (p.getD 4 0 % 64) * 256 + p.getD 5 0 = p.length - 6 :=
  ⟨Or.inr rfl, Or.inl rfl,
    packet_sizes startup 3 0 0 .ITF_CHECKSUM (Or.inr rfl) (Or.inl rfl)⟩

/-- C10: in every built packet bytes 6-7 are `0x0B05` (status), `0x0B01`
(echo) and `0x0B02` (alarm): the low 11 bits are the APIDs `0x305`, `0x301`
and `0x302`, and byte 6 has the `0x08` secondary-header bit set with its upper
four bits zero. -/
theorem packet_apid (s : State) (arg_count head result : Nat) (k : ALARM_STATE) :
    (packetId (lastPacket (status s)) = 0x0B05 ∧
      packetId (lastPacket (status s)) % 2048 = 0x305 ∧
      (lastPacket (status s)).getD 6 0 &&& 0xF8 = 0x08) ∧
    (packetId (lastPacket (echo s arg_count head result)) = 0x0B01 ∧
      packetId (lastPacket (echo s arg_count head result)) % 2048 = 0x301 ∧
      (lastPacket (echo s arg_count head result)).getD 6 0 &&& 0xF8 = 0x08) ∧
    (packetId (lastPacket (alarm k s)) = 0x0B02 ∧
      packetId (lastPacket (alarm k s)) % 2048 = 0x302 ∧
      (lastPacket (alarm k s)).getD 6 0 &&& 0xF8 = 0x08) := by
  obtain ⟨s6, s7⟩ := header_id _ _ _ _ _ (status_header s)
  obtain ⟨e6, e7⟩ := header_id _ _ _ _ _ (echo_header s arg_count head result)
  obtain ⟨a6, a7⟩ := header_id _ _ _ _ _ (alarm_header k s)
  unfold packetId
  rw [s6, s7, e6, e7, a6, a7]
  decide
/-- C11 fails for the code: the three builders store three different things
in bytes 10-11. `echo` stores the number of bytes that follow byte 11
(`pack_size - 12`, under the comment "Length of packet after this byte").
`status`, under the same comment, stores the literal 123 although 128 bytes
follow byte 11 of its 140. `alarm`, under the comment "Length of packet after
this byte - 1", stores the literal 7 although its 22 bytes give 9. None of the
three is the transmitted size minus 16 (124 for status, 6 for alarm), and the
field is not one function of the size: it is the size minus 17 in a status
packet, minus 12 in an echo packet and minus 15 in an alarm packet. -/
theorem length_field_values (s : State) (arg_count head result : Nat) (k : ALARM_STATE) :
    (be16 (lastPacket (status s)) 10 = 123 ∧ (lastPacket (status s)).length = 140 ∧
      (lastPacket (status s)).length - 12 = 128 ∧ (lastPacket (status s)).length - 16 = 124) ∧
    (be16 (lastPacket (echo s arg_count head result)) 10 =
        (lastPacket (echo s arg_count head result)).length - 12 ∧
      be16 (lastPacket (echo s arg_count head result)) 10 ≠
        (lastPacket (echo s arg_count head result)).length - 16) ∧
    (be16 (lastPacket (alarm k s)) 10 = 7 ∧ (lastPacket (alarm k s)).length = 22 ∧
      (lastPacket (alarm k s)).length - 12 - 1 = 9 ∧ (lastPacket (alarm k s)).length - 16 = 6) := by
  have hb := echoSize_bounds arg_count
  have he : be16 (lastPacket (echo s arg_count head result)) 10 =
      (lastPacket (echo s arg_count head result)).length - 12 := by
    rw [echo_length]
    exact header_len_field _ _ _ _ _ (echo_header s arg_count head result) (by omega)
  refine ⟨⟨header_len_field _ _ _ _ _ (status_header s) (by omega), status_length s,
      by rw [status_length], by rw [status_length]⟩,
    ⟨he, ?_⟩,
    ⟨header_len_field _ _ _ _ _ (alarm_header k s) (by omega), alarm_length k s,
      by rw [alarm_length], by rw [alarm_length]⟩⟩
  rw [he, echo_length]
  omega

/-- C12: in every alarm packet bytes 16 and 17 are `0x01`, byte 19 is `0x00`
and byte 18 is the enum value of the kind plus one (`ITF_LENGTH` 1,
`ITF_CHECKSUM` 2, `CCSDS_FORMAT` 3, `CCSDS_APID` 4, `CCSDS_LENGTH` 5); the
mapping from kind to byte 18 is injective and its range is exactly `1 .. 5`. -/
theorem alarm_body (s : State) :
    (∀ k : ALARM_STATE,
      (lastPacket (alarm k s)).getD 16 0 = 0x01 ∧ (lastPacket (alarm k s)).getD 17 0 = 0x01 ∧
      (lastPacket (alarm k s)).getD 19 0 = 0x00 ∧
      (lastPacket (alarm k s)).getD 18 0 = k.toNat + 1) ∧
    [ALARM_STATE.ITF_LENGTH, .ITF_CHECKSUM, .CCSDS_FORMAT, .CCSDS_APID, .CCSDS_LENGTH].map
      (fun k => (lastPacket (alarm k s)).getD 18 0) = [1, 2, 3, 4, 5] ∧
    (∀ k k' : ALARM_STATE,
      (lastPacket (alarm k s)).getD 18 0 = (lastPacket (alarm k' s)).getD 18 0 → k = k') ∧
    (∀ v, (∃ k : ALARM_STATE, (lastPacket (alarm k s)).getD 18 0 = v) ↔ 1 ≤ v ∧ v ≤ 5) := by
  have h18 : ∀ k : ALARM_STATE, (lastPacket (alarm k s)).getD 18 0 = k.toNat + 1 := by
    intro k
    rw [(alarm_body_bytes k s).2.2.1]
    cases k <;> rfl
  refine ⟨fun k => ⟨(alarm_body_bytes k s).1, (alarm_body_bytes k s).2.1,
    (alarm_body_bytes k s).2.2.2, h18 k⟩, ?_, ?_, ?_⟩
  · simp only [List.map, h18]
    rfl
  · intro k k' h
    rw [h18, h18] at h
    cases k <;> cases k' <;> first | rfl | (exact absurd h (by decide))
  · intro v
    constructor
    · rintro ⟨k, hk⟩
      rw [h18] at hk
      cases k <;> (subst hk; decide)
    · rintro ⟨h1, h5⟩
      interval_cases v
      · exact ⟨.ITF_LENGTH, h18 _⟩
      · exact ⟨.ITF_CHECKSUM, h18 _⟩
      · exact ⟨.CCSDS_FORMAT, h18 _⟩
      · exact ⟨.CCSDS_APID, h18 _⟩
      · exact ⟨.CCSDS_LENGTH, h18 _⟩

/-- C13: for every call `echo(arg_count, head, result)` on a state whose
`cmd_packets` holds bytes, with `n = min arg_count 10`, byte 16 of the packet is
`((cmd_packets[head+1] & 1) << 7) | (result & 0x7F)`, byte 17 is
`cmd_packets[head]`, and byte `17 + i` is `cmd_packets[head + 1 + i]` for every
`i` in `1 .. n`; `n` is at most 10. -/
theorem echo_payload (s : State) (arg_count head result : Nat)
    (hcmd : ∀ i, s.cmd_packets i < 256) :
    (lastPacket (echo s arg_count head result)).getD 16 0 =
        (((s.cmd_packets (head + 1) &&& 0x01) <<< 7) ||| (result &&& 0x7F)) ∧
    (lastPacket (echo s arg_count head result)).getD 17 0 = s.cmd_packets head ∧
    (∀ i, 1 ≤ i → i ≤ min arg_count 10 →
      (lastPacket (echo s arg_count head result)).getD (17 + i) 0 =
        s.cmd_packets (head + 1 + i)) ∧
    min arg_count 10 ≤ 10 := by
  obtain ⟨h16, h17, hargs⟩ := echo_payload_raw s arg_count head result
  refine ⟨?_, ?_, ?_, Nat.min_le_right _ _⟩
  · rw [h16]
    apply Nat.mod_eq_of_lt
    have h1 : (s.cmd_packets (head + 1) &&& 0x01) <<< 7 < 2 ^ 8 := by
      rw [Nat.and_one_is_mod, Nat.shiftLeft_eq]
      omega
    have h2 : result &&& 0x7F < 2 ^ 8 :=
      Nat.lt_of_le_of_lt Nat.and_le_right (by decide)
    exact Nat.or_lt_two_pow h1 h2
  · rw [h17, Nat.mod_eq_of_lt (hcmd _)]
  · intro i h1 hi
    rw [hargs i h1 hi, Nat.mod_eq_of_lt (hcmd _)]

/-- Witness for C13 at the start-up state, with 3 arguments. -/
theorem echo_payload_witness :
    (∀ i, startup.cmd_packets i < 256) ∧
    (lastPacket (echo startup 3 0 0)).getD 16 0 =
        (((startup.cmd_packets (0 + 1) &&& 0x01) <<< 7) ||| (0 &&& 0x7F)) ∧
    (lastPacket (echo startup 3 0 0)).getD 17 0 = startup.cmd_packets 0 ∧
    (∀ i, 1 ≤ i → i ≤ min 3 10 →
      (lastPacket (echo startup 3 0 0)).getD (17 + i) 0 = startup.cmd_packets (0 + 1 + i)) ∧
    min 3 10 ≤ 10 :=
  ⟨fun _ => Nat.zero_lt_succ 255, echo_payload startup 3 0 0 (fun _ => Nat.zero_lt_succ 255)⟩

/-- C16 at a failing input: the frame `gapFrame` alone is accepted without
alarm and echoed once, but fed after `corruptTimeFrame` (rejected for its
checksum, receiver back in `E_REC_IDLE`) it raises a `CCSDS_APID` alarm (value
4): `reset` leaves `g_idle_count` at 2, so the idle limit is reached one byte
early in the following frame. -/
theorem idle_count_survives_reset :
    (getData startup corruptTimeFrame).state = .E_REC_IDLE ∧
    alarmValues (getData startup corruptTimeFrame) = [2] ∧
    (getData startup corruptTimeFrame).g_idle_count = 2 ∧
    crcFold CRC_SEED (gapFrame.drop 4) = 0 ∧
    alarmValues (getData startup gapFrame) = [] ∧
    (echoPackets (getData startup gapFrame)).length = 1 ∧
    alarmValues (getData startup (corruptTimeFrame ++ gapFrame)) = [2, 4] ∧
    (echoPackets (getData startup (corruptTimeFrame ++ gapFrame))).length = 1 := by
  decide

/-- C17 at failing inputs: after the frame `sixCommands` (which ends with
`reset`), a further `reset` still leaves entries 10 and 11 of the command
location table nonzero; after the frame `shortTimeFrame`, a further `reset`
leaves the packet-error flag at 1. -/
theorem reset_leaves_scratch :
    (reset (getData startup sixCommands)).cmd_location_info 10 = 95 ∧
    (reset (getData startup sixCommands)).cmd_location_info 11 = 65534 ∧
    (getData startup shortTimeFrame).state = .E_REC_IDLE ∧
    (reset (getData startup shortTimeFrame)).flag_packet_error = 1 := by
  decide!

/-- C18 at a failing input: the frame `elevenCommands` carries eleven command
sub-packets; the receiver raises no alarm, echoes all eleven, and has stored
the start offset and argument count of the eleventh at indices 20 and 21 of
the command location table. -/
theorem eleventh_command_out_of_range :
    elevenCommands.length = 241 ∧
    alarmValues (getData startup elevenCommands) = [] ∧
    (echoPackets (getData startup elevenCommands)).length = 11 ∧
    (getData startup elevenCommands).cmd_location_info 20 = 190 ∧
    (getData startup elevenCommands).cmd_location_info 21 = 65534 := by
  decide!

/-- C19 at failing inputs: a length field of 506 (total frame length 512 =
`K_MAX_PACKET_SIZE`) and a length field of 4 (total frame length 10 =
`K_MIN_PACKET_SIZE`) each raise an `ITF_LENGTH` alarm (value 1) and reset the
receiver, while the neighbours 505 and 5 (total 511 and 11) raise none and
lead to `E_REC_TIME_START`. -/
theorem length_bounds_are_strict :
    alarmValues (getData startup [0xFE, 0xFA, 0x30, 0xC8, 0x01, 0xFA]) = [1] ∧
    (getData startup [0xFE, 0xFA, 0x30, 0xC8, 0x01, 0xFA]).state = .E_REC_IDLE ∧
    alarmValues (getData startup [0xFE, 0xFA, 0x30, 0xC8, 0x00, 0x04]) = [1] ∧
    (getData startup [0xFE, 0xFA, 0x30, 0xC8, 0x00, 0x04]).state = .E_REC_IDLE ∧
    alarmValues (getData startup [0xFE, 0xFA, 0x30, 0xC8, 0x01, 0xF9]) = [] ∧
    (getData startup [0xFE, 0xFA, 0x30, 0xC8, 0x01, 0xF9]).state = .E_REC_TIME_START ∧
    alarmValues (getData startup [0xFE, 0xFA, 0x30, 0xC8, 0x00, 0x05]) = [] ∧
    (getData startup [0xFE, 0xFA, 0x30, 0xC8, 0x00, 0x05]).state = .E_REC_TIME_START := by
  decide

/-- C14: from any state with sequence count `s < 2^14`, after any `k`
consecutive packet builds (status, echo or alarm calls) the sequence count is
`(s + k) mod 16384`; after 16384 builds the state is the one before them
except for the output buffer and the transport log, so the sequence count (0
if it started at 0), the heartbeat flag, the power flag, the mission time, the
status-interval counter and every receiver variable have their old values. -/
theorem sequence_count_wrap (s : State) (bs : List Build)
    (hseq : s.i_sequence_count < 16384) (hhb : s.i_heartbeat < 256) :
    (applyBuilds s bs).i_sequence_count = (s.i_sequence_count + bs.length) % 16384 ∧
    (bs.length = 16384 →
      applyBuilds s bs =
        { s with
          tlm_packet := (applyBuilds s bs).tlm_packet
          sent := (applyBuilds s bs).sent }) ∧
    (bs.length = 16384 → s.i_sequence_count = 0 → (applyBuilds s bs).i_sequence_count = 0) := by
  have h := applyBuilds_eq bs s hseq
  have hcount : (applyBuilds s bs).i_sequence_count = (s.i_sequence_count + bs.length) % 16384 := by
    rw [h]
  refine ⟨hcount, ?_, ?_⟩
  · intro hlen
    refine h.trans ?_
    have hb : toggleBit^[bs.length] s.i_heartbeat = s.i_heartbeat := by
      rw [hlen]
      exact toggleBit_iterate_even 8192 _ hhb
    have hs : (s.i_sequence_count + bs.length) % 16384 = s.i_sequence_count := by omega
    rw [hb, hs]
  · intro hlen h0
    rw [hcount, hlen, h0]

/-- Witness for C14: 16384 alarm builds from the start-up state. -/
theorem sequence_count_wrap_witness :
    startup.i_sequence_count < 16384 ∧ startup.i_heartbeat < 256 ∧
    (applyBuilds startup (List.replicate 16384 (Build.alarm .ITF_LENGTH))).i_sequence_count =
      (startup.i_sequence_count
        + (List.replicate 16384 (Build.alarm .ITF_LENGTH)).length) % 16384 :=
  ⟨by decide, by decide,
    (sequence_count_wrap startup (List.replicate 16384 (Build.alarm .ITF_LENGTH))
      (by decide) (by decide)).1⟩

/-- C15: starting with the status-interval counter at 0 and the interval at
`N` (a 16-bit value), `k` consecutive time advances send exactly `k / N`
packets, all of them status packets, for every `k` (hence the `j`-th one
during advance number `j * N`); for `N = 0` (`k / 0 = 0`) none is ever sent. -/
theorem status_auto_send (s : State) (N k : Nat) (hN16 : N < 65536)
    (hi : s.i_status_send = N) (hc : s.status_send_counter = 0) :
    (statusPackets (advanceTime s k)).length = (statusPackets s).length + k / N ∧
    (advanceTime s k).sent.length = s.sent.length + k / N ∧
    (∀ j, 1 ≤ j → 1 ≤ N →
      (statusPackets (advanceTime s (j * N - 1))).length = (statusPackets s).length + (j - 1) ∧
      (statusPackets (advanceTime s (j * N))).length = (statusPackets s).length + j) := by
  have main : ∀ m, (statusPackets (advanceTime s m)).length = (statusPackets s).length + m / N ∧
      (advanceTime s m).sent.length = s.sent.length + m / N := by
    intro m
    rcases Nat.eq_zero_or_pos N with h0 | hpos
    · subst h0
      obtain ⟨h1, -⟩ := advanceTime_zero s hi m
      simp [statusPackets, h1]
    · obtain ⟨q, r, hk, hr, -, -, hst, hsent⟩ := advanceTime_inv s N hpos hN16 hi hc m
      have hq : m / N = q := by
        rw [hk, Nat.add_comm, Nat.add_mul_div_right _ _ hpos, Nat.div_eq_of_lt hr, Nat.zero_add]
      rw [hq]
      exact ⟨hst, hsent⟩
  refine ⟨(main k).1, (main k).2, ?_⟩
  intro j hj hN
  refine ⟨?_, ?_⟩
  · rw [(main _).1]
    congr 1
    obtain ⟨m, rfl⟩ : ∃ m, j = m + 1 := ⟨j - 1, by omega⟩
    have : (m + 1) * N - 1 = (N - 1) + m * N := by rw [Nat.succ_mul]; omega
    rw [this, Nat.add_mul_div_right _ _ hN, Nat.div_eq_of_lt (by omega)]
    omega
  · rw [(main _).1, Nat.mul_div_cancel _ hN]

/-- Witness for C15 at the start-up state (interval 1), 5 advances. -/
theorem status_auto_send_witness :
    (1 : Nat) < 65536 ∧ startup.i_status_send = 1 ∧ startup.status_send_counter = 0 ∧
    (statusPackets (advanceTime startup 5)).length = (statusPackets startup).length + 5 / 1 :=
  ⟨by decide, rfl, rfl, (status_auto_send startup 1 5 (by decide) rfl rfl).1⟩

/-! ## Dispatcher and read count -/

/-- C28: `processCommands` sends one echo per pair of slots below the command
number `m`, the `j`-th being `echo(location[2j+1], location[2j], 0)`, in
increasing order of `j`; that is `m / 2` echo packets, and no other packet. -/
theorem dispatcher_pairing (s : State) :
    processCommands s =
      (List.range (s.g_command_num / 2)).foldl
        (fun t j => echo t (s.cmd_location_info (2 * j + 1)) (s.cmd_location_info (2 * j)) 0x00) s ∧
    (∃ ps, (processCommands s).sent = s.sent ++ ps ∧ ps.length = s.g_command_num / 2 ∧
      ∀ p ∈ ps, isEcho p = true) ∧
    (echoPackets (processCommands s)).length = (echoPackets s).length + s.g_command_num / 2 ∧
    alarmPackets (processCommands s) = alarmPackets s ∧
    statusPackets (processCommands s) = statusPackets s := by
  obtain ⟨ps, e, he, hl⟩ := processCommands_out s
  obtain ⟨f1, f2, f3⟩ := filter_echoesOnly ps he
  refine ⟨processCommands_eq s, ⟨ps, e, hl, fun p hp => by simp [isEcho, he p hp]⟩, ?_, ?_, ?_⟩
  · unfold echoPackets
    rw [e, List.filter_append, f1, List.length_append, hl]
  · unfold alarmPackets
    rw [e, List.filter_append, f2, List.append_nil]
  · unfold statusPackets
    rw [e, List.filter_append, f3, List.append_nil]

/-- C29: whatever bytes a call of `getData` has consumed while every index into
`cmd_location_info` stayed inside the 20 entries of the table (`getDataInTable`:
no eleventh command header was stored), the read count is at most 510 before a
pass of the loop and at most 511 after the increment of the next pass; a
receiver that is in a state other than `IDLE` and `LENGTH` is synchronised,
holds a frame length between 11 and 511, and has a read count strictly below
it; and the next pass does not take the branch
`g_read_count > K_MAX_PACKET_SIZE`, so that the head of the loop sends
nothing. The entries of the table from 20 on are as the call found them. -/
theorem read_count_invariant (x : State) (input : List Nat) (b : Nat)
    (ht : getDataInTable x input = true) :
    (getData x input).g_read_count ≤ 510 ∧
    (readByte (getData x input) b).g_read_count ≤ 511 ∧
    ((getData x input).state ≠ .E_REC_IDLE → (getData x input).state ≠ .E_REC_LENGTH →
      (getData x input).flag_sync_found = 1 ∧ 11 ≤ (getData x input).g_data_len ∧
      (getData x input).g_data_len ≤ 511 ∧
      (getData x input).g_read_count < (getData x input).g_data_len) ∧
    ¬ ((getData x input).flag_sync_found = 1 ∧
      ((getData x input).g_read_count + 1) % 65536 > K_MAX_PACKET_SIZE) ∧
    (readByte (getData x input) b).sent = (getData x input).sent ∧
    (∀ i, K_MAX_CMDS * 2 ≤ i →
      (getData x input).cmd_location_info i = x.cmd_location_info i) := by
  have hI := inv_getData x input
  obtain ⟨r1, r2, r3⟩ := readByte_inv (getData x input) b hI
  refine ⟨?_, r1, ?_, r3, r2, fun i hi => getData_upper x input ht i hi⟩
  · rcases hI.shape with h | h | h
    · rw [h.rc]; omega
    · rcases h.rc with e | e <;> omega
    · have := h.lt
      have := h.dl
      omega
  · intro h1 h2
    have h := inv_body _ hI h1 h2
    exact ⟨h.sync, h.dl.1, h.dl.2, h.lt⟩

/-- Witness for C29: the first 30 bytes of a frame of 53 bytes that carries two
commands; the receiver is inside the first command. -/
theorem read_count_invariant_witness :
    getDataInTable startup
      [0xFE, 0xFA, 0x30, 0xC8, 0x00, 0x2F, 0x05, 0x06, 0x1B, 0x00, 0x01, 0x02, 0x03, 0x04, 0x00,
       0x01, 0x09, 0x0A, 0x0B, 0x0C, 0xA1, 0x01, 0x02, 0x03, 0x04, 0x05, 0x06, 0x07, 0x08,
       0x1B] = true ∧
    (getData startup
      [0xFE, 0xFA, 0x30, 0xC8, 0x00, 0x2F, 0x05, 0x06, 0x1B, 0x00, 0x01, 0x02, 0x03, 0x04, 0x00,
       0x01, 0x09, 0x0A, 0x0B, 0x0C, 0xA1, 0x01, 0x02, 0x03, 0x04, 0x05, 0x06, 0x07, 0x08,
       0x1B]).g_read_count ≤ 510 :=
  ⟨by decide, (read_count_invariant startup _ 0x00 (by decide)).1⟩

/-! ## End of frame and frame extent -/

/-- C20: when the end-of-frame flag is raised in a pass of the loop that keeps
every index into `cmd_location_info` inside the 20 entries of the table
(`stepInTable`: the command number is at most 21 when the commands are
dispatched), the running CRC seen by the end-of-frame check includes the byte
of that pass; `processCommands` is called exactly when that CRC is zero and
sends one echo for each pair of slots below the command number, at most
`K_MAX_CMDS` of them, and otherwise one `ITF_CHECKSUM` alarm is the only packet
sent by the check; in both cases the receiver is then reset: state `IDLE`, read
count 0, running CRC `0xFFFF`. -/
theorem end_of_frame_decision (s : State) (b : Nat) (hb : b < 256) (hI : Inv s)
    (ht : stepInTable s b = true)
    (hflag : (flagEnd (readByte s b)).flag_end_reached = 1) :
    (afterSwitch s b).flag_end_reached = 1 ∧
    (afterSwitch s b).crc_total = crc s.crc_total b ∧
    getDataStep s b =
      advance (reset
        (if (afterSwitch s b).crc_total = 0x0000 then
          processCommands { (afterSwitch s b) with flag_end_reached := 0 }
        else
          alarm .ITF_CHECKSUM
            { (afterSwitch s b) with flag_end_reached := 0, flag_time_recieved := 0 })) ∧
    ((afterSwitch s b).crc_total ≠ 0x0000 →
      ∃ pk, (getDataStep s b).sent = (afterSwitch s b).sent ++ [pk] ∧ isAlarm pk = true ∧
        pk.getD 18 0 = alarmValue .ITF_CHECKSUM) ∧
    ((afterSwitch s b).crc_total = 0x0000 →
      ∃ pe, (getDataStep s b).sent = (afterSwitch s b).sent ++ pe ∧
        (∀ p ∈ pe, isEcho p = true) ∧ pe.length = (afterSwitch s b).g_command_num / 2 ∧
        pe.length ≤ K_MAX_CMDS) ∧
    (getDataStep s b).state = .E_REC_IDLE ∧ (getDataStep s b).g_read_count = 0 ∧
    (getDataStep s b).crc_total = 0xFFFF := by
  obtain ⟨hB, heq⟩ := flagged_body s b hb hI hflag
  obtain ⟨q, _, _, hcrc, hfe, hstep, pa, o1, _, hc⟩ := end_step_out s b hb hB heq
  refine ⟨hfe, hcrc, hstep, ?_, ?_, q.state, q.rc, q.crc⟩
  · intro hne
    rcases hc with ⟨hz, _⟩ | ⟨_, pk, o3, a3, v3⟩
    · rw [hcrc] at hne
      exact absurd hz hne
    · exact ⟨pk, by rw [o3, o1], by simp [isAlarm, a3], v3⟩
  · intro hz0
    rcases hc with ⟨_, pe, o3, a3, l3⟩ | ⟨hz, _⟩
    · refine ⟨pe, by rw [o3, o1], fun p hp => by simp [isEcho, a3 p hp], l3, ?_⟩
      unfold stepInTable at ht
      dsimp only at ht
      rw [Bool.and_eq_true] at ht
      have h2 := ht.2
      rw [if_pos ⟨hfe, hz0⟩] at h2
      unfold processCommandsInTable at h2
      rw [l3]
      by_contra hgt
      have := List.all_eq_true.1 h2 10 (List.mem_range.2 (by
        simp only [K_MAX_CMDS] at hgt
        show 10 < (afterSwitch s b).g_command_num / 2
        omega))
      simp [K_MAX_CMDS] at this
    · rw [hcrc] at hz0
      exact absurd hz0 hz

/-- Witness for C20: the last byte of a 14-byte frame with a right trailer. -/
theorem end_of_frame_decision_witness :
    (flagEnd (readByte (getData startup
      [0xFE, 0xFA, 0x30, 0xC8, 0x00, 0x08, 0x00, 0x00, 0x00, 0x00, 0x00, 0x00, 0xA2]) 0x93)
      ).flag_end_reached = 1 ∧
    (getDataStep (getData startup
      [0xFE, 0xFA, 0x30, 0xC8, 0x00, 0x08, 0x00, 0x00, 0x00, 0x00, 0x00, 0x00, 0xA2]) 0x93
      ).state = .E_REC_IDLE :=
  ⟨by decide,
    (end_of_frame_decision _ 0x93 (by decide) (inv_getData _ _) (by decide) (by decide)).2.2.2.2.2.1⟩

/-- C21: after the sync marker and an accepted length field of value `n`
(top three bits clear, `5 ≤ n ≤ 505`), whatever the `n` bytes that follow are,
as long as the receiver keeps every index into `cmd_location_info` inside the
20 entries of the table while it reads the frame (`getDataInTable`),
the receiver stays synchronised with read count `6 + k` after `k < n` of them,
its running CRC being the fold from `0xFFFF` over the length field and those `k`
bytes, and it has sent no `ITF_CHECKSUM` alarm; after the `n`-th byte it is
reset (`IDLE`, read count 0, CRC `0xFFFF`), and it has sent an `ITF_CHECKSUM`
alarm exactly when the fold over the length field and all `n` bytes is not
zero; the entries of the table from 20 on are as they were at start-up. -/
theorem frame_extent (hi lo : Nat) (body : List Nat) (hhi : hi < 32) (hlo : lo < 256)
    (h5 : 5 ≤ hi * 256 + lo) (h505 : hi * 256 + lo ≤ 505) (hb : ∀ b ∈ body, b < 256)
    (hlen : body.length = hi * 256 + lo)
    (ht : getDataInTable startup (frameOf hi lo body) = true) :
    (∀ k, k < hi * 256 + lo →
      (getData startup (frameOf hi lo (body.take k))).flag_sync_found = 1 ∧
      (getData startup (frameOf hi lo (body.take k))).state ≠ .E_REC_IDLE ∧
      (getData startup (frameOf hi lo (body.take k))).g_read_count = 6 + k ∧
      (getData startup (frameOf hi lo (body.take k))).g_data_len = hi * 256 + lo + 6 ∧
      (getData startup (frameOf hi lo (body.take k))).crc_total =
        crcFold CRC_SEED (hi :: lo :: body.take k) ∧
      2 ∉ alarmValues (getData startup (frameOf hi lo (body.take k)))) ∧
    (getData startup (frameOf hi lo body)).state = .E_REC_IDLE ∧
    (getData startup (frameOf hi lo body)).flag_sync_found = 0 ∧
    (getData startup (frameOf hi lo body)).g_read_count = 0 ∧
    (getData startup (frameOf hi lo body)).crc_total = CRC_SEED ∧
    (2 ∈ alarmValues (getData startup (frameOf hi lo body)) ↔
      crcFold CRC_SEED (hi :: lo :: body) ≠ 0) ∧
    (∀ i, K_MAX_CMDS * 2 ≤ i →
      (getData startup (frameOf hi lo body)).cmd_location_info i = 0) := by
  have hbase : locked4.sent.filter isAlarm = [] := locked4_sent.1
  refine ⟨?_, ?_⟩
  · intro k hk
    have hl : (body.take k).length = k := by rw [List.length_take]; omega
    obtain ⟨_, i2, i3, i4, i5, _, ps, o1, a1⟩ := frame_prefix hi lo (body.take k) hhi hlo h5 h505
      (fun x hx => hb x (List.mem_of_mem_take hx)) (by omega)
    refine ⟨i2.sync, ?_, by rw [i3, hl], i4, i5, ?_⟩
    · intro h
      rcases i2.state with e | e | e | e <;> rw [e] at h <;> exact absurd h (by decide)
    · unfold alarmValues alarmPackets
      rw [o1]
      have := values_alarmsOnly locked4.sent ps hbase a1 [] (fun _ h => absurd h (List.not_mem_nil _))
      rwa [List.append_nil] at this
  · obtain ⟨bs, b, rfl⟩ : ∃ bs b, body = bs ++ [b] := by
      rcases List.eq_nil_or_concat body with h | ⟨bs, b, h⟩
      · rw [h] at hlen
        simp at hlen
        omega
      · exact ⟨bs, b, by rw [h]; simp⟩
    obtain ⟨q, pa, a1, hc⟩ := frame_final hi lo bs b hhi hlo h5 h505
      (fun x hx => hb x (by simp [hx])) (hb b (by simp)) (by simpa using hlen)
    refine ⟨q.state, q.sync, q.rc, q.crc, ?_, fun i hi => getData_upper startup _ ht i hi⟩
    unfold alarmValues alarmPackets
    rcases hc with ⟨hz, pe, o3, a3⟩ | ⟨hz, pk, o3, a3, v3⟩
    · rw [o3]
      constructor
      · intro h
        exact absurd h (values_alarmsOnly locked4.sent pa hbase a1 pe a3)
      · intro h
        exact absurd hz h
    · rw [o3]
      constructor
      · intro _
        exact hz
      · intro _
        rw [List.filter_append]
        apply List.mem_map.2
        refine ⟨pk, List.mem_append_right _ ?_, v3⟩
        simp [isAlarm, a3]

/-- Witness for C21: a frame of length field 8. -/
theorem frame_extent_witness :
    (getData startup (frameOf 0 8 [0x00, 0x00, 0x00, 0x00, 0x00, 0x00, 0xA2, 0x93])).state
      = .E_REC_IDLE ∧
    (2 ∈ alarmValues (getData startup
        (frameOf 0 8 [0x00, 0x00, 0x00, 0x00, 0x00, 0x00, 0xA2, 0x93])) ↔
      crcFold CRC_SEED (0 :: 8 :: [0x00, 0x00, 0x00, 0x00, 0x00, 0x00, 0xA2, 0x93]) ≠ 0) :=
  ⟨(frame_extent 0 8 [0x00, 0x00, 0x00, 0x00, 0x00, 0x00, 0xA2, 0x93] (by decide) (by decide)
      (by decide) (by decide) (by decide) rfl (by decide)).2.1,
    (frame_extent 0 8 [0x00, 0x00, 0x00, 0x00, 0x00, 0x00, 0xA2, 0x93] (by decide) (by decide)
      (by decide) (by decide) (by decide) rfl (by decide)).2.2.2.2.2.1⟩

/-! ## The CRC as a bit-at-a-time code -/

/-- C23: every entry `i < 256` of the table built by `buildCRC` is the result
of 8 steps "shift left one bit truncating to 16 bits, XOR `0x1021` if the bit
shifted out was 1" from `i << 8`, which is the remainder of `i(x) * x^16`
modulo `x^16 + x^12 + x^5 + 1` over GF(2); and for every 16-bit checksum `c`
and byte `b`, `crc(c, b)` is the result of the same 8 steps on `c` with `b`
XORed into its top byte. -/
theorem table_crc_is_bitwise (i c b : Nat) (hi : i < 256) (hc : c < 65536) (hb : b < 256) :
    CRC_LOOKUP.getD i 0 = specTableEntry i ∧
    CRC_LOOKUP.getD i 0 = gf2Rem24 (i <<< 16) ∧
    crc c b = specCrc c b :=
  ⟨table_eq i hi, table_remainder i hi, crc_eq_specCrc c b hc hb⟩

/-- Witness for C23: entry 1 of the table, and the seed updated by `0xAB`. -/
theorem table_crc_is_bitwise_witness :
    CRC_LOOKUP.getD 1 0 = specTableEntry 1 ∧ CRC_LOOKUP.getD 1 0 = gf2Rem24 (1 <<< 16) ∧
    crc 0xFFFF 0xAB = specCrc 0xFFFF 0xAB :=
  table_crc_is_bitwise 1 0xFFFF 0xAB (by decide) (by decide) (by decide)

/-- C30: for every 16-bit seed, two byte sequences that differ in exactly one
bit (the same bytes before and after, and one byte with bit `k` flipped) fold
to different checksums; so if one of them has residue 0 the other has not. -/
theorem single_bit_error_detected (seed : Nat) (p q : List Nat) (a k : Nat)
    (hs : seed < 65536) (hq : ∀ b ∈ q, b < 256) (ha : a < 256) (hk : k < 8) :
    crcFold seed (p ++ a :: q) ≠ crcFold seed (p ++ flipBit a k :: q) ∧
    (crcFold seed (p ++ a :: q) = 0 → crcFold seed (p ++ flipBit a k :: q) ≠ 0) := by
  have main : crcFold seed (p ++ a :: q) ≠ crcFold seed (p ++ flipBit a k :: q) := by
    intro h
    rw [crcFold_append, crcFold_append] at h
    have h1 : crcFold (crc (crcFold seed p) a) q = crcFold (crc (crcFold seed p) (flipBit a k)) q := h
    have h2 := crcFold_inj q hq _ _ (crc_lt _ _) (crc_lt _ _) h1
    have h3 := crc_inj_byte _ _ _ (crcFold_lt seed hs p) ha (flipBit_lt a k ha hk) h2
    exact flipBit_ne a k h3.symm
  exact ⟨main, fun h0 h1 => main (h0.trans h1.symm)⟩

/-- Witness for C30: bit 3 of the third of four bytes. -/
theorem single_bit_error_detected_witness :
    crcFold 0xFFFF ([0x01, 0x02] ++ 0x55 :: [0x03]) ≠
      crcFold 0xFFFF ([0x01, 0x02] ++ flipBit 0x55 3 :: [0x03]) :=
  (single_bit_error_detected 0xFFFF [0x01, 0x02] [0x03] 0x55 3 (by decide) (by decide) (by decide)
    (by decide)).1

/-- C5, counterexample: the 11-byte frame `FE FA 30 C8 00 05 00 50 1B 00 AC`
has a right trailer (`00 AC`) and is accepted without alarm and without echo;
its byte 10, the first trailer byte, is also the second byte of the command
header `1B 00` at bytes 9-10, which the case `TIME_START` tests at byte count
10. With bit 0 of that byte flipped the receiver sends two alarms,
`CCSDS_APID` and then `ITF_CHECKSUM`. -/
theorem trailer_flip_two_alarms :
    alarmValues (getData startup
      [0xFE, 0xFA, 0x30, 0xC8, 0x00, 0x05, 0x00, 0x50, 0x1B, 0x00, 0xAC]) = [] ∧
    echoPackets (getData startup
      [0xFE, 0xFA, 0x30, 0xC8, 0x00, 0x05, 0x00, 0x50, 0x1B, 0x00, 0xAC]) = [] ∧
    flipBit 0x00 0 = 0x01 ∧
    alarmValues (getData startup
      [0xFE, 0xFA, 0x30, 0xC8, 0x00, 0x05, 0x00, 0x50, 0x1B, 0x01, 0xAC]) =
      [alarmValue .CCSDS_APID, alarmValue .ITF_CHECKSUM] ∧
    ¬ trailerUntested (getData startup [0xFE, 0xFA, 0x30, 0xC8, 0x00, 0x05, 0x00, 0x50, 0x1B]) := by
  decide

/-- C5, amended: take a frame from the start-up state with an accepted length
field and a right trailer `a, b` that is accepted without alarm, and replace
the trailer by any other two bytes `a', b'` (a single flipped bit included),
both frames keeping every index into `cmd_location_info` inside the table. The
receiver returns to `IDLE` without sending an echo, and the last packet it
sends is the only `ITF_CHECKSUM` alarm. That alarm is the only alarm of the
frame whenever the receiver reads the two trailer bytes where its state logic
does not test them (`trailerUntested`: in `CMD_START`, or inside a command or a
timestamp away from the length field and from the last tested reserved byte);
elsewhere alarms of other kinds may come before it. -/
theorem trailer_corruption (hi lo : Nat) (bs : List Nat) (a b a' b' : Nat) (hhi : hi < 32)
    (hlo : lo < 256) (h5 : 5 ≤ hi * 256 + lo) (h505 : hi * 256 + lo ≤ 505)
    (hb : ∀ x ∈ bs, x < 256) (ha : a < 256) (hb0 : b < 256) (ha' : a' < 256) (hb' : b' < 256)
    (hlen : bs.length + 2 = hi * 256 + lo)
    (hgood : crcFold CRC_SEED (hi :: lo :: (bs ++ [a, b])) = 0)
    (hquiet : alarmValues (getData startup (frameOf hi lo (bs ++ [a, b]))) = [])
    (ht0 : getDataInTable startup (frameOf hi lo (bs ++ [a, b])) = true)
    (hne : a' ≠ a ∨ b' ≠ b)
    (ht : getDataInTable startup (frameOf hi lo (bs ++ [a', b'])) = true) :
    (getData startup (frameOf hi lo (bs ++ [a', b']))).state = .E_REC_IDLE ∧
    echoPackets (getData startup (frameOf hi lo (bs ++ [a', b']))) = [] ∧
    (∃ vs, alarmValues (getData startup (frameOf hi lo (bs ++ [a', b']))) =
        vs ++ [alarmValue .ITF_CHECKSUM] ∧
      alarmValue .ITF_CHECKSUM ∉ vs ∧
      (getData startup (frameOf hi lo (bs ++ [a', b']))).sent.getLast?.map (fun p => p.getD 18 0)
        = some (alarmValue .ITF_CHECKSUM)) ∧
    (trailerUntested (getData startup (frameOf hi lo bs)) →
      alarmValues (getData startup (frameOf hi lo (bs ++ [a', b']))) =
        [alarmValue .ITF_CHECKSUM]) ∧
    (∀ i, K_MAX_CMDS * 2 ≤ i →
      (getData startup (frameOf hi lo (bs ++ [a, b]))).cmd_location_info i = 0 ∧
      (getData startup (frameOf hi lo (bs ++ [a', b']))).cmd_location_info i = 0) := by
  have hc : crcFold CRC_SEED (hi :: lo :: bs) < 65536 := crcFold_lt _ (by decide) _
  have e1 : crcFold CRC_SEED (hi :: lo :: ((bs ++ [a']) ++ [b'])) =
      crc (crc (crcFold CRC_SEED (hi :: lo :: bs)) a') b' := by
    simp [crcFold, List.foldl_append]
  have hbad : crcFold CRC_SEED (hi :: lo :: ((bs ++ [a']) ++ [b'])) ≠ 0 := by
    intro h
    have e2 : crcFold CRC_SEED (hi :: lo :: (bs ++ [a, b])) =
        crc (crc (crcFold CRC_SEED (hi :: lo :: bs)) a) b := by
      simp [crcFold, List.foldl_append]
    rw [e1] at h
    rw [e2] at hgood
    obtain ⟨x1, x2⟩ := crc_zero_unique _ a' b' hc ha' hb' h
    obtain ⟨y1, y2⟩ := crc_zero_unique _ a b hc ha hb0 hgood
    rcases hne with n | n
    · exact n (x1.trans y1.symm)
    · exact n (x2.trans y2.symm)
  have hup : ∀ i, K_MAX_CMDS * 2 ≤ i →
      (getData startup (frameOf hi lo (bs ++ [a, b]))).cmd_location_info i = 0 ∧
      (getData startup (frameOf hi lo (bs ++ [a', b']))).cmd_location_info i = 0 :=
    fun i hi => ⟨getData_upper startup _ ht0 i hi, getData_upper startup _ ht i hi⟩
  have hl : bs ++ [a', b'] = (bs ++ [a']) ++ [b'] := by simp
  have hl0 : bs ++ [a, b] = (bs ++ [a]) ++ [b] := by simp
  rw [hl0] at hquiet
  rw [hl] at hup ⊢
  refine ⟨?_, ?_, ?_, ?_, hup⟩
  all_goals clear hup
  rotate_left 3
  · -- the trailer where the state logic does not test it
    intro hu
    obtain ⟨i1, i2, i3, i4, i5, _, ps, o1, a1⟩ :=
      frame_prefix hi lo bs hhi hlo h5 h505 hb (by omega)
    rw [frameOf_snoc, getData_snoc, frameOf_snoc, getData_snoc] at hquiet ⊢
    rw [e1, ← i5] at hbad
    generalize getData startup (frameOf hi lo bs) = s at i1 i2 i3 i4 i5 o1 hquiet hu hbad ⊢
    -- the frame with the right trailer sends no alarm
    obtain ⟨e0, hF0, _, hB0⟩ := body_step_mid s a ha i1 i2 (by rw [i3, i4]; omega)
    obtain ⟨m1, m2, m3, m4⟩ := mid_step s a ha i1 i2 (by rw [i3, i4]; omega)
    obtain ⟨p1, op1, ap1⟩ := hF0.out
    have op1' : (getDataStep s a).sent = s.sent ++ p1 := by
      rw [e0]
      exact op1
    obtain ⟨_, _, _, _, _, _, pa, oa, apa, hc0⟩ := end_step_out (getDataStep s a) b hb0 m2
      (by rw [m3, m4, i3, i4]; omega)
    have hnil : ps = [] ∧ p1 = [] := by
      have hfil : ∃ rest, (getDataStep (getDataStep s a) b).sent =
          locked4.sent ++ ps ++ p1 ++ rest := by
        rcases hc0 with ⟨_, pe, o3, _⟩ | ⟨_, pk, o3, _⟩
        · exact ⟨pa ++ pe, by rw [o3, op1', o1]; simp only [List.append_assoc]⟩
        · exact ⟨pa ++ [pk], by rw [o3, op1', o1]; simp only [List.append_assoc]⟩
      obtain ⟨rest, hr⟩ := hfil
      unfold alarmValues alarmPackets at hquiet
      rw [hr, List.map_eq_nil_iff, List.filter_append, List.filter_append, List.filter_append,
        (filter_alarmsOnly ps a1).2.1, (filter_alarmsOnly p1 ap1).2.1] at hquiet
      simp only [List.append_eq_nil] at hquiet
      exact ⟨hquiet.1.1.2, hquiet.1.2⟩
    have hclean : s.state = .E_REC_TIME → s.g_read_count = 47 → s.flag_packet_error ≠ 1 := by
      intro hst h47 hfl
      have := sw_time_flagged (nextByte s a) (by exact hst)
        (by show s.g_read_count + 1 = 48; omega) (by exact hfl)
      apply this
      rw [op1, hnil.2, List.append_nil]
    -- the frame with the other trailer
    obtain ⟨t1, t2⟩ := trailer_first s a' ha' i1 i2 (by rw [i3, i4]; omega) hu hclean
    obtain ⟨n1, n2, n3, n4⟩ := mid_step s a' ha' i1 i2 (by rw [i3, i4]; omega)
    have hcrc1 : (getDataStep s a').crc_total = crc s.crc_total a' := by
      rw [(body_step_mid s a' ha' i1 i2 (by rw [i3, i4]; omega)).1]
      exact (body_step_mid s a' ha' i1 i2 (by rw [i3, i4]; omega)).2.1.crc
    generalize getDataStep s a' = u at t1 t2 n1 n2 n3 n4 hcrc1
    have heq : u.g_read_count + 1 = u.g_data_len := by rw [n3, n4, i3, i4]; omega
    have t3 := trailer_last u b' hb' n2 heq t2
    obtain ⟨_, _, _, _, _, _, pb, ob, _, hcb⟩ := end_step_out u b' hb' n2 heq
    rcases hcb with ⟨hz, _⟩ | ⟨_, pk, o3, a3, v3⟩
    · rw [hcrc1] at hz
      exact absurd hz hbad
    · have hpb : pb = [] := by
        rw [t3] at ob
        exact List.self_eq_append_right.1 ob
      have hs : (getDataStep u b').sent = locked4.sent ++ [pk] := by
        rw [o3, hpb, t1, o1, hnil.1, List.append_nil, List.append_nil]
      exact (alarmValues_one _ pk 2 hs a3 v3).1
  · obtain ⟨q, pa, a1, hcase⟩ := frame_final hi lo (bs ++ [a']) b' hhi hlo h5 h505
      (fun x hx => by
        rcases List.mem_append.1 hx with h | h
        · exact hb x h
        · rw [List.mem_singleton.1 h]; exact ha')
      hb' (by simp; omega)
    exact q.state
  · obtain ⟨q, pa, a1, hcase⟩ := frame_final hi lo (bs ++ [a']) b' hhi hlo h5 h505
      (fun x hx => by
        rcases List.mem_append.1 hx with h | h
        · exact hb x h
        · rw [List.mem_singleton.1 h]; exact ha')
      hb' (by simp; omega)
    rcases hcase with ⟨hz, _⟩ | ⟨_, pk, o3, a3, v3⟩
    · exact absurd hz hbad
    · have hpk : isAlarm pk = true ∧ isEcho pk = false := by simp [isAlarm, isEcho, a3]
      unfold echoPackets
      rw [o3, List.filter_append, List.filter_append, (filter_alarmsOnly pa a1).1]
      have := locked4_sent.2.1
      unfold echoPackets at this
      rw [this]
      simp [hpk.2]
  · obtain ⟨q, pa, a1, hcase⟩ := frame_final hi lo (bs ++ [a']) b' hhi hlo h5 h505
      (fun x hx => by
        rcases List.mem_append.1 hx with h | h
        · exact hb x h
        · rw [List.mem_singleton.1 h]; exact ha')
      hb' (by simp; omega)
    rcases hcase with ⟨hz, _⟩ | ⟨_, pk, o3, a3, v3⟩
    · exact absurd hz hbad
    · have hpk : isAlarm pk = true ∧ isEcho pk = false := by simp [isAlarm, isEcho, a3]
      have v3' : pk[18]?.getD 0 = 2 := by rw [← List.getD_eq_getElem?_getD]; exact v3
      refine ⟨pa.map (fun p => p.getD 18 0), ?_, ?_, ?_⟩
      · unfold alarmValues alarmPackets
        rw [o3, List.filter_append, List.filter_append, (filter_alarmsOnly pa a1).2.1]
        have := locked4_sent.1
        unfold alarmPackets at this
        rw [this]
        simp [hpk.1, v3', alarmValue]
      · intro h
        obtain ⟨p, hp, hv⟩ := List.mem_map.1 h
        simp only [alarmValue] at hv
        rcases (a1 p hp).2 with e | e | e | e <;> omega
      · rw [o3]
        simp [v3', alarmValue]

/-- Witness for C5 (amended): a frame of 53 bytes with two commands, whose
trailer `58 10` is read in `CMD_START`; with bit 0 of the first trailer byte
flipped the only alarm is `ITF_CHECKSUM`. -/
theorem trailer_corruption_witness :
    crcFold CRC_SEED (0 :: 47 ::
      ([0x05, 0x06, 0x1B, 0x00, 0x01, 0x02, 0x03, 0x04, 0x00, 0x01, 0x09, 0x0A, 0x0B, 0x0C, 0xA1,
        0x01, 0x02, 0x03, 0x04, 0x05, 0x06, 0x07, 0x08, 0x1B, 0x00, 0x00, 0x00, 0x00, 0x00, 0x00,
        0x02, 0x00, 0x00, 0x00, 0x00, 0xB2, 0x01, 0x02, 0x03, 0x04, 0x05, 0x06, 0x07, 0x08,
        0x09] ++ [0x58, 0x10])) = 0 ∧
    flipBit 0x58 0 = 0x59 ∧
    trailerUntested (getData startup (frameOf 0 47
      [0x05, 0x06, 0x1B, 0x00, 0x01, 0x02, 0x03, 0x04, 0x00, 0x01, 0x09, 0x0A, 0x0B, 0x0C, 0xA1,
        0x01, 0x02, 0x03, 0x04, 0x05, 0x06, 0x07, 0x08, 0x1B, 0x00, 0x00, 0x00, 0x00, 0x00, 0x00,
        0x02, 0x00, 0x00, 0x00, 0x00, 0xB2, 0x01, 0x02, 0x03, 0x04, 0x05, 0x06, 0x07, 0x08,
        0x09])) ∧
    alarmValues (getData startup (frameOf 0 47
      ([0x05, 0x06, 0x1B, 0x00, 0x01, 0x02, 0x03, 0x04, 0x00, 0x01, 0x09, 0x0A, 0x0B, 0x0C, 0xA1,
        0x01, 0x02, 0x03, 0x04, 0x05, 0x06, 0x07, 0x08, 0x1B, 0x00, 0x00, 0x00, 0x00, 0x00, 0x00,
        0x02, 0x00, 0x00, 0x00, 0x00, 0xB2, 0x01, 0x02, 0x03, 0x04, 0x05, 0x06, 0x07, 0x08,
        0x09] ++ [0x59, 0x10]))) = [alarmValue .ITF_CHECKSUM] :=
  ⟨by decide, by decide, by decide,
    (trailer_corruption 0 47
      [0x05, 0x06, 0x1B, 0x00, 0x01, 0x02, 0x03, 0x04, 0x00, 0x01, 0x09, 0x0A, 0x0B, 0x0C, 0xA1,
        0x01, 0x02, 0x03, 0x04, 0x05, 0x06, 0x07, 0x08, 0x1B, 0x00, 0x00, 0x00, 0x00, 0x00, 0x00,
        0x02, 0x00, 0x00, 0x00, 0x00, 0xB2, 0x01, 0x02, 0x03, 0x04, 0x05, 0x06, 0x07, 0x08,
        0x09] 0x58 0x10 0x59 0x10 (by decide) (by decide) (by decide) (by decide) (by decide)
      (by decide) (by decide) (by decide) (by decide) rfl (by decide) (by decide) (by decide)
      (Or.inl (by decide)) (by decide)).2.2.2.1 (by decide)⟩
/-! ## Alarm frame effect -/

/-- C25, counterexample: an alarm sent in the start-up state changes the
heartbeat flag from `0x80` to `0x00`. -/
theorem alarm_toggles_heartbeat :
    startup.i_heartbeat = 0x80 ∧ (alarm .ITF_CHECKSUM startup).i_heartbeat = 0x00 := by
  decide

/-- C25, amended: for every alarm kind and every state, `alarm` leaves the
receiver state and next state, every receiver flag, counter, window and
scratch buffer, the running CRC, the power flag, the mission time, the status
interval and its counter unchanged; it advances the sequence count (modulo
`2^14`), toggles the heartbeat bit, and hands one packet to the transport. -/
theorem alarm_effect (k : ALARM_STATE) (s : State) :
    alarm k s =
      { s with
        i_sequence_count := ((s.i_sequence_count + 1) % 65536) &&& 0x3FFF
        i_heartbeat := (s.i_heartbeat ^^^ 0x80) % 256
        tlm_packet := (alarm k s).tlm_packet
        sent := s.sent ++ [lastPacket (alarm k s)] } ∧
    (alarm k s).state = s.state ∧ (alarm k s).next_state = s.next_state ∧
    (alarm k s).flag_time_recieved = s.flag_time_recieved ∧
    (alarm k s).flag_packet_error = s.flag_packet_error ∧
    (alarm k s).flag_sync_found = s.flag_sync_found ∧
    (alarm k s).flag_end_reached = s.flag_end_reached ∧
    (alarm k s).g_read_count = s.g_read_count ∧ (alarm k s).g_data_len = s.g_data_len ∧
    (alarm k s).crc_total = s.crc_total ∧ (alarm k s).i_power = s.i_power ∧
    (alarm k s).i_time = s.i_time ∧ (alarm k s).status_send_counter = s.status_send_counter ∧
    (alarm k s).cmd_packets = s.cmd_packets ∧
    (alarm k s).cmd_location_info = s.cmd_location_info := by
  refine ⟨?_, rfl, rfl, rfl, rfl, rfl, rfl, rfl, rfl, rfl, rfl, rfl, rfl, rfl, rfl⟩
  have e : alarm k s =
      { s with
        i_sequence_count := ((s.i_sequence_count + 1) % 65536) &&& 0x3FFF
        i_heartbeat := (s.i_heartbeat ^^^ 0x80) % 256
        tlm_packet := (alarm k s).tlm_packet
        sent := (alarm k s).sent } := rfl
  refine e.trans ?_
  congr 1
  exact alarm_sent k s

/-! ## Command length bounds -/

/-- C24, counterexample: a command whose length field is `0x00F0` has command
length `251`, above `K_MAX_CMD_SIZE = 246`, and is accepted: the frame with
that command raises no alarm. With the length field `0x00F6` (command length
`257`) the `CCSDS_LENGTH` alarm is sent. -/
theorem length_251_accepted :
    (0x00F0 + K_INS_HEADER_OFFSET + 1) % 65536 = 251 ∧ K_MAX_CMD_SIZE = 246 ∧
    alarmValues (getData startup
      [0xFE, 0xFA, 0x30, 0xC8, 0x00, 0x0C, 0x00, 0x00, 0x1B, 0x00, 0x00, 0x00, 0x00, 0x00,
       0x00, 0xF0, 0x73, 0x34]) = [] ∧
    alarmValues (getData startup
      [0xFE, 0xFA, 0x30, 0xC8, 0x00, 0x0C, 0x00, 0x00, 0x1B, 0x00, 0x00, 0x00, 0x00, 0x00,
       0x00, 0xF6, 0x13, 0xF2]) = [alarmValue .CCSDS_LENGTH] := by
  decide

/-- C24, amended: in the case `E_REC_CMD` at command byte count 6 (the
command read count, 5 before the pass, not above the command read total), with
the command length computed as the 2-byte field `+ K_INS_HEADER_OFFSET + 1`
truncated to 16 bits: if that length is below 12 or above 256
(`K_MAX_CMD_SIZE + 10`), one `CCSDS_LENGTH` alarm is sent, both location-table
slots of the command are zeroed, the command number is decremented, the command
read count and read total are rolled back by 6 and the next state is
`CMD_START`; if it lies in `[12, 256]` nothing is sent, the next state and the
command number are kept, and the length and the argument count (field `- 3`)
are recorded. -/
theorem command_length_test (s : State) (h5 : s.g_cmd_read_count = 5)
    (hc : s.g_cmd_read_count ≤ s.g_cmd_read_total) (ht : s.g_cmd_read_total < 65535) :
    (((s.g_two_bytes + 11) % 65536 < 12 ∨ 256 < (s.g_two_bytes + 11) % 65536) →
      (∃ pk, (caseCmd s).sent = s.sent ++ [pk] ∧ isAlarm pk = true ∧
        pk.getD 18 0 = alarmValue .CCSDS_LENGTH) ∧
      (caseCmd s).next_state = .E_REC_CMD_START ∧
      (caseCmd s).cmd_location_info s.g_command_num = 0 ∧
      (caseCmd s).cmd_location_info (s.g_command_num - 1) = 0 ∧
      (caseCmd s).g_command_num = (s.g_command_num + 255) % 256 ∧
      (caseCmd s).g_cmd_read_count = 0 ∧
      (caseCmd s).g_cmd_read_total + 6 = s.g_cmd_read_total + 1) ∧
    ((12 ≤ (s.g_two_bytes + 11) % 65536 ∧ (s.g_two_bytes + 11) % 65536 ≤ 256) →
      (caseCmd s).sent = s.sent ∧
      (caseCmd s).next_state = s.next_state ∧
      (caseCmd s).g_cmd_length = (s.g_two_bytes + 11) % 65536 ∧
      (caseCmd s).cmd_location_info s.g_command_num = (s.g_two_bytes + 65533) % 65536 ∧
      (caseCmd s).g_command_num = s.g_command_num ∧
      (caseCmd s).g_cmd_read_count = 6 ∧
      (caseCmd s).g_cmd_read_total = s.g_cmd_read_total + 1) := by
  have c6 : (cmdCount s).g_cmd_read_count = 6 := by
    show (s.g_cmd_read_count + 1) % 65536 = 6
    rw [h5]
  have ct : (cmdCount s).g_cmd_read_total = s.g_cmd_read_total + 1 := by
    show (s.g_cmd_read_total + 1) % 65536 = s.g_cmd_read_total + 1
    omega
  rw [caseCmd_eq]
  constructor
  · intro hbad
    obtain ⟨b1, b2, b3, b4, b5, b6, b7, b8, _⟩ := cmdLength_bad (cmdCount s) c6 hbad
    rw [cmdStore_low _ (by rw [b6]; omega), cmdDone_not _ (by rw [b6]; omega)]
    refine ⟨b1, b2, b3, b4, b5, b6, ?_⟩
    rw [b7, ct]
    omega
  · intro hgood
    rw [cmdLength_good (cmdCount s) c6 hgood, cmdStore_low _ (by show (cmdCount s).g_cmd_read_count ≤ 10; rw [c6]; omega),
      cmdDone_not _ (by
        show (cmdCount s).g_cmd_read_count ≠ (s.g_two_bytes + 11) % 65536 + 7
        rw [c6]; omega)]
    refine ⟨rfl, rfl, rfl, ?_, rfl, c6, ct⟩
    exact if_pos rfl

/-- Witness for C24 (amended): a state at command byte count 5 with total 5. -/
theorem command_length_test_witness :
    ({ startup with g_cmd_read_count := 5, g_cmd_read_total := 5, g_two_bytes := 0x00F0 }
      : State).g_cmd_read_count = 5 ∧
    (caseCmd { startup with g_cmd_read_count := 5, g_cmd_read_total := 5, g_two_bytes := 0x00F0 }
      ).g_cmd_length = 251 :=
  ⟨rfl, ((command_length_test
    { startup with g_cmd_read_count := 5, g_cmd_read_total := 5, g_two_bytes := 0x00F0 } rfl
    (by decide) (by decide)).2 (by decide)).2.2.1⟩

/-! ## Padding removal -/

/-- C27: the byte at command byte count `g_cmd_length + 1` is dropped, and the
recorded argument count reduced, whenever it is zero, whatever the parity of
the command: with length field 4 and with length field 5 alike the argument
count recorded before the last pass is one less than with a nonzero byte
there; and with length field 3 (no argument) the recorded argument count wraps
from 0 to 65535, so that the echo carries 10 argument bytes (30 bytes) instead
of none (20 bytes). -/
theorem padding_drop_ignores_parity :
    (getData startup padData4.dropLast).cmd_location_info 1 = 1 ∧
    (getData startup padZero4.dropLast).cmd_location_info 1 = 0 ∧
    (getData startup padData5.dropLast).cmd_location_info 1 = 2 ∧
    (getData startup padZero5.dropLast).cmd_location_info 1 = 1 ∧
    (getData startup padData3.dropLast).cmd_location_info 1 = 0 ∧
    (getData startup padZero3.dropLast).cmd_location_info 1 = 65535 ∧
    (echoPackets (getData startup padData3)).map List.length = [20] ∧
    (echoPackets (getData startup padZero3)).map List.length = [30] ∧
    alarmValues (getData startup padZero3) = [] := by
  decide

/-! ## Mission time -/

/-- C22: `instrumentUpdate(UPDATE_TIME)` sets the mission time to the pending
time and clears the time-received flag when that flag is set, and otherwise
adds one to the mission time modulo `2^32`; and after the 18th byte of a frame
whose bytes 9-10 are the timestamp header `19 00` and whose bytes 13-14 declare
the length 33, the pending time is the big-endian value of bytes 15-18 and the
time-received flag is set. -/
theorem mission_time_advance (s : State) (hi lo b7 b8 x11 x12 t1 t2 t3 t4 : Nat) (hhi : hi < 32)
    (hlo : lo < 256) (h13 : 13 ≤ hi * 256 + lo) (h505 : hi * 256 + lo ≤ 505) (h7 : b7 < 256)
    (h8 : b8 < 256) (h11 : x11 < 256) (h12 : x12 < 256) (ht1 : t1 < 256) (ht2 : t2 < 256)
    (ht3 : t3 < 256) (ht4 : t4 < 256) :
    (s.flag_time_recieved = 1 →
      (instrumentUpdate .UPDATE_TIME s).i_time = s.g_time_next ∧
      (instrumentUpdate .UPDATE_TIME s).flag_time_recieved = 0) ∧
    (s.flag_time_recieved ≠ 1 →
      (instrumentUpdate .UPDATE_TIME s).i_time = (s.i_time + 1) % 4294967296 ∧
      (instrumentUpdate .UPDATE_TIME s).flag_time_recieved = s.flag_time_recieved) ∧
    (getData startup
      (frameOf hi lo [b7, b8, 0x19, 0x00, x11, x12, 0x00, 0x21, t1, t2, t3, t4])).g_time_next =
      t1 * 16777216 + t2 * 65536 + t3 * 256 + t4 ∧
    (getData startup
      (frameOf hi lo [b7, b8, 0x19, 0x00, x11, x12, 0x00, 0x21, t1, t2, t3, t4])).flag_time_recieved
      = 1 ∧
    (getData startup
      (frameOf hi lo [b7, b8, 0x19, 0x00, x11, x12, 0x00, 0x21, t1, t2, t3, t4])).g_read_count
      = 18 := by
  obtain ⟨hI, hB⟩ := accepted_inv hi lo (by omega) h505
  refine ⟨(updateTime_time s).1, (updateTime_time s).2, ?_⟩
  rw [getData_frameOf hi lo _ hhi hlo (by omega) h505,
    run_time_header (accepted hi lo) b7 b8 x11 x12 t1 t2 t3 t4 h7 h8 h11 h12 ht1 ht2 ht3 ht4 hI hB
      rfl rfl (by show 18 < hi * 256 + lo + 6; omega)]
  refine ⟨rfl, rfl, ?_⟩
  show (nextBytes (accepted hi lo) _).g_read_count = 18
  rw [(nextBytes_fields _ _).2.2.1]
  rfl

/-- Witness for C22: the time `11 22 33 44` in a frame of length field 44. -/
theorem mission_time_advance_witness :
    (getData startup
      (frameOf 0 44 [0x00, 0x00, 0x19, 0x00, 0x00, 0x00, 0x00, 0x21, 0x11, 0x22, 0x33, 0x44])
      ).g_time_next = 0x11 * 16777216 + 0x22 * 65536 + 0x33 * 256 + 0x44 :=
  (mission_time_advance startup 0 44 0x00 0x00 0x00 0x00 0x11 0x22 0x33 0x44 (by decide)
    (by decide) (by decide) (by decide) (by decide) (by decide) (by decide) (by decide)
    (by decide) (by decide) (by decide) (by decide)).2.2.1

/-! ## Reserved bytes of the timestamp -/

/-- C26 fails for the code in two ways. The test under "Verify bytes are
reserved" runs for `K_INS_TIME_OFFSET + 2 < g_read_count < K_INS_TIME_OFFSET + 30`
on the window of the last two bytes, so that frame bytes 19 and 48 are never
looked at: a timestamp of declared length 33 whose only nonzero reserved byte
is byte 19 (`reservedByte19`), or byte 48 (`reservedByte48`), raises no alarm
and its time stays received, while byte 20 nonzero (`reservedByte20`) raises
`CCSDS_FORMAT`. And `flag_packet_error` is cleared only at byte count 48, not
by `reset()`: after the 29-byte frame `shortTimeFrame` (correct CRC, no alarm),
which ends inside a timestamp with a nonzero reserved byte, the flag is still
1, and the timestamp of the next frame `stampOnlyFrame`, whose bytes 19 to 48
are all zero, gets no alarm up to byte count 47 and the `CCSDS_FORMAT` alarm at
byte count 48, with the time-received flag cleared. -/
theorem reserved_check_defects :
    alarmValues (getData startup reservedByte19) = [] ∧
    alarmValues (getData startup reservedByte48) = [] ∧
    (getData startup (reservedByte19.take 48)).flag_time_recieved = 1 ∧
    (getData startup (reservedByte48.take 48)).flag_time_recieved = 1 ∧
    alarmValues (getData startup reservedByte20) = [alarmValue .CCSDS_FORMAT] ∧
    crcFold CRC_SEED (shortTimeFrame.drop 4) = 0 ∧
    (getData startup shortTimeFrame).sent = (getData startup syncBytes).sent ∧
    (getData startup shortTimeFrame).flag_packet_error = 1 ∧
    (∀ b ∈ (stampOnlyFrame.take 48).drop 18, b = 0) ∧
    alarmValues (getData startup (stampOnlyFrame.take 48)) = [] ∧
    (getData startup (stampOnlyFrame.take 48)).flag_time_recieved = 1 ∧
    alarmValues (getData (getData startup shortTimeFrame) (stampOnlyFrame.take 47)) = [] ∧
    (getData (getData startup shortTimeFrame) (stampOnlyFrame.take 47)).flag_time_recieved = 1 ∧
    alarmValues (getData (getData startup shortTimeFrame) (stampOnlyFrame.take 48)) =
      [alarmValue .CCSDS_FORMAT] ∧
    (getData (getData startup shortTimeFrame) (stampOnlyFrame.take 48)).flag_time_recieved = 0 ∧
    (getData (getData startup shortTimeFrame) (stampOnlyFrame.take 48)).state =
      .E_REC_CMD_START := by
  decide

/-! ## A timestamp after a frame that left the format flag set -/

/-- C31 fails for the code in its second half. The 50-byte frame
`stampOnlyFrame` carries a timestamp with the time `0x11223344` and zero
reserved bytes and has a correct CRC. Given to `getData` in the start-up state
it raises no alarm, and the next sync marker sets the mission time to
`0x11223344`. Given to `getData` after the frame `shortTimeFrame` (correct CRC,
no alarm, ends inside a timestamp with a nonzero reserved byte, so that
`flag_packet_error` is left at 1, which `reset()` does not clear), it gets the
`CCSDS_FORMAT` alarm at byte count 48, its CRC check passes (no `ITF_CHECKSUM`
alarm), the time-received flag is 0 after the frame, and the next sync marker
sets the mission time to the previous one plus one, `0x01020305`, not to the
time `0x11223344` of the frame. -/
theorem stale_format_flag_drops_timestamp :
    crcFold CRC_SEED (stampOnlyFrame.drop 4) = 0 ∧
    alarmValues (getData startup stampOnlyFrame) = [] ∧
    (getData startup stampOnlyFrame).flag_time_recieved = 1 ∧
    (getData (getData startup stampOnlyFrame) syncBytes).i_time = 0x11223344 ∧
    crcFold CRC_SEED (shortTimeFrame.drop 4) = 0 ∧
    alarmValues (getData startup shortTimeFrame) = [] ∧
    (getData startup shortTimeFrame).flag_packet_error = 1 ∧
    alarmValues (getData (getData startup shortTimeFrame) stampOnlyFrame) =
      [alarmValue .CCSDS_FORMAT] ∧
    (getData (getData startup shortTimeFrame) stampOnlyFrame).state = .E_REC_IDLE ∧
    (getData (getData startup shortTimeFrame) stampOnlyFrame).flag_time_recieved = 0 ∧
    (getData (getData startup shortTimeFrame) stampOnlyFrame).g_time_next = 0x11223344 ∧
    (getData (getData startup shortTimeFrame) stampOnlyFrame).i_time = 0x01020304 ∧
    (getData (getData (getData startup shortTimeFrame) stampOnlyFrame) syncBytes).i_time =
      0x01020305 ∧
    (getData startup (shortTimeFrame ++ stampOnlyFrame ++ syncBytes)).i_time = 0x01020305 := by
  decide

/-- C2 as stated fails at the end of the frame: after a 50-byte frame with a
valid sync, the length field 44, a well-formed timestamp carrying
`0x11223344`, no command and a correct CRC (zero residue over bytes 5 to 50),
the receiver is in `IDLE` and has sent no alarm and no echo, but the mission
time is still 1; the time `0x11223344` is only pending in `g_time_next`. -/
theorem frame_end_time_not_updated :
    crcFold CRC_SEED (stampOnlyFrame.drop 4) = 0 ∧
    (getData startup stampOnlyFrame).state = .E_REC_IDLE ∧
    alarmValues (getData startup stampOnlyFrame) = [] ∧
    echoPackets (getData startup stampOnlyFrame) = [] ∧
    (getData startup stampOnlyFrame).i_time = 1 ∧
    (getData startup stampOnlyFrame).i_time ≠ 0x11223344 ∧
    (getData startup stampOnlyFrame).flag_time_recieved = 1 ∧
    (getData startup stampOnlyFrame).g_time_next = 0x11223344 := by
  decide

/-- C2 (amended): a frame from the start-up state with a valid sync, a length
field in bounds, a lead that is a timestamp with zero bytes 20 to 47 or just
the bytes 7 and 8 followed by at least one command, at most 5 well-formed
commands one after the other, and a trailer that makes the CRC residue zero,
leaves the receiver in `IDLE` with no alarm sent and exactly one echo per
command, and the mission time still at 1. With a timestamp the time-received
flag is 1 and the carried time `T` is pending: the next sync marker, in the
same call or in the next call of `getData`, sets the mission time to `T`.
Without one the flag is 0 and the next sync marker sets the mission time
to 2. -/
theorem well_formed_frame (hi lo : Nat) (ld : Lead) (cs : List Command) (c1 c2 : Nat)
    (hhi : hi < 32) (hlo : lo < 256) (hld : ld.wellFormed) (hcs : ∀ c ∈ cs, c.wellFormed)
    (hk : cs.length ≤ 5) (hfirst : ld.time = none → 1 ≤ cs.length) (hc1 : c1 < 256) (hc2 : c2 < 256)
    (hlen : hi * 256 + lo = (frameBody ld cs c1 c2).length) (h505 : hi * 256 + lo ≤ 505)
    (hcrc : crcFold CRC_SEED (hi :: lo :: frameBody ld cs c1 c2) = 0) :
    (getData startup (frameOf hi lo (frameBody ld cs c1 c2))).state = .E_REC_IDLE ∧
    alarmValues (getData startup (frameOf hi lo (frameBody ld cs c1 c2))) = [] ∧
    (echoPackets (getData startup (frameOf hi lo (frameBody ld cs c1 c2)))).length = cs.length ∧
    (getData startup (frameOf hi lo (frameBody ld cs c1 c2))).i_time = 1 ∧
    (∀ T, ld.time = some T →
      (getData startup (frameOf hi lo (frameBody ld cs c1 c2))).flag_time_recieved = 1 ∧
      (getData startup (frameOf hi lo (frameBody ld cs c1 c2))).g_time_next = T ∧
      (run (getData startup (frameOf hi lo (frameBody ld cs c1 c2))) syncBytes).i_time = T ∧
      (getData (getData startup (frameOf hi lo (frameBody ld cs c1 c2))) syncBytes).i_time = T) ∧
    (ld.time = none →
      (getData startup (frameOf hi lo (frameBody ld cs c1 c2))).flag_time_recieved = 0 ∧
      (run (getData startup (frameOf hi lo (frameBody ld cs c1 c2))) syncBytes).i_time = 2 ∧
      (getData (getData startup (frameOf hi lo (frameBody ld cs c1 c2))) syncBytes).i_time = 2) := by
  have hI := inv_getData startup (frameOf hi lo (frameBody ld cs c1 c2))
  have hl2 : (frameBody ld cs c1 c2).length = (ld.bytes ++ commandStream cs).length + 2 := by
    unfold frameBody
    rw [List.length_append]
    rfl
  have h23 := lead_length ld cs hcs hfirst
  rw [getData_frameOf hi lo _ hhi hlo (by omega) h505] at hI ⊢
  obtain ⟨a1, a2⟩ := accepted_inv hi lo (by omega) h505
  obtain ⟨f1, f2, f3, f4, f5, _, f7, f8, f9, _⟩ := accepted_facts hi lo
  have hc0 : (accepted hi lo).crc_total = crcFold CRC_SEED [hi, lo] := rfl
  have hfold : crcFold CRC_SEED (hi :: lo :: frameBody ld cs c1 c2) =
      crcFold (crcFold (crcFold CRC_SEED [hi, lo]) (ld.bytes ++ commandStream cs)) [c1, c2] := by
    unfold frameBody
    rw [← crcFold_append, ← crcFold_append]
    rfl
  rw [hfold, ← hc0] at hcrc
  have hsplit : frameBody ld cs c1 c2 = (ld.bytes ++ commandStream cs) ++ [c1, c2] := rfl
  rw [hsplit, run_append] at hI ⊢
  generalize accepted hi lo = s at hI a1 a2 f1 f2 f3 f4 f5 f7 f8 f9 hcrc
  have hbs : ∀ b ∈ ld.bytes ++ commandStream cs, b < 256 := by
    intro b hb
    rcases List.mem_append.1 hb with h | h
    · exact ld.lead_lt hld b h
    · exact commandStream_lt cs hcs b h
  obtain ⟨r1, r2, r3, r4, _⟩ := lead_run s ld cs hld hcs hk hfirst a1 a2 f1 f2 f5 f7 f8
    (by rw [f2, f3]; omega)
  obtain ⟨i1, i2, i3, i4, i5, i6, _⟩ := body_run (ld.bytes ++ commandStream cs) s hbs a1 a2
    (by rw [f2, f3]; omega)
  rw [← i5] at hcrc
  generalize run s (ld.bytes ++ commandStream cs) = u at hI r1 r2 r3 r4 i1 i2 i3 i4 i5 i6 hcrc
  obtain ⟨q, ⟨pe, o1, o2, o3, _⟩, t1, t2, t3⟩ := trailer_run u cs.length c1 c2 hc1 hc2 i1 i2 r1
    (by omega) (by rw [i3, i4, f2, f3]; omega) hcrc
  generalize run u [c1, c2] = x at hI q o1 t1 t2 t3
  obtain ⟨n1, n2, _⟩ := next_sync x hI q
  obtain ⟨m1, m2⟩ := next_call_sync x
  obtain ⟨v1, v2⟩ := sent_echoes x pe (by rw [o1, r2, f4]) o2
  have ht : x.i_time = 1 := by rw [t3, i6, f9]
  refine ⟨q.state, v1, by rw [v2, o3], ht, ?_, ?_⟩
  · intro T hT
    obtain ⟨g1, g2⟩ := r3 T hT
    have hf : x.flag_time_recieved = 1 := t1.trans g1
    have hn : x.g_time_next = T := t2.trans g2
    exact ⟨hf, hn, by rw [n1 hf, hn], by rw [m1 hf, hn]⟩
  · intro hnone
    have hf : x.flag_time_recieved = 0 := t1.trans (r4 hnone)
    have hne : x.flag_time_recieved ≠ 1 := by rw [hf]; omega
    exact ⟨hf, by rw [n2 hne, ht], by rw [m2 hne, ht]⟩

/-- C2 (amended) at two frames: a frame of 71 bytes with a timestamp carrying
`0x55667788` and one command of declared length 1, and a frame of 53 bytes
without timestamp with two commands of declared lengths 1 and 2. -/
theorem well_formed_frame_witness :
    ((getData startup (frameOf 0 65 (frameBody (.stamp 0 0 0 0 0x55 0x66 0x77 0x88 7 9)
        [⟨1, 2, 3, 4, 0, 1, [9, 10, 11, 12, 0xA1, 1, 2, 3, 4, 5, 6, 7, 8]⟩] 0xFA 0xD0))).state =
        .E_REC_IDLE ∧
      (echoPackets (getData startup (frameOf 0 65 (frameBody
        (.stamp 0 0 0 0 0x55 0x66 0x77 0x88 7 9)
        [⟨1, 2, 3, 4, 0, 1, [9, 10, 11, 12, 0xA1, 1, 2, 3, 4, 5, 6, 7, 8]⟩] 0xFA 0xD0)))).length =
        1) ∧
    ((getData startup (frameOf 0 47 (frameBody (.plain 5 6)
        [⟨1, 2, 3, 4, 0, 1, [9, 10, 11, 12, 0xA1, 1, 2, 3, 4, 5, 6, 7, 8]⟩,
          ⟨0, 0, 0, 0, 0, 2, [0, 0, 0, 0, 0xB2, 1, 2, 3, 4, 5, 6, 7, 8, 9]⟩] 0x58 0x10))).state =
        .E_REC_IDLE ∧
      (echoPackets (getData startup (frameOf 0 47 (frameBody (.plain 5 6)
        [⟨1, 2, 3, 4, 0, 1, [9, 10, 11, 12, 0xA1, 1, 2, 3, 4, 5, 6, 7, 8]⟩,
          ⟨0, 0, 0, 0, 0, 2, [0, 0, 0, 0, 0xB2, 1, 2, 3, 4, 5, 6, 7, 8, 9]⟩]
        0x58 0x10)))).length = 2) :=
  ⟨⟨(well_formed_frame 0 65 (.stamp 0 0 0 0 0x55 0x66 0x77 0x88 7 9)
      [⟨1, 2, 3, 4, 0, 1, [9, 10, 11, 12, 0xA1, 1, 2, 3, 4, 5, 6, 7, 8]⟩] 0xFA 0xD0
      (by decide) (by decide) (by decide) (by decide) (by decide) (by decide) (by decide)
      (by decide) (by decide) (by decide) (by decide)).1,
    (well_formed_frame 0 65 (.stamp 0 0 0 0 0x55 0x66 0x77 0x88 7 9)
      [⟨1, 2, 3, 4, 0, 1, [9, 10, 11, 12, 0xA1, 1, 2, 3, 4, 5, 6, 7, 8]⟩] 0xFA 0xD0
      (by decide) (by decide) (by decide) (by decide) (by decide) (by decide) (by decide)
      (by decide) (by decide) (by decide) (by decide)).2.2.1⟩,
   ⟨(well_formed_frame 0 47 (.plain 5 6)
      [⟨1, 2, 3, 4, 0, 1, [9, 10, 11, 12, 0xA1, 1, 2, 3, 4, 5, 6, 7, 8]⟩,
        ⟨0, 0, 0, 0, 0, 2, [0, 0, 0, 0, 0xB2, 1, 2, 3, 4, 5, 6, 7, 8, 9]⟩] 0x58 0x10
      (by decide) (by decide) (by decide) (by decide) (by decide) (by decide) (by decide)
      (by decide) (by decide) (by decide) (by decide)).1,
    (well_formed_frame 0 47 (.plain 5 6)
      [⟨1, 2, 3, 4, 0, 1, [9, 10, 11, 12, 0xA1, 1, 2, 3, 4, 5, 6, 7, 8]⟩,
        ⟨0, 0, 0, 0, 0, 2, [0, 0, 0, 0, 0xB2, 1, 2, 3, 4, 5, 6, 7, 8, 9]⟩] 0x58 0x10
      (by decide) (by decide) (by decide) (by decide) (by decide) (by decide) (by decide)
      (by decide) (by decide) (by decide) (by decide)).2.2.1⟩⟩

end InstrumentDriver
